import Mathlib

/-!
# PoolOfEchos: the signed-distance raymarcher of `main.js` and `mainNew.js`

A shallow embedding of the fragment shader found in `src/main.js` (the 16-object
variant, scene built by `create_world`) and `src/mainNew.js` (the 32-object variant,
scene read from the uniform block `WorldData`), and of the JavaScript around it.

Scalars: GLSL `float` is modelled by an arbitrary linearly ordered field `α`
(exact arithmetic: no rounding, no NaN, no infinities).  The GLSL built-ins
`sqrt`, `sin` and `cos` are not part of the repository; they are taken as the
parameter `MathFns α`, and a theorem that needs a property of one of them says so
in a hypothesis.  Decimal literals are written as fractions (`0.01 = 1/100`).

Arrays: `objects[i]` is a total function `Nat → WorldObject α`; the second entry of
the `float[2]` results of the aggregator, `float(i)` or `-1.0`, is an `Int`
(`float(i)` is exact for the indices in use and `int(float(i)) = i`).

Loops: the `for` loop of the aggregator is a left fold over `List.range`; the march
loop is a structural recursion over the number of steps that remain.
-/

namespace PoolOfEchos

/-! ## Vectors -/

/-- GLSL `vec3`. -/
@[ext]
structure Vec3 (α : Type) where
  x : α
  y : α
  z : α

/-- GLSL `vec2`. -/
@[ext]
structure Vec2 (α : Type) where
  x : α
  y : α

/-- GLSL `vec4`. -/
@[ext]
structure Vec4 (α : Type) where
  x : α
  y : α
  z : α
  w : α

/-- The GLSL built-ins on scalars that the shader relies on. -/
structure MathFns (α : Type) where
  sqrt : α → α
  sin : α → α
  cos : α → α

section Vectors

variable {α : Type} [LinearOrderedField α]

instance : Add (Vec3 α) := ⟨fun a b => ⟨a.x + b.x, a.y + b.y, a.z + b.z⟩⟩
instance : Sub (Vec3 α) := ⟨fun a b => ⟨a.x - b.x, a.y - b.y, a.z - b.z⟩⟩
instance : SMul α (Vec3 α) := ⟨fun k a => ⟨k * a.x, k * a.y, k * a.z⟩⟩

/-- GLSL `vec3(k)`: the same scalar in the three components. -/
def Vec3.splat (k : α) : Vec3 α := ⟨k, k, k⟩

/-- GLSL `v * k` for a `vec3` and a `float`. -/
def Vec3.muls (a : Vec3 α) (k : α) : Vec3 α := ⟨a.x * k, a.y * k, a.z * k⟩

/-- GLSL `v + k` for a `vec3` and a `float`. -/
def Vec3.adds (a : Vec3 α) (k : α) : Vec3 α := ⟨a.x + k, a.y + k, a.z + k⟩

/-- GLSL `dot`. -/
def dot (a b : Vec3 α) : α := a.x * b.x + a.y * b.y + a.z * b.z

/-- GLSL `length`: the square root of the sum of the squared components. -/
def length (F : MathFns α) (a : Vec3 α) : α := F.sqrt (dot a a)

/-- GLSL `normalize`: the vector divided by its length.  At the zero vector GLSL leaves the
result undefined (`0/0`); the value that this definition takes there, `(0, 0, 0)` because a
division by zero is zero in a field, stands for no value of the shader. -/
def normalize (F : MathFns α) (a : Vec3 α) : Vec3 α := (1 / length F a) • a

/-- GLSL `abs` on a `vec3`, componentwise. -/
def vabs (a : Vec3 α) : Vec3 α := ⟨|a.x|, |a.y|, |a.z|⟩

/-- GLSL `max` on two `vec3`, componentwise. -/
def vmax (a b : Vec3 α) : Vec3 α := ⟨max a.x b.x, max a.y b.y, max a.z b.z⟩

end Vectors

/-! ## Data model -/

/-- The GLSL `struct WorldObject` (the same fields in both files). -/
structure WorldObject (α : Type) where
  type : α
  center : Vec3 α
  size : Vec3 α
  is_negated : α
  has_shadow : α
  reflectivity : α
  transparency : α
  diffuse_intensity : α
  color : Vec3 α

section Shader

variable {α : Type} [LinearOrderedField α]

/-! ## Constants shared by the two files -/

/-- `const vec3 light_position = vec3(15.0, 15.0, -5.0)`. -/
def light_position : Vec3 α := ⟨15, 15, -5⟩

/-- `const int NUMBER_OF_STEPS = 256`. -/
def NUMBER_OF_STEPS : Nat := 256

/-- `const float MINIMUM_HIT_DISTANCE = 0.01`. -/
def MINIMUM_HIT_DISTANCE : α := 1 / 100

/-! ## Distance field evaluator (identical in the two files) -/

/-- Object type 1 = sphere. -/
def distance_from_sphere (F : MathFns α) (camera center : Vec3 α) (radius : α) : α :=
  length F (camera - center) - radius

/-- Object type 2 = wiggle sphere. -/
def distance_from_wiggle_sphere (F : MathFns α) (camera center : Vec3 α) (radius multi : α) : α :=
  let displacement := F.sin (2 * camera.x + multi) * F.sin (3 * camera.y + multi * -3)
    * F.sin (7 * camera.z - multi * (1 / 2)) * (1 / 4)
  length F (camera - center) - radius + displacement

/-- Object type 3 = plane. -/
def distance_from_plane (camera origin normal : Vec3 α) : α :=
  dot camera normal - dot origin normal

/-- Object type 4 = box. -/
def distance_from_box (F : MathFns α) (camera center size : Vec3 α) : α :=
  let d := vabs (camera - center) - size
  length F (vmax d (Vec3.splat 0)) + min (max d.x (max d.y d.z)) 0

/-- Object type 5 = wiggle plane. -/
def distance_from_wiggle_plane (F : MathFns α) (camera origin normal : Vec3 α) (multi : α) : α :=
  let displacement := F.sin (2 * camera.x + multi)
    * F.sin (3 * camera.x + (5 / 2) * camera.z + multi * -3)
    * F.sin (7 * camera.z - multi * (1 / 2)) * (1 / 4)
    * F.cos (1 * camera.x + multi)
    * F.cos ((1 / 2) * camera.x + (3 / 2) * camera.z + multi * -3)
    * F.cos (2 * camera.z - multi * (1 / 2)) * (1 / 4)
  dot camera normal - dot origin normal + displacement

/-- The function `reflect_ray` (the same in both files). -/
def reflect_ray (incident normal : Vec3 α) : Vec3 α :=
  incident - (2 * dot incident normal) • normal

/-- The local colour of a hit: the block that every march routine of both files runs
between `calculate_normal` and the bounce rays (`direction_to_light`, then the
`color.x == -2.0` test and the diffuse blend), as a function of the normal, the hit
position and the hit object. -/
def local_color (F : MathFns α) (normal current_position : Vec3 α)
    (current_object : WorldObject α) : Vec3 α :=
  let direction_to_light := normalize F (current_position - light_position)
  if current_object.color.x = -2 then
    (normal.muls (1 / 2)).adds (1 / 2)
  else
    let current_color := current_object.color
    let diffuse_intensity := max 0 (dot normal direction_to_light)
    current_color.muls (1 - current_object.diffuse_intensity)
      + (current_color.muls diffuse_intensity).muls current_object.diffuse_intensity

/-- The control flow shared by every march routine, as an observation of the loop:
`some (t, i)` when the hit branch is taken with `total_distance_traveled = t` and
owning index `i`, `none` when the loop breaks or runs out of steps.  `agg` is the
aggregator the routine calls and `maxd` its `MAXIMUM_TRACE_DISTANCE`; the first
number is the count of steps that remain. -/
def march_trace (agg : Vec3 α → α × Int) (maxd : α) (ro rd : Vec3 α) :
    Nat → α → Option (α × Int)
  | 0, _ => none
  | k + 1, total_distance_traveled =>
    let current_position := ro + total_distance_traveled • rd
    let distance_to_closest := agg current_position
    if distance_to_closest.1 < MINIMUM_HIT_DISTANCE then
      some (total_distance_traveled, distance_to_closest.2)
    else if total_distance_traveled > maxd then none
    else march_trace agg maxd ro rd k (total_distance_traveled + distance_to_closest.1)

end Shader

/-! ## `mainNew.js`: the 32-object variant -/

namespace MainNew

section

variable {α : Type} [LinearOrderedField α]

/-- `const int OBJECT_COUNT_MAX = 32`. -/
def OBJECT_COUNT_MAX : Nat := 32

/-- `const float MAXIMUM_TRACE_DISTANCE = 100.0`. -/
def MAXIMUM_TRACE_DISTANCE : α := 100

/-- `map_the_object` of `mainNew.js`; `multi` is the uniform `u_mod_val.y`. -/
def map_the_object (F : MathFns α) (multi : α) (p : Vec3 α) (object : WorldObject α) : α :=
  if object.type = 1 then
    distance_from_sphere F p object.center object.size.x
  else if object.type = 2 then
    distance_from_wiggle_sphere F p object.center object.size.x multi
  else if object.type = 3 then
    distance_from_plane p object.center object.size
  else if object.type = 4 then
    distance_from_box F p object.center object.size
  else if object.type = 5 then
    distance_from_wiggle_plane F p object.center object.size multi
  else
    1000000000

/-- `map_the_world` of `mainNew.js`; `objects` is the uniform array and `numObjects`
the uniform `u_numObjects` (a negative count runs the loop zero times, as `0` does). -/
def map_the_world (F : MathFns α) (multi : α) (objects : Nat → WorldObject α)
    (numObjects : Nat) (p : Vec3 α) : α × Int :=
  (List.range numObjects).foldl
    (fun min_dist (i : Nat) =>
      let cur_dist := map_the_object F multi p (objects i)
      if cur_dist < min_dist.1 then (cur_dist, (i : Int)) else min_dist)
    (100000, -1)

/-- `map_the_world_skip` of `mainNew.js`. -/
def map_the_world_skip (F : MathFns α) (multi : α) (objects : Nat → WorldObject α)
    (numObjects : Nat) (p : Vec3 α) (skip_object : Int) : α × Int :=
  (List.range numObjects).foldl
    (fun min_dist (i : Nat) =>
      if (i : Int) = skip_object then min_dist
      else
        let cur_dist := map_the_object F multi p (objects i)
        if cur_dist < min_dist.1 then (cur_dist, (i : Int)) else min_dist)
    (100000, -1)

/-- `calculate_normal` of `mainNew.js` (`small_step = vec3(0.001, 0.0, 0.0)`). -/
def calculate_normal (F : MathFns α) (multi : α) (p : Vec3 α) (object : WorldObject α) :
    Vec3 α :=
  let gradient_x := map_the_object F multi (p + ⟨1 / 1000, 0, 0⟩) object
    - map_the_object F multi (p - ⟨1 / 1000, 0, 0⟩) object
  let gradient_y := map_the_object F multi (p + ⟨0, 1 / 1000, 0⟩) object
    - map_the_object F multi (p - ⟨0, 1 / 1000, 0⟩) object
  let gradient_z := map_the_object F multi (p + ⟨0, 0, 1 / 1000⟩) object
    - map_the_object F multi (p - ⟨0, 0, 1 / 1000⟩) object
  let normal : Vec3 α := ⟨gradient_x, gradient_y, gradient_z⟩
  normalize F normal

/-- The hit branch of `ray_march2` of `mainNew.js` (the leaf routine): the body of
`if (distance_to_closest[0] < MINIMUM_HIT_DISTANCE)`.  `int(distance_to_closest[1])` is
`Int.toNat`, which differs from it only at the no-object value `-1`. -/
def ray_march2_hit (F : MathFns α) (multi : α) (objects : Nat → WorldObject α)
    (current_position : Vec3 α) (total_distance_traveled : α)
    (distance_to_closest : α × Int) : Vec3 α :=
  let current_object := objects distance_to_closest.2.toNat
  let normal := calculate_normal F multi current_position current_object
  let current_color := local_color F normal current_position current_object
  current_color.muls (min 1 (5 / total_distance_traveled))

/-- The loop of `ray_march2` of `mainNew.js`: the first number is the count of
iterations that remain, the second `total_distance_traveled`. -/
def ray_march2_loop (F : MathFns α) (multi : α) (objects : Nat → WorldObject α)
    (numObjects : Nat) (ro rd : Vec3 α) (skip_object : Int) : Nat → α → Vec3 α
  | 0, _ => Vec3.splat 0
  | k + 1, total_distance_traveled =>
    let current_position := ro + total_distance_traveled • rd
    let distance_to_closest :=
      map_the_world_skip F multi objects numObjects current_position skip_object
    if distance_to_closest.1 < MINIMUM_HIT_DISTANCE then
      ray_march2_hit F multi objects current_position total_distance_traveled
        distance_to_closest
    else if total_distance_traveled > MAXIMUM_TRACE_DISTANCE then Vec3.splat 0
    else ray_march2_loop F multi objects numObjects ro rd skip_object k
      (total_distance_traveled + distance_to_closest.1)

/-- `ray_march2` of `mainNew.js`. -/
def ray_march2 (F : MathFns α) (multi : α) (objects : Nat → WorldObject α)
    (numObjects : Nat) (ro rd : Vec3 α) (skip_object : Int) : Vec3 α :=
  ray_march2_loop F multi objects numObjects ro rd skip_object NUMBER_OF_STEPS 0

/-- The colour that the hit branch of `ray_march` of `mainNew.js` (the primary routine)
holds when it reaches its `return`, before the distance fade.  The assignment
`current_object.reflectivity = 0.0` acts on the local copy of the object, as in the
source; `current_object.transparency = 0.0` is the last statement that touches the copy
and has no counterpart here. -/
def ray_march_hit_color (F : MathFns α) (multi : α) (objects : Nat → WorldObject α)
    (numObjects : Nat) (rd current_position : Vec3 α) (distance_to_closest : α × Int) :
    Vec3 α :=
  let current_object_index := distance_to_closest.2
  let current_object := objects current_object_index.toNat
  let normal := calculate_normal F multi current_position current_object
  let current_color := local_color F normal current_position current_object
  let reflected :=
    if current_object.reflectivity > 0 then
      let reflectivity := current_object.reflectivity
      let reflection := ray_march2 F multi objects numObjects current_position
        (reflect_ray rd normal) current_object_index
      (({ current_object with reflectivity := 0 } : WorldObject α),
        reflection.muls reflectivity + (1 - reflectivity) • current_color)
    else (current_object, current_color)
  let current_object := reflected.1
  let current_color := reflected.2
  if current_object.transparency > 0 then
    let transparency := current_object.transparency
    let transparency_color := ray_march2 F multi objects numObjects current_position
      rd current_object_index
    transparency_color.muls transparency + (1 - transparency) • current_color
  else current_color

/-- The loop of `ray_march` of `mainNew.js`. -/
def ray_march_loop (F : MathFns α) (multi : α) (objects : Nat → WorldObject α)
    (numObjects : Nat) (ro rd : Vec3 α) : Nat → α → Vec3 α
  | 0, _ => Vec3.splat 0
  | k + 1, total_distance_traveled =>
    let current_position := ro + total_distance_traveled • rd
    let distance_to_closest := map_the_world F multi objects numObjects current_position
    if distance_to_closest.1 < MINIMUM_HIT_DISTANCE then
      (ray_march_hit_color F multi objects numObjects rd current_position
        distance_to_closest).muls (min 1 (20 / total_distance_traveled))
    else if total_distance_traveled > MAXIMUM_TRACE_DISTANCE then Vec3.splat 0
    else ray_march_loop F multi objects numObjects ro rd k
      (total_distance_traveled + distance_to_closest.1)

/-- `ray_march` of `mainNew.js`. -/
def ray_march (F : MathFns α) (multi : α) (objects : Nat → WorldObject α)
    (numObjects : Nat) (ro rd : Vec3 α) : Vec3 α :=
  ray_march_loop F multi objects numObjects ro rd NUMBER_OF_STEPS 0

/-- The fragment shader `main` of `mainNew.js`, as a function of the uniforms
(`u_resolution`, `u_mod_val`, `u_camera_pos`, the block `objects`, `u_numObjects`) and of
`gl_FragCoord.xy`; the result is `frag_color`. -/
def main (F : MathFns α) (u_resolution u_mod_val : Vec2 α) (u_camera_pos : Vec3 α)
    (objects : Nat → WorldObject α) (u_numObjects : Nat) (gl_FragCoord : Vec2 α) : Vec4 α :=
  let aspect := u_resolution.y / u_resolution.x
  let uv : Vec2 α :=
    ⟨gl_FragCoord.x / u_resolution.x * 2 - 1, gl_FragCoord.y / u_resolution.y * 2 - 1⟩
  let uv : Vec2 α := ⟨uv.x, uv.y * aspect⟩
  let camera_position := u_camera_pos
  let ro := camera_position
  let rd : Vec3 α := ⟨uv.x, uv.y, 1⟩
  let shaded_color := ray_march F u_mod_val.y objects u_numObjects ro rd
  ⟨shaded_color.x, shaded_color.y, shaded_color.z, 1⟩

end

end MainNew

/-! ## `main.js`: the 16-object variant -/

namespace Main

section

variable {α : Type} [LinearOrderedField α]

/-- `const int OBJECT_COUNT_MAX = 16`. -/
def OBJECT_COUNT_MAX : Nat := 16

/-- `const int OBJECT_COUNT = 11`. -/
def OBJECT_COUNT : Nat := 11

/-- `const float MAXIMUM_TRACE_DISTANCE = 10000.0`. -/
def MAXIMUM_TRACE_DISTANCE : α := 10000

/-- `map_the_object` of `main.js`; `multi` is the uniform `u_mod_val.y`. -/
def map_the_object (F : MathFns α) (multi : α) (p : Vec3 α) (object : WorldObject α) : α :=
  if object.type = 1 then
    distance_from_sphere F p object.center object.size.x
  else if object.type = 2 then
    distance_from_wiggle_sphere F p object.center object.size.x multi
  else if object.type = 3 then
    distance_from_plane p object.center object.size
  else if object.type = 4 then
    distance_from_box F p object.center object.size
  else if object.type = 5 then
    distance_from_wiggle_plane F p object.center object.size multi
  else
    0

/-- `map_the_world` of `main.js`. -/
def map_the_world (F : MathFns α) (multi : α) (p : Vec3 α) (objects : Nat → WorldObject α) :
    α × Int :=
  (List.range OBJECT_COUNT).foldl
    (fun min_dist (i : Nat) =>
      let cur_dist := map_the_object F multi p (objects i)
      if cur_dist < min_dist.1 then (cur_dist, (i : Int)) else min_dist)
    (100000, -1)

/-- `map_the_world_skip` of `main.js`. -/
def map_the_world_skip (F : MathFns α) (multi : α) (p : Vec3 α)
    (objects : Nat → WorldObject α) (skip_object : Int) : α × Int :=
  (List.range OBJECT_COUNT).foldl
    (fun min_dist (i : Nat) =>
      if (i : Int) = skip_object then min_dist
      else
        let cur_dist := map_the_object F multi p (objects i)
        if cur_dist < min_dist.1 then (cur_dist, (i : Int)) else min_dist)
    (100000, -1)

/-- `calculate_normal` of `main.js` (`small_step = vec3(0.001, 0.0, 0.0)`). -/
def calculate_normal (F : MathFns α) (multi : α) (p : Vec3 α) (object : WorldObject α) :
    Vec3 α :=
  let gradient_x := map_the_object F multi (p + ⟨1 / 1000, 0, 0⟩) object
    - map_the_object F multi (p - ⟨1 / 1000, 0, 0⟩) object
  let gradient_y := map_the_object F multi (p + ⟨0, 1 / 1000, 0⟩) object
    - map_the_object F multi (p - ⟨0, 1 / 1000, 0⟩) object
  let gradient_z := map_the_object F multi (p + ⟨0, 0, 1 / 1000⟩) object
    - map_the_object F multi (p - ⟨0, 0, 1 / 1000⟩) object
  let normal : Vec3 α := ⟨gradient_x, gradient_y, gradient_z⟩
  normalize F normal

/-- The hit branch of `ray_march3` of `main.js` (the leaf routine). -/
def ray_march3_hit (F : MathFns α) (multi : α) (world : Nat → WorldObject α)
    (current_position : Vec3 α) (total_distance_traveled : α)
    (distance_to_closest : α × Int) : Vec3 α :=
  let current_object := world distance_to_closest.2.toNat
  let normal := calculate_normal F multi current_position current_object
  let current_color := local_color F normal current_position current_object
  current_color.muls (min 1 (5 / total_distance_traveled))

/-- The loop of `ray_march3` of `main.js`. -/
def ray_march3_loop (F : MathFns α) (multi : α) (ro rd : Vec3 α)
    (world : Nat → WorldObject α) (skip_object : Int) : Nat → α → Vec3 α
  | 0, _ => Vec3.splat 0
  | k + 1, total_distance_traveled =>
    let current_position := ro + total_distance_traveled • rd
    let distance_to_closest := map_the_world_skip F multi current_position world skip_object
    if distance_to_closest.1 < MINIMUM_HIT_DISTANCE then
      ray_march3_hit F multi world current_position total_distance_traveled
        distance_to_closest
    else if total_distance_traveled > MAXIMUM_TRACE_DISTANCE then Vec3.splat 0
    else ray_march3_loop F multi ro rd world skip_object k
      (total_distance_traveled + distance_to_closest.1)

/-- `ray_march3` of `main.js`. -/
def ray_march3 (F : MathFns α) (multi : α) (ro rd : Vec3 α)
    (world : Nat → WorldObject α) (skip_object : Int) : Vec3 α :=
  ray_march3_loop F multi ro rd world skip_object NUMBER_OF_STEPS 0

/-- The colour that the hit branch of `ray_march2` of `main.js` (the middle routine)
holds when it reaches its `return`, before the distance fade. -/
def ray_march2_hit_color (F : MathFns α) (multi : α) (world : Nat → WorldObject α)
    (rd current_position : Vec3 α) (distance_to_closest : α × Int) : Vec3 α :=
  let current_object_index := distance_to_closest.2
  let current_object := world current_object_index.toNat
  let normal := calculate_normal F multi current_position current_object
  let current_color := local_color F normal current_position current_object
  let reflected :=
    if current_object.reflectivity > 0 then
      let reflectivity := current_object.reflectivity
      let reflection := ray_march3 F multi current_position (reflect_ray rd normal)
        world current_object_index
      (({ current_object with reflectivity := 0 } : WorldObject α),
        reflection.muls reflectivity + (1 - reflectivity) • current_color)
    else (current_object, current_color)
  let current_object := reflected.1
  let current_color := reflected.2
  if current_object.transparency > 0 then
    let transparency := current_object.transparency
    let transparency_color := ray_march3 F multi current_position rd world
      current_object_index
    transparency_color.muls transparency + (1 - transparency) • current_color
  else current_color

/-- The loop of `ray_march2` of `main.js`. -/
def ray_march2_loop (F : MathFns α) (multi : α) (ro rd : Vec3 α)
    (world : Nat → WorldObject α) (skip_object : Int) : Nat → α → Vec3 α
  | 0, _ => Vec3.splat 0
  | k + 1, total_distance_traveled =>
    let current_position := ro + total_distance_traveled • rd
    let distance_to_closest := map_the_world_skip F multi current_position world skip_object
    if distance_to_closest.1 < MINIMUM_HIT_DISTANCE then
      (ray_march2_hit_color F multi world rd current_position distance_to_closest).muls
        (min 1 (5 / total_distance_traveled))
    else if total_distance_traveled > MAXIMUM_TRACE_DISTANCE then Vec3.splat 0
    else ray_march2_loop F multi ro rd world skip_object k
      (total_distance_traveled + distance_to_closest.1)

/-- `ray_march2` of `main.js`. -/
def ray_march2 (F : MathFns α) (multi : α) (ro rd : Vec3 α)
    (world : Nat → WorldObject α) (skip_object : Int) : Vec3 α :=
  ray_march2_loop F multi ro rd world skip_object NUMBER_OF_STEPS 0

/-- The colour that the hit branch of `ray_march` of `main.js` (the primary routine)
holds when it reaches its `return`, before the distance fade. -/
def ray_march_hit_color (F : MathFns α) (multi : α) (world : Nat → WorldObject α)
    (rd current_position : Vec3 α) (distance_to_closest : α × Int) : Vec3 α :=
  let current_object_index := distance_to_closest.2
  let current_object := world current_object_index.toNat
  let normal := calculate_normal F multi current_position current_object
  let current_color := local_color F normal current_position current_object
  let reflected :=
    if current_object.reflectivity > 0 then
      let reflectivity := current_object.reflectivity
      let reflection := ray_march2 F multi current_position (reflect_ray rd normal)
        world current_object_index
      (({ current_object with reflectivity := 0 } : WorldObject α),
        reflection.muls reflectivity + (1 - reflectivity) • current_color)
    else (current_object, current_color)
  let current_object := reflected.1
  let current_color := reflected.2
  if current_object.transparency > 0 then
    let transparency := current_object.transparency
    let transparency_color := ray_march2 F multi current_position rd world
      current_object_index
    transparency_color.muls transparency + (1 - transparency) • current_color
  else current_color

/-- The loop of `ray_march` of `main.js`. -/
def ray_march_loop (F : MathFns α) (multi : α) (ro rd : Vec3 α)
    (world : Nat → WorldObject α) : Nat → α → Vec3 α
  | 0, _ => Vec3.splat 0
  | k + 1, total_distance_traveled =>
    let current_position := ro + total_distance_traveled • rd
    let distance_to_closest := map_the_world F multi current_position world
    if distance_to_closest.1 < MINIMUM_HIT_DISTANCE then
      (ray_march_hit_color F multi world rd current_position distance_to_closest).muls
        (min 1 (20 / total_distance_traveled))
    else if total_distance_traveled > MAXIMUM_TRACE_DISTANCE then Vec3.splat 0
    else ray_march_loop F multi ro rd world k
      (total_distance_traveled + distance_to_closest.1)

/-- `ray_march` of `main.js`. -/
def ray_march (F : MathFns α) (multi : α) (ro rd : Vec3 α)
    (world : Nat → WorldObject α) : Vec3 α :=
  ray_march_loop F multi ro rd world NUMBER_OF_STEPS 0

/-- `create_world` of `main.js` (`depth = 10.0`).  The function assigns the entries 0 to
10 of the local array and leaves the entries 11 to 15 unassigned; `unassigned` stands
for what those entries hold. -/
def create_world (unassigned : Nat → WorldObject α) (_multi : α) : Nat → WorldObject α :=
  let depth : α := 10
  fun i =>
    match i with
    | 0 => ⟨5, Vec3.splat (-10), ⟨0, 1, 0⟩, 0, 0, 4 / 10, 4 / 10, 6 / 10, ⟨1 / 2, 1 / 2, 1⟩⟩
    | 1 => ⟨4, ⟨10, -10 - depth, 10⟩, ⟨5, 1 + depth, 10⟩, 0, 0, 2 / 10, 0, 6 / 10,
        ⟨7764705882352941 / 10000000000000000, 6431372549019608 / 10000000000000000,
          5549019607843137 / 10000000000000000⟩⟩
    | 2 => ⟨4, ⟨-10, -10 - depth, 10⟩, ⟨5, 1 + depth, 10⟩, 0, 0, 2 / 10, 0, 6 / 10,
        ⟨7764705882352941 / 10000000000000000, 6431372549019608 / 10000000000000000,
          5549019607843137 / 10000000000000000⟩⟩
    | 3 => ⟨4, ⟨0, -10 - depth, 25⟩, ⟨15, 1 + depth, 5⟩, 0, 0, 2 / 10, 0, 6 / 10,
        ⟨7764705882352941 / 10000000000000000, 6431372549019608 / 10000000000000000,
          5549019607843137 / 10000000000000000⟩⟩
    | 4 => ⟨4, ⟨0, -10 - depth, -5⟩, ⟨15, 1 + depth, 5⟩, 0, 0, 2 / 10, 0, 6 / 10,
        ⟨7764705882352941 / 10000000000000000, 6431372549019608 / 10000000000000000,
          5549019607843137 / 10000000000000000⟩⟩
    | 5 => ⟨4, ⟨0, 0, 25⟩, ⟨15, 9, 1⟩, 0, 0, 2 / 10, 0, 6 / 10,
        ⟨1, 8352941176470589 / 10000000000000000, 8039215686274509 / 10000000000000000⟩⟩
    | 6 => ⟨4, ⟨0, 0, -5⟩, ⟨15, 9, 1⟩, 0, 0, 2 / 10, 0, 6 / 10,
        ⟨1, 8352941176470589 / 10000000000000000, 8039215686274509 / 10000000000000000⟩⟩
    | 7 => ⟨4, ⟨10, 0, 10⟩, ⟨1, 9, 14⟩, 0, 0, 2 / 10, 0, 6 / 10,
        ⟨1, 8352941176470589 / 10000000000000000, 8039215686274509 / 10000000000000000⟩⟩
    | 8 => ⟨4, ⟨-10, 0, 10⟩, ⟨1, 9, 14⟩, 0, 0, 2 / 10, 0, 6 / 10,
        ⟨1, 8852941176470589 / 10000000000000000, 8839215686274509 / 10000000000000000⟩⟩
    | 9 => ⟨3, ⟨0, 0, 0⟩, ⟨0, -1, 0⟩, 0, 0, 2 / 10, 0, 0, ⟨1, 9 / 10, 9 / 10⟩⟩
    | 10 => ⟨2, ⟨0, -5, 12⟩, Vec3.splat 2, 0, 0, 4 / 10, 0, 4 / 10, Vec3.splat (-2)⟩
    | j => unassigned j

/-- The fragment shader `main` of `main.js`, as a function of the uniforms and of
`gl_FragCoord.xy`; the result is `frag_color`. -/
def main (F : MathFns α) (unassigned : Nat → WorldObject α) (u_resolution u_mod_val : Vec2 α)
    (u_camera_pos : Vec3 α) (gl_FragCoord : Vec2 α) : Vec4 α :=
  let aspect := u_resolution.y / u_resolution.x
  let uv : Vec2 α :=
    ⟨gl_FragCoord.x / u_resolution.x * 2 - 1, gl_FragCoord.y / u_resolution.y * 2 - 1⟩
  let uv : Vec2 α := ⟨uv.x, uv.y * aspect⟩
  let camera_position := u_camera_pos
  let ro := camera_position
  let rd : Vec3 α := ⟨uv.x, uv.y, 1⟩
  let world := create_world unassigned u_mod_val.y
  let shaded_color := ray_march F u_mod_val.y ro rd world
  ⟨shaded_color.x, shaded_color.y, shaded_color.z, 1⟩

end

end Main

/-! ## The JavaScript around the shader -/

namespace JS

section

variable {α : Type} [LinearOrderedField α]

/-- `let multiChange = 0.01` (both files). -/
def multiChange : α := 1 / 100

/-- The JavaScript remainder operator `x % y` on numbers: `x - y * q`, where `q` is the
quotient `x / y` truncated towards zero, so that the result takes the sign of the
dividend. -/
def rem [FloorRing α] (x y : α) : α :=
  x - y * (if 0 ≤ x / y then (⌊x / y⌋ : α) else (⌈x / y⌉ : α))

/-- The update of the global `multi` by the callback that `main` passes to `setInterval`
(both files): `multi += multiChange; multi = (20 + multi) % 40 - 20`.  The call of
`drawScene` that precedes it reads `multi` and leaves it as it is. -/
def main_interval [FloorRing α] (multi : α) : α :=
  let multi := multi + multiChange
  rem (20 + multi) 40 - 20

/-- The `keydown` listener that `addControls` registers (both files), as a function of
`e.key` and of the global `cameraPos`, an array of three numbers. -/
def addControls_keydown (key : String) (cameraPos : Vec3 α) : Vec3 α :=
  if key = "ArrowUp" then { cameraPos with z := cameraPos.z + 1 }
  else if key = "ArrowDown" then { cameraPos with z := cameraPos.z - 1 }
  else if key = "ArrowLeft" then { cameraPos with x := cameraPos.x - 1 }
  else if key = "ArrowRight" then { cameraPos with x := cameraPos.x + 1 }
  else if key = "Control" then { cameraPos with y := cameraPos.y - 1 }
  else if key = "Shift" then { cameraPos with y := cameraPos.y + 1 }
  else cameraPos

/-- The JavaScript class `WorldObject` of `mainNew.js`: the fields that the constructor
stores.  `center`, `size` and `color` are arrays, of whatever length the caller passes. -/
structure WorldObject (α : Type) where
  type : α
  center : List α
  size : List α
  isNegated : α
  hasShadow : α
  reflectivity : α
  transparency : α
  diffuseIntensity : α
  color : List α

/-- The method `toArray` of the class `WorldObject`; `...this.center` spreads the array. -/
def WorldObject.toArray (o : WorldObject α) : List α :=
  o.center ++ [0] ++ o.size ++ [0] ++ o.color ++
    [o.type, o.isNegated, o.hasShadow, o.reflectivity, o.transparency, o.diffuseIntensity,
      0, 0, 0]

/-- The JavaScript assignment `a[k] = v` to an element of an array whose entries are numbers
or `undefined` (`none`): inside the array the entry is replaced, beyond its end the array
grows, the entries in between being empty. -/
def assign (a : List (Option α)) (k : Nat) (v : Option α) : List (Option α) :=
  if k < a.length then a.set k v else a ++ List.replicate (k - a.length) none ++ [v]

/-- The array `WorldObjects` that `configureGL` of `mainNew.js` builds. -/
def WorldObjects : List (WorldObject α) :=
  [⟨5, [-10, -10, -10], [0, 1, 0], 0, 0, 4 / 10, 4 / 10, 6 / 10, [1 / 2, 1 / 2, 1]⟩,
    ⟨4, [10, -20, 10], [5, 11, 10], 0, 0, 2 / 10, 0, 6 / 10,
      [7764705882352941 / 10000000000000000, 6431372549019608 / 10000000000000000,
        5549019607843137 / 10000000000000000]⟩,
    ⟨4, [-10, -20, 10], [5, 11, 10], 0, 0, 2 / 10, 0, 6 / 10,
      [7764705882352941 / 10000000000000000, 6431372549019608 / 10000000000000000,
        5549019607843137 / 10000000000000000]⟩,
    ⟨4, [0, -20, 25], [15, 11, 5], 0, 0, 2 / 10, 0, 6 / 10,
      [7764705882352941 / 10000000000000000, 6431372549019608 / 10000000000000000,
        5549019607843137 / 10000000000000000]⟩,
    ⟨4, [0, -20, -5], [15, 11, 5], 0, 0, 2 / 10, 0, 6 / 10,
      [7764705882352941 / 10000000000000000, 6431372549019608 / 10000000000000000,
        5549019607843137 / 10000000000000000]⟩,
    ⟨4, [0, 0, 25], [15, 19, 1], 0, 0, 2 / 10, 0, 6 / 10,
      [1, 8352941176470589 / 10000000000000000, 8039215686274509 / 10000000000000000]⟩,
    ⟨4, [0, 0, -5], [15, 19, 1], 0, 0, 2 / 10, 0, 6 / 10,
      [1, 8352941176470589 / 10000000000000000, 8039215686274509 / 10000000000000000]⟩,
    ⟨4, [10, 0, 10], [1, 19, 14], 0, 0, 2 / 10, 0, 6 / 10,
      [1, 8352941176470589 / 10000000000000000, 8039215686274509 / 10000000000000000]⟩,
    ⟨4, [-10, 0, 10], [1, 19, 14], 0, 0, 2 / 10, 0, 6 / 10,
      [1, 8852941176470589 / 10000000000000000, 8839215686274509 / 10000000000000000]⟩,
    ⟨3, [0, 0, 0], [0, -1, 0], 0, 0, 2 / 10, 0, 0, [1, 9 / 10, 9 / 10]⟩,
    ⟨2, [0, -5, 12], [2, 2, 2], 0, 0, 4 / 10, 0, 4 / 10, [-2, -2, -2]⟩]

/-- The array `data` that `configureGL` of `mainNew.js` builds from `WorldObjects`, before
it is handed to `Float32Array`: `none` as the result when `WorldObjects[0].toArray()`
throws (an empty `WorldObjects`), `none` as an entry for `undefined`.  The outer loop runs
`i` below `numObjects = WorldObjects.length`, where `WorldObjects[i]` is always there. -/
def configureGL_data (WorldObjects : List (WorldObject α)) : Option (List (Option α)) :=
  match WorldObjects[0]? with
  | none => none
  | some first =>
    let numObjects := WorldObjects.length
    let objectLength := first.toArray.length
    let data : List (Option α) := List.replicate (objectLength * 32) (some 0)
    some ((List.range numObjects).foldl
      (fun data i =>
        match WorldObjects[i]? with
        | none => data
        | some o =>
          let currentObject := o.toArray
          (List.range objectLength).foldl
            (fun data j => assign data (i * objectLength + j) currentObject[j]?) data)
      data)

end

end JS

/-! ## Scaffolding for the proofs -/

section Scaffolding

variable {α : Type} [LinearOrderedField α]

/-- The loop of the aggregators over an arbitrary distance function `d` on indices and
an arbitrary test `skip` for the indices that are passed over. -/
def scan (d : Nat → α) (skip : Nat → Prop) [DecidablePred skip] (n : Nat) : α × Int :=
  (List.range n).foldl
    (fun min_dist (i : Nat) =>
      if skip i then min_dist
      else if d i < min_dist.1 then (d i, (i : Int)) else min_dist)
    (100000, -1)

/-- What the aggregator loop has established after `n` indices. -/
structure ScanInv (d : Nat → α) (skip : Nat → Prop) (n : Nat) (r : α × Int) : Prop where
  le_init : r.1 ≤ 100000
  le_all : ∀ i, i < n → ¬ skip i → r.1 ≤ d i
  owner : (r.2 = -1 ∧ r.1 = 100000) ∨
    ∃ j, j < n ∧ ¬ skip j ∧ r.2 = (j : Int) ∧ d j = r.1 ∧ r.1 < 100000 ∧
      ∀ i, i < j → ¬ skip i → r.1 < d i

/-- An example object: the horizontal plane (type 3.0) through `(0, h, 0)` with normal
`(0, 1, 0)`, white, with no reflection and no transparency. -/
def example_plane (h : α) : WorldObject α :=
  ⟨3, ⟨0, h, 0⟩, ⟨0, 1, 0⟩, 0, 0, 0, 0, 0, ⟨1, 1, 1⟩⟩

/-- An example object: the sphere (type 1.0) of radius `r` centred at the origin, white,
with no reflection and no transparency. -/
def example_sphere (r : α) : WorldObject α :=
  ⟨1, ⟨0, 0, 0⟩, ⟨r, r, r⟩, 0, 0, 0, 0, 0, ⟨1, 1, 1⟩⟩

/-- An example object: the box (type 4.0) with half-extents `(a, b, c)` centred at
`(1, 2, 3)`. -/
def example_box (a b c : α) : WorldObject α :=
  ⟨4, ⟨1, 2, 3⟩, ⟨a, b, c⟩, 0, 0, 0, 0, 0, ⟨1, 1, 1⟩⟩

/-- An example object: the horizontal plane `y = 0` (type 3.0, normal `(0, 1, 0)`), white,
with reflectivity `0.5` and no transparency. -/
def example_mirror : WorldObject α :=
  ⟨3, ⟨0, 0, 0⟩, ⟨0, 1, 0⟩, 0, 0, 1 / 2, 0, 0, ⟨1, 1, 1⟩⟩

/-- An example object of an unknown kind (type 0.0, as in the zero-filled slots of the
uniform buffer). -/
def example_unknown : WorldObject α :=
  ⟨0, ⟨0, 0, 0⟩, ⟨0, 0, 0⟩, 0, 0, 0, 0, 0, ⟨0, 0, 0⟩⟩

/-- An example object: the horizontal plane `y = 0` (type 3.0, normal `(0, 1, 0)`) with
reflectivity `rho`, transparency `tau`, diffuse intensity `k` and colour `c`. -/
def example_floor (rho tau k : α) (c : Vec3 α) : WorldObject α :=
  ⟨3, ⟨0, 0, 0⟩, ⟨0, 1, 0⟩, 0, 0, rho, tau, k, c⟩

/-- An example object: the vertical plane `x = 1` (type 3.0, normal `(-1, 0, 0)`), white,
with reflectivity `0.5`. -/
def example_wall : WorldObject α :=
  ⟨3, ⟨1, 0, 0⟩, ⟨-1, 0, 0⟩, 0, 0, 1 / 2, 0, 0, ⟨1, 1, 1⟩⟩

/-- An example scene: a white mirror floor `y = 0` (index 0, reflectivity `0.5`) and, at
every other index, the mirror wall `x = 1`. -/
def example_corner : Nat → WorldObject α :=
  fun i => if i = 0 then example_floor (1 / 2) 0 0 ⟨1, 1, 1⟩ else example_wall

/-- An example object: the unit sphere (type 1.0) at the origin, white, with diffuse
intensity `0.5`, no reflection and no transparency. -/
def example_diffuse_sphere : WorldObject α :=
  ⟨1, ⟨0, 0, 0⟩, ⟨1, 1, 1⟩, 0, 0, 0, 0, 1 / 2, ⟨1, 1, 1⟩⟩

/-- The blend that the primary and middle routines apply for a bounce of weight `w`
(the reflectivity or the transparency): `bounce * w + (1 - w) * base` when `w > 0`, and
`base` otherwise. -/
def bounce_blend (w : α) (bounce base : Vec3 α) : Vec3 α :=
  if w > 0 then bounce.muls w + (1 - w) • base else base

/-- The ray direction `rd = vec3(uv, 1.0)` that the fragment shader `main` (of either file)
builds from `u_resolution` and `gl_FragCoord.xy`. -/
def camera_direction (u_resolution gl_FragCoord : Vec2 α) : Vec3 α :=
  ⟨gl_FragCoord.x / u_resolution.x * 2 - 1,
    (gl_FragCoord.y / u_resolution.y * 2 - 1) * (u_resolution.y / u_resolution.x), 1⟩

/-- The values that `total_distance_traveled` takes in a march routine, in order: its
value at the start of every iteration of the loop and, when the loop runs out of steps, the
value it is left with.  `agg` is the aggregator the routine calls and `maxd` its
`MAXIMUM_TRACE_DISTANCE`; the first number is the count of steps that remain. -/
def march_distances (agg : Vec3 α → α × Int) (maxd : α) (ro rd : Vec3 α) :
    Nat → α → List α
  | 0, total_distance_traveled => [total_distance_traveled]
  | k + 1, total_distance_traveled =>
    let current_position := ro + total_distance_traveled • rd
    let distance_to_closest := agg current_position
    if distance_to_closest.1 < MINIMUM_HIT_DISTANCE then [total_distance_traveled]
    else if total_distance_traveled > maxd then [total_distance_traveled]
    else total_distance_traveled ::
      march_distances agg maxd ro rd k (total_distance_traveled + distance_to_closest.1)

/-- An example object: the unit sphere (type 1.0) at the origin with the sentinel colour
(`color.x == -2.0`), no reflection and no transparency. -/
def example_sentinel_sphere : WorldObject α :=
  ⟨1, ⟨0, 0, 0⟩, ⟨1, 1, 1⟩, 0, 0, 0, 0, 0, ⟨-2, -2, -2⟩⟩

/-- An example object: the horizontal plane `y = 1` (type 3.0, normal `(0, 1, 0)`), white,
with transparency `0.5` and no reflection. -/
def example_pane : WorldObject α :=
  ⟨3, ⟨0, 1, 0⟩, ⟨0, 1, 0⟩, 0, 0, 0, 1 / 2, 0, ⟨1, 1, 1⟩⟩

/-- An example scene: the pane `y = 1` at index 0, the floor `y = 0` of colour `c` at
index 1 and the white floor `y = 0` at every other index. -/
def example_stack (c : Vec3 α) : Nat → WorldObject α :=
  fun i => if i = 0 then example_pane else if i = 1 then example_floor 0 0 0 c
    else example_floor 0 0 0 ⟨1, 1, 1⟩

/-- The object is of a kind whose distance function is an exact signed distance: a sphere
(type 1.0), a plane (type 3.0) with a unit-length normal, or a box (type 4.0) with
non-negative half-extents. -/
def IsExactKind (o : WorldObject α) : Prop :=
  o.type = 1 ∨ (o.type = 3 ∧ dot o.size o.size = 1) ∨
    (o.type = 4 ∧ 0 ≤ o.size.x ∧ 0 ≤ o.size.y ∧ 0 ≤ o.size.z)

/-- Every value of the list exceeds the one before it by at least `MINIMUM_HIT_DISTANCE`
and by at most `100000`. -/
def StepsInRange (l : List α) : Prop :=
  List.Chain' (fun a b => a + MINIMUM_HIT_DISTANCE ≤ b ∧ b ≤ a + 100000) l

/-- The list holds the values of a travelled distance that starts at `0`, grows at every
step by at least `MINIMUM_HIT_DISTANCE` and at most `100000`, is never negative and, after
`j` steps, is at least `MINIMUM_HIT_DISTANCE * j`. -/
def TravelMonotone (l : List α) : Prop :=
  l.head? = some 0 ∧ StepsInRange l ∧ (∀ x, x ∈ l → 0 ≤ x)
    ∧ ∀ (j : Nat) (x : α), l[j]? = some x → MINIMUM_HIT_DISTANCE * j ≤ x

/-- The object is of one of the five kinds that `map_the_object` knows. -/
def IsKnownKind (o : WorldObject α) : Prop :=
  o.type = 1 ∨ o.type = 2 ∨ o.type = 3 ∨ o.type = 4 ∨ o.type = 5

/-- The built-in `sqrt` is the square root on the non-negative numbers. -/
def IsSqrt (F : MathFns α) : Prop :=
  ∀ x : α, 0 ≤ x → 0 ≤ F.sqrt x ∧ F.sqrt x * F.sqrt x = x

/-- Every component of the colour lies in `[0, 1]`. -/
def InUnitCube (v : Vec3 α) : Prop :=
  (0 ≤ v.x ∧ v.x ≤ 1) ∧ (0 ≤ v.y ∧ v.y ≤ 1) ∧ (0 ≤ v.z ∧ v.z ≤ 1)

/-- The material of the object is in range: reflectivity, transparency and diffuse
intensity in `[0, 1]`, and a colour that is the sentinel (`color.x == -2.0`) or lies in
`[0, 1]^3`. -/
def MaterialInRange (o : WorldObject α) : Prop :=
  (0 ≤ o.reflectivity ∧ o.reflectivity ≤ 1) ∧ (0 ≤ o.transparency ∧ o.transparency ≤ 1) ∧
  (0 ≤ o.diffuse_intensity ∧ o.diffuse_intensity ≤ 1) ∧ (o.color.x = -2 ∨ InUnitCube o.color)

/-- The two objects differ at most in `reflectivity` and `transparency`. -/
def SameButBounce (a b : WorldObject α) : Prop :=
  a.type = b.type ∧ a.center = b.center ∧ a.size = b.size ∧ a.is_negated = b.is_negated ∧
  a.has_shadow = b.has_shadow ∧ a.diffuse_intensity = b.diffuse_intensity ∧ a.color = b.color

/-- The vector of central differences that `calculate_normal` of `mainNew.js` normalises
(`vec3(gradient_x, gradient_y, gradient_z)`). -/
def MainNew.gradient (F : MathFns α) (multi : α) (p : Vec3 α) (object : WorldObject α) :
    Vec3 α :=
  ⟨MainNew.map_the_object F multi (p + ⟨1 / 1000, 0, 0⟩) object
      - MainNew.map_the_object F multi (p - ⟨1 / 1000, 0, 0⟩) object,
    MainNew.map_the_object F multi (p + ⟨0, 1 / 1000, 0⟩) object
      - MainNew.map_the_object F multi (p - ⟨0, 1 / 1000, 0⟩) object,
    MainNew.map_the_object F multi (p + ⟨0, 0, 1 / 1000⟩) object
      - MainNew.map_the_object F multi (p - ⟨0, 0, 1 / 1000⟩) object⟩

/-- The vector of central differences that `calculate_normal` of `main.js` normalises. -/
def Main.gradient (F : MathFns α) (multi : α) (p : Vec3 α) (object : WorldObject α) :
    Vec3 α :=
  ⟨Main.map_the_object F multi (p + ⟨1 / 1000, 0, 0⟩) object
      - Main.map_the_object F multi (p - ⟨1 / 1000, 0, 0⟩) object,
    Main.map_the_object F multi (p + ⟨0, 1 / 1000, 0⟩) object
      - Main.map_the_object F multi (p - ⟨0, 1 / 1000, 0⟩) object,
    Main.map_the_object F multi (p + ⟨0, 0, 1 / 1000⟩) object
      - Main.map_the_object F multi (p - ⟨0, 0, 1 / 1000⟩) object⟩

/-- The hit divides by no zero: the travelled distance `t` is positive (the fade divides by
it), the vector of central differences that `calculate_normal` normalises is not the zero
vector, and, for an object whose colour is not the sentinel, the hit position is not the
light position (`direction_to_light` normalises their difference). -/
def RegularHit (t : α) (gradient current_position : Vec3 α) (o : WorldObject α) : Prop :=
  0 < t ∧ gradient ≠ ⟨0, 0, 0⟩ ∧ (o.color.x ≠ -2 → current_position ≠ light_position)

/-- The hit of the leaf routine `ray_march2` of `mainNew.js` for this ray, if there is one,
divides by no zero. -/
def MainNew.RegularLeaf (F : MathFns α) (multi : α) (objects : Nat → WorldObject α)
    (n : Nat) (ro rd : Vec3 α) (k : Int) : Prop :=
  ∀ h, march_trace (fun q => MainNew.map_the_world_skip F multi objects n q k)
      MainNew.MAXIMUM_TRACE_DISTANCE ro rd NUMBER_OF_STEPS 0 = some h →
    RegularHit h.1 (MainNew.gradient F multi (ro + h.1 • rd) (objects h.2.toNat))
      (ro + h.1 • rd) (objects h.2.toNat)

/-- The hit of the primary routine `ray_march` of `mainNew.js` for this ray, if there is
one, divides by no zero, and neither do the hits of the bounce rays that it casts (the
mirror ray when the reflectivity is positive, the ray that goes on when the transparency
is). -/
def MainNew.RegularRay (F : MathFns α) (multi : α) (objects : Nat → WorldObject α)
    (n : Nat) (ro rd : Vec3 α) : Prop :=
  ∀ h, march_trace (MainNew.map_the_world F multi objects n)
      MainNew.MAXIMUM_TRACE_DISTANCE ro rd NUMBER_OF_STEPS 0 = some h →
    RegularHit h.1 (MainNew.gradient F multi (ro + h.1 • rd) (objects h.2.toNat))
      (ro + h.1 • rd) (objects h.2.toNat)
    ∧ ((objects h.2.toNat).reflectivity > 0 →
      MainNew.RegularLeaf F multi objects n (ro + h.1 • rd)
        (reflect_ray rd (MainNew.calculate_normal F multi (ro + h.1 • rd)
          (objects h.2.toNat))) h.2)
    ∧ ((objects h.2.toNat).transparency > 0 →
      MainNew.RegularLeaf F multi objects n (ro + h.1 • rd) rd h.2)

/-- The hit of the leaf routine `ray_march3` of `main.js` for this ray, if there is one,
divides by no zero. -/
def Main.RegularLeaf (F : MathFns α) (multi : α) (world : Nat → WorldObject α)
    (ro rd : Vec3 α) (k : Int) : Prop :=
  ∀ h, march_trace (fun q => Main.map_the_world_skip F multi q world k)
      Main.MAXIMUM_TRACE_DISTANCE ro rd NUMBER_OF_STEPS 0 = some h →
    RegularHit h.1 (Main.gradient F multi (ro + h.1 • rd) (world h.2.toNat))
      (ro + h.1 • rd) (world h.2.toNat)

/-- The hit of the middle routine `ray_march2` of `main.js` for this ray, if there is one,
divides by no zero, and neither do the hits of the bounce rays that it casts. -/
def Main.RegularMiddle (F : MathFns α) (multi : α) (world : Nat → WorldObject α)
    (ro rd : Vec3 α) (k : Int) : Prop :=
  ∀ h, march_trace (fun q => Main.map_the_world_skip F multi q world k)
      Main.MAXIMUM_TRACE_DISTANCE ro rd NUMBER_OF_STEPS 0 = some h →
    RegularHit h.1 (Main.gradient F multi (ro + h.1 • rd) (world h.2.toNat))
      (ro + h.1 • rd) (world h.2.toNat)
    ∧ ((world h.2.toNat).reflectivity > 0 →
      Main.RegularLeaf F multi world (ro + h.1 • rd)
        (reflect_ray rd (Main.calculate_normal F multi (ro + h.1 • rd) (world h.2.toNat)))
        h.2)
    ∧ ((world h.2.toNat).transparency > 0 →
      Main.RegularLeaf F multi world (ro + h.1 • rd) rd h.2)

/-- The hit of the primary routine `ray_march` of `main.js` for this ray, if there is one,
divides by no zero, and neither do the hits of the bounce rays that it casts, nor those of
the bounce rays of these. -/
def Main.RegularRay (F : MathFns α) (multi : α) (world : Nat → WorldObject α)
    (ro rd : Vec3 α) : Prop :=
  ∀ h, march_trace (fun q => Main.map_the_world F multi q world)
      Main.MAXIMUM_TRACE_DISTANCE ro rd NUMBER_OF_STEPS 0 = some h →
    RegularHit h.1 (Main.gradient F multi (ro + h.1 • rd) (world h.2.toNat))
      (ro + h.1 • rd) (world h.2.toNat)
    ∧ ((world h.2.toNat).reflectivity > 0 →
      Main.RegularMiddle F multi world (ro + h.1 • rd)
        (reflect_ray rd (Main.calculate_normal F multi (ro + h.1 • rd) (world h.2.toNat)))
        h.2)
    ∧ ((world h.2.toNat).transparency > 0 →
      Main.RegularMiddle F multi world (ro + h.1 • rd) rd h.2)

end Scaffolding

/-! ## Lemmas on vectors -/

section VectorLemmas

variable {α : Type} [LinearOrderedField α]

@[simp] theorem Vec3.add_x (a b : Vec3 α) : (a + b).x = a.x + b.x := rfl
@[simp] theorem Vec3.add_y (a b : Vec3 α) : (a + b).y = a.y + b.y := rfl
@[simp] theorem Vec3.add_z (a b : Vec3 α) : (a + b).z = a.z + b.z := rfl
@[simp] theorem Vec3.sub_x (a b : Vec3 α) : (a - b).x = a.x - b.x := rfl
@[simp] theorem Vec3.sub_y (a b : Vec3 α) : (a - b).y = a.y - b.y := rfl
@[simp] theorem Vec3.sub_z (a b : Vec3 α) : (a - b).z = a.z - b.z := rfl
@[simp] theorem Vec3.smul_x (k : α) (a : Vec3 α) : (k • a).x = k * a.x := rfl
@[simp] theorem Vec3.smul_y (k : α) (a : Vec3 α) : (k • a).y = k * a.y := rfl
@[simp] theorem Vec3.smul_z (k : α) (a : Vec3 α) : (k • a).z = k * a.z := rfl

end VectorLemmas

/-! ## Lemmas on the aggregator loop -/

section AggregatorLemmas

variable {α : Type} [LinearOrderedField α]

theorem scan_succ (d : Nat → α) (skip : Nat → Prop) [DecidablePred skip] (n : Nat) :
    scan d skip (n + 1) =
      if skip n then scan d skip n
      else if d n < (scan d skip n).1 then (d n, (n : Int)) else scan d skip n := by
  simp [scan, List.range_succ, List.foldl_append]

theorem scan_zero (d : Nat → α) (skip : Nat → Prop) [DecidablePred skip] :
    scan d skip 0 = (100000, -1) := by
  simp [scan]

theorem scan_inv (d : Nat → α) (skip : Nat → Prop) [DecidablePred skip] (n : Nat) :
    ScanInv d skip n (scan d skip n) := by
  induction n with
  | zero =>
    rw [scan_zero]
    exact ⟨le_refl _, fun i hi => absurd hi (Nat.not_lt_zero i), Or.inl ⟨rfl, rfl⟩⟩
  | succ n ih =>
    rw [scan_succ]
    by_cases hs : skip n
    · rw [if_pos hs]
      refine ⟨ih.le_init, ?_, ?_⟩
      · intro i hi hsi
        rcases Nat.lt_succ_iff_lt_or_eq.mp hi with h | h
        · exact ih.le_all i h hsi
        · exact absurd (h ▸ hs) hsi
      · rcases ih.owner with h | ⟨j, hj, hsj, h2, h3, h4, h5⟩
        · exact Or.inl h
        · exact Or.inr ⟨j, Nat.lt_succ_of_lt hj, hsj, h2, h3, h4, h5⟩
    · rw [if_neg hs]
      by_cases hlt : d n < (scan d skip n).1
      · rw [if_pos hlt]
        refine ⟨le_trans (le_of_lt hlt) ih.le_init, ?_, ?_⟩
        · intro i hi hsi
          rcases Nat.lt_succ_iff_lt_or_eq.mp hi with h | h
          · exact le_trans (le_of_lt hlt) (ih.le_all i h hsi)
          · subst h; exact le_refl _
        · refine Or.inr ⟨n, Nat.lt_succ_self n, hs, rfl, rfl, lt_of_lt_of_le hlt ih.le_init, ?_⟩
          intro i hi hsi
          exact lt_of_lt_of_le hlt (ih.le_all i hi hsi)
      · rw [if_neg hlt]
        refine ⟨ih.le_init, ?_, ?_⟩
        · intro i hi hsi
          rcases Nat.lt_succ_iff_lt_or_eq.mp hi with h | h
          · exact ih.le_all i h hsi
          · subst h; exact not_lt.mp hlt
        · rcases ih.owner with h | ⟨j, hj, hsj, h2, h3, h4, h5⟩
          · exact Or.inl h
          · exact Or.inr ⟨j, Nat.lt_succ_of_lt hj, hsj, h2, h3, h4, h5⟩

/-- The distance found by the loop is the running minimum, started at `100000`, of the
distances of the indices that are not passed over. -/
theorem scan_fst (d : Nat → α) (skip : Nat → Prop) [DecidablePred skip] (n : Nat) :
    (scan d skip n).1 =
      ((List.range n).filter (fun i => decide (¬ skip i))).foldl
        (fun m i => min m (d i)) 100000 := by
  induction n with
  | zero => simp [scan_zero]
  | succ n ih =>
    rw [scan_succ, List.range_succ, List.filter_append, List.foldl_append, ← ih]
    by_cases hs : skip n
    · simp [hs]
    · by_cases hlt : d n < (scan d skip n).1
      · simp [hs, hlt, min_eq_right (le_of_lt hlt)]
      · simp [hs, hlt, min_eq_left (not_lt.mp hlt)]

theorem scan_snd_eq_neg_one_iff (d : Nat → α) (skip : Nat → Prop) [DecidablePred skip]
    (n : Nat) :
    (scan d skip n).2 = -1 ↔ ∀ i, i < n → ¬ skip i → ¬ d i < 100000 := by
  have h := scan_inv d skip n
  constructor
  · intro h1 i hi hsi
    rcases h.owner with ⟨_, h3⟩ | ⟨j, _, _, h2, _⟩
    · rw [← h3]; exact not_lt.mpr (h.le_all i hi hsi)
    · rw [h2] at h1; omega
  · intro hall
    rcases h.owner with ⟨h2, _⟩ | ⟨j, hj, hsj, _, h3, h4, _⟩
    · exact h2
    · exact absurd (h3 ▸ h4) (hall j hj hsj)

theorem scan_owner (d : Nat → α) (skip : Nat → Prop) [DecidablePred skip] (n : Nat)
    (h : (scan d skip n).2 ≠ -1) :
    ∃ j, j < n ∧ ¬ skip j ∧ (scan d skip n).2 = (j : Int) ∧ d j = (scan d skip n).1 ∧
      (scan d skip n).1 < 100000 ∧
      ∀ i, i < n → ¬ skip i → d i = (scan d skip n).1 → j ≤ i := by
  rcases (scan_inv d skip n).owner with ⟨h2, _⟩ | ⟨j, hj, hsj, h2, h3, h4, h5⟩
  · exact absurd h2 h
  · refine ⟨j, hj, hsj, h2, h3, h4, ?_⟩
    intro i _ hsi hdi
    by_contra hlt
    exact absurd hdi (ne_of_gt (h5 i (not_le.mp hlt) hsi))

theorem scan_lt_of_lt (d : Nat → α) (skip : Nat → Prop) [DecidablePred skip] (n i : Nat)
    (hi : i < n) (hsi : ¬ skip i) (hlt : d i < 100000) :
    (scan d skip n).2 ≠ -1 := by
  intro h
  exact (scan_snd_eq_neg_one_iff d skip n).mp h i hi hsi hlt

/-- A lower bound for every distance that counts is a lower bound for the result. -/
theorem scan_ge (d : Nat → α) (skip : Nat → Prop) [DecidablePred skip] (n : Nat) (c : α)
    (hc : c ≤ 100000) (h : ∀ i, i < n → ¬ skip i → c ≤ d i) : c ≤ (scan d skip n).1 := by
  rcases (scan_inv d skip n).owner with ⟨_, h3⟩ | ⟨j, hj, hsj, _, h3, _⟩
  · rw [h3]; exact hc
  · rw [← h3]; exact h j hj hsj

/-- The loop over `n > 0` indices that all have the same distance `v`, none passed over:
index `0` owns the minimum when `v` is below `100000`. -/
theorem scan_const (d : Nat → α) (n : Nat) (v : α) (hn : 0 < n)
    (hd : ∀ i, i < n → d i = v) :
    scan d (fun _ => False) n = if v < 100000 then (v, 0) else (100000, -1) := by
  by_cases hv : v < 100000
  · rw [if_pos hv]
    have hne := scan_lt_of_lt d (fun _ => False) n 0 hn (fun h => h) (by rw [hd 0 hn]; exact hv)
    obtain ⟨j, hj, _, h2, h3, _, h5⟩ := scan_owner d (fun _ => False) n hne
    have hj0 : j = 0 := by
      have := h5 0 hn (fun h => h) (by rw [← h3, hd 0 hn, hd j hj])
      omega
    subst hj0
    refine Prod.ext ?_ ?_
    · rw [← h3, hd 0 hn]
    · rw [h2]; rfl
  · rw [if_neg hv]
    have h1 : (scan d (fun _ => False) n).2 = -1 :=
      (scan_snd_eq_neg_one_iff d (fun _ => False) n).mpr
        (fun i hi _ => by rw [hd i hi]; exact hv)
    rcases (scan_inv d (fun _ => False) n).owner with ⟨_, h3⟩ | ⟨j, _, _, h2, _⟩
    · exact Prod.ext h3 h1
    · rw [h2] at h1; omega

theorem mainNew_map_the_world_eq_scan (F : MathFns α) (multi : α)
    (objects : Nat → WorldObject α) (n : Nat) (p : Vec3 α) :
    MainNew.map_the_world F multi objects n p =
      scan (fun i => MainNew.map_the_object F multi p (objects i)) (fun _ => False) n := by
  simp [MainNew.map_the_world, scan]

theorem mainNew_map_the_world_skip_eq_scan (F : MathFns α) (multi : α)
    (objects : Nat → WorldObject α) (n : Nat) (p : Vec3 α) (k : Int) :
    MainNew.map_the_world_skip F multi objects n p k =
      scan (fun i => MainNew.map_the_object F multi p (objects i))
        (fun i => (i : Int) = k) n := by
  rfl

theorem main_map_the_world_eq_scan (F : MathFns α) (multi : α)
    (objects : Nat → WorldObject α) (p : Vec3 α) :
    Main.map_the_world F multi p objects =
      scan (fun i => Main.map_the_object F multi p (objects i)) (fun _ => False)
        Main.OBJECT_COUNT := by
  simp [Main.map_the_world, scan]

theorem main_map_the_world_skip_eq_scan (F : MathFns α) (multi : α)
    (objects : Nat → WorldObject α) (p : Vec3 α) (k : Int) :
    Main.map_the_world_skip F multi p objects k =
      scan (fun i => Main.map_the_object F multi p (objects i))
        (fun i => (i : Int) = k) Main.OBJECT_COUNT := by
  rfl

/-- The loop that passes over the index `k`: its owner is never `k`, and its result is
the minimum and the lowest-index owner over the other indices. -/
theorem scan_skip_spec (d : Nat → α) (k : Int) (hk : 0 ≤ k) (n : Nat) :
    (scan d (fun i => (i : Int) = k) n).2 ≠ k
    ∧ (scan d (fun i => (i : Int) = k) n).1 =
        ((List.range n).filter (fun i : Nat => decide ((i : Int) ≠ k))).foldl
          (fun m i => min m (d i)) 100000
    ∧ (∀ i, i < n → (i : Int) ≠ k → (scan d (fun i => (i : Int) = k) n).1 ≤ d i)
    ∧ ((scan d (fun i => (i : Int) = k) n).2 = -1 ↔
        ∀ i, i < n → (i : Int) ≠ k → ¬ d i < 100000)
    ∧ ((scan d (fun i => (i : Int) = k) n).2 ≠ -1 →
        ∃ j, j < n ∧ (j : Int) ≠ k ∧ (scan d (fun i => (i : Int) = k) n).2 = (j : Int) ∧
          d j = (scan d (fun i => (i : Int) = k) n).1 ∧
          ∀ i, i < n → (i : Int) ≠ k → d i = (scan d (fun i => (i : Int) = k) n).1 → j ≤ i) := by
  refine ⟨?_, scan_fst _ _ n, (scan_inv _ _ n).le_all, scan_snd_eq_neg_one_iff _ _ n, ?_⟩
  · rcases (scan_inv d (fun i => (i : Int) = k) n).owner with ⟨h2, _⟩ | ⟨j, _, hsj, h2, _⟩
    · rw [h2]; omega
    · rw [h2]; exact hsj
  · intro h
    obtain ⟨j, hj, hsj, h2, h3, _, h5⟩ := scan_owner _ _ n h
    exact ⟨j, hj, hsj, h2, h3, h5⟩

end AggregatorLemmas

/-! ## Lemmas on the march loop -/

section MarchLemmas

variable {α : Type} [LinearOrderedField α]

theorem march_trace_succ (agg : Vec3 α → α × Int) (maxd : α) (ro rd : Vec3 α) (k : Nat)
    (t : α) :
    march_trace agg maxd ro rd (k + 1) t =
      if (agg (ro + t • rd)).1 < MINIMUM_HIT_DISTANCE then some (t, (agg (ro + t • rd)).2)
      else if t > maxd then none
      else march_trace agg maxd ro rd k (t + (agg (ro + t • rd)).1) := rfl

/-- A hit reported by the loop is a hit: the aggregate distance at the reported distance
is below `MINIMUM_HIT_DISTANCE` and the reported index is the aggregator's. -/
theorem march_trace_some (agg : Vec3 α → α × Int) (maxd : α) (ro rd : Vec3 α) :
    ∀ (k : Nat) (t : α) (h : α × Int), march_trace agg maxd ro rd k t = some h →
      (agg (ro + h.1 • rd)).1 < MINIMUM_HIT_DISTANCE ∧ h.2 = (agg (ro + h.1 • rd)).2 := by
  intro k
  induction k with
  | zero => intro t h e; simp [march_trace] at e
  | succ k ih =>
    intro t h e
    rw [march_trace_succ] at e
    by_cases h1 : (agg (ro + t • rd)).1 < MINIMUM_HIT_DISTANCE
    · rw [if_pos h1] at e
      cases e
      exact ⟨h1, rfl⟩
    · rw [if_neg h1] at e
      by_cases h2 : t > maxd
      · rw [if_pos h2] at e; cases e
      · rw [if_neg h2] at e
        exact ih _ h e

/-- A ray that stays at least `MINIMUM_HIT_DISTANCE` away from the scene never hits. -/
theorem march_trace_none (agg : Vec3 α → α × Int) (maxd : α) (ro rd : Vec3 α)
    (hfar : ∀ t : α, 0 ≤ t → MINIMUM_HIT_DISTANCE ≤ (agg (ro + t • rd)).1) :
    ∀ (k : Nat) (t : α), 0 ≤ t → march_trace agg maxd ro rd k t = none := by
  intro k
  induction k with
  | zero => intro t _; rfl
  | succ k ih =>
    intro t ht
    rw [march_trace_succ, if_neg (not_lt.mpr (hfar t ht))]
    by_cases h2 : t > maxd
    · rw [if_pos h2]
    · rw [if_neg h2]
      refine ih _ (add_nonneg ht (le_trans ?_ (hfar t ht)))
      simp [MINIMUM_HIT_DISTANCE]

theorem mainNew_ray_march_loop_eq (F : MathFns α) (multi : α)
    (objects : Nat → WorldObject α) (n : Nat) (ro rd : Vec3 α) :
    ∀ (k : Nat) (t : α), MainNew.ray_march_loop F multi objects n ro rd k t =
      (march_trace (MainNew.map_the_world F multi objects n) MainNew.MAXIMUM_TRACE_DISTANCE
        ro rd k t).elim (Vec3.splat 0)
        (fun h => (MainNew.ray_march_hit_color F multi objects n rd (ro + h.1 • rd)
          (MainNew.map_the_world F multi objects n (ro + h.1 • rd))).muls
            (min 1 (20 / h.1))) := by
  intro k
  induction k with
  | zero => intro t; rfl
  | succ k ih =>
    intro t
    rw [march_trace_succ, MainNew.ray_march_loop]
    by_cases h1 : (MainNew.map_the_world F multi objects n (ro + t • rd)).1
        < MINIMUM_HIT_DISTANCE
    · simp only [if_pos h1, Option.elim]
    · by_cases h2 : t > MainNew.MAXIMUM_TRACE_DISTANCE
      · simp only [if_neg h1, if_pos h2, Option.elim]
      · simp only [if_neg h1, if_neg h2]
        exact ih _

theorem mainNew_ray_march2_loop_eq (F : MathFns α) (multi : α)
    (objects : Nat → WorldObject α) (n : Nat) (ro rd : Vec3 α) (skip_object : Int) :
    ∀ (k : Nat) (t : α), MainNew.ray_march2_loop F multi objects n ro rd skip_object k t =
      (march_trace (fun q => MainNew.map_the_world_skip F multi objects n q skip_object)
        MainNew.MAXIMUM_TRACE_DISTANCE ro rd k t).elim (Vec3.splat 0)
        (fun h => MainNew.ray_march2_hit F multi objects (ro + h.1 • rd) h.1
          (MainNew.map_the_world_skip F multi objects n (ro + h.1 • rd) skip_object)) := by
  intro k
  induction k with
  | zero => intro t; rfl
  | succ k ih =>
    intro t
    rw [march_trace_succ, MainNew.ray_march2_loop]
    by_cases h1 : (MainNew.map_the_world_skip F multi objects n (ro + t • rd) skip_object).1
        < MINIMUM_HIT_DISTANCE
    · simp only [if_pos h1, Option.elim]
    · by_cases h2 : t > MainNew.MAXIMUM_TRACE_DISTANCE
      · simp only [if_neg h1, if_pos h2, Option.elim]
      · simp only [if_neg h1, if_neg h2]
        exact ih _

theorem main_ray_march_loop_eq (F : MathFns α) (multi : α) (ro rd : Vec3 α)
    (world : Nat → WorldObject α) :
    ∀ (k : Nat) (t : α), Main.ray_march_loop F multi ro rd world k t =
      (march_trace (fun q => Main.map_the_world F multi q world) Main.MAXIMUM_TRACE_DISTANCE
        ro rd k t).elim (Vec3.splat 0)
        (fun h => (Main.ray_march_hit_color F multi world rd (ro + h.1 • rd)
          (Main.map_the_world F multi (ro + h.1 • rd) world)).muls (min 1 (20 / h.1))) := by
  intro k
  induction k with
  | zero => intro t; rfl
  | succ k ih =>
    intro t
    rw [march_trace_succ, Main.ray_march_loop]
    by_cases h1 : (Main.map_the_world F multi (ro + t • rd) world).1 < MINIMUM_HIT_DISTANCE
    · simp only [if_pos h1, Option.elim]
    · by_cases h2 : t > Main.MAXIMUM_TRACE_DISTANCE
      · simp only [if_neg h1, if_pos h2, Option.elim]
      · simp only [if_neg h1, if_neg h2]
        exact ih _

theorem main_ray_march2_loop_eq (F : MathFns α) (multi : α) (ro rd : Vec3 α)
    (world : Nat → WorldObject α) (skip_object : Int) :
    ∀ (k : Nat) (t : α), Main.ray_march2_loop F multi ro rd world skip_object k t =
      (march_trace (fun q => Main.map_the_world_skip F multi q world skip_object)
        Main.MAXIMUM_TRACE_DISTANCE ro rd k t).elim (Vec3.splat 0)
        (fun h => (Main.ray_march2_hit_color F multi world rd (ro + h.1 • rd)
          (Main.map_the_world_skip F multi (ro + h.1 • rd) world skip_object)).muls
            (min 1 (5 / h.1))) := by
  intro k
  induction k with
  | zero => intro t; rfl
  | succ k ih =>
    intro t
    rw [march_trace_succ, Main.ray_march2_loop]
    by_cases h1 : (Main.map_the_world_skip F multi (ro + t • rd) world skip_object).1
        < MINIMUM_HIT_DISTANCE
    · simp only [if_pos h1, Option.elim]
    · by_cases h2 : t > Main.MAXIMUM_TRACE_DISTANCE
      · simp only [if_neg h1, if_pos h2, Option.elim]
      · simp only [if_neg h1, if_neg h2]
        exact ih _

theorem main_ray_march3_loop_eq (F : MathFns α) (multi : α) (ro rd : Vec3 α)
    (world : Nat → WorldObject α) (skip_object : Int) :
    ∀ (k : Nat) (t : α), Main.ray_march3_loop F multi ro rd world skip_object k t =
      (march_trace (fun q => Main.map_the_world_skip F multi q world skip_object)
        Main.MAXIMUM_TRACE_DISTANCE ro rd k t).elim (Vec3.splat 0)
        (fun h => Main.ray_march3_hit F multi world (ro + h.1 • rd) h.1
          (Main.map_the_world_skip F multi (ro + h.1 • rd) world skip_object)) := by
  intro k
  induction k with
  | zero => intro t; rfl
  | succ k ih =>
    intro t
    rw [march_trace_succ, Main.ray_march3_loop]
    by_cases h1 : (Main.map_the_world_skip F multi (ro + t • rd) world skip_object).1
        < MINIMUM_HIT_DISTANCE
    · simp only [if_pos h1, Option.elim]
    · by_cases h2 : t > Main.MAXIMUM_TRACE_DISTANCE
      · simp only [if_neg h1, if_pos h2, Option.elim]
      · simp only [if_neg h1, if_neg h2]
        exact ih _

/-- The sphere distance along the ray from `ro` towards the centre `c`: at travelled
distance `t` the point lies at distance `|D - t|` from the centre, where `D` is the
distance of `ro` from the centre. -/
theorem length_on_ray_to_center (F : MathFns α) (hsqrt : ∀ x : α, F.sqrt (x * x) = |x|)
    (ro c : Vec3 α) (D t : α) (hD : dot (c - ro) (c - ro) = D * D) (hD0 : D ≠ 0) :
    length F (ro + t • ((1 / D) • (c - ro)) - c) = |D - t| := by
  have e : dot (ro + t • ((1 / D) • (c - ro)) - c) (ro + t • ((1 / D) • (c - ro)) - c)
      = (D - t) * (D - t) := by
    have e1 : dot (ro + t • ((1 / D) • (c - ro)) - c) (ro + t • ((1 / D) • (c - ro)) - c)
        = (t * D⁻¹ - 1) ^ 2 * dot (c - ro) (c - ro) := by
      simp only [dot, Vec3.sub_x, Vec3.sub_y, Vec3.sub_z, Vec3.add_x, Vec3.add_y, Vec3.add_z,
        Vec3.smul_x, Vec3.smul_y, Vec3.smul_z, one_div]
      ring
    rw [e1, hD]
    field_simp
    ring
  rw [length, e, hsqrt]

/-- The aggregator of `mainNew.js` on a scene of one sphere, along the ray towards its
centre. -/
theorem mainNew_single_sphere_on_ray (F : MathFns α) (hsqrt : ∀ x : α, F.sqrt (x * x) = |x|)
    (multi : α) (objects : Nat → WorldObject α) (ro : Vec3 α) (D t : α)
    (hty : (objects 0).type = 1)
    (hD : dot ((objects 0).center - ro) ((objects 0).center - ro) = D * D) (hD0 : D ≠ 0) :
    MainNew.map_the_world F multi objects 1
        (ro + t • ((1 / D) • ((objects 0).center - ro))) =
      if |D - t| - (objects 0).size.x < 100000 then (|D - t| - (objects 0).size.x, 0)
      else (100000, -1) := by
  rw [mainNew_map_the_world_eq_scan, scan_succ, scan_zero]
  simp only [if_false, MainNew.map_the_object, if_pos hty, distance_from_sphere,
    length_on_ray_to_center F hsqrt ro _ D t hD hD0]
  rfl

/-- The aggregator of `main.js` on a world whose active objects are all one sphere, along
the ray towards its centre. -/
theorem main_single_sphere_on_ray (F : MathFns α) (hsqrt : ∀ x : α, F.sqrt (x * x) = |x|)
    (multi : α) (world : Nat → WorldObject α) (ro : Vec3 α) (D t : α)
    (hty : (world 0).type = 1) (hall : ∀ i, i < Main.OBJECT_COUNT → world i = world 0)
    (hD : dot ((world 0).center - ro) ((world 0).center - ro) = D * D) (hD0 : D ≠ 0) :
    Main.map_the_world F multi (ro + t • ((1 / D) • ((world 0).center - ro))) world =
      if |D - t| - (world 0).size.x < 100000 then (|D - t| - (world 0).size.x, 0)
      else (100000, -1) := by
  rw [main_map_the_world_eq_scan]
  refine scan_const _ _ _ (by decide) (fun i hi => ?_)
  simp only [hall i hi, Main.map_the_object, if_pos hty, distance_from_sphere,
    length_on_ray_to_center F hsqrt ro _ D t hD hD0]

/-- The march loop on a field that is, along the ray, the distance `|D - t| - r` to one
sphere capped by the aggregator at `100000`: from outside, with `D - r < 100000.01`, the
loop hits within two steps. -/
theorem march_single_sphere (agg : Vec3 α → α × Int) (maxd : α) (ro rd : Vec3 α) (D r : α)
    (hmax : 0 ≤ maxd)
    (hagg : ∀ t : α, agg (ro + t • rd) =
      if |D - t| - r < 100000 then (|D - t| - r, 0) else (100000, -1))
    (hr : 0 ≤ r) (hout : r < D) (hnear : D - r < 100000 + 1 / 100) :
    ∃ t : α, march_trace agg maxd ro rd NUMBER_OF_STEPS 0 = some (t, 0)
      ∧ |t - (D - r)| < MINIMUM_HIT_DISTANCE := by
  have hDpos : 0 < D := lt_of_le_of_lt hr hout
  have hmax0 : ¬ ((0 : α) > maxd) := not_lt.mpr hmax
  have hpos : (0 : α) < MINIMUM_HIT_DISTANCE := by norm_num [MINIMUM_HIT_DISTANCE]
  rw [show NUMBER_OF_STEPS = 254 + 1 + 1 from rfl, march_trace_succ, hagg 0, sub_zero,
    abs_of_pos hDpos]
  by_cases h1 : D - r < 100000
  · rw [if_pos h1]
    by_cases h2 : D - r < MINIMUM_HIT_DISTANCE
    · rw [if_pos h2]
      refine ⟨0, rfl, ?_⟩
      rw [zero_sub, abs_neg, abs_of_pos (sub_pos.mpr hout)]
      exact h2
    · have e : |D - (0 + (D - r))| - r = 0 := by
        rw [show D - (0 + (D - r)) = r by ring, abs_of_nonneg hr, sub_self]
      have hw : agg (ro + (0 + (D - r)) • rd) = (0, 0) := by
        rw [hagg, e, if_pos (by norm_num)]
      rw [if_neg h2, if_neg hmax0, march_trace_succ, hw, if_pos hpos]
      refine ⟨_, rfl, ?_⟩
      rw [zero_add, sub_self, abs_zero]
      exact hpos
  · have h3 : 0 ≤ D - (0 + 100000) := by linarith [not_lt.mp h1]
    have h4 : D - (0 + 100000) - r < MINIMUM_HIT_DISTANCE := by
      rw [MINIMUM_HIT_DISTANCE]; linarith
    have h5 : D - (0 + 100000) - r < 100000 :=
      lt_trans h4 (by norm_num [MINIMUM_HIT_DISTANCE])
    have hw : agg (ro + ((0 : α) + 100000) • rd) = (D - (0 + 100000) - r, 0) := by
      rw [hagg, abs_of_nonneg h3, if_pos h5]
    have hcap : ¬ ((100000 : α) < MINIMUM_HIT_DISTANCE) := by norm_num [MINIMUM_HIT_DISTANCE]
    rw [if_neg h1, if_neg hcap, if_neg hmax0, march_trace_succ, hw, if_pos h4]
    refine ⟨_, rfl, ?_⟩
    rw [abs_lt, MINIMUM_HIT_DISTANCE]
    constructor <;> linarith [not_lt.mp h1]

end MarchLemmas

/-! ## The scene distance aggregator -/

section Aggregator

variable {α : Type} [LinearOrderedField α]

/-- C1: for every point, scene and active count `n`, `map_the_world` returns the distance
`min(100000, min over i < n of map_the_object(p, objects[i]))` (the running minimum
started at `100000`, which no active object undercuts and which is `100000` or the distance
of an active object); its index is `-1` exactly when no active object has a distance
strictly below `100000`, and otherwise it is an index `i < n` whose object distance is the
returned distance.  Both for `mainNew.js` (any `n`) and for `main.js` (`n = OBJECT_COUNT`). -/
theorem map_the_world_is_minimum (F : MathFns α) (multi : α)
    (objects : Nat → WorldObject α) (p : Vec3 α) :
    (∀ n : Nat,
      (MainNew.map_the_world F multi objects n p).1 =
          (List.range n).foldl
            (fun m i => min m (MainNew.map_the_object F multi p (objects i))) 100000
      ∧ (∀ i, i < n → (MainNew.map_the_world F multi objects n p).1
            ≤ MainNew.map_the_object F multi p (objects i))
      ∧ ((MainNew.map_the_world F multi objects n p).2 = -1 ↔
          ∀ i, i < n → ¬ MainNew.map_the_object F multi p (objects i) < 100000)
      ∧ ((MainNew.map_the_world F multi objects n p).2 ≠ -1 →
          ∃ i, i < n ∧ (MainNew.map_the_world F multi objects n p).2 = (i : Int) ∧
            MainNew.map_the_object F multi p (objects i) =
              (MainNew.map_the_world F multi objects n p).1))
    ∧ ((Main.map_the_world F multi p objects).1 =
          (List.range Main.OBJECT_COUNT).foldl
            (fun m i => min m (Main.map_the_object F multi p (objects i))) 100000
      ∧ (∀ i, i < Main.OBJECT_COUNT → (Main.map_the_world F multi p objects).1
            ≤ Main.map_the_object F multi p (objects i))
      ∧ ((Main.map_the_world F multi p objects).2 = -1 ↔
          ∀ i, i < Main.OBJECT_COUNT → ¬ Main.map_the_object F multi p (objects i) < 100000)
      ∧ ((Main.map_the_world F multi p objects).2 ≠ -1 →
          ∃ i, i < Main.OBJECT_COUNT ∧ (Main.map_the_world F multi p objects).2 = (i : Int) ∧
            Main.map_the_object F multi p (objects i) =
              (Main.map_the_world F multi p objects).1)) := by
  refine ⟨fun n => ?_, ?_⟩
  · rw [mainNew_map_the_world_eq_scan]
    refine ⟨?_, ?_, ?_, ?_⟩
    · rw [scan_fst]; simp
    · intro i hi
      exact (scan_inv _ _ n).le_all i hi (fun h => h)
    · rw [scan_snd_eq_neg_one_iff]
      exact ⟨fun h i hi => h i hi (fun h => h), fun h i hi _ => h i hi⟩
    · intro h
      obtain ⟨j, hj, _, h2, h3, _⟩ := scan_owner _ _ n h
      exact ⟨j, hj, h2, h3⟩
  · rw [main_map_the_world_eq_scan]
    refine ⟨?_, ?_, ?_, ?_⟩
    · rw [scan_fst]; simp
    · intro i hi
      exact (scan_inv _ _ _).le_all i hi (fun h => h)
    · rw [scan_snd_eq_neg_one_iff]
      exact ⟨fun h i hi => h i hi (fun h => h), fun h i hi _ => h i hi⟩
    · intro h
      obtain ⟨j, hj, _, h2, h3, _⟩ := scan_owner _ _ _ h
      exact ⟨j, hj, h2, h3⟩

/-- C2: aggregator tie-break in `mainNew.js`.  When some active object other than the
excluded index `k` lies below `100000`, `map_the_world` returns an index `j < n` that
attains the minimum distance over the active objects and is the lowest index attaining
it, and `map_the_world_skip` returns an index `j < n`, `j ≠ k`, that attains the minimum
over the active objects other than `k` and is the lowest such index attaining it. -/
theorem aggregator_tie_break (F : MathFns α) (multi : α) (objects : Nat → WorldObject α)
    (n : Nat) (p : Vec3 α) (k : Int) (i₀ : Nat) (hi₀ : i₀ < n) (hk : (i₀ : Int) ≠ k)
    (hlt : MainNew.map_the_object F multi p (objects i₀) < 100000) :
    (∃ j, j < n ∧ (MainNew.map_the_world F multi objects n p).2 = (j : Int) ∧
        (∀ i, i < n → MainNew.map_the_object F multi p (objects j)
            ≤ MainNew.map_the_object F multi p (objects i)) ∧
        (∀ i, i < n →
          (∀ i', i' < n → MainNew.map_the_object F multi p (objects i)
            ≤ MainNew.map_the_object F multi p (objects i')) → j ≤ i))
    ∧ (∃ j, j < n ∧ (j : Int) ≠ k ∧
        (MainNew.map_the_world_skip F multi objects n p k).2 = (j : Int) ∧
        (∀ i, i < n → (i : Int) ≠ k → MainNew.map_the_object F multi p (objects j)
            ≤ MainNew.map_the_object F multi p (objects i)) ∧
        (∀ i, i < n → (i : Int) ≠ k →
          (∀ i', i' < n → (i' : Int) ≠ k → MainNew.map_the_object F multi p (objects i)
            ≤ MainNew.map_the_object F multi p (objects i')) → j ≤ i)) := by
  constructor
  · rw [mainNew_map_the_world_eq_scan]
    have hne := scan_lt_of_lt (fun i => MainNew.map_the_object F multi p (objects i))
      (fun _ => False) n i₀ hi₀ (fun h => h) hlt
    obtain ⟨j, hj, _, h2, h3, _, h5⟩ := scan_owner _ _ n hne
    have hall := (scan_inv (fun i => MainNew.map_the_object F multi p (objects i))
      (fun _ => False) n).le_all
    refine ⟨j, hj, h2, ?_, ?_⟩
    · intro i hi
      have := hall i hi (fun h => h)
      rw [h3]; exact this
    · intro i hi hmin
      refine h5 i hi (fun h => h) (le_antisymm ?_ (hall i hi (fun h => h)))
      rw [← h3]; exact hmin j hj
  · rw [mainNew_map_the_world_skip_eq_scan]
    have hne := scan_lt_of_lt (fun i => MainNew.map_the_object F multi p (objects i))
      (fun i => (i : Int) = k) n i₀ hi₀ hk hlt
    obtain ⟨j, hj, hsj, h2, h3, _, h5⟩ := scan_owner _ _ n hne
    have hall := (scan_inv (fun i => MainNew.map_the_object F multi p (objects i))
      (fun i => (i : Int) = k) n).le_all
    refine ⟨j, hj, hsj, h2, ?_, ?_⟩
    · intro i hi hik
      have := hall i hi hik
      rw [h3]; exact this
    · intro i hi hik hmin
      refine h5 i hi hik (le_antisymm ?_ (hall i hi hik))
      rw [← h3]; exact hmin j hj hsj

/-- A witness of C2: two copies of the plane `y = 0` are at the same distance from
`(0, 1, 0)`; `map_the_world` returns index 0. -/
theorem aggregator_tie_break_witness :
    (0 : Nat) < 2 ∧ ((0 : Nat) : Int) ≠ 1 ∧
    MainNew.map_the_object (MathFns.mk Real.sqrt Real.sin Real.cos) 0 ⟨0, 1, 0⟩
      ((fun _ => example_plane (0 : ℝ)) 0) < 100000 ∧
    (MainNew.map_the_world (MathFns.mk Real.sqrt Real.sin Real.cos) 0
      (fun _ => example_plane (0 : ℝ)) 2 ⟨0, 1, 0⟩).2 = 0 := by
  have hlt : MainNew.map_the_object (MathFns.mk Real.sqrt Real.sin Real.cos) 0 ⟨0, 1, 0⟩
      ((fun _ => example_plane (0 : ℝ)) 0) < 100000 := by
    norm_num [MainNew.map_the_object, example_plane, distance_from_plane, dot]
  refine ⟨by decide, by decide, hlt, ?_⟩
  obtain ⟨j, _, h2, _, h4⟩ :=
    (aggregator_tie_break (MathFns.mk Real.sqrt Real.sin Real.cos) 0
      (fun _ => example_plane (0 : ℝ)) 2 ⟨0, 1, 0⟩ 1 0 (by decide) (by decide) hlt).1
  have h0 : j ≤ 0 := h4 0 (by decide) (fun i' _ => le_refl _)
  rw [h2, Nat.le_zero.mp h0]
  rfl

/-- C3: aggregator exclude-index.  For every point, scene, active count `n` and excluded
index `k ≥ 0`, `map_the_world_skip` never returns `k` as the hit index, and its result is the
aggregate over the active objects other than `k` in the same order: the distance is the
running minimum, started at `100000`, over the indices `i < n`, `i ≠ k`; the index is `-1`
exactly when none of them is below `100000`, and otherwise it is the lowest index other than
`k` whose distance is the returned one.  Both for `mainNew.js` and for `main.js`. -/
theorem map_the_world_skip_excludes (F : MathFns α) (multi : α)
    (objects : Nat → WorldObject α) (p : Vec3 α) (k : Int) (hk : 0 ≤ k) :
    (∀ n : Nat,
      (MainNew.map_the_world_skip F multi objects n p k).2 ≠ k
      ∧ (MainNew.map_the_world_skip F multi objects n p k).1 =
          ((List.range n).filter (fun i : Nat => decide ((i : Int) ≠ k))).foldl
            (fun m i => min m (MainNew.map_the_object F multi p (objects i))) 100000
      ∧ (∀ i, i < n → (i : Int) ≠ k → (MainNew.map_the_world_skip F multi objects n p k).1
            ≤ MainNew.map_the_object F multi p (objects i))
      ∧ ((MainNew.map_the_world_skip F multi objects n p k).2 = -1 ↔
          ∀ i, i < n → (i : Int) ≠ k →
            ¬ MainNew.map_the_object F multi p (objects i) < 100000)
      ∧ ((MainNew.map_the_world_skip F multi objects n p k).2 ≠ -1 →
          ∃ j, j < n ∧ (j : Int) ≠ k ∧
            (MainNew.map_the_world_skip F multi objects n p k).2 = (j : Int) ∧
            MainNew.map_the_object F multi p (objects j) =
              (MainNew.map_the_world_skip F multi objects n p k).1 ∧
            ∀ i, i < n → (i : Int) ≠ k →
              MainNew.map_the_object F multi p (objects i) =
                (MainNew.map_the_world_skip F multi objects n p k).1 → j ≤ i))
    ∧ ((Main.map_the_world_skip F multi p objects k).2 ≠ k
      ∧ (Main.map_the_world_skip F multi p objects k).1 =
          ((List.range Main.OBJECT_COUNT).filter (fun i : Nat => decide ((i : Int) ≠ k))).foldl
            (fun m i => min m (Main.map_the_object F multi p (objects i))) 100000
      ∧ (∀ i, i < Main.OBJECT_COUNT → (i : Int) ≠ k →
          (Main.map_the_world_skip F multi p objects k).1
            ≤ Main.map_the_object F multi p (objects i))
      ∧ ((Main.map_the_world_skip F multi p objects k).2 = -1 ↔
          ∀ i, i < Main.OBJECT_COUNT → (i : Int) ≠ k →
            ¬ Main.map_the_object F multi p (objects i) < 100000)
      ∧ ((Main.map_the_world_skip F multi p objects k).2 ≠ -1 →
          ∃ j, j < Main.OBJECT_COUNT ∧ (j : Int) ≠ k ∧
            (Main.map_the_world_skip F multi p objects k).2 = (j : Int) ∧
            Main.map_the_object F multi p (objects j) =
              (Main.map_the_world_skip F multi p objects k).1 ∧
            ∀ i, i < Main.OBJECT_COUNT → (i : Int) ≠ k →
              Main.map_the_object F multi p (objects i) =
                (Main.map_the_world_skip F multi p objects k).1 → j ≤ i)) := by
  refine ⟨fun n => ?_, ?_⟩
  · rw [mainNew_map_the_world_skip_eq_scan]
    exact scan_skip_spec _ k hk n
  · rw [main_map_the_world_skip_eq_scan]
    exact scan_skip_spec _ k hk _

/-- A witness of C3: the planes `y = 0` (index 0) and `y = 1` (index 1) seen from
`(0, 5, 0)`, with index 0 excluded: the index returned is not 0. -/
theorem map_the_world_skip_excludes_witness :
    (0 : Int) ≤ 0 ∧
    (MainNew.map_the_world_skip (MathFns.mk Real.sqrt Real.sin Real.cos) 0
      (fun i => example_plane (i : ℝ)) 2 ⟨0, 5, 0⟩ 0).2 ≠ 0 :=
  ⟨le_refl 0,
    ((map_the_world_skip_excludes (MathFns.mk Real.sqrt Real.sin Real.cos) 0
      (fun i => example_plane (i : ℝ)) ⟨0, 5, 0⟩ 0 (le_refl 0)).1 2).1⟩

/-- C6: in `mainNew.js`, an object (at index `j`) whose type is none of 1.0, 2.0, 3.0, 4.0,
5.0 has distance `1000000000.0` from every point, and neither `map_the_world` nor
`map_the_world_skip` ever returns `j` as the nearest object. -/
theorem unknown_kind_never_nearest (F : MathFns α) (multi : α)
    (objects : Nat → WorldObject α) (j : Nat)
    (h1 : (objects j).type ≠ 1) (h2 : (objects j).type ≠ 2) (h3 : (objects j).type ≠ 3)
    (h4 : (objects j).type ≠ 4) (h5 : (objects j).type ≠ 5) :
    (∀ p, MainNew.map_the_object F multi p (objects j) = 1000000000)
    ∧ (∀ n p, (MainNew.map_the_world F multi objects n p).2 ≠ (j : Int))
    ∧ (∀ n p k, (MainNew.map_the_world_skip F multi objects n p k).2 ≠ (j : Int)) := by
  have hd : ∀ p, MainNew.map_the_object F multi p (objects j) = 1000000000 := by
    intro p
    simp [MainNew.map_the_object, h1, h2, h3, h4, h5]
  have key : ∀ (skip : Nat → Prop) [DecidablePred skip] (n : Nat) (p : Vec3 α),
      (scan (fun i => MainNew.map_the_object F multi p (objects i)) skip n).2 ≠ (j : Int) := by
    intro skip _ n p hj
    have hne : (scan (fun i => MainNew.map_the_object F multi p (objects i)) skip n).2 ≠ -1 := by
      rw [hj]; omega
    obtain ⟨j', _, _, e2, e3, e4, _⟩ := scan_owner _ _ n hne
    rw [hj] at e2
    have hjj : j' = j := by omega
    subst hjj
    rw [← e3] at e4
    simp only [hd] at e4
    norm_num at e4
  refine ⟨hd, fun n p => ?_, fun n p k => ?_⟩
  · rw [mainNew_map_the_world_eq_scan]; exact key _ n p
  · rw [mainNew_map_the_world_skip_eq_scan]; exact key _ n p

/-- A witness of C6: a scene of type-0 objects (the zero-filled slots of the buffer). -/
theorem unknown_kind_never_nearest_witness :
    (example_unknown : WorldObject ℝ).type ≠ 1 ∧
    MainNew.map_the_object (MathFns.mk Real.sqrt Real.sin Real.cos) 0 ⟨0, 0, 0⟩
        (example_unknown : WorldObject ℝ) = 1000000000 ∧
    (MainNew.map_the_world (MathFns.mk Real.sqrt Real.sin Real.cos) 0
        (fun _ => example_unknown) 3 ⟨0, 0, 0⟩).2 ≠ ((2 : Nat) : Int) := by
  have h := unknown_kind_never_nearest (MathFns.mk Real.sqrt Real.sin Real.cos) 0
    (fun _ => (example_unknown : WorldObject ℝ)) 2
    (by norm_num [example_unknown]) (by norm_num [example_unknown])
    (by norm_num [example_unknown]) (by norm_num [example_unknown])
    (by norm_num [example_unknown])
  exact ⟨by norm_num [example_unknown], h.1 ⟨0, 0, 0⟩, h.2.1 3 ⟨0, 0, 0⟩⟩

end Aggregator

/-! ## The distance field evaluator -/

section Evaluator

variable {α : Type} [LinearOrderedField α]

/-- C4: for a sphere object (type 1.0) with centre `c` and radius `r = size.x`,
`map_the_object(p, object) = |p - c| - r` with `|v| = length(v)`; hence it is `0` exactly
when `|p - c| = r`, negative exactly when `|p - c| < r` and positive exactly when
`|p - c| > r`.  Both for `mainNew.js` and for `main.js`. -/
theorem sphere_distance (F : MathFns α) (multi : α) (p : Vec3 α) (object : WorldObject α)
    (h : object.type = 1) :
    (MainNew.map_the_object F multi p object = length F (p - object.center) - object.size.x
      ∧ (MainNew.map_the_object F multi p object = 0 ↔
          length F (p - object.center) = object.size.x)
      ∧ (MainNew.map_the_object F multi p object < 0 ↔
          length F (p - object.center) < object.size.x)
      ∧ (0 < MainNew.map_the_object F multi p object ↔
          object.size.x < length F (p - object.center)))
    ∧ (Main.map_the_object F multi p object = length F (p - object.center) - object.size.x
      ∧ (Main.map_the_object F multi p object = 0 ↔
          length F (p - object.center) = object.size.x)
      ∧ (Main.map_the_object F multi p object < 0 ↔
          length F (p - object.center) < object.size.x)
      ∧ (0 < Main.map_the_object F multi p object ↔
          object.size.x < length F (p - object.center))) := by
  have e1 : MainNew.map_the_object F multi p object
      = length F (p - object.center) - object.size.x := by
    simp [MainNew.map_the_object, h, distance_from_sphere]
  have e2 : Main.map_the_object F multi p object
      = length F (p - object.center) - object.size.x := by
    simp [Main.map_the_object, h, distance_from_sphere]
  rw [e1, e2]
  exact ⟨⟨rfl, sub_eq_zero, sub_neg, sub_pos⟩, ⟨rfl, sub_eq_zero, sub_neg, sub_pos⟩⟩

/-- A witness of C4: the unit sphere at the origin, seen from `(0, 0, -3)`. -/
theorem sphere_distance_witness :
    (example_sphere (1 : ℝ)).type = 1 ∧
    MainNew.map_the_object (MathFns.mk Real.sqrt Real.sin Real.cos) 0 ⟨0, 0, -3⟩
        (example_sphere (1 : ℝ))
      = length (MathFns.mk Real.sqrt Real.sin Real.cos)
          ((⟨0, 0, -3⟩ : Vec3 ℝ) - (example_sphere (1 : ℝ)).center)
        - (example_sphere (1 : ℝ)).size.x :=
  ⟨rfl, (sphere_distance (MathFns.mk Real.sqrt Real.sin Real.cos) 0 ⟨0, 0, -3⟩
    (example_sphere (1 : ℝ)) rfl).1.1⟩

/-- C5: for a box object (type 4.0) whose half-extents are all non-negative,
`map_the_object` at the box centre is `-min(size.x, size.y, size.z)`, given that the
built-in square root maps `0` to `0`.  Both for `mainNew.js` and for `main.js`. -/
theorem box_distance_at_center (F : MathFns α) (multi : α) (object : WorldObject α)
    (hsqrt : F.sqrt 0 = 0) (h : object.type = 4)
    (hx : 0 ≤ object.size.x) (hy : 0 ≤ object.size.y) (hz : 0 ≤ object.size.z) :
    MainNew.map_the_object F multi object.center object
        = -min object.size.x (min object.size.y object.size.z)
    ∧ Main.map_the_object F multi object.center object
        = -min object.size.x (min object.size.y object.size.z) := by
  have hbox : distance_from_box F object.center object.center object.size
      = -min object.size.x (min object.size.y object.size.z) := by
    have hv : vmax (vabs (object.center - object.center) - object.size) (Vec3.splat 0)
        = ⟨0, 0, 0⟩ := by
      ext <;> simp [vmax, vabs, Vec3.splat, hx, hy, hz]
    have hm : max (-object.size.x) (max (-object.size.y) (-object.size.z)) ≤ 0 :=
      max_le (by linarith) (max_le (by linarith) (by linarith))
    simp only [distance_from_box, hv, length, dot]
    simp only [Vec3.sub_x, Vec3.sub_y, Vec3.sub_z, vabs, sub_self, abs_zero, zero_sub,
      mul_zero, add_zero, hsqrt, zero_add, min_eq_left hm]
    rw [max_neg_neg, max_neg_neg]
  have t1 : object.type ≠ 1 := by rw [h]; norm_num
  have t2 : object.type ≠ 2 := by rw [h]; norm_num
  have t3 : object.type ≠ 3 := by rw [h]; norm_num
  constructor
  · simp only [MainNew.map_the_object, if_neg t1, if_neg t2, if_neg t3, if_pos h]
    exact hbox
  · simp only [Main.map_the_object, if_neg t1, if_neg t2, if_neg t3, if_pos h]
    exact hbox

/-- A witness of C5: the box with half-extents `(5, 11, 10)` has distance `-5` at its
centre. -/
theorem box_distance_at_center_witness :
    Real.sqrt 0 = 0 ∧ (example_box (5 : ℝ) 11 10).type = 4 ∧
    (0 : ℝ) ≤ (example_box (5 : ℝ) 11 10).size.x ∧
    (0 : ℝ) ≤ (example_box (5 : ℝ) 11 10).size.y ∧
    (0 : ℝ) ≤ (example_box (5 : ℝ) 11 10).size.z ∧
    MainNew.map_the_object (MathFns.mk Real.sqrt Real.sin Real.cos) 0
        (example_box (5 : ℝ) 11 10).center (example_box (5 : ℝ) 11 10)
      = -min (example_box (5 : ℝ) 11 10).size.x
          (min (example_box (5 : ℝ) 11 10).size.y (example_box (5 : ℝ) 11 10).size.z) :=
  ⟨Real.sqrt_zero, rfl, by norm_num [example_box], by norm_num [example_box],
    by norm_num [example_box],
    (box_distance_at_center (MathFns.mk Real.sqrt Real.sin Real.cos) 0
      (example_box (5 : ℝ) 11 10) Real.sqrt_zero rfl (by norm_num [example_box])
      (by norm_num [example_box]) (by norm_num [example_box])).1⟩

/-- In `main.js` an object of type 0.0 has distance `0.0` from every point; in a world
whose object 3 is of that kind and whose other objects are the plane `y = -10`,
`map_the_world` at the origin returns distance `0` with index `3`, and the loop of
`ray_march` from the origin along `+z` takes the hit branch at its first step, on
object `3`. -/
theorem main_unknown_kind_is_hit (F : MathFns α) (multi : α) (p : Vec3 α) :
    Main.map_the_object F multi p (example_unknown : WorldObject α) = 0
    ∧ Main.map_the_world F multi ⟨0, 0, 0⟩
        (fun i => if i = 3 then example_unknown else example_plane (-10)) = (0, 3)
    ∧ march_trace
        (fun q => Main.map_the_world F multi q
          (fun i => if i = 3 then example_unknown else example_plane (-10)))
        Main.MAXIMUM_TRACE_DISTANCE ⟨0, 0, 0⟩ ⟨0, 0, 1⟩ NUMBER_OF_STEPS 0 = some (0, 3) := by
  have hw : Main.map_the_world F multi ⟨0, 0, 0⟩
      (fun i => if i = 3 then example_unknown else example_plane (-10)) = ((0 : α), (3 : Int)) := by
    rw [main_map_the_world_eq_scan]
    norm_num [Main.OBJECT_COUNT, scan_succ, scan_zero, Main.map_the_object, example_unknown,
      example_plane, distance_from_plane, dot]
  refine ⟨by simp [Main.map_the_object, example_unknown], hw, ?_⟩
  have h0 : (⟨0, 0, 0⟩ : Vec3 α) + (0 : α) • (⟨0, 0, 1⟩ : Vec3 α) = ⟨0, 0, 0⟩ := by
    ext <;> simp
  rw [NUMBER_OF_STEPS, march_trace_succ]
  simp only [h0, hw]
  norm_num [MINIMUM_HIT_DISTANCE]

end Evaluator

/-! ## The raymarcher -/

section Raymarcher

variable {α : Type} [LinearOrderedField α]

/-- C8: raymarch miss.  When every point `origin + t*direction`, `t ≥ 0`, has aggregate
scene distance at least `MINIMUM_HIT_DISTANCE`, `ray_march` returns exactly `(0, 0, 0)`,
in `mainNew.js` and in `main.js` (whether the loop breaks or uses its 256 steps); in
particular `ray_march` of `mainNew.js` returns `(0, 0, 0)` for the empty scene. -/
theorem ray_march_miss :
    (∀ (F : MathFns α) (multi : α) (objects : Nat → WorldObject α) (n : Nat)
        (ro rd : Vec3 α),
        (∀ t : α, 0 ≤ t →
          MINIMUM_HIT_DISTANCE ≤ (MainNew.map_the_world F multi objects n (ro + t • rd)).1) →
        MainNew.ray_march F multi objects n ro rd = ⟨0, 0, 0⟩)
    ∧ (∀ (F : MathFns α) (multi : α) (world : Nat → WorldObject α) (ro rd : Vec3 α),
        (∀ t : α, 0 ≤ t →
          MINIMUM_HIT_DISTANCE ≤ (Main.map_the_world F multi (ro + t • rd) world).1) →
        Main.ray_march F multi ro rd world = ⟨0, 0, 0⟩)
    ∧ (∀ (F : MathFns α) (multi : α) (objects : Nat → WorldObject α) (ro rd : Vec3 α),
        MainNew.ray_march F multi objects 0 ro rd = ⟨0, 0, 0⟩) := by
  have hNew : ∀ (F : MathFns α) (multi : α) (objects : Nat → WorldObject α) (n : Nat)
      (ro rd : Vec3 α),
      (∀ t : α, 0 ≤ t →
        MINIMUM_HIT_DISTANCE ≤ (MainNew.map_the_world F multi objects n (ro + t • rd)).1) →
      MainNew.ray_march F multi objects n ro rd = ⟨0, 0, 0⟩ := by
    intro F multi objects n ro rd hfar
    rw [MainNew.ray_march, mainNew_ray_march_loop_eq,
      march_trace_none _ _ ro rd hfar _ 0 (le_refl 0)]
    rfl
  refine ⟨hNew, ?_, ?_⟩
  · intro F multi world ro rd hfar
    rw [Main.ray_march, main_ray_march_loop_eq,
      march_trace_none _ _ ro rd hfar _ 0 (le_refl 0)]
    rfl
  · intro F multi objects ro rd
    refine hNew F multi objects 0 ro rd (fun t _ => ?_)
    rw [mainNew_map_the_world_eq_scan, scan_zero]
    norm_num [MINIMUM_HIT_DISTANCE]

/-- A witness of C8: a ray along `+z` from the origin stays at distance 10 from the plane
`y = -10`, in a one-plane scene of `mainNew.js` and in a world of `main.js` whose eleven
objects are that plane. -/
theorem ray_march_miss_witness :
    (∀ t : ℝ, 0 ≤ t → MINIMUM_HIT_DISTANCE ≤
      (MainNew.map_the_world (MathFns.mk Real.sqrt Real.sin Real.cos) 0
        (fun _ => example_plane (-10)) 1 ((⟨0, 0, 0⟩ : Vec3 ℝ) + t • ⟨0, 0, 1⟩)).1)
    ∧ MainNew.ray_march (MathFns.mk Real.sqrt Real.sin Real.cos) 0
        (fun _ => example_plane (-10)) 1 (⟨0, 0, 0⟩ : Vec3 ℝ) ⟨0, 0, 1⟩ = ⟨0, 0, 0⟩
    ∧ (∀ t : ℝ, 0 ≤ t → MINIMUM_HIT_DISTANCE ≤
      (Main.map_the_world (MathFns.mk Real.sqrt Real.sin Real.cos) 0
        ((⟨0, 0, 0⟩ : Vec3 ℝ) + t • ⟨0, 0, 1⟩) (fun _ => example_plane (-10))).1)
    ∧ Main.ray_march (MathFns.mk Real.sqrt Real.sin Real.cos) 0
        (⟨0, 0, 0⟩ : Vec3 ℝ) ⟨0, 0, 1⟩ (fun _ => example_plane (-10)) = ⟨0, 0, 0⟩ := by
  have h1 : ∀ t : ℝ, 0 ≤ t → MINIMUM_HIT_DISTANCE ≤
      (MainNew.map_the_world (MathFns.mk Real.sqrt Real.sin Real.cos) 0
        (fun _ => example_plane (-10)) 1 ((⟨0, 0, 0⟩ : Vec3 ℝ) + t • ⟨0, 0, 1⟩)).1 := by
    intro t _
    rw [mainNew_map_the_world_eq_scan]
    refine scan_ge _ _ _ _ (by norm_num [MINIMUM_HIT_DISTANCE]) (fun i _ _ => ?_)
    norm_num [MINIMUM_HIT_DISTANCE, MainNew.map_the_object, example_plane,
      distance_from_plane, dot]
  have h2 : ∀ t : ℝ, 0 ≤ t → MINIMUM_HIT_DISTANCE ≤
      (Main.map_the_world (MathFns.mk Real.sqrt Real.sin Real.cos) 0
        ((⟨0, 0, 0⟩ : Vec3 ℝ) + t • ⟨0, 0, 1⟩) (fun _ => example_plane (-10))).1 := by
    intro t _
    rw [main_map_the_world_eq_scan]
    refine scan_ge _ _ _ _ (by norm_num [MINIMUM_HIT_DISTANCE]) (fun i _ _ => ?_)
    norm_num [MINIMUM_HIT_DISTANCE, Main.map_the_object, example_plane,
      distance_from_plane, dot]
  exact ⟨h1, ray_march_miss.1 _ _ _ _ _ _ h1, h2, ray_march_miss.2.1 _ _ _ _ _ h2⟩

/-- C9, as amended: raymarch hit fidelity.  For a scene of a single sphere of radius
`r ≥ 0`, an origin outside the sphere at distance `D` from its centre with
`D - r < 100000.01`, and the unit direction from the origin to the centre, the loop of
`ray_march` takes the hit branch, on object 0, with `total_distance_traveled = t` such that
`|t - (D - r)| < MINIMUM_HIT_DISTANCE`: in `mainNew.js` with one active object, and in
`main.js`, whose aggregator always scans `OBJECT_COUNT` objects, when all of them are that
sphere.  The built-in square root is assumed to satisfy `sqrt(x*x) = |x|`. -/
theorem sphere_hit_fidelity (F : MathFns α) (hsqrt : ∀ x : α, F.sqrt (x * x) = |x|)
    (multi : α) (objects : Nat → WorldObject α) (ro : Vec3 α) (D : α)
    (hty : (objects 0).type = 1) (hr : 0 ≤ (objects 0).size.x)
    (hD : dot ((objects 0).center - ro) ((objects 0).center - ro) = D * D)
    (hout : (objects 0).size.x < D)
    (hnear : D - (objects 0).size.x < 100000 + 1 / 100) :
    (∃ t : α,
      march_trace (MainNew.map_the_world F multi objects 1) MainNew.MAXIMUM_TRACE_DISTANCE
        ro ((1 / D) • ((objects 0).center - ro)) NUMBER_OF_STEPS 0 = some (t, 0)
      ∧ |t - (D - (objects 0).size.x)| < MINIMUM_HIT_DISTANCE)
    ∧ ((∀ i, i < Main.OBJECT_COUNT → objects i = objects 0) →
      ∃ t : α,
        march_trace (fun q => Main.map_the_world F multi q objects)
          Main.MAXIMUM_TRACE_DISTANCE
          ro ((1 / D) • ((objects 0).center - ro)) NUMBER_OF_STEPS 0 = some (t, 0)
        ∧ |t - (D - (objects 0).size.x)| < MINIMUM_HIT_DISTANCE) := by
  have hD0 : D ≠ 0 := ne_of_gt (lt_of_le_of_lt hr hout)
  constructor
  · exact march_single_sphere _ _ ro _ D _ (by norm_num [MainNew.MAXIMUM_TRACE_DISTANCE])
      (fun t => mainNew_single_sphere_on_ray F hsqrt multi objects ro D t hty hD hD0)
      hr hout hnear
  · intro hall
    exact march_single_sphere _ _ ro _ D _ (by norm_num [Main.MAXIMUM_TRACE_DISTANCE])
      (fun t => main_single_sphere_on_ray F hsqrt multi objects ro D t hty hall hD hD0)
      hr hout hnear

/-- A witness of C9 as amended: the unit sphere at the origin seen from `(0, 0, -3)`, as
the one object of a `mainNew.js` scene and as every object of a `main.js` world. -/
theorem sphere_hit_fidelity_witness :
    (∀ x : ℝ, Real.sqrt (x * x) = |x|) ∧
    ((fun _ => example_sphere (1 : ℝ)) 0).type = 1 ∧
    (0 : ℝ) ≤ ((fun _ => example_sphere (1 : ℝ)) 0).size.x ∧
    dot (((fun _ => example_sphere (1 : ℝ)) 0).center - ⟨0, 0, -3⟩)
      (((fun _ => example_sphere (1 : ℝ)) 0).center - ⟨0, 0, -3⟩) = 3 * 3 ∧
    ((fun _ => example_sphere (1 : ℝ)) 0).size.x < 3 ∧
    (3 : ℝ) - ((fun _ => example_sphere (1 : ℝ)) 0).size.x < 100000 + 1 / 100 ∧
    (∃ t : ℝ,
      march_trace (MainNew.map_the_world (MathFns.mk Real.sqrt Real.sin Real.cos) 0
          (fun _ => example_sphere (1 : ℝ)) 1) MainNew.MAXIMUM_TRACE_DISTANCE
        ⟨0, 0, -3⟩ ((1 / 3 : ℝ) • (((fun _ => example_sphere (1 : ℝ)) 0).center - ⟨0, 0, -3⟩))
        NUMBER_OF_STEPS 0 = some (t, 0)
      ∧ |t - (3 - ((fun _ => example_sphere (1 : ℝ)) 0).size.x)| < MINIMUM_HIT_DISTANCE) ∧
    (∃ t : ℝ,
      march_trace (fun q => Main.map_the_world (MathFns.mk Real.sqrt Real.sin Real.cos) 0 q
          (fun _ => example_sphere (1 : ℝ))) Main.MAXIMUM_TRACE_DISTANCE
        ⟨0, 0, -3⟩ ((1 / 3 : ℝ) • (((fun _ => example_sphere (1 : ℝ)) 0).center - ⟨0, 0, -3⟩))
        NUMBER_OF_STEPS 0 = some (t, 0)
      ∧ |t - (3 - ((fun _ => example_sphere (1 : ℝ)) 0).size.x)| < MINIMUM_HIT_DISTANCE) := by
  have hD : dot (((fun _ => example_sphere (1 : ℝ)) 0).center - ⟨0, 0, -3⟩)
      (((fun _ => example_sphere (1 : ℝ)) 0).center - ⟨0, 0, -3⟩) = 3 * 3 := by
    norm_num [dot, example_sphere]
  have h := sphere_hit_fidelity (MathFns.mk Real.sqrt Real.sin Real.cos)
    Real.sqrt_mul_self_eq_abs 0 (fun _ => example_sphere (1 : ℝ)) ⟨0, 0, -3⟩ 3 rfl
    (by norm_num [example_sphere]) hD (by norm_num [example_sphere])
    (by norm_num [example_sphere])
  exact ⟨Real.sqrt_mul_self_eq_abs, rfl, by norm_num [example_sphere], hD,
    by norm_num [example_sphere], by norm_num [example_sphere], h.1, h.2 (fun _ _ => rfl)⟩

/-- C9 fails as stated: for the unit sphere at the origin and the origin `(0, 0, -100002)`
outside it (`D = 100002`, `r = 1`), with the unit direction `(0, 0, 1)` towards the centre,
the loop of `ray_march` of `mainNew.js` never takes the hit branch (the aggregator caps the
first step at `100000`, one unit short of the surface, and the loop then breaks), and
`ray_march` returns `(0, 0, 0)`. -/
theorem sphere_hit_fidelity_counterexample :
    ((fun _ => example_sphere (1 : ℝ)) 0).type = 1 ∧
    (0 : ℝ) ≤ ((fun _ => example_sphere (1 : ℝ)) 0).size.x ∧
    dot (((fun _ => example_sphere (1 : ℝ)) 0).center - ⟨0, 0, -100002⟩)
      (((fun _ => example_sphere (1 : ℝ)) 0).center - ⟨0, 0, -100002⟩) = 100002 * 100002 ∧
    ((fun _ => example_sphere (1 : ℝ)) 0).size.x < 100002 ∧
    march_trace (MainNew.map_the_world (MathFns.mk Real.sqrt Real.sin Real.cos) 0
        (fun _ => example_sphere (1 : ℝ)) 1) MainNew.MAXIMUM_TRACE_DISTANCE
      ⟨0, 0, -100002⟩
      ((1 / 100002 : ℝ) • (((fun _ => example_sphere (1 : ℝ)) 0).center - ⟨0, 0, -100002⟩))
      NUMBER_OF_STEPS 0 = none ∧
    MainNew.ray_march (MathFns.mk Real.sqrt Real.sin Real.cos) 0
        (fun _ => example_sphere (1 : ℝ)) 1 ⟨0, 0, -100002⟩
        ((1 / 100002 : ℝ) • (((fun _ => example_sphere (1 : ℝ)) 0).center - ⟨0, 0, -100002⟩))
      = ⟨0, 0, 0⟩ := by
  have hD : dot (((fun _ => example_sphere (1 : ℝ)) 0).center - ⟨0, 0, -100002⟩)
      (((fun _ => example_sphere (1 : ℝ)) 0).center - ⟨0, 0, -100002⟩)
        = 100002 * 100002 := by
    norm_num [dot, example_sphere]
  have hagg := mainNew_single_sphere_on_ray (MathFns.mk Real.sqrt Real.sin Real.cos)
    Real.sqrt_mul_self_eq_abs 0 (fun _ => example_sphere (1 : ℝ)) ⟨0, 0, -100002⟩ 100002
  have htrace : march_trace (MainNew.map_the_world (MathFns.mk Real.sqrt Real.sin Real.cos) 0
        (fun _ => example_sphere (1 : ℝ)) 1) MainNew.MAXIMUM_TRACE_DISTANCE
      ⟨0, 0, -100002⟩
      ((1 / 100002 : ℝ) • (((fun _ => example_sphere (1 : ℝ)) 0).center - ⟨0, 0, -100002⟩))
      NUMBER_OF_STEPS 0 = none := by
    have a0 : ¬ (|(100002 : ℝ) - 0| - ((fun _ => example_sphere (1 : ℝ)) 0).size.x < 100000) := by
      norm_num [example_sphere]
    have a1 : |(100002 : ℝ) - (0 + 100000)| - ((fun _ => example_sphere (1 : ℝ)) 0).size.x
        = 1 := by
      norm_num [example_sphere]
    have hw0 := hagg 0 rfl hD (by norm_num)
    rw [if_neg a0] at hw0
    have hw1 := hagg (0 + 100000) rfl hD (by norm_num)
    rw [a1, if_pos (by norm_num)] at hw1
    have c0 : ¬ ((100000 : ℝ) < MINIMUM_HIT_DISTANCE) := by norm_num [MINIMUM_HIT_DISTANCE]
    have c1 : ¬ ((0 : ℝ) > MainNew.MAXIMUM_TRACE_DISTANCE) := by
      norm_num [MainNew.MAXIMUM_TRACE_DISTANCE]
    have c2 : ¬ ((1 : ℝ) < MINIMUM_HIT_DISTANCE) := by norm_num [MINIMUM_HIT_DISTANCE]
    have c3 : (0 + 100000 : ℝ) > MainNew.MAXIMUM_TRACE_DISTANCE := by
      norm_num [MainNew.MAXIMUM_TRACE_DISTANCE]
    rw [show NUMBER_OF_STEPS = 254 + 1 + 1 from rfl, march_trace_succ, hw0, if_neg c0,
      if_neg c1, march_trace_succ, hw1, if_neg c2, if_pos c3]
  refine ⟨rfl, by norm_num [example_sphere], hD, by norm_num [example_sphere], htrace, ?_⟩
  rw [MainNew.ray_march, mainNew_ray_march_loop_eq, htrace]
  rfl

/-- C10: reflection blend.  For every hit of the primary routine `ray_march` (the loop takes
the hit branch at travelled distance `t` on the object of index `idx`) on an object with
transparency `0`, the returned colour is the colour before the fade times
`min(1, 20/t)`, and the colour before the fade is `R*rho + (1 - rho)*L` when the
reflectivity `rho` is positive and `L` when it is `0`, where `L` is the local colour at the
hit and `R` the colour returned by the secondary routine `ray_march2` cast from the hit
position along `reflect_ray(rd, normal)` with the hit index excluded; and
`reflect_ray(rd, normal) = rd - 2*dot(rd, normal)*normal`.  Both for `mainNew.js` and for
`main.js`. -/
theorem reflection_blend :
    (∀ (F : MathFns α) (multi : α) (objects : Nat → WorldObject α) (n : Nat)
        (ro rd : Vec3 α) (t : α) (idx : Int),
        march_trace (MainNew.map_the_world F multi objects n) MainNew.MAXIMUM_TRACE_DISTANCE
          ro rd NUMBER_OF_STEPS 0 = some (t, idx) →
        (objects idx.toNat).transparency = 0 →
        MainNew.ray_march F multi objects n ro rd =
            (MainNew.ray_march_hit_color F multi objects n rd (ro + t • rd)
              (MainNew.map_the_world F multi objects n (ro + t • rd))).muls (min 1 (20 / t))
        ∧ (0 < (objects idx.toNat).reflectivity →
            MainNew.ray_march_hit_color F multi objects n rd (ro + t • rd)
                (MainNew.map_the_world F multi objects n (ro + t • rd)) =
              (MainNew.ray_march2 F multi objects n (ro + t • rd)
                  (reflect_ray rd
                    (MainNew.calculate_normal F multi (ro + t • rd) (objects idx.toNat)))
                  idx).muls (objects idx.toNat).reflectivity
                + (1 - (objects idx.toNat).reflectivity) •
                  local_color F
                    (MainNew.calculate_normal F multi (ro + t • rd) (objects idx.toNat))
                    (ro + t • rd) (objects idx.toNat))
        ∧ ((objects idx.toNat).reflectivity = 0 →
            MainNew.ray_march_hit_color F multi objects n rd (ro + t • rd)
                (MainNew.map_the_world F multi objects n (ro + t • rd)) =
              local_color F
                (MainNew.calculate_normal F multi (ro + t • rd) (objects idx.toNat))
                (ro + t • rd) (objects idx.toNat)))
    ∧ (∀ (F : MathFns α) (multi : α) (world : Nat → WorldObject α)
        (ro rd : Vec3 α) (t : α) (idx : Int),
        march_trace (fun q => Main.map_the_world F multi q world) Main.MAXIMUM_TRACE_DISTANCE
          ro rd NUMBER_OF_STEPS 0 = some (t, idx) →
        (world idx.toNat).transparency = 0 →
        Main.ray_march F multi ro rd world =
            (Main.ray_march_hit_color F multi world rd (ro + t • rd)
              (Main.map_the_world F multi (ro + t • rd) world)).muls (min 1 (20 / t))
        ∧ (0 < (world idx.toNat).reflectivity →
            Main.ray_march_hit_color F multi world rd (ro + t • rd)
                (Main.map_the_world F multi (ro + t • rd) world) =
              (Main.ray_march2 F multi (ro + t • rd)
                  (reflect_ray rd
                    (Main.calculate_normal F multi (ro + t • rd) (world idx.toNat)))
                  world idx).muls (world idx.toNat).reflectivity
                + (1 - (world idx.toNat).reflectivity) •
                  local_color F
                    (Main.calculate_normal F multi (ro + t • rd) (world idx.toNat))
                    (ro + t • rd) (world idx.toNat))
        ∧ ((world idx.toNat).reflectivity = 0 →
            Main.ray_march_hit_color F multi world rd (ro + t • rd)
                (Main.map_the_world F multi (ro + t • rd) world) =
              local_color F
                (Main.calculate_normal F multi (ro + t • rd) (world idx.toNat))
                (ro + t • rd) (world idx.toNat)))
    ∧ (∀ incident normal : Vec3 α,
        reflect_ray incident normal = incident - (2 * dot incident normal) • normal) := by
  refine ⟨?_, ?_, fun _ _ => rfl⟩
  · intro F multi objects n ro rd t idx htrace hτ
    have hidx : idx = (MainNew.map_the_world F multi objects n (ro + t • rd)).2 :=
      (march_trace_some _ _ ro rd _ _ _ htrace).2
    refine ⟨?_, ?_, ?_⟩
    · rw [MainNew.ray_march, mainNew_ray_march_loop_eq, htrace]
      rfl
    · intro hρ
      rw [hidx] at hτ hρ ⊢
      simp only [MainNew.ray_march_hit_color, if_pos hρ, hτ, lt_irrefl, if_false, gt_iff_lt]
    · intro hρ
      rw [hidx] at hτ hρ ⊢
      simp only [MainNew.ray_march_hit_color, hρ, hτ, lt_irrefl, if_false, gt_iff_lt]
  · intro F multi world ro rd t idx htrace hτ
    have hidx : idx = (Main.map_the_world F multi (ro + t • rd) world).2 :=
      (march_trace_some _ _ ro rd _ _ _ htrace).2
    refine ⟨?_, ?_, ?_⟩
    · rw [Main.ray_march, main_ray_march_loop_eq, htrace]
      rfl
    · intro hρ
      rw [hidx] at hτ hρ ⊢
      simp only [Main.ray_march_hit_color, if_pos hρ, hτ, lt_irrefl, if_false, gt_iff_lt]
    · intro hρ
      rw [hidx] at hτ hρ ⊢
      simp only [Main.ray_march_hit_color, hρ, hτ, lt_irrefl, if_false, gt_iff_lt]

/-- A witness of C10: a ray from `(0, 1, 0)` straight down onto the mirror plane `y = 0`
(reflectivity `0.5`, transparency `0`) hits it after travelling `1`, in a one-object scene
of `mainNew.js` and in a world of `main.js` whose eleven objects are that plane. -/
theorem reflection_blend_witness :
    (march_trace (MainNew.map_the_world (MathFns.mk Real.sqrt Real.sin Real.cos) 0
          (fun _ => example_mirror) 1) MainNew.MAXIMUM_TRACE_DISTANCE
        (⟨0, 1, 0⟩ : Vec3 ℝ) ⟨0, -1, 0⟩ NUMBER_OF_STEPS 0 = some (1, 0)
      ∧ ((fun _ => (example_mirror : WorldObject ℝ)) (0 : Int).toNat).transparency = 0
      ∧ 0 < ((fun _ => (example_mirror : WorldObject ℝ)) (0 : Int).toNat).reflectivity
      ∧ MainNew.ray_march_hit_color (MathFns.mk Real.sqrt Real.sin Real.cos) 0
          (fun _ => example_mirror) 1 ⟨0, -1, 0⟩ ((⟨0, 1, 0⟩ : Vec3 ℝ) + (1 : ℝ) • ⟨0, -1, 0⟩)
          (MainNew.map_the_world (MathFns.mk Real.sqrt Real.sin Real.cos) 0
            (fun _ => example_mirror) 1 ((⟨0, 1, 0⟩ : Vec3 ℝ) + (1 : ℝ) • ⟨0, -1, 0⟩)) =
        (MainNew.ray_march2 (MathFns.mk Real.sqrt Real.sin Real.cos) 0
            (fun _ => example_mirror) 1 ((⟨0, 1, 0⟩ : Vec3 ℝ) + (1 : ℝ) • ⟨0, -1, 0⟩)
            (reflect_ray ⟨0, -1, 0⟩
              (MainNew.calculate_normal (MathFns.mk Real.sqrt Real.sin Real.cos) 0
                ((⟨0, 1, 0⟩ : Vec3 ℝ) + (1 : ℝ) • ⟨0, -1, 0⟩)
                ((fun _ => example_mirror) (0 : Int).toNat)))
            0).muls ((fun _ => (example_mirror : WorldObject ℝ)) (0 : Int).toNat).reflectivity
          + (1 - ((fun _ => (example_mirror : WorldObject ℝ)) (0 : Int).toNat).reflectivity) •
            local_color (MathFns.mk Real.sqrt Real.sin Real.cos)
              (MainNew.calculate_normal (MathFns.mk Real.sqrt Real.sin Real.cos) 0
                ((⟨0, 1, 0⟩ : Vec3 ℝ) + (1 : ℝ) • ⟨0, -1, 0⟩)
                ((fun _ => example_mirror) (0 : Int).toNat))
              ((⟨0, 1, 0⟩ : Vec3 ℝ) + (1 : ℝ) • ⟨0, -1, 0⟩)
              ((fun _ => example_mirror) (0 : Int).toNat))
    ∧ (march_trace (fun q => Main.map_the_world (MathFns.mk Real.sqrt Real.sin Real.cos) 0 q
          (fun _ => example_mirror)) Main.MAXIMUM_TRACE_DISTANCE
        (⟨0, 1, 0⟩ : Vec3 ℝ) ⟨0, -1, 0⟩ NUMBER_OF_STEPS 0 = some (1, 0)
      ∧ Main.ray_march (MathFns.mk Real.sqrt Real.sin Real.cos) 0
          (⟨0, 1, 0⟩ : Vec3 ℝ) ⟨0, -1, 0⟩ (fun _ => example_mirror) =
        (Main.ray_march_hit_color (MathFns.mk Real.sqrt Real.sin Real.cos) 0
          (fun _ => example_mirror) ⟨0, -1, 0⟩ ((⟨0, 1, 0⟩ : Vec3 ℝ) + (1 : ℝ) • ⟨0, -1, 0⟩)
          (Main.map_the_world (MathFns.mk Real.sqrt Real.sin Real.cos) 0
            ((⟨0, 1, 0⟩ : Vec3 ℝ) + (1 : ℝ) • ⟨0, -1, 0⟩) (fun _ => example_mirror))).muls
          (min 1 (20 / 1))) := by
  have hτ : ((fun _ => (example_mirror : WorldObject ℝ)) (0 : Int).toNat).transparency = 0 := rfl
  have hρ : 0 < ((fun _ => (example_mirror : WorldObject ℝ)) (0 : Int).toNat).reflectivity := by
    norm_num [example_mirror]
  have p0 : (⟨0, 1, 0⟩ : Vec3 ℝ) + (0 : ℝ) • ⟨0, -1, 0⟩ = ⟨0, 1, 0⟩ := by ext <;> simp
  have p1 : (⟨0, 1, 0⟩ : Vec3 ℝ) + (1 : ℝ) • ⟨0, -1, 0⟩ = ⟨0, 0, 0⟩ := by ext <;> simp
  have c0 : ¬ ((1 : ℝ) < MINIMUM_HIT_DISTANCE) := by norm_num [MINIMUM_HIT_DISTANCE]
  have c1 : (0 : ℝ) < MINIMUM_HIT_DISTANCE := by norm_num [MINIMUM_HIT_DISTANCE]
  have hNew : march_trace (MainNew.map_the_world (MathFns.mk Real.sqrt Real.sin Real.cos) 0
        (fun _ => example_mirror) 1) MainNew.MAXIMUM_TRACE_DISTANCE
      (⟨0, 1, 0⟩ : Vec3 ℝ) ⟨0, -1, 0⟩ NUMBER_OF_STEPS 0 = some (1, 0) := by
    have w0 : MainNew.map_the_world (MathFns.mk Real.sqrt Real.sin Real.cos) 0
        (fun _ => example_mirror) 1 (⟨0, 1, 0⟩ : Vec3 ℝ) = (1, 0) := by
      rw [mainNew_map_the_world_eq_scan]
      norm_num [scan_succ, scan_zero, MainNew.map_the_object, example_mirror,
        distance_from_plane, dot]
    have w1 : MainNew.map_the_world (MathFns.mk Real.sqrt Real.sin Real.cos) 0
        (fun _ => example_mirror) 1 (⟨0, 0, 0⟩ : Vec3 ℝ) = (0, 0) := by
      rw [mainNew_map_the_world_eq_scan]
      norm_num [scan_succ, scan_zero, MainNew.map_the_object, example_mirror,
        distance_from_plane, dot]
    have c2 : ¬ ((0 : ℝ) > MainNew.MAXIMUM_TRACE_DISTANCE) := by
      norm_num [MainNew.MAXIMUM_TRACE_DISTANCE]
    rw [show NUMBER_OF_STEPS = 254 + 1 + 1 from rfl, march_trace_succ, p0, w0, if_neg c0,
      if_neg c2, march_trace_succ, zero_add, p1, w1, if_pos c1]
  have hOld : march_trace (fun q => Main.map_the_world
        (MathFns.mk Real.sqrt Real.sin Real.cos) 0 q (fun _ => example_mirror))
      Main.MAXIMUM_TRACE_DISTANCE (⟨0, 1, 0⟩ : Vec3 ℝ) ⟨0, -1, 0⟩ NUMBER_OF_STEPS 0
        = some (1, 0) := by
    have w0 : Main.map_the_world (MathFns.mk Real.sqrt Real.sin Real.cos) 0
        (⟨0, 1, 0⟩ : Vec3 ℝ) (fun _ => example_mirror) = (1, 0) := by
      rw [main_map_the_world_eq_scan]
      norm_num [Main.OBJECT_COUNT, scan_succ, scan_zero, Main.map_the_object, example_mirror,
        distance_from_plane, dot]
    have w1 : Main.map_the_world (MathFns.mk Real.sqrt Real.sin Real.cos) 0
        (⟨0, 0, 0⟩ : Vec3 ℝ) (fun _ => example_mirror) = (0, 0) := by
      rw [main_map_the_world_eq_scan]
      norm_num [Main.OBJECT_COUNT, scan_succ, scan_zero, Main.map_the_object, example_mirror,
        distance_from_plane, dot]
    have c2 : ¬ ((0 : ℝ) > Main.MAXIMUM_TRACE_DISTANCE) := by
      norm_num [Main.MAXIMUM_TRACE_DISTANCE]
    rw [show NUMBER_OF_STEPS = 254 + 1 + 1 from rfl, march_trace_succ]
    simp only [p0, w0, if_neg c0, if_neg c2]
    rw [march_trace_succ]
    simp only [zero_add, p1, w1, if_pos c1]
  exact ⟨⟨hNew, hτ, hρ, ((reflection_blend (α := ℝ)).1 _ _ _ _ _ _ _ _ hNew hτ).2.1 hρ⟩,
    hOld, ((reflection_blend (α := ℝ)).2.1 _ _ _ _ _ _ _ hOld hτ).1⟩

end Raymarcher

/-! ## Lemmas on hits and colours -/

section HitLemmas

variable {α : Type} [LinearOrderedField α]

@[simp] theorem Vec3.muls_x (a : Vec3 α) (k : α) : (a.muls k).x = a.x * k := rfl
@[simp] theorem Vec3.muls_y (a : Vec3 α) (k : α) : (a.muls k).y = a.y * k := rfl
@[simp] theorem Vec3.muls_z (a : Vec3 α) (k : α) : (a.muls k).z = a.z * k := rfl
@[simp] theorem Vec3.adds_x (a : Vec3 α) (k : α) : (a.adds k).x = a.x + k := rfl
@[simp] theorem Vec3.adds_y (a : Vec3 α) (k : α) : (a.adds k).y = a.y + k := rfl
@[simp] theorem Vec3.adds_z (a : Vec3 α) (k : α) : (a.adds k).z = a.z + k := rfl

theorem Vec3.muls_one (a : Vec3 α) : a.muls 1 = a := by
  ext <;> simp

/-- The hit branch of the primary routine of `mainNew.js`: reflection blend, then
transparency blend, both through `ray_march2` with the hit index excluded. -/
theorem mainNew_hit_color_eq (F : MathFns α) (multi : α) (objects : Nat → WorldObject α)
    (n : Nat) (rd pos : Vec3 α) (dc : α × Int) :
    MainNew.ray_march_hit_color F multi objects n rd pos dc =
      bounce_blend (objects dc.2.toNat).transparency
        (MainNew.ray_march2 F multi objects n pos rd dc.2)
        (bounce_blend (objects dc.2.toNat).reflectivity
          (MainNew.ray_march2 F multi objects n pos
            (reflect_ray rd (MainNew.calculate_normal F multi pos (objects dc.2.toNat))) dc.2)
          (local_color F (MainNew.calculate_normal F multi pos (objects dc.2.toNat)) pos
            (objects dc.2.toNat))) := by
  by_cases h : (objects dc.2.toNat).reflectivity > 0
  · simp only [MainNew.ray_march_hit_color, bounce_blend, if_pos h]
  · simp only [MainNew.ray_march_hit_color, bounce_blend, if_neg h]

/-- The hit branch of the primary routine of `main.js`. -/
theorem main_hit_color_eq (F : MathFns α) (multi : α) (world : Nat → WorldObject α)
    (rd pos : Vec3 α) (dc : α × Int) :
    Main.ray_march_hit_color F multi world rd pos dc =
      bounce_blend (world dc.2.toNat).transparency
        (Main.ray_march2 F multi pos rd world dc.2)
        (bounce_blend (world dc.2.toNat).reflectivity
          (Main.ray_march2 F multi pos
            (reflect_ray rd (Main.calculate_normal F multi pos (world dc.2.toNat))) world dc.2)
          (local_color F (Main.calculate_normal F multi pos (world dc.2.toNat)) pos
            (world dc.2.toNat))) := by
  by_cases h : (world dc.2.toNat).reflectivity > 0
  · simp only [Main.ray_march_hit_color, bounce_blend, if_pos h]
  · simp only [Main.ray_march_hit_color, bounce_blend, if_neg h]

/-- The hit branch of the middle routine of `main.js`. -/
theorem main_hit_color2_eq (F : MathFns α) (multi : α) (world : Nat → WorldObject α)
    (rd pos : Vec3 α) (dc : α × Int) :
    Main.ray_march2_hit_color F multi world rd pos dc =
      bounce_blend (world dc.2.toNat).transparency
        (Main.ray_march3 F multi pos rd world dc.2)
        (bounce_blend (world dc.2.toNat).reflectivity
          (Main.ray_march3 F multi pos
            (reflect_ray rd (Main.calculate_normal F multi pos (world dc.2.toNat))) world dc.2)
          (local_color F (Main.calculate_normal F multi pos (world dc.2.toNat)) pos
            (world dc.2.toNat))) := by
  by_cases h : (world dc.2.toNat).reflectivity > 0
  · simp only [Main.ray_march2_hit_color, bounce_blend, if_pos h]
  · simp only [Main.ray_march2_hit_color, bounce_blend, if_neg h]

/-- What each routine returns at a hit reported by its loop. -/
theorem mainNew_ray_march_of_trace (F : MathFns α) (multi : α)
    (objects : Nat → WorldObject α) (n : Nat) (ro rd : Vec3 α) (h : α × Int)
    (htrace : march_trace (MainNew.map_the_world F multi objects n)
      MainNew.MAXIMUM_TRACE_DISTANCE ro rd NUMBER_OF_STEPS 0 = some h) :
    h.2 = (MainNew.map_the_world F multi objects n (ro + h.1 • rd)).2 ∧
    MainNew.ray_march F multi objects n ro rd =
      (MainNew.ray_march_hit_color F multi objects n rd (ro + h.1 • rd)
        (MainNew.map_the_world F multi objects n (ro + h.1 • rd))).muls (min 1 (20 / h.1)) := by
  refine ⟨(march_trace_some _ _ ro rd _ _ _ htrace).2, ?_⟩
  rw [MainNew.ray_march, mainNew_ray_march_loop_eq, htrace]
  rfl

theorem mainNew_ray_march2_of_trace (F : MathFns α) (multi : α)
    (objects : Nat → WorldObject α) (n : Nat) (ro rd : Vec3 α) (k : Int) (h : α × Int)
    (htrace : march_trace (fun q => MainNew.map_the_world_skip F multi objects n q k)
      MainNew.MAXIMUM_TRACE_DISTANCE ro rd NUMBER_OF_STEPS 0 = some h) :
    h.2 = (MainNew.map_the_world_skip F multi objects n (ro + h.1 • rd) k).2 ∧
    MainNew.ray_march2 F multi objects n ro rd k =
      (local_color F (MainNew.calculate_normal F multi (ro + h.1 • rd) (objects h.2.toNat))
        (ro + h.1 • rd) (objects h.2.toNat)).muls (min 1 (5 / h.1)) := by
  have hidx := (march_trace_some _ _ ro rd _ _ _ htrace).2
  refine ⟨hidx, ?_⟩
  rw [MainNew.ray_march2, mainNew_ray_march2_loop_eq, htrace]
  simp only [Option.elim, MainNew.ray_march2_hit]
  rw [← hidx]

theorem main_ray_march_of_trace (F : MathFns α) (multi : α)
    (world : Nat → WorldObject α) (ro rd : Vec3 α) (h : α × Int)
    (htrace : march_trace (fun q => Main.map_the_world F multi q world)
      Main.MAXIMUM_TRACE_DISTANCE ro rd NUMBER_OF_STEPS 0 = some h) :
    h.2 = (Main.map_the_world F multi (ro + h.1 • rd) world).2 ∧
    Main.ray_march F multi ro rd world =
      (Main.ray_march_hit_color F multi world rd (ro + h.1 • rd)
        (Main.map_the_world F multi (ro + h.1 • rd) world)).muls (min 1 (20 / h.1)) := by
  refine ⟨(march_trace_some _ _ ro rd _ _ _ htrace).2, ?_⟩
  rw [Main.ray_march, main_ray_march_loop_eq, htrace]
  rfl

theorem main_ray_march2_of_trace (F : MathFns α) (multi : α)
    (world : Nat → WorldObject α) (ro rd : Vec3 α) (k : Int) (h : α × Int)
    (htrace : march_trace (fun q => Main.map_the_world_skip F multi q world k)
      Main.MAXIMUM_TRACE_DISTANCE ro rd NUMBER_OF_STEPS 0 = some h) :
    h.2 = (Main.map_the_world_skip F multi (ro + h.1 • rd) world k).2 ∧
    Main.ray_march2 F multi ro rd world k =
      (Main.ray_march2_hit_color F multi world rd (ro + h.1 • rd)
        (Main.map_the_world_skip F multi (ro + h.1 • rd) world k)).muls (min 1 (5 / h.1)) := by
  refine ⟨(march_trace_some _ _ ro rd _ _ _ htrace).2, ?_⟩
  rw [Main.ray_march2, main_ray_march2_loop_eq, htrace]
  rfl

theorem main_ray_march3_of_trace (F : MathFns α) (multi : α)
    (world : Nat → WorldObject α) (ro rd : Vec3 α) (k : Int) (h : α × Int)
    (htrace : march_trace (fun q => Main.map_the_world_skip F multi q world k)
      Main.MAXIMUM_TRACE_DISTANCE ro rd NUMBER_OF_STEPS 0 = some h) :
    h.2 = (Main.map_the_world_skip F multi (ro + h.1 • rd) world k).2 ∧
    Main.ray_march3 F multi ro rd world k =
      (local_color F (Main.calculate_normal F multi (ro + h.1 • rd) (world h.2.toNat))
        (ro + h.1 • rd) (world h.2.toNat)).muls (min 1 (5 / h.1)) := by
  have hidx := (march_trace_some _ _ ro rd _ _ _ htrace).2
  refine ⟨hidx, ?_⟩
  rw [Main.ray_march3, main_ray_march3_loop_eq, htrace]
  simp only [Option.elim, Main.ray_march3_hit]
  rw [← hidx]

/-- The loop over `n > 0` indices whose distances, where they count, are all `v`, with
index `0` not passed over: index `0` owns the minimum when `v` is below `100000`. -/
theorem scan_const_of (d : Nat → α) (skip : Nat → Prop) [DecidablePred skip] (n : Nat) (v : α)
    (hn : 0 < n) (h0 : ¬ skip 0) (hd : ∀ i, i < n → ¬ skip i → d i = v) :
    scan d skip n = if v < 100000 then (v, 0) else (100000, -1) := by
  by_cases hv : v < 100000
  · rw [if_pos hv]
    have hne := scan_lt_of_lt d skip n 0 hn h0 (by rw [hd 0 hn h0]; exact hv)
    obtain ⟨j, hj, hsj, h2, h3, _, h5⟩ := scan_owner d skip n hne
    have hj0 : j = 0 := by
      have := h5 0 hn h0 (by rw [← h3, hd 0 hn h0, hd j hj hsj])
      omega
    subst hj0
    refine Prod.ext ?_ ?_
    · rw [← h3, hd 0 hn h0]
    · rw [h2]; rfl
  · rw [if_neg hv]
    have h1 : (scan d skip n).2 = -1 :=
      (scan_snd_eq_neg_one_iff d skip n).mpr (fun i hi hsi => by rw [hd i hi hsi]; exact hv)
    rcases (scan_inv d skip n).owner with ⟨_, h3⟩ | ⟨j, _, _, h2, _⟩
    · exact Prod.ext h3 h1
    · rw [h2] at h1; omega

/-- The distance of a point from the example floor is its height. -/
theorem floor_distance (F : MathFns α) (multi : α) (q : Vec3 α) (rho tau k : α) (c : Vec3 α) :
    MainNew.map_the_object F multi q (example_floor rho tau k c) = q.y
    ∧ Main.map_the_object F multi q (example_floor rho tau k c) = q.y := by
  constructor
  · norm_num [MainNew.map_the_object, example_floor, distance_from_plane, dot]
  · norm_num [Main.map_the_object, example_floor, distance_from_plane, dot]

theorem mainNew_floor_world (F : MathFns α) (multi : α) (rho tau k : α) (c : Vec3 α)
    (n : Nat) (hn : 0 < n) (q : Vec3 α) (hq : q.y < 100000) :
    MainNew.map_the_world F multi (fun _ => example_floor rho tau k c) n q = (q.y, 0) := by
  rw [mainNew_map_the_world_eq_scan,
    scan_const_of _ _ n q.y hn (fun h => h) (fun i _ _ => (floor_distance F multi q _ _ _ _).1),
    if_pos hq]

theorem mainNew_floor_skip (F : MathFns α) (multi : α) (rho tau k : α) (c : Vec3 α)
    (n : Nat) (hn : 0 < n) (j : Int) (hj : j ≠ 0) (q : Vec3 α) (hq : q.y < 100000) :
    MainNew.map_the_world_skip F multi (fun _ => example_floor rho tau k c) n q j
      = (q.y, 0) := by
  rw [mainNew_map_the_world_skip_eq_scan,
    scan_const_of _ _ n q.y hn (fun h => hj h.symm)
      (fun i _ _ => (floor_distance F multi q _ _ _ _).1),
    if_pos hq]

theorem main_floor_world (F : MathFns α) (multi : α) (rho tau k : α) (c : Vec3 α)
    (q : Vec3 α) (hq : q.y < 100000) :
    Main.map_the_world F multi q (fun _ => example_floor rho tau k c) = (q.y, 0) := by
  rw [main_map_the_world_eq_scan,
    scan_const_of _ _ _ q.y (by decide) (fun h => h)
      (fun i _ _ => (floor_distance F multi q _ _ _ _).2),
    if_pos hq]

theorem main_floor_skip (F : MathFns α) (multi : α) (rho tau k : α) (c : Vec3 α)
    (j : Int) (hj : j ≠ 0) (q : Vec3 α) (hq : q.y < 100000) :
    Main.map_the_world_skip F multi q (fun _ => example_floor rho tau k c) j = (q.y, 0) := by
  rw [main_map_the_world_skip_eq_scan,
    scan_const_of _ _ _ q.y (by decide) (fun h => hj h.symm)
      (fun i _ _ => (floor_distance F multi q _ _ _ _).2),
    if_pos hq]

/-- A march straight down from `(0, 1, 0)` onto a field that is `1` there and `0` at the
origin, both owned by index `0`: the hit branch is taken after travelling `1`. -/
theorem march_drop (agg : Vec3 α → α × Int) (maxd : α) (hmax : 0 ≤ maxd)
    (h0 : agg ⟨0, 1, 0⟩ = (1, 0)) (h1 : agg ⟨0, 0, 0⟩ = (0, 0)) :
    march_trace agg maxd ⟨0, 1, 0⟩ ⟨0, -1, 0⟩ NUMBER_OF_STEPS 0 = some (1, 0) := by
  have p0 : (⟨0, 1, 0⟩ : Vec3 α) + (0 : α) • ⟨0, -1, 0⟩ = ⟨0, 1, 0⟩ := by ext <;> simp
  have p1 : (⟨0, 1, 0⟩ : Vec3 α) + (1 : α) • ⟨0, -1, 0⟩ = ⟨0, 0, 0⟩ := by ext <;> simp
  have c0 : ¬ ((1 : α) < MINIMUM_HIT_DISTANCE) := by norm_num [MINIMUM_HIT_DISTANCE]
  have c1 : (0 : α) < MINIMUM_HIT_DISTANCE := by norm_num [MINIMUM_HIT_DISTANCE]
  have c2 : ¬ ((0 : α) > maxd) := not_lt.mpr hmax
  rw [show NUMBER_OF_STEPS = 254 + 1 + 1 from rfl, march_trace_succ, p0, h0, if_neg c0,
    if_neg c2, march_trace_succ, zero_add, p1, h1, if_pos c1]

/-- The end point of the march straight down from `(0, 1, 0)`. -/
theorem drop_end : (⟨0, 1, 0⟩ : Vec3 α) + (1 : α) • ⟨0, -1, 0⟩ = ⟨0, 0, 0⟩ := by
  ext <;> simp

theorem mainNew_drop_trace (F : MathFns α) (multi : α) (rho tau k : α) (c : Vec3 α)
    (n : Nat) (hn : 0 < n) :
    march_trace (MainNew.map_the_world F multi (fun _ => example_floor rho tau k c) n)
      MainNew.MAXIMUM_TRACE_DISTANCE ⟨0, 1, 0⟩ ⟨0, -1, 0⟩ NUMBER_OF_STEPS 0 = some (1, 0) :=
  march_drop _ _ (by norm_num [MainNew.MAXIMUM_TRACE_DISTANCE])
    (mainNew_floor_world F multi _ _ _ _ n hn ⟨0, 1, 0⟩ (by norm_num))
    (mainNew_floor_world F multi _ _ _ _ n hn ⟨0, 0, 0⟩ (by norm_num))

theorem mainNew_drop_trace_skip (F : MathFns α) (multi : α) (rho tau k : α) (c : Vec3 α)
    (n : Nat) (hn : 0 < n) (j : Int) (hj : j ≠ 0) :
    march_trace
      (fun q => MainNew.map_the_world_skip F multi (fun _ => example_floor rho tau k c) n q j)
      MainNew.MAXIMUM_TRACE_DISTANCE ⟨0, 1, 0⟩ ⟨0, -1, 0⟩ NUMBER_OF_STEPS 0 = some (1, 0) :=
  march_drop _ _ (by norm_num [MainNew.MAXIMUM_TRACE_DISTANCE])
    (mainNew_floor_skip F multi _ _ _ _ n hn j hj ⟨0, 1, 0⟩ (by norm_num))
    (mainNew_floor_skip F multi _ _ _ _ n hn j hj ⟨0, 0, 0⟩ (by norm_num))

theorem main_drop_trace (F : MathFns α) (multi : α) (rho tau k : α) (c : Vec3 α) :
    march_trace (fun q => Main.map_the_world F multi q (fun _ => example_floor rho tau k c))
      Main.MAXIMUM_TRACE_DISTANCE ⟨0, 1, 0⟩ ⟨0, -1, 0⟩ NUMBER_OF_STEPS 0 = some (1, 0) :=
  march_drop _ _ (by norm_num [Main.MAXIMUM_TRACE_DISTANCE])
    (main_floor_world F multi _ _ _ _ ⟨0, 1, 0⟩ (by norm_num))
    (main_floor_world F multi _ _ _ _ ⟨0, 0, 0⟩ (by norm_num))

theorem main_drop_trace_skip (F : MathFns α) (multi : α) (rho tau k : α) (c : Vec3 α)
    (j : Int) (hj : j ≠ 0) :
    march_trace
      (fun q => Main.map_the_world_skip F multi q (fun _ => example_floor rho tau k c) j)
      Main.MAXIMUM_TRACE_DISTANCE ⟨0, 1, 0⟩ ⟨0, -1, 0⟩ NUMBER_OF_STEPS 0 = some (1, 0) :=
  march_drop _ _ (by norm_num [Main.MAXIMUM_TRACE_DISTANCE])
    (main_floor_skip F multi _ _ _ _ j hj ⟨0, 1, 0⟩ (by norm_num))
    (main_floor_skip F multi _ _ _ _ j hj ⟨0, 0, 0⟩ (by norm_num))

/-- The fade factor `min(1, c/t)` for `c > 0` and a travelled distance `t > 0`: it is `1`
up to `t = c` and lies strictly between `0` and `1` beyond. -/
theorem fade_factor (c t : α) (hc : 0 < c) (ht : 0 < t) :
    (t ≤ c → min 1 (c / t) = 1) ∧ (c < t → 0 < min 1 (c / t) ∧ min 1 (c / t) < 1) := by
  constructor
  · intro h
    exact min_eq_left ((one_le_div ht).mpr h)
  · intro h
    have h1 : c / t < 1 := (div_lt_one ht).mpr h
    rw [min_eq_right (le_of_lt h1)]
    exact ⟨div_pos hc ht, h1⟩

/-- The distance to an object depends on its `type`, `center` and `size` only. -/
theorem map_the_object_congr (F : MathFns α) (multi : α) (p : Vec3 α) (a b : WorldObject α)
    (ht : a.type = b.type) (hc : a.center = b.center) (hs : a.size = b.size) :
    MainNew.map_the_object F multi p a = MainNew.map_the_object F multi p b
    ∧ Main.map_the_object F multi p a = Main.map_the_object F multi p b := by
  constructor
  · simp only [MainNew.map_the_object, ht, hc, hs]
  · simp only [Main.map_the_object, ht, hc, hs]

/-- The estimated normal depends on the `type`, `center` and `size` of the object only. -/
theorem calculate_normal_congr (F : MathFns α) (multi : α) (p : Vec3 α) (a b : WorldObject α)
    (ht : a.type = b.type) (hc : a.center = b.center) (hs : a.size = b.size) :
    MainNew.calculate_normal F multi p a = MainNew.calculate_normal F multi p b
    ∧ Main.calculate_normal F multi p a = Main.calculate_normal F multi p b := by
  constructor
  · simp only [MainNew.calculate_normal, fun q => (map_the_object_congr F multi q a b ht hc hs).1]
  · simp only [Main.calculate_normal, fun q => (map_the_object_congr F multi q a b ht hc hs).2]

/-- The local colour depends on the `color` and `diffuse_intensity` of the object only. -/
theorem local_color_congr (F : MathFns α) (n p : Vec3 α) (a b : WorldObject α)
    (hc : a.color = b.color) (hk : a.diffuse_intensity = b.diffuse_intensity) :
    local_color F n p a = local_color F n p b := by
  simp only [local_color, hc, hk]

/-- The aggregator loop depends on the distances of the indices below `n` only. -/
theorem scan_congr (d₁ d₂ : Nat → α) (skip : Nat → Prop) [DecidablePred skip] (n : Nat)
    (h : ∀ i, i < n → d₁ i = d₂ i) : scan d₁ skip n = scan d₂ skip n := by
  induction n with
  | zero => rw [scan_zero, scan_zero]
  | succ n ih =>
    rw [scan_succ, scan_succ, ih (fun i hi => h i (Nat.lt_succ_of_lt hi)),
      h n (Nat.lt_succ_self n)]

/-- The march loop depends on the aggregator through its values only. -/
theorem march_trace_congr (agg₁ agg₂ : Vec3 α → α × Int) (maxd : α) (ro rd : Vec3 α)
    (h : ∀ q, agg₁ q = agg₂ q) (k : Nat) (t : α) :
    march_trace agg₁ maxd ro rd k t = march_trace agg₂ maxd ro rd k t := by
  have e : agg₁ = agg₂ := funext h
  rw [e]

/-- The leaf routine of `main.js` does not read `reflectivity` or `transparency`. -/
theorem main_ray_march3_congr (F : MathFns α) (multi : α) (w₁ w₂ : Nat → WorldObject α)
    (h : ∀ i, SameButBounce (w₁ i) (w₂ i)) (ro rd : Vec3 α) (k : Int) :
    Main.ray_march3 F multi ro rd w₁ k = Main.ray_march3 F multi ro rd w₂ k := by
  have hagg : ∀ q, Main.map_the_world_skip F multi q w₁ k
      = Main.map_the_world_skip F multi q w₂ k := by
    intro q
    rw [main_map_the_world_skip_eq_scan, main_map_the_world_skip_eq_scan]
    exact scan_congr _ _ _ _ (fun i _ =>
      (map_the_object_congr F multi q _ _ (h i).1 (h i).2.1 (h i).2.2.1).2)
  rw [Main.ray_march3, Main.ray_march3, main_ray_march3_loop_eq, main_ray_march3_loop_eq,
    march_trace_congr _ _ _ ro rd hagg]
  cases march_trace (fun q => Main.map_the_world_skip F multi q w₂ k)
      Main.MAXIMUM_TRACE_DISTANCE ro rd NUMBER_OF_STEPS 0 with
  | none => rfl
  | some r =>
    simp only [Option.elim, Main.ray_march3_hit, hagg]
    rw [(calculate_normal_congr F multi _ _ _ (h _).1 (h _).2.1 (h _).2.2.1).2,
      local_color_congr F _ _ _ _ (h _).2.2.2.2.2.2 (h _).2.2.2.2.2.1]

/-- The leaf routine of `mainNew.js` does not read `reflectivity` or `transparency`. -/
theorem mainNew_ray_march2_congr (F : MathFns α) (multi : α) (o₁ o₂ : Nat → WorldObject α)
    (n : Nat) (h : ∀ i, SameButBounce (o₁ i) (o₂ i)) (ro rd : Vec3 α) (k : Int) :
    MainNew.ray_march2 F multi o₁ n ro rd k = MainNew.ray_march2 F multi o₂ n ro rd k := by
  have hagg : ∀ q, MainNew.map_the_world_skip F multi o₁ n q k
      = MainNew.map_the_world_skip F multi o₂ n q k := by
    intro q
    rw [mainNew_map_the_world_skip_eq_scan, mainNew_map_the_world_skip_eq_scan]
    exact scan_congr _ _ _ _ (fun i _ =>
      (map_the_object_congr F multi q _ _ (h i).1 (h i).2.1 (h i).2.2.1).1)
  rw [MainNew.ray_march2, MainNew.ray_march2, mainNew_ray_march2_loop_eq,
    mainNew_ray_march2_loop_eq, march_trace_congr _ _ _ ro rd hagg]
  cases march_trace (fun q => MainNew.map_the_world_skip F multi o₂ n q k)
      MainNew.MAXIMUM_TRACE_DISTANCE ro rd NUMBER_OF_STEPS 0 with
  | none => rfl
  | some r =>
    simp only [Option.elim, MainNew.ray_march2_hit, hagg]
    rw [(calculate_normal_congr F multi _ _ _ (h _).1 (h _).2.1 (h _).2.2.1).1,
      local_color_congr F _ _ _ _ (h _).2.2.2.2.2.2 (h _).2.2.2.2.2.1]

/-- A march that finds distance `1` at its origin and distance `0` one unit further, both
owned by index `0`: the hit branch is taken after travelling `1`. -/
theorem march_two_steps (agg : Vec3 α → α × Int) (maxd : α) (ro rd : Vec3 α) (hmax : 0 ≤ maxd)
    (h0 : agg (ro + (0 : α) • rd) = (1, 0)) (h1 : agg (ro + (1 : α) • rd) = (0, 0)) :
    march_trace agg maxd ro rd NUMBER_OF_STEPS 0 = some (1, 0) := by
  have c0 : ¬ ((1 : α) < MINIMUM_HIT_DISTANCE) := by norm_num [MINIMUM_HIT_DISTANCE]
  have c1 : (0 : α) < MINIMUM_HIT_DISTANCE := by norm_num [MINIMUM_HIT_DISTANCE]
  have c2 : ¬ ((0 : α) > maxd) := not_lt.mpr hmax
  rw [show NUMBER_OF_STEPS = 254 + 1 + 1 from rfl, march_trace_succ, h0, if_neg c0,
    if_neg c2, march_trace_succ, zero_add, h1, if_pos c1]

/-- Normalising a vector that points along `+y`. -/
theorem normalize_axis_y (F : MathFns α) (hsqrt : ∀ x : α, F.sqrt (x * x) = |x|) (a : α)
    (ha : 0 < a) : normalize F ⟨0, a, 0⟩ = ⟨0, 1, 0⟩ := by
  have hl : length F ⟨0, a, 0⟩ = a := by
    simp [length, dot, hsqrt, abs_of_pos ha]
  rw [normalize, hl]
  ext <;> simp [ne_of_gt ha]

/-- The estimated normal of the example floor is `(0, 1, 0)` at every point. -/
theorem floor_normal (F : MathFns α) (hsqrt : ∀ x : α, F.sqrt (x * x) = |x|) (multi : α)
    (p : Vec3 α) (rho tau k : α) (c : Vec3 α) :
    MainNew.calculate_normal F multi p (example_floor rho tau k c) = ⟨0, 1, 0⟩ := by
  have e : (⟨(p + ⟨1 / 1000, 0, 0⟩).y - (p - ⟨1 / 1000, 0, 0⟩).y,
      (p + ⟨0, 1 / 1000, 0⟩).y - (p - ⟨0, 1 / 1000, 0⟩).y,
      (p + ⟨0, 0, 1 / 1000⟩).y - (p - ⟨0, 0, 1 / 1000⟩).y⟩ : Vec3 α) = ⟨0, 1 / 500, 0⟩ := by
    ext <;> simp
    ring
  simp only [MainNew.calculate_normal,
    fun q => (floor_distance F multi q rho tau k c).1, e]
  exact normalize_axis_y F hsqrt _ (by norm_num)

/-- The local colour of a white object with diffuse intensity `0` is white. -/
theorem local_color_white (F : MathFns α) (n p : Vec3 α) (o : WorldObject α)
    (hc : o.color = ⟨1, 1, 1⟩) (hk : o.diffuse_intensity = 0) :
    local_color F n p o = ⟨1, 1, 1⟩ := by
  have hx : ¬ ((1 : α) = -2) := by norm_num
  simp only [local_color, hc, hk, if_neg hx]
  ext <;> simp

/-- The corner scene seen by a secondary ray that excludes the wall: the floor alone. -/
theorem corner_skip_wall (F : MathFns α) (multi : α) (q : Vec3 α) (hq : q.y < 100000) :
    MainNew.map_the_world_skip F multi example_corner 2 q 1 = (q.y, 0) := by
  rw [mainNew_map_the_world_skip_eq_scan,
    scan_const_of _ _ 2 q.y (by decide) (by decide) (fun i hi hs => ?_), if_pos hq]
  have hi0 : i = 0 := by
    have : (i : Int) ≠ 1 := hs
    omega
  subst hi0
  exact (floor_distance F multi q _ _ _ _).1

/-- In the corner scene the secondary ray from `(1, 1, 0)` along `(-1, -1, 0)`, cast with
the wall excluded, hits the floor after travelling `1`. -/
theorem corner_secondary_trace (F : MathFns α) (multi : α) :
    march_trace (fun q => MainNew.map_the_world_skip F multi example_corner 2 q 1)
      MainNew.MAXIMUM_TRACE_DISTANCE ⟨1, 1, 0⟩ ⟨-1, -1, 0⟩ NUMBER_OF_STEPS 0 = some (1, 0) := by
  refine march_two_steps _ _ _ _ (by norm_num [MainNew.MAXIMUM_TRACE_DISTANCE]) ?_ ?_
  · have := corner_skip_wall F multi ((⟨1, 1, 0⟩ : Vec3 α) + (0 : α) • ⟨-1, -1, 0⟩)
      (by norm_num)
    simpa using this
  · have := corner_skip_wall F multi ((⟨1, 1, 0⟩ : Vec3 α) + (1 : α) • ⟨-1, -1, 0⟩)
      (by norm_num)
    simpa using this

/-- In the corner scene the further ray from the floor hit along the mirror direction
`(-1, 1, 0)`, cast with the floor excluded, moves away from the wall and returns black. -/
theorem corner_further_ray (F : MathFns α) (multi : α) :
    MainNew.ray_march2 F multi example_corner 2
      ((⟨1, 1, 0⟩ : Vec3 α) + (1 : α) • ⟨-1, -1, 0⟩)
      (reflect_ray ⟨-1, -1, 0⟩ ⟨0, 1, 0⟩) 0 = Vec3.splat 0 := by
  have hdir : reflect_ray (⟨-1, -1, 0⟩ : Vec3 α) ⟨0, 1, 0⟩ = ⟨-1, 1, 0⟩ := by
    ext <;> norm_num [reflect_ray, dot]
  have hfar : ∀ t : α, 0 ≤ t → MINIMUM_HIT_DISTANCE ≤
      (MainNew.map_the_world_skip F multi example_corner 2
        (((⟨1, 1, 0⟩ : Vec3 α) + (1 : α) • ⟨-1, -1, 0⟩) + t • ⟨-1, 1, 0⟩) 0).1 := by
    intro t ht
    rw [mainNew_map_the_world_skip_eq_scan]
    refine scan_ge _ _ _ _ (by norm_num [MINIMUM_HIT_DISTANCE]) (fun i hi hs => ?_)
    have hi1 : i = 1 := by
      have : (i : Int) ≠ 0 := hs
      omega
    subst hi1
    norm_num [MINIMUM_HIT_DISTANCE, MainNew.map_the_object, example_corner, example_wall,
      distance_from_plane, dot]
    linarith
  rw [hdir, MainNew.ray_march2, mainNew_ray_march2_loop_eq,
    march_trace_none _ _ _ _ hfar _ 0 (le_refl 0)]
  rfl

end HitLemmas

/-! ## Lemmas on the square root and on normals -/

section NormalLemmas

variable {α : Type} [LinearOrderedField α]

theorem dot_self_nonneg (v : Vec3 α) : 0 ≤ dot v v := by
  unfold dot
  nlinarith [mul_self_nonneg v.x, mul_self_nonneg v.y, mul_self_nonneg v.z]

theorem dot_self_pos (v : Vec3 α) (hv : v ≠ ⟨0, 0, 0⟩) : 0 < dot v v := by
  rcases lt_or_eq_of_le (dot_self_nonneg v) with h | h
  · exact h
  · exfalso
    apply hv
    unfold dot at h
    have hx : v.x * v.x = 0 := by
      nlinarith [mul_self_nonneg v.x, mul_self_nonneg v.y, mul_self_nonneg v.z]
    have hy : v.y * v.y = 0 := by
      nlinarith [mul_self_nonneg v.x, mul_self_nonneg v.y, mul_self_nonneg v.z]
    have hz : v.z * v.z = 0 := by
      nlinarith [mul_self_nonneg v.x, mul_self_nonneg v.y, mul_self_nonneg v.z]
    ext
    · exact mul_self_eq_zero.mp hx
    · exact mul_self_eq_zero.mp hy
    · exact mul_self_eq_zero.mp hz

theorem IsSqrt.sqrt_zero {F : MathFns α} (hF : IsSqrt F) : F.sqrt 0 = 0 :=
  mul_self_eq_zero.mp (hF 0 (le_refl 0)).2

theorem IsSqrt.sqrt_mul_self {F : MathFns α} (hF : IsSqrt F) (x : α) :
    F.sqrt (x * x) = |x| := by
  obtain ⟨h0, h1⟩ := hF (x * x) (mul_self_nonneg x)
  have h2 : F.sqrt (x * x) * F.sqrt (x * x) = |x| * |x| := by rw [h1, abs_mul_abs_self]
  exact (mul_self_inj h0 (abs_nonneg x)).mp h2

theorem IsSqrt.sqrt_one {F : MathFns α} (hF : IsSqrt F) : F.sqrt 1 = 1 := by
  have h := hF.sqrt_mul_self 1
  rwa [mul_one, abs_one] at h

/-- The estimated normal is the normalised vector of central differences. -/
theorem calculate_normal_eq (F : MathFns α) (multi : α) (p : Vec3 α) (o : WorldObject α) :
    MainNew.calculate_normal F multi p o = normalize F (MainNew.gradient F multi p o)
    ∧ Main.calculate_normal F multi p o = normalize F (Main.gradient F multi p o) :=
  ⟨rfl, rfl⟩

/-- The squared length of a normalised vector: `1` for a non-zero vector. -/
theorem dot_normalize (F : MathFns α) (hF : IsSqrt F) (v : Vec3 α) (hv : v ≠ ⟨0, 0, 0⟩) :
    dot (normalize F v) (normalize F v) = 1 := by
  have hpos := dot_self_pos v hv
  obtain ⟨h0, h1⟩ := hF (dot v v) (le_of_lt hpos)
  have hL : F.sqrt (dot v v) ≠ 0 := by
    intro h
    rw [h, mul_zero] at h1
    exact absurd h1.symm (ne_of_gt hpos)
  have e : dot (normalize F v) (normalize F v)
      = (1 / F.sqrt (dot v v)) * (1 / F.sqrt (dot v v)) * dot v v := by
    simp only [normalize, length, dot, Vec3.smul_x, Vec3.smul_y, Vec3.smul_z]
    ring
  rw [e]
  nth_rewrite 3 [← h1]
  field_simp

/-- A normalised non-zero vector has length `1`. -/
theorem length_normalize (F : MathFns α) (hF : IsSqrt F) (v : Vec3 α) (hv : v ≠ ⟨0, 0, 0⟩) :
    length F (normalize F v) = 1 := by
  rw [length, dot_normalize F hF v hv, hF.sqrt_one]

/-- Normalising the zero vector gives the zero vector (division by zero is zero here). -/
theorem normalize_zero (F : MathFns α) : normalize F (⟨0, 0, 0⟩ : Vec3 α) = ⟨0, 0, 0⟩ := by
  ext <;> simp [normalize]

/-- The distance of a point from the example sphere. -/
theorem sphere_object_distance (F : MathFns α) (multi : α) (q : Vec3 α) (r : α) :
    MainNew.map_the_object F multi q (example_sphere r)
      = F.sqrt (q.x * q.x + q.y * q.y + q.z * q.z) - r := by
  simp [MainNew.map_the_object, example_sphere, distance_from_sphere, length, dot]

/-- The built-in square root of the reals is a square root. -/
theorem real_isSqrt : IsSqrt (MathFns.mk Real.sqrt Real.sin Real.cos) :=
  fun x hx => ⟨Real.sqrt_nonneg x, Real.mul_self_sqrt hx⟩

end NormalLemmas

/-! ## Shading and recursion -/

section Shading

variable {α : Type} [LinearOrderedField α]

/-- C11: reflection then transparency.  For every hit of the primary routine `ray_march`
(the loop takes the hit branch at travelled distance `t` on the object of index `idx`) on
an object with transparency `tau > 0`, the returned colour is the colour before the fade
times `min(1, 20/t)`, and the colour before the fade is
`T*tau + (1 - tau)*(R*rho + (1 - rho)*L)` when the reflectivity `rho` is positive and
`T*tau + (1 - tau)*L` when it is `0`, where `L` is the local colour, `R` the secondary ray
`ray_march2` along the mirror direction and `T` the secondary ray `ray_march2` along the
original direction `rd`, both cast from the hit position with the hit index excluded.  Both
for `mainNew.js` and for `main.js`. -/
theorem reflection_then_transparency :
    (∀ (F : MathFns α) (multi : α) (objects : Nat → WorldObject α) (n : Nat)
        (ro rd : Vec3 α) (t : α) (idx : Int),
        march_trace (MainNew.map_the_world F multi objects n) MainNew.MAXIMUM_TRACE_DISTANCE
          ro rd NUMBER_OF_STEPS 0 = some (t, idx) →
        0 < (objects idx.toNat).transparency →
        MainNew.ray_march F multi objects n ro rd =
            (MainNew.ray_march_hit_color F multi objects n rd (ro + t • rd)
              (MainNew.map_the_world F multi objects n (ro + t • rd))).muls (min 1 (20 / t))
        ∧ (0 < (objects idx.toNat).reflectivity →
            MainNew.ray_march_hit_color F multi objects n rd (ro + t • rd)
                (MainNew.map_the_world F multi objects n (ro + t • rd)) =
              (MainNew.ray_march2 F multi objects n (ro + t • rd) rd idx).muls
                  (objects idx.toNat).transparency
                + (1 - (objects idx.toNat).transparency) •
                  ((MainNew.ray_march2 F multi objects n (ro + t • rd)
                      (reflect_ray rd
                        (MainNew.calculate_normal F multi (ro + t • rd) (objects idx.toNat)))
                      idx).muls (objects idx.toNat).reflectivity
                    + (1 - (objects idx.toNat).reflectivity) •
                      local_color F
                        (MainNew.calculate_normal F multi (ro + t • rd) (objects idx.toNat))
                        (ro + t • rd) (objects idx.toNat)))
        ∧ ((objects idx.toNat).reflectivity = 0 →
            MainNew.ray_march_hit_color F multi objects n rd (ro + t • rd)
                (MainNew.map_the_world F multi objects n (ro + t • rd)) =
              (MainNew.ray_march2 F multi objects n (ro + t • rd) rd idx).muls
                  (objects idx.toNat).transparency
                + (1 - (objects idx.toNat).transparency) •
                  local_color F
                    (MainNew.calculate_normal F multi (ro + t • rd) (objects idx.toNat))
                    (ro + t • rd) (objects idx.toNat)))
    ∧ (∀ (F : MathFns α) (multi : α) (world : Nat → WorldObject α)
        (ro rd : Vec3 α) (t : α) (idx : Int),
        march_trace (fun q => Main.map_the_world F multi q world) Main.MAXIMUM_TRACE_DISTANCE
          ro rd NUMBER_OF_STEPS 0 = some (t, idx) →
        0 < (world idx.toNat).transparency →
        Main.ray_march F multi ro rd world =
            (Main.ray_march_hit_color F multi world rd (ro + t • rd)
              (Main.map_the_world F multi (ro + t • rd) world)).muls (min 1 (20 / t))
        ∧ (0 < (world idx.toNat).reflectivity →
            Main.ray_march_hit_color F multi world rd (ro + t • rd)
                (Main.map_the_world F multi (ro + t • rd) world) =
              (Main.ray_march2 F multi (ro + t • rd) rd world idx).muls
                  (world idx.toNat).transparency
                + (1 - (world idx.toNat).transparency) •
                  ((Main.ray_march2 F multi (ro + t • rd)
                      (reflect_ray rd
                        (Main.calculate_normal F multi (ro + t • rd) (world idx.toNat)))
                      world idx).muls (world idx.toNat).reflectivity
                    + (1 - (world idx.toNat).reflectivity) •
                      local_color F
                        (Main.calculate_normal F multi (ro + t • rd) (world idx.toNat))
                        (ro + t • rd) (world idx.toNat)))
        ∧ ((world idx.toNat).reflectivity = 0 →
            Main.ray_march_hit_color F multi world rd (ro + t • rd)
                (Main.map_the_world F multi (ro + t • rd) world) =
              (Main.ray_march2 F multi (ro + t • rd) rd world idx).muls
                  (world idx.toNat).transparency
                + (1 - (world idx.toNat).transparency) •
                  local_color F
                    (Main.calculate_normal F multi (ro + t • rd) (world idx.toNat))
                    (ro + t • rd) (world idx.toNat))) := by
  constructor
  · intro F multi objects n ro rd t idx htrace hτ
    obtain ⟨hidx, hret⟩ := mainNew_ray_march_of_trace F multi objects n ro rd (t, idx) htrace
    simp only at hidx hret
    refine ⟨hret, ?_, ?_⟩
    · intro hρ
      rw [mainNew_hit_color_eq, ← hidx, bounce_blend, bounce_blend, if_pos hτ, if_pos hρ]
    · intro hρ
      rw [mainNew_hit_color_eq, ← hidx, bounce_blend, bounce_blend, if_pos hτ,
        if_neg (by rw [hρ]; exact lt_irrefl 0)]
  · intro F multi world ro rd t idx htrace hτ
    obtain ⟨hidx, hret⟩ := main_ray_march_of_trace F multi world ro rd (t, idx) htrace
    simp only at hidx hret
    refine ⟨hret, ?_, ?_⟩
    · intro hρ
      rw [main_hit_color_eq, ← hidx, bounce_blend, bounce_blend, if_pos hτ, if_pos hρ]
    · intro hρ
      rw [main_hit_color_eq, ← hidx, bounce_blend, bounce_blend, if_pos hτ,
        if_neg (by rw [hρ]; exact lt_irrefl 0)]

/-- A witness of C11: a ray from `(0, 1, 0)` straight down onto the floor `y = 0` with
reflectivity `0.5` and transparency `0.25` hits it after travelling `1`, in a one-object
scene of `mainNew.js` and in a world of `main.js` whose objects are all that floor. -/
theorem reflection_then_transparency_witness :
    (march_trace (MainNew.map_the_world (MathFns.mk Real.sqrt Real.sin Real.cos) 0 (fun _ => example_floor (1 / 2) (1 / 4) 0 ⟨1, 1, 1⟩ : Nat → WorldObject ℝ) 1)
        MainNew.MAXIMUM_TRACE_DISTANCE (⟨0, 1, 0⟩ : Vec3 ℝ) ⟨0, -1, 0⟩ NUMBER_OF_STEPS 0
          = some (1, 0)
      ∧ (0 : ℝ) < ((fun _ => example_floor (1 / 2) (1 / 4) 0 ⟨1, 1, 1⟩ : Nat → WorldObject ℝ) (0 : Int).toNat).transparency
      ∧ (0 : ℝ) < ((fun _ => example_floor (1 / 2) (1 / 4) 0 ⟨1, 1, 1⟩ : Nat → WorldObject ℝ) (0 : Int).toNat).reflectivity
      ∧ MainNew.ray_march_hit_color (MathFns.mk Real.sqrt Real.sin Real.cos) 0 (fun _ => example_floor (1 / 2) (1 / 4) 0 ⟨1, 1, 1⟩ : Nat → WorldObject ℝ) 1 ⟨0, -1, 0⟩ ((⟨0, 1, 0⟩ : Vec3 ℝ) + (1 : ℝ) • ⟨0, -1, 0⟩)
          (MainNew.map_the_world (MathFns.mk Real.sqrt Real.sin Real.cos) 0 (fun _ => example_floor (1 / 2) (1 / 4) 0 ⟨1, 1, 1⟩ : Nat → WorldObject ℝ) 1 ((⟨0, 1, 0⟩ : Vec3 ℝ) + (1 : ℝ) • ⟨0, -1, 0⟩)) =
        (MainNew.ray_march2 (MathFns.mk Real.sqrt Real.sin Real.cos) 0 (fun _ => example_floor (1 / 2) (1 / 4) 0 ⟨1, 1, 1⟩ : Nat → WorldObject ℝ) 1 ((⟨0, 1, 0⟩ : Vec3 ℝ) + (1 : ℝ) • ⟨0, -1, 0⟩) ⟨0, -1, 0⟩ 0).muls ((fun _ => example_floor (1 / 2) (1 / 4) 0 ⟨1, 1, 1⟩ : Nat → WorldObject ℝ) (0 : Int).toNat).transparency
          + (1 - ((fun _ => example_floor (1 / 2) (1 / 4) 0 ⟨1, 1, 1⟩ : Nat → WorldObject ℝ) (0 : Int).toNat).transparency) •
            ((MainNew.ray_march2 (MathFns.mk Real.sqrt Real.sin Real.cos) 0 (fun _ => example_floor (1 / 2) (1 / 4) 0 ⟨1, 1, 1⟩ : Nat → WorldObject ℝ) 1 ((⟨0, 1, 0⟩ : Vec3 ℝ) + (1 : ℝ) • ⟨0, -1, 0⟩)
                (reflect_ray ⟨0, -1, 0⟩ (MainNew.calculate_normal (MathFns.mk Real.sqrt Real.sin Real.cos) 0 ((⟨0, 1, 0⟩ : Vec3 ℝ) + (1 : ℝ) • ⟨0, -1, 0⟩) ((fun _ => example_floor (1 / 2) (1 / 4) 0 ⟨1, 1, 1⟩ : Nat → WorldObject ℝ) (0 : Int).toNat)))
                0).muls ((fun _ => example_floor (1 / 2) (1 / 4) 0 ⟨1, 1, 1⟩ : Nat → WorldObject ℝ) (0 : Int).toNat).reflectivity
              + (1 - ((fun _ => example_floor (1 / 2) (1 / 4) 0 ⟨1, 1, 1⟩ : Nat → WorldObject ℝ) (0 : Int).toNat).reflectivity) •
                local_color (MathFns.mk Real.sqrt Real.sin Real.cos) (MainNew.calculate_normal (MathFns.mk Real.sqrt Real.sin Real.cos) 0 ((⟨0, 1, 0⟩ : Vec3 ℝ) + (1 : ℝ) • ⟨0, -1, 0⟩) ((fun _ => example_floor (1 / 2) (1 / 4) 0 ⟨1, 1, 1⟩ : Nat → WorldObject ℝ) (0 : Int).toNat)) ((⟨0, 1, 0⟩ : Vec3 ℝ) + (1 : ℝ) • ⟨0, -1, 0⟩) ((fun _ => example_floor (1 / 2) (1 / 4) 0 ⟨1, 1, 1⟩ : Nat → WorldObject ℝ) (0 : Int).toNat)))
    ∧ (march_trace (fun q => Main.map_the_world (MathFns.mk Real.sqrt Real.sin Real.cos) 0 q (fun _ => example_floor (1 / 2) (1 / 4) 0 ⟨1, 1, 1⟩ : Nat → WorldObject ℝ))
        Main.MAXIMUM_TRACE_DISTANCE (⟨0, 1, 0⟩ : Vec3 ℝ) ⟨0, -1, 0⟩ NUMBER_OF_STEPS 0
          = some (1, 0)
      ∧ Main.ray_march (MathFns.mk Real.sqrt Real.sin Real.cos) 0 (⟨0, 1, 0⟩ : Vec3 ℝ) ⟨0, -1, 0⟩ (fun _ => example_floor (1 / 2) (1 / 4) 0 ⟨1, 1, 1⟩ : Nat → WorldObject ℝ) =
        (Main.ray_march_hit_color (MathFns.mk Real.sqrt Real.sin Real.cos) 0 (fun _ => example_floor (1 / 2) (1 / 4) 0 ⟨1, 1, 1⟩ : Nat → WorldObject ℝ) ⟨0, -1, 0⟩ ((⟨0, 1, 0⟩ : Vec3 ℝ) + (1 : ℝ) • ⟨0, -1, 0⟩)
          (Main.map_the_world (MathFns.mk Real.sqrt Real.sin Real.cos) 0 ((⟨0, 1, 0⟩ : Vec3 ℝ) + (1 : ℝ) • ⟨0, -1, 0⟩) (fun _ => example_floor (1 / 2) (1 / 4) 0 ⟨1, 1, 1⟩ : Nat → WorldObject ℝ))).muls (min 1 (20 / 1))) := by
  have hτ : (0 : ℝ) < ((fun _ => example_floor (1 / 2) (1 / 4) 0 ⟨1, 1, 1⟩ : Nat → WorldObject ℝ) (0 : Int).toNat).transparency := by
    norm_num [example_floor]
  have hρ : (0 : ℝ) < ((fun _ => example_floor (1 / 2) (1 / 4) 0 ⟨1, 1, 1⟩ : Nat → WorldObject ℝ) (0 : Int).toNat).reflectivity := by
    norm_num [example_floor]
  have hNew := mainNew_drop_trace (MathFns.mk Real.sqrt Real.sin Real.cos) (0 : ℝ) (1 / 2) (1 / 4) 0 ⟨1, 1, 1⟩ 1 (by decide)
  have hOld := main_drop_trace (MathFns.mk Real.sqrt Real.sin Real.cos) (0 : ℝ) (1 / 2) (1 / 4) 0 ⟨1, 1, 1⟩
  exact ⟨⟨hNew, hτ, hρ,
      ((reflection_then_transparency (α := ℝ)).1 _ _ _ _ _ _ _ _ hNew hτ).2.1 hρ⟩,
    hOld, ((reflection_then_transparency (α := ℝ)).2 _ _ _ _ _ _ _ hOld hτ).1⟩

/-- C12: sentinel colour.  For an object with `color.x == -2.0` the local colour is
`normal*0.5 + 0.5` componentwise, whatever the hit position (through which alone the light
enters) and whatever the other fields of the object; hence at a hit of the primary routine
`ray_march` on such an object with reflectivity and transparency `0`, and at a hit of the
leaf routine (`ray_march2` in `mainNew.js`, `ray_march3` in `main.js`) on such an object
of any material, the returned colour is `normal*0.5 + 0.5` times the fade, `normal` being
`calculate_normal` at the hit position for the hit object. -/
theorem sentinel_color :
    (∀ (F : MathFns α) (normal pos : Vec3 α) (o : WorldObject α), o.color.x = -2 →
        local_color F normal pos o = (normal.muls (1 / 2)).adds (1 / 2))
    ∧ (∀ (F : MathFns α) (normal pos₁ pos₂ : Vec3 α) (o₁ o₂ : WorldObject α),
        o₁.color.x = -2 → o₂.color.x = -2 →
        local_color F normal pos₁ o₁ = local_color F normal pos₂ o₂)
    ∧ (∀ (F : MathFns α) (multi : α) (objects : Nat → WorldObject α) (n : Nat)
        (ro rd : Vec3 α) (t : α) (idx : Int),
        march_trace (MainNew.map_the_world F multi objects n) MainNew.MAXIMUM_TRACE_DISTANCE
          ro rd NUMBER_OF_STEPS 0 = some (t, idx) →
        (objects idx.toNat).color.x = -2 → (objects idx.toNat).reflectivity = 0 →
        (objects idx.toNat).transparency = 0 →
        MainNew.ray_march F multi objects n ro rd =
          (((MainNew.calculate_normal F multi (ro + t • rd) (objects idx.toNat)).muls
            (1 / 2)).adds (1 / 2)).muls (min 1 (20 / t)))
    ∧ (∀ (F : MathFns α) (multi : α) (world : Nat → WorldObject α)
        (ro rd : Vec3 α) (t : α) (idx : Int),
        march_trace (fun q => Main.map_the_world F multi q world) Main.MAXIMUM_TRACE_DISTANCE
          ro rd NUMBER_OF_STEPS 0 = some (t, idx) →
        (world idx.toNat).color.x = -2 → (world idx.toNat).reflectivity = 0 →
        (world idx.toNat).transparency = 0 →
        Main.ray_march F multi ro rd world =
          (((Main.calculate_normal F multi (ro + t • rd) (world idx.toNat)).muls
            (1 / 2)).adds (1 / 2)).muls (min 1 (20 / t)))
    ∧ (∀ (F : MathFns α) (multi : α) (objects : Nat → WorldObject α) (n : Nat)
        (ro rd : Vec3 α) (k : Int) (t : α) (idx : Int),
        march_trace (fun q => MainNew.map_the_world_skip F multi objects n q k)
          MainNew.MAXIMUM_TRACE_DISTANCE ro rd NUMBER_OF_STEPS 0 = some (t, idx) →
        (objects idx.toNat).color.x = -2 →
        MainNew.ray_march2 F multi objects n ro rd k =
          (((MainNew.calculate_normal F multi (ro + t • rd) (objects idx.toNat)).muls
            (1 / 2)).adds (1 / 2)).muls (min 1 (5 / t)))
    ∧ (∀ (F : MathFns α) (multi : α) (world : Nat → WorldObject α)
        (ro rd : Vec3 α) (k : Int) (t : α) (idx : Int),
        march_trace (fun q => Main.map_the_world_skip F multi q world k)
          Main.MAXIMUM_TRACE_DISTANCE ro rd NUMBER_OF_STEPS 0 = some (t, idx) →
        (world idx.toNat).color.x = -2 →
        Main.ray_march3 F multi ro rd world k =
          (((Main.calculate_normal F multi (ro + t • rd) (world idx.toNat)).muls
            (1 / 2)).adds (1 / 2)).muls (min 1 (5 / t))) := by
  have hloc : ∀ (F : MathFns α) (normal pos : Vec3 α) (o : WorldObject α), o.color.x = -2 →
      local_color F normal pos o = (normal.muls (1 / 2)).adds (1 / 2) := by
    intro F normal pos o h
    simp only [local_color, if_pos h]
  refine ⟨hloc, ?_, ?_, ?_, ?_, ?_⟩
  · intro F normal pos₁ pos₂ o₁ o₂ h₁ h₂
    rw [hloc F normal pos₁ o₁ h₁, hloc F normal pos₂ o₂ h₂]
  · intro F multi objects n ro rd t idx htrace hc hρ hτ
    obtain ⟨hidx, hret⟩ := mainNew_ray_march_of_trace F multi objects n ro rd (t, idx) htrace
    simp only at hidx hret
    rw [hret, mainNew_hit_color_eq, ← hidx, bounce_blend, bounce_blend, hτ, hρ,
      if_neg (lt_irrefl 0), if_neg (lt_irrefl 0), hloc _ _ _ _ hc]
  · intro F multi world ro rd t idx htrace hc hρ hτ
    obtain ⟨hidx, hret⟩ := main_ray_march_of_trace F multi world ro rd (t, idx) htrace
    simp only at hidx hret
    rw [hret, main_hit_color_eq, ← hidx, bounce_blend, bounce_blend, hτ, hρ,
      if_neg (lt_irrefl 0), if_neg (lt_irrefl 0), hloc _ _ _ _ hc]
  · intro F multi objects n ro rd k t idx htrace hc
    rw [(mainNew_ray_march2_of_trace F multi objects n ro rd k (t, idx) htrace).2]
    simp only
    rw [hloc _ _ _ _ hc]
  · intro F multi world ro rd k t idx htrace hc
    rw [(main_ray_march3_of_trace F multi world ro rd k (t, idx) htrace).2]
    simp only
    rw [hloc _ _ _ _ hc]

/-- A witness of C12: a ray from `(0, 1, 0)` straight down onto a floor whose colour is the
sentinel `(-2, -2, -2)`, marched by the primary routine and by the leaf routine of
`mainNew.js`. -/
theorem sentinel_color_witness :
    march_trace (MainNew.map_the_world (MathFns.mk Real.sqrt Real.sin Real.cos) 0 (fun _ => example_floor 0 0 0 ⟨-2, -2, -2⟩ : Nat → WorldObject ℝ) 1)
        MainNew.MAXIMUM_TRACE_DISTANCE (⟨0, 1, 0⟩ : Vec3 ℝ) ⟨0, -1, 0⟩ NUMBER_OF_STEPS 0
          = some (1, 0)
    ∧ ((fun _ => example_floor 0 0 0 ⟨-2, -2, -2⟩ : Nat → WorldObject ℝ) (0 : Int).toNat).color.x = -2 ∧ ((fun _ => example_floor 0 0 0 ⟨-2, -2, -2⟩ : Nat → WorldObject ℝ) (0 : Int).toNat).reflectivity = 0 ∧ ((fun _ => example_floor 0 0 0 ⟨-2, -2, -2⟩ : Nat → WorldObject ℝ) (0 : Int).toNat).transparency = 0
    ∧ MainNew.ray_march (MathFns.mk Real.sqrt Real.sin Real.cos) 0 (fun _ => example_floor 0 0 0 ⟨-2, -2, -2⟩ : Nat → WorldObject ℝ) 1 (⟨0, 1, 0⟩ : Vec3 ℝ) ⟨0, -1, 0⟩ =
        (((MainNew.calculate_normal (MathFns.mk Real.sqrt Real.sin Real.cos) 0 ((⟨0, 1, 0⟩ : Vec3 ℝ) + (1 : ℝ) • ⟨0, -1, 0⟩) ((fun _ => example_floor 0 0 0 ⟨-2, -2, -2⟩ : Nat → WorldObject ℝ) (0 : Int).toNat)).muls (1 / 2)).adds (1 / 2)).muls
          (min 1 (20 / 1))
    ∧ march_trace (fun q => MainNew.map_the_world_skip (MathFns.mk Real.sqrt Real.sin Real.cos) 0 (fun _ => example_floor 0 0 0 ⟨-2, -2, -2⟩ : Nat → WorldObject ℝ) 2 q 1)
        MainNew.MAXIMUM_TRACE_DISTANCE (⟨0, 1, 0⟩ : Vec3 ℝ) ⟨0, -1, 0⟩ NUMBER_OF_STEPS 0
          = some (1, 0)
    ∧ MainNew.ray_march2 (MathFns.mk Real.sqrt Real.sin Real.cos) 0 (fun _ => example_floor 0 0 0 ⟨-2, -2, -2⟩ : Nat → WorldObject ℝ) 2 (⟨0, 1, 0⟩ : Vec3 ℝ) ⟨0, -1, 0⟩ 1 =
        (((MainNew.calculate_normal (MathFns.mk Real.sqrt Real.sin Real.cos) 0 ((⟨0, 1, 0⟩ : Vec3 ℝ) + (1 : ℝ) • ⟨0, -1, 0⟩) ((fun _ => example_floor 0 0 0 ⟨-2, -2, -2⟩ : Nat → WorldObject ℝ) (0 : Int).toNat)).muls (1 / 2)).adds (1 / 2)).muls
          (min 1 (5 / 1)) := by
  have hNew := mainNew_drop_trace (MathFns.mk Real.sqrt Real.sin Real.cos) (0 : ℝ) 0 0 0 ⟨-2, -2, -2⟩ 1 (by decide)
  have hLeaf := mainNew_drop_trace_skip (MathFns.mk Real.sqrt Real.sin Real.cos) (0 : ℝ) 0 0 0 ⟨-2, -2, -2⟩ 2 (by decide) 1
    (by decide)
  exact ⟨hNew, rfl, rfl, rfl,
    (sentinel_color (α := ℝ)).2.2.1 _ _ _ _ _ _ _ _ hNew rfl rfl rfl, hLeaf,
    (sentinel_color (α := ℝ)).2.2.2.2.1 _ _ _ _ _ _ _ _ _ hLeaf rfl⟩

/-- C13: diffuse shading.  For an object with `color.x != -2.0`, the local colour at a
position `p` with normal `n` is `color*(1 - k) + color*d*k` with `k = diffuse_intensity`
and `d = max(0, dot(n, normalize(p - (15, 15, -5))))`; it is `color` when `k = 0`; neither
it nor the estimated normal depends on `is_negated` or `has_shadow`; and at a hit of the
leaf routine `ray_march2` of `mainNew.js` on such an object the returned colour is
that local colour, with `n = calculate_normal`, times the fade. -/
theorem diffuse_shading :
    (∀ (F : MathFns α) (n p : Vec3 α) (o : WorldObject α), o.color.x ≠ -2 →
        local_color F n p o =
          o.color.muls (1 - o.diffuse_intensity)
            + (o.color.muls (max 0 (dot n (normalize F (p - ⟨15, 15, -5⟩))))).muls
                o.diffuse_intensity)
    ∧ (∀ (F : MathFns α) (n p : Vec3 α) (o : WorldObject α), o.color.x ≠ -2 →
        o.diffuse_intensity = 0 → local_color F n p o = o.color)
    ∧ (∀ (F : MathFns α) (multi : α) (n p : Vec3 α) (o : WorldObject α) (a b : α),
        local_color F n p { o with is_negated := a, has_shadow := b } = local_color F n p o
        ∧ MainNew.calculate_normal F multi p { o with is_negated := a, has_shadow := b }
            = MainNew.calculate_normal F multi p o
        ∧ Main.calculate_normal F multi p { o with is_negated := a, has_shadow := b }
            = Main.calculate_normal F multi p o)
    ∧ (∀ (F : MathFns α) (multi : α) (objects : Nat → WorldObject α) (n : Nat)
        (ro rd : Vec3 α) (k : Int) (t : α) (idx : Int),
        march_trace (fun q => MainNew.map_the_world_skip F multi objects n q k)
          MainNew.MAXIMUM_TRACE_DISTANCE ro rd NUMBER_OF_STEPS 0 = some (t, idx) →
        (objects idx.toNat).color.x ≠ -2 →
        MainNew.ray_march2 F multi objects n ro rd k =
          ((objects idx.toNat).color.muls (1 - (objects idx.toNat).diffuse_intensity)
            + ((objects idx.toNat).color.muls
                (max 0 (dot (MainNew.calculate_normal F multi (ro + t • rd) (objects idx.toNat))
                  (normalize F (ro + t • rd - ⟨15, 15, -5⟩))))).muls
                (objects idx.toNat).diffuse_intensity).muls (min 1 (5 / t))) := by
  have hloc : ∀ (F : MathFns α) (n p : Vec3 α) (o : WorldObject α), o.color.x ≠ -2 →
      local_color F n p o =
        o.color.muls (1 - o.diffuse_intensity)
          + (o.color.muls (max 0 (dot n (normalize F (p - ⟨15, 15, -5⟩))))).muls
              o.diffuse_intensity := by
    intro F n p o h
    simp only [local_color, if_neg h, light_position]
  refine ⟨hloc, ?_, ?_, ?_⟩
  · intro F n p o h hk
    rw [hloc F n p o h, hk]
    ext <;> simp
  · intro F multi n p o a b
    exact ⟨rfl, rfl, rfl⟩
  · intro F multi objects n ro rd k t idx htrace hc
    rw [(mainNew_ray_march2_of_trace F multi objects n ro rd k (t, idx) htrace).2]
    simp only
    rw [hloc _ _ _ _ hc]

/-- A witness of C13: a ray from `(0, 1, 0)` straight down onto a floor of colour
`(1, 0.9, 0.9)` with diffuse intensity `0.6`, marched by the leaf routine of
`mainNew.js`. -/
theorem diffuse_shading_witness :
    march_trace (fun q => MainNew.map_the_world_skip (MathFns.mk Real.sqrt Real.sin Real.cos) 0 (fun _ => example_floor 0 0 (6 / 10) ⟨1, 9 / 10, 9 / 10⟩ : Nat → WorldObject ℝ) 2 q 1)
        MainNew.MAXIMUM_TRACE_DISTANCE (⟨0, 1, 0⟩ : Vec3 ℝ) ⟨0, -1, 0⟩ NUMBER_OF_STEPS 0
          = some (1, 0)
    ∧ ((fun _ => example_floor 0 0 (6 / 10) ⟨1, 9 / 10, 9 / 10⟩ : Nat → WorldObject ℝ) (0 : Int).toNat).color.x ≠ -2
    ∧ MainNew.ray_march2 (MathFns.mk Real.sqrt Real.sin Real.cos) 0 (fun _ => example_floor 0 0 (6 / 10) ⟨1, 9 / 10, 9 / 10⟩ : Nat → WorldObject ℝ) 2 (⟨0, 1, 0⟩ : Vec3 ℝ) ⟨0, -1, 0⟩ 1 =
        (((fun _ => example_floor 0 0 (6 / 10) ⟨1, 9 / 10, 9 / 10⟩ : Nat → WorldObject ℝ) (0 : Int).toNat).color.muls (1 - ((fun _ => example_floor 0 0 (6 / 10) ⟨1, 9 / 10, 9 / 10⟩ : Nat → WorldObject ℝ) (0 : Int).toNat).diffuse_intensity)
          + (((fun _ => example_floor 0 0 (6 / 10) ⟨1, 9 / 10, 9 / 10⟩ : Nat → WorldObject ℝ) (0 : Int).toNat).color.muls
              (max 0 (dot (MainNew.calculate_normal (MathFns.mk Real.sqrt Real.sin Real.cos) 0 ((⟨0, 1, 0⟩ : Vec3 ℝ) + (1 : ℝ) • ⟨0, -1, 0⟩) ((fun _ => example_floor 0 0 (6 / 10) ⟨1, 9 / 10, 9 / 10⟩ : Nat → WorldObject ℝ) (0 : Int).toNat))
                (normalize (MathFns.mk Real.sqrt Real.sin Real.cos) (((⟨0, 1, 0⟩ : Vec3 ℝ) + (1 : ℝ) • ⟨0, -1, 0⟩) - ⟨15, 15, -5⟩))))).muls
              ((fun _ => example_floor 0 0 (6 / 10) ⟨1, 9 / 10, 9 / 10⟩ : Nat → WorldObject ℝ) (0 : Int).toNat).diffuse_intensity).muls (min 1 (5 / 1)) := by
  have hc : ((fun _ => example_floor 0 0 (6 / 10) ⟨1, 9 / 10, 9 / 10⟩ : Nat → WorldObject ℝ) (0 : Int).toNat).color.x ≠ -2 := by
    norm_num [example_floor]
  have hLeaf := mainNew_drop_trace_skip (MathFns.mk Real.sqrt Real.sin Real.cos) (0 : ℝ) 0 0 (6 / 10) ⟨1, 9 / 10, 9 / 10⟩ 2
    (by decide) 1 (by decide)
  exact ⟨hLeaf, hc, (diffuse_shading (α := ℝ)).2.2.2 _ _ _ _ _ _ _ _ _ hLeaf hc⟩

/-- C14: distance fade.  At a hit at travelled distance `t > 0`, the primary routine
`ray_march` returns the colour before the fade times `min(1, 20/t)`, and the recursive
routines (`ray_march2` of `mainNew.js`, `ray_march2` and `ray_march3` of `main.js`) return
the colour before the fade times `min(1, 5/t)`; hence the colour is returned unattenuated
for `t ≤ 20` (primary) and `t ≤ 5` (recursive), and beyond that the factor lies strictly
between `0` and `1`. -/
theorem distance_fade :
    (∀ (F : MathFns α) (multi : α) (objects : Nat → WorldObject α) (n : Nat) (ro rd : Vec3 α) (t : α) (idx : Int),
        march_trace (MainNew.map_the_world F multi objects n) MainNew.MAXIMUM_TRACE_DISTANCE
          ro rd NUMBER_OF_STEPS 0 = some (t, idx) → 0 < t →
        MainNew.ray_march F multi objects n ro rd = (MainNew.ray_march_hit_color F multi objects n rd (ro + t • rd)
            (MainNew.map_the_world F multi objects n (ro + t • rd))).muls (min 1 (20 / t))
        ∧ (t ≤ 20 → MainNew.ray_march F multi objects n ro rd = MainNew.ray_march_hit_color F multi objects n rd (ro + t • rd)
            (MainNew.map_the_world F multi objects n (ro + t • rd)))
        ∧ (20 < t → 0 < min 1 ((20 : α) / t) ∧ min 1 ((20 : α) / t) < 1))
    ∧ (∀ (F : MathFns α) (multi : α) (world : Nat → WorldObject α) (ro rd : Vec3 α) (t : α) (idx : Int),
        march_trace (fun q => Main.map_the_world F multi q world) Main.MAXIMUM_TRACE_DISTANCE
          ro rd NUMBER_OF_STEPS 0 = some (t, idx) → 0 < t →
        Main.ray_march F multi ro rd world = (Main.ray_march_hit_color F multi world rd (ro + t • rd)
            (Main.map_the_world F multi (ro + t • rd) world)).muls (min 1 (20 / t))
        ∧ (t ≤ 20 → Main.ray_march F multi ro rd world = Main.ray_march_hit_color F multi world rd (ro + t • rd)
            (Main.map_the_world F multi (ro + t • rd) world))
        ∧ (20 < t → 0 < min 1 ((20 : α) / t) ∧ min 1 ((20 : α) / t) < 1))
    ∧ (∀ (F : MathFns α) (multi : α) (objects : Nat → WorldObject α) (n : Nat) (ro rd : Vec3 α) (k : Int) (t : α) (idx : Int),
        march_trace (fun q => MainNew.map_the_world_skip F multi objects n q k)
          MainNew.MAXIMUM_TRACE_DISTANCE ro rd NUMBER_OF_STEPS 0 = some (t, idx) → 0 < t →
        MainNew.ray_march2 F multi objects n ro rd k = (local_color F (MainNew.calculate_normal F multi (ro + t • rd) (objects idx.toNat))
            (ro + t • rd) (objects idx.toNat)).muls (min 1 (5 / t))
        ∧ (t ≤ 5 → MainNew.ray_march2 F multi objects n ro rd k = local_color F (MainNew.calculate_normal F multi (ro + t • rd) (objects idx.toNat))
            (ro + t • rd) (objects idx.toNat))
        ∧ (5 < t → 0 < min 1 ((5 : α) / t) ∧ min 1 ((5 : α) / t) < 1))
    ∧ (∀ (F : MathFns α) (multi : α) (world : Nat → WorldObject α) (ro rd : Vec3 α) (k : Int) (t : α) (idx : Int),
        march_trace (fun q => Main.map_the_world_skip F multi q world k)
          Main.MAXIMUM_TRACE_DISTANCE ro rd NUMBER_OF_STEPS 0 = some (t, idx) → 0 < t →
        Main.ray_march2 F multi ro rd world k = (Main.ray_march2_hit_color F multi world rd (ro + t • rd)
            (Main.map_the_world_skip F multi (ro + t • rd) world k)).muls (min 1 (5 / t))
        ∧ (t ≤ 5 → Main.ray_march2 F multi ro rd world k = Main.ray_march2_hit_color F multi world rd (ro + t • rd)
            (Main.map_the_world_skip F multi (ro + t • rd) world k))
        ∧ (5 < t → 0 < min 1 ((5 : α) / t) ∧ min 1 ((5 : α) / t) < 1))
    ∧ (∀ (F : MathFns α) (multi : α) (world : Nat → WorldObject α) (ro rd : Vec3 α) (k : Int) (t : α) (idx : Int),
        march_trace (fun q => Main.map_the_world_skip F multi q world k)
          Main.MAXIMUM_TRACE_DISTANCE ro rd NUMBER_OF_STEPS 0 = some (t, idx) → 0 < t →
        Main.ray_march3 F multi ro rd world k = (local_color F (Main.calculate_normal F multi (ro + t • rd) (world idx.toNat))
            (ro + t • rd) (world idx.toNat)).muls (min 1 (5 / t))
        ∧ (t ≤ 5 → Main.ray_march3 F multi ro rd world k = local_color F (Main.calculate_normal F multi (ro + t • rd) (world idx.toNat))
            (ro + t • rd) (world idx.toNat))
        ∧ (5 < t → 0 < min 1 ((5 : α) / t) ∧ min 1 ((5 : α) / t) < 1)) := by
  have key : ∀ (c t : α) (r X : Vec3 α), 0 < c → 0 < t → r = X.muls (min 1 (c / t)) →
      r = X.muls (min 1 (c / t)) ∧ (t ≤ c → r = X)
        ∧ (c < t → 0 < min 1 (c / t) ∧ min 1 (c / t) < 1) := by
    intro c t r X hc ht hr
    refine ⟨hr, fun h => ?_, (fade_factor c t hc ht).2⟩
    rw [hr, (fade_factor c t hc ht).1 h, Vec3.muls_one]
  refine ⟨?_, ?_, ?_, ?_, ?_⟩
  · intro F multi objects n ro rd t idx htrace ht
    exact key 20 t _ _ (by norm_num) ht
      (mainNew_ray_march_of_trace F multi objects n ro rd (t, idx) htrace).2
  · intro F multi world ro rd t idx htrace ht
    exact key 20 t _ _ (by norm_num) ht
      (main_ray_march_of_trace F multi world ro rd (t, idx) htrace).2
  · intro F multi objects n ro rd k t idx htrace ht
    exact key 5 t _ _ (by norm_num) ht
      (mainNew_ray_march2_of_trace F multi objects n ro rd k (t, idx) htrace).2
  · intro F multi world ro rd k t idx htrace ht
    exact key 5 t _ _ (by norm_num) ht
      (main_ray_march2_of_trace F multi world ro rd k (t, idx) htrace).2
  · intro F multi world ro rd k t idx htrace ht
    exact key 5 t _ _ (by norm_num) ht
      (main_ray_march3_of_trace F multi world ro rd k (t, idx) htrace).2

/-- A witness of C14: a hit after travelling `1` is returned unattenuated by the primary
routine and by the leaf routine of `mainNew.js`. -/
theorem distance_fade_witness :
    march_trace (MainNew.map_the_world (MathFns.mk Real.sqrt Real.sin Real.cos) 0 (fun _ => example_floor 0 0 (6 / 10) ⟨1, 9 / 10, 9 / 10⟩ : Nat → WorldObject ℝ) 1)
        MainNew.MAXIMUM_TRACE_DISTANCE (⟨0, 1, 0⟩ : Vec3 ℝ) ⟨0, -1, 0⟩ NUMBER_OF_STEPS 0
          = some (1, 0)
    ∧ (0 : ℝ) < 1 ∧ (1 : ℝ) ≤ 20
    ∧ MainNew.ray_march (MathFns.mk Real.sqrt Real.sin Real.cos) 0 (fun _ => example_floor 0 0 (6 / 10) ⟨1, 9 / 10, 9 / 10⟩ : Nat → WorldObject ℝ) 1 (⟨0, 1, 0⟩ : Vec3 ℝ) ⟨0, -1, 0⟩ =
        MainNew.ray_march_hit_color (MathFns.mk Real.sqrt Real.sin Real.cos) 0 (fun _ => example_floor 0 0 (6 / 10) ⟨1, 9 / 10, 9 / 10⟩ : Nat → WorldObject ℝ) 1 ⟨0, -1, 0⟩ ((⟨0, 1, 0⟩ : Vec3 ℝ) + (1 : ℝ) • ⟨0, -1, 0⟩)
          (MainNew.map_the_world (MathFns.mk Real.sqrt Real.sin Real.cos) 0 (fun _ => example_floor 0 0 (6 / 10) ⟨1, 9 / 10, 9 / 10⟩ : Nat → WorldObject ℝ) 1 ((⟨0, 1, 0⟩ : Vec3 ℝ) + (1 : ℝ) • ⟨0, -1, 0⟩))
    ∧ march_trace (fun q => MainNew.map_the_world_skip (MathFns.mk Real.sqrt Real.sin Real.cos) 0 (fun _ => example_floor 0 0 (6 / 10) ⟨1, 9 / 10, 9 / 10⟩ : Nat → WorldObject ℝ) 2 q 1)
        MainNew.MAXIMUM_TRACE_DISTANCE (⟨0, 1, 0⟩ : Vec3 ℝ) ⟨0, -1, 0⟩ NUMBER_OF_STEPS 0
          = some (1, 0)
    ∧ (1 : ℝ) ≤ 5
    ∧ MainNew.ray_march2 (MathFns.mk Real.sqrt Real.sin Real.cos) 0 (fun _ => example_floor 0 0 (6 / 10) ⟨1, 9 / 10, 9 / 10⟩ : Nat → WorldObject ℝ) 2 (⟨0, 1, 0⟩ : Vec3 ℝ) ⟨0, -1, 0⟩ 1 =
        local_color (MathFns.mk Real.sqrt Real.sin Real.cos) (MainNew.calculate_normal (MathFns.mk Real.sqrt Real.sin Real.cos) 0 ((⟨0, 1, 0⟩ : Vec3 ℝ) + (1 : ℝ) • ⟨0, -1, 0⟩) ((fun _ => example_floor 0 0 (6 / 10) ⟨1, 9 / 10, 9 / 10⟩ : Nat → WorldObject ℝ) (0 : Int).toNat)) ((⟨0, 1, 0⟩ : Vec3 ℝ) + (1 : ℝ) • ⟨0, -1, 0⟩) ((fun _ => example_floor 0 0 (6 / 10) ⟨1, 9 / 10, 9 / 10⟩ : Nat → WorldObject ℝ) (0 : Int).toNat) := by
  have hNew := mainNew_drop_trace (MathFns.mk Real.sqrt Real.sin Real.cos) (0 : ℝ) 0 0 (6 / 10) ⟨1, 9 / 10, 9 / 10⟩ 1 (by decide)
  have hLeaf := mainNew_drop_trace_skip (MathFns.mk Real.sqrt Real.sin Real.cos) (0 : ℝ) 0 0 (6 / 10) ⟨1, 9 / 10, 9 / 10⟩ 2
    (by decide) 1 (by decide)
  exact ⟨hNew, by norm_num, by norm_num,
    ((distance_fade (α := ℝ)).1 _ _ _ _ _ _ _ _ hNew (by norm_num)).2.1 (by norm_num),
    hLeaf, by norm_num,
    ((distance_fade (α := ℝ)).2.2.1 _ _ _ _ _ _ _ _ _ hLeaf (by norm_num)).2.1 (by norm_num)⟩

/-- C17: bounded recursion in `main.js`.  The hit branch of the primary routine
`ray_march` blends bounce rays cast through `ray_march2` only, the hit branch of
`ray_march2` blends bounce rays cast through `ray_march3` only, and the hit branch of
`ray_march3` returns the local colour times the fade and casts no ray; and for two worlds
that differ only in the `reflectivity` and `transparency` fields of their objects,
`ray_march3` returns the same colour for every ray and excluded index.  So a primary ray
spawns bounces two levels deep and no further. -/
theorem bounded_recursion_main (F : MathFns α) (multi : α) (w₁ w₂ : Nat → WorldObject α)
    (h : ∀ i, SameButBounce (w₁ i) (w₂ i)) :
    (∀ (ro rd : Vec3 α) (k : Int),
        Main.ray_march3 F multi ro rd w₁ k = Main.ray_march3 F multi ro rd w₂ k)
    ∧ (∀ (rd pos : Vec3 α) (dc : α × Int),
        Main.ray_march_hit_color F multi w₁ rd pos dc =
          bounce_blend (w₁ dc.2.toNat).transparency
            (Main.ray_march2 F multi pos rd w₁ dc.2)
            (bounce_blend (w₁ dc.2.toNat).reflectivity
              (Main.ray_march2 F multi pos
                (reflect_ray rd (Main.calculate_normal F multi pos (w₁ dc.2.toNat))) w₁ dc.2)
              (local_color F (Main.calculate_normal F multi pos (w₁ dc.2.toNat)) pos
                (w₁ dc.2.toNat))))
    ∧ (∀ (rd pos : Vec3 α) (dc : α × Int),
        Main.ray_march2_hit_color F multi w₁ rd pos dc =
          bounce_blend (w₁ dc.2.toNat).transparency
            (Main.ray_march3 F multi pos rd w₁ dc.2)
            (bounce_blend (w₁ dc.2.toNat).reflectivity
              (Main.ray_march3 F multi pos
                (reflect_ray rd (Main.calculate_normal F multi pos (w₁ dc.2.toNat))) w₁ dc.2)
              (local_color F (Main.calculate_normal F multi pos (w₁ dc.2.toNat)) pos
                (w₁ dc.2.toNat))))
    ∧ (∀ (pos : Vec3 α) (t : α) (dc : α × Int),
        Main.ray_march3_hit F multi w₁ pos t dc =
          (local_color F (Main.calculate_normal F multi pos (w₁ dc.2.toNat)) pos
            (w₁ dc.2.toNat)).muls (min 1 (5 / t))) :=
  ⟨main_ray_march3_congr F multi w₁ w₂ h, main_hit_color_eq F multi w₁,
    main_hit_color2_eq F multi w₁, fun _ _ _ => rfl⟩

/-- A witness of C17: two worlds whose floors differ in reflectivity (`0.5` against `0`)
and transparency (`0.25` against `0`) only. -/
theorem bounded_recursion_main_witness :
    (∀ i, SameButBounce ((fun _ => example_floor (1 / 2) (1 / 4) 0 ⟨1, 1, 1⟩ : Nat → WorldObject ℝ) i) ((fun _ => example_floor 0 0 0 ⟨1, 1, 1⟩ : Nat → WorldObject ℝ) i))
    ∧ Main.ray_march3 (MathFns.mk Real.sqrt Real.sin Real.cos) 0 (⟨0, 1, 0⟩ : Vec3 ℝ) ⟨0, -1, 0⟩ (fun _ => example_floor (1 / 2) (1 / 4) 0 ⟨1, 1, 1⟩ : Nat → WorldObject ℝ) 1
      = Main.ray_march3 (MathFns.mk Real.sqrt Real.sin Real.cos) 0 (⟨0, 1, 0⟩ : Vec3 ℝ) ⟨0, -1, 0⟩ (fun _ => example_floor 0 0 0 ⟨1, 1, 1⟩ : Nat → WorldObject ℝ) 1 :=
  ⟨fun _ => ⟨rfl, rfl, rfl, rfl, rfl, rfl, rfl⟩,
    (bounded_recursion_main (MathFns.mk Real.sqrt Real.sin Real.cos) 0 (fun _ => example_floor (1 / 2) (1 / 4) 0 ⟨1, 1, 1⟩ : Nat → WorldObject ℝ) (fun _ => example_floor 0 0 0 ⟨1, 1, 1⟩ : Nat → WorldObject ℝ)
      (fun _ => ⟨rfl, rfl, rfl, rfl, rfl, rfl, rfl⟩)).1 ⟨0, 1, 0⟩ ⟨0, -1, 0⟩ 1⟩

/-- C18, as amended: recursion depth in `mainNew.js`.  The recursion is one level deep:
when the secondary routine `ray_march2` hits an object, whatever its reflectivity and
transparency, its colour before the fade is the local colour (no further ray is cast), so
`ray_march2` itself has reflection and transparency disabled: its result is the same for
two scenes that differ only in the `reflectivity` and `transparency` fields. -/
theorem recursion_depth_mainNew :
    (∀ (F : MathFns α) (multi : α) (objects : Nat → WorldObject α) (n : Nat)
        (ro rd : Vec3 α) (k : Int) (t : α) (idx : Int),
        march_trace (fun q => MainNew.map_the_world_skip F multi objects n q k)
          MainNew.MAXIMUM_TRACE_DISTANCE ro rd NUMBER_OF_STEPS 0 = some (t, idx) →
        MainNew.ray_march2 F multi objects n ro rd k =
          (local_color F (MainNew.calculate_normal F multi (ro + t • rd) (objects idx.toNat))
            (ro + t • rd) (objects idx.toNat)).muls (min 1 (5 / t)))
    ∧ (∀ (F : MathFns α) (multi : α) (o₁ o₂ : Nat → WorldObject α) (n : Nat),
        (∀ i, SameButBounce (o₁ i) (o₂ i)) → ∀ (ro rd : Vec3 α) (k : Int),
        MainNew.ray_march2 F multi o₁ n ro rd k = MainNew.ray_march2 F multi o₂ n ro rd k) :=
  ⟨fun F multi objects n ro rd k t idx htrace =>
      (mainNew_ray_march2_of_trace F multi objects n ro rd k (t, idx) htrace).2,
    fun F multi o₁ o₂ n h => mainNew_ray_march2_congr F multi o₁ o₂ n h⟩

/-- A witness of C18 as amended: in the corner scene the secondary ray from `(1, 1, 0)`
along `(-1, -1, 0)`, cast with the wall excluded, hits the mirror floor (reflectivity
`0.5`) after travelling `1` and returns its local colour times the fade. -/
theorem recursion_depth_mainNew_witness :
    march_trace (fun q => MainNew.map_the_world_skip (MathFns.mk Real.sqrt Real.sin Real.cos) 0 (example_corner : Nat → WorldObject ℝ) 2 q 1)
        MainNew.MAXIMUM_TRACE_DISTANCE (⟨1, 1, 0⟩ : Vec3 ℝ) (⟨-1, -1, 0⟩ : Vec3 ℝ) NUMBER_OF_STEPS 0 = some (1, 0)
    ∧ MainNew.ray_march2 (MathFns.mk Real.sqrt Real.sin Real.cos) 0 (example_corner : Nat → WorldObject ℝ) 2 (⟨1, 1, 0⟩ : Vec3 ℝ) (⟨-1, -1, 0⟩ : Vec3 ℝ) 1 =
        (local_color (MathFns.mk Real.sqrt Real.sin Real.cos) (MainNew.calculate_normal (MathFns.mk Real.sqrt Real.sin Real.cos) 0 ((⟨1, 1, 0⟩ : Vec3 ℝ) + (1 : ℝ) • (⟨-1, -1, 0⟩ : Vec3 ℝ)) ((example_corner : Nat → WorldObject ℝ) (0 : Int).toNat)) ((⟨1, 1, 0⟩ : Vec3 ℝ) + (1 : ℝ) • (⟨-1, -1, 0⟩ : Vec3 ℝ)) ((example_corner : Nat → WorldObject ℝ) (0 : Int).toNat)).muls
          (min 1 (5 / 1)) := by
  have htrace := corner_secondary_trace (MathFns.mk Real.sqrt Real.sin Real.cos) (0 : ℝ)
  exact ⟨htrace, (recursion_depth_mainNew (α := ℝ)).1 _ _ _ _ _ _ _ _ _ htrace⟩

/-- C18 fails as stated: in the corner scene of `mainNew.js` the secondary ray from
`(1, 1, 0)` along `(-1, -1, 0)`, cast with the wall (index 1) excluded, hits the mirror
floor (index 0, reflectivity `0.5`, local colour white) after travelling `1`.  `ray_march2`
returns white, whereas `rho*X + (1 - rho)*L` times the fade, with `X` the further ray along
the mirror direction with the floor excluded (which meets nothing and is black), is
`(0.5, 0.5, 0.5)`. -/
theorem recursion_depth_mainNew_counterexample :
    march_trace (fun q => MainNew.map_the_world_skip (MathFns.mk Real.sqrt Real.sin Real.cos) 0 (example_corner : Nat → WorldObject ℝ) 2 q 1)
        MainNew.MAXIMUM_TRACE_DISTANCE (⟨1, 1, 0⟩ : Vec3 ℝ) (⟨-1, -1, 0⟩ : Vec3 ℝ) NUMBER_OF_STEPS 0 = some (1, 0)
    ∧ (0 : ℝ) < ((example_corner : Nat → WorldObject ℝ) (0 : Int).toNat).reflectivity
    ∧ MainNew.ray_march2 (MathFns.mk Real.sqrt Real.sin Real.cos) 0 (example_corner : Nat → WorldObject ℝ) 2 (⟨1, 1, 0⟩ : Vec3 ℝ) (⟨-1, -1, 0⟩ : Vec3 ℝ) 1 = ⟨1, 1, 1⟩
    ∧ ((MainNew.ray_march2 (MathFns.mk Real.sqrt Real.sin Real.cos) 0 (example_corner : Nat → WorldObject ℝ) 2 ((⟨1, 1, 0⟩ : Vec3 ℝ) + (1 : ℝ) • (⟨-1, -1, 0⟩ : Vec3 ℝ))
            (reflect_ray (⟨-1, -1, 0⟩ : Vec3 ℝ) (MainNew.calculate_normal (MathFns.mk Real.sqrt Real.sin Real.cos) 0 ((⟨1, 1, 0⟩ : Vec3 ℝ) + (1 : ℝ) • (⟨-1, -1, 0⟩ : Vec3 ℝ)) ((example_corner : Nat → WorldObject ℝ) (0 : Int).toNat))) 0).muls
          ((example_corner : Nat → WorldObject ℝ) (0 : Int).toNat).reflectivity
        + (1 - ((example_corner : Nat → WorldObject ℝ) (0 : Int).toNat).reflectivity) •
          local_color (MathFns.mk Real.sqrt Real.sin Real.cos) (MainNew.calculate_normal (MathFns.mk Real.sqrt Real.sin Real.cos) 0 ((⟨1, 1, 0⟩ : Vec3 ℝ) + (1 : ℝ) • (⟨-1, -1, 0⟩ : Vec3 ℝ)) ((example_corner : Nat → WorldObject ℝ) (0 : Int).toNat)) ((⟨1, 1, 0⟩ : Vec3 ℝ) + (1 : ℝ) • (⟨-1, -1, 0⟩ : Vec3 ℝ)) ((example_corner : Nat → WorldObject ℝ) (0 : Int).toNat)).muls
        (min 1 (5 / 1)) = ⟨1 / 2, 1 / 2, 1 / 2⟩ := by
  have htrace := corner_secondary_trace (MathFns.mk Real.sqrt Real.sin Real.cos) (0 : ℝ)
  have hL : local_color (MathFns.mk Real.sqrt Real.sin Real.cos) (MainNew.calculate_normal (MathFns.mk Real.sqrt Real.sin Real.cos) 0 ((⟨1, 1, 0⟩ : Vec3 ℝ) + (1 : ℝ) • (⟨-1, -1, 0⟩ : Vec3 ℝ)) ((example_corner : Nat → WorldObject ℝ) (0 : Int).toNat)) ((⟨1, 1, 0⟩ : Vec3 ℝ) + (1 : ℝ) • (⟨-1, -1, 0⟩ : Vec3 ℝ)) ((example_corner : Nat → WorldObject ℝ) (0 : Int).toNat)
      = ⟨1, 1, 1⟩ := local_color_white _ _ _ _ rfl rfl
  have hn : MainNew.calculate_normal (MathFns.mk Real.sqrt Real.sin Real.cos) 0 ((⟨1, 1, 0⟩ : Vec3 ℝ) + (1 : ℝ) • (⟨-1, -1, 0⟩ : Vec3 ℝ)) ((example_corner : Nat → WorldObject ℝ) (0 : Int).toNat) = ⟨0, 1, 0⟩ :=
    floor_normal (MathFns.mk Real.sqrt Real.sin Real.cos) Real.sqrt_mul_self_eq_abs 0 ((⟨1, 1, 0⟩ : Vec3 ℝ) + (1 : ℝ) • (⟨-1, -1, 0⟩ : Vec3 ℝ)) (1 / 2) 0 0 ⟨1, 1, 1⟩
  have hX := corner_further_ray (MathFns.mk Real.sqrt Real.sin Real.cos) (0 : ℝ)
  have hρ : ((example_corner : Nat → WorldObject ℝ) (0 : Int).toNat).reflectivity = 1 / 2 := rfl
  have hfade : min (1 : ℝ) (5 / 1) = 1 := by norm_num
  refine ⟨htrace, by rw [hρ]; norm_num, ?_, ?_⟩
  · rw [(mainNew_ray_march2_of_trace _ _ _ _ _ _ _ _ htrace).2]
    simp only
    rw [hL, hfade, Vec3.muls_one]
  · rw [hn, local_color_white _ _ _ ((example_corner : Nat → WorldObject ℝ) (0 : Int).toNat)
      rfl rfl, hρ, hfade, Vec3.muls_one, hX]
    ext <;> norm_num [Vec3.splat]

end Shading

/-! ## The normal estimator -/

section Normals

variable {α : Type} [LinearOrderedField α]

/-- C15, as amended: for every point `p` and every object whose vector of central
differences at `p` (the vector that `calculate_normal` normalises) is not the zero vector,
`calculate_normal(p, object)` has Euclidean length exactly `1`, the built-in `sqrt` being
the square root.  Both for `mainNew.js` and for `main.js`. -/
theorem calculate_normal_unit (F : MathFns α) (hF : IsSqrt F) (multi : α) (p : Vec3 α)
    (o : WorldObject α) :
    (MainNew.gradient F multi p o ≠ ⟨0, 0, 0⟩ →
      length F (MainNew.calculate_normal F multi p o) = 1)
    ∧ (Main.gradient F multi p o ≠ ⟨0, 0, 0⟩ →
      length F (Main.calculate_normal F multi p o) = 1) :=
  ⟨fun h => by rw [(calculate_normal_eq F multi p o).1]; exact length_normalize F hF _ h,
    fun h => by rw [(calculate_normal_eq F multi p o).2]; exact length_normalize F hF _ h⟩

/-- A witness of C15 as amended: the floor `y = 0` at the origin, where the central
differences are `(0, 0.002, 0)`. -/
theorem calculate_normal_unit_witness :
    IsSqrt (MathFns.mk Real.sqrt Real.sin Real.cos)
    ∧ MainNew.gradient (MathFns.mk Real.sqrt Real.sin Real.cos) 0 ⟨0, 0, 0⟩ (example_floor 0 0 0 ⟨1, 1, 1⟩ : WorldObject ℝ) ≠ ⟨0, 0, 0⟩
    ∧ length (MathFns.mk Real.sqrt Real.sin Real.cos) (MainNew.calculate_normal (MathFns.mk Real.sqrt Real.sin Real.cos) 0 ⟨0, 0, 0⟩ (example_floor 0 0 0 ⟨1, 1, 1⟩ : WorldObject ℝ)) = 1 := by
  have hg : MainNew.gradient (MathFns.mk Real.sqrt Real.sin Real.cos) 0 ⟨0, 0, 0⟩ (example_floor 0 0 0 ⟨1, 1, 1⟩ : WorldObject ℝ) ≠ ⟨0, 0, 0⟩ := by
    intro h
    have hy := congrArg Vec3.y h
    simp only [MainNew.gradient, fun q => (floor_distance (MathFns.mk Real.sqrt Real.sin Real.cos) (0 : ℝ) q 0 0 0 ⟨1, 1, 1⟩).1,
      Vec3.add_y, Vec3.sub_y] at hy
    norm_num at hy
  exact ⟨real_isSqrt, hg, (calculate_normal_unit (MathFns.mk Real.sqrt Real.sin Real.cos) real_isSqrt 0 ⟨0, 0, 0⟩ (example_floor 0 0 0 ⟨1, 1, 1⟩ : WorldObject ℝ)).1 hg⟩

/-- C15 fails as stated: at the centre of the unit sphere the six samples of the distance
are equal, the central differences vanish, and `calculate_normal` returns the normalised
zero vector, which here is `(0, 0, 0)`, of length `0`. -/
theorem calculate_normal_unit_counterexample :
    MainNew.gradient (MathFns.mk Real.sqrt Real.sin Real.cos) 0 ⟨0, 0, 0⟩ (example_sphere (1 : ℝ)) = ⟨0, 0, 0⟩
    ∧ MainNew.calculate_normal (MathFns.mk Real.sqrt Real.sin Real.cos) 0 ⟨0, 0, 0⟩ (example_sphere (1 : ℝ)) = ⟨0, 0, 0⟩
    ∧ length (MathFns.mk Real.sqrt Real.sin Real.cos) (MainNew.calculate_normal (MathFns.mk Real.sqrt Real.sin Real.cos) 0 ⟨0, 0, 0⟩ (example_sphere (1 : ℝ))) ≠ 1 := by
  have hg : MainNew.gradient (MathFns.mk Real.sqrt Real.sin Real.cos) 0 ⟨0, 0, 0⟩ (example_sphere (1 : ℝ)) = ⟨0, 0, 0⟩ := by
    ext <;> norm_num [MainNew.gradient, sphere_object_distance]
  have hn : MainNew.calculate_normal (MathFns.mk Real.sqrt Real.sin Real.cos) 0 ⟨0, 0, 0⟩ (example_sphere (1 : ℝ)) = ⟨0, 0, 0⟩ := by
    rw [(calculate_normal_eq _ _ _ _).1, hg, normalize_zero]
  refine ⟨hg, hn, ?_⟩
  rw [hn]
  norm_num [length, dot]

/-- The central difference of `|·|` over `±0.001` has the sign of the point. -/
theorem central_sign (a : α) (ha : a ≠ 0) :
    1 / |(|a + 1 / 1000| - |a - 1 / 1000|)| * (|a + 1 / 1000| - |a - 1 / 1000|)
      = 1 / |a| * a := by
  rcases lt_or_gt_of_ne ha with h | h
  · have h1 : |a - 1 / 1000| = -(a - 1 / 1000) := abs_of_neg (by linarith)
    have h2 : |a + 1 / 1000| < -(a - 1 / 1000) := by
      rw [abs_lt]; constructor <;> linarith
    have hG : |a + 1 / 1000| - |a - 1 / 1000| < 0 := by rw [h1]; linarith
    rw [abs_of_neg hG, abs_of_neg h]
    have hG' : |a + 1 / 1000| - |a - 1 / 1000| ≠ 0 := ne_of_lt hG
    generalize |a + 1 / 1000| - |a - 1 / 1000| = G at hG'
    rw [one_div, one_div, inv_neg, inv_neg, neg_mul, neg_mul, inv_mul_cancel₀ hG',
      inv_mul_cancel₀ ha]
  · have h1 : |a + 1 / 1000| = a + 1 / 1000 := abs_of_pos (by linarith)
    have h2 : |a - 1 / 1000| < a + 1 / 1000 := by
      rw [abs_lt]; constructor <;> linarith
    have hG : 0 < |a + 1 / 1000| - |a - 1 / 1000| := by rw [h1]; linarith
    rw [abs_of_pos hG, abs_of_pos h]
    have hG' : |a + 1 / 1000| - |a - 1 / 1000| ≠ 0 := ne_of_gt hG
    generalize |a + 1 / 1000| - |a - 1 / 1000| = G at hG'
    rw [one_div, one_div, inv_mul_cancel₀ hG', inv_mul_cancel₀ ha]

/-- The estimated normal of a sphere at a point of the line through its centre parallel
to the `x` axis is the analytic unit normal. -/
theorem sphere_normal_axis_x (F : MathFns α) (hsqrt : ∀ x : α, F.sqrt (x * x) = |x|)
    (multi : α) (o : WorldObject α) (hty : o.type = 1) (a : α) (ha : a ≠ 0) :
    MainNew.calculate_normal F multi (o.center + ⟨a, 0, 0⟩) o =
      (1 / length F (o.center + ⟨a, 0, 0⟩ - o.center)) • (o.center + ⟨a, 0, 0⟩ - o.center) := by
  have hm : ∀ q, MainNew.map_the_object F multi q o
      = F.sqrt (dot (q - o.center) (q - o.center)) - o.size.x := by
    intro q
    simp [MainNew.map_the_object, hty, distance_from_sphere, length]
  have d1 : dot (o.center + ⟨a, 0, 0⟩ + ⟨1 / 1000, 0, 0⟩ - o.center) (o.center + ⟨a, 0, 0⟩ + ⟨1 / 1000, 0, 0⟩ - o.center)
      = (a + 1 / 1000) * (a + 1 / 1000) := by
    simp only [dot, Vec3.add_x, Vec3.add_y, Vec3.add_z, Vec3.sub_x, Vec3.sub_y, Vec3.sub_z]
    ring
  have d2 : dot (o.center + ⟨a, 0, 0⟩ - ⟨1 / 1000, 0, 0⟩ - o.center) (o.center + ⟨a, 0, 0⟩ - ⟨1 / 1000, 0, 0⟩ - o.center)
      = (a - 1 / 1000) * (a - 1 / 1000) := by
    simp only [dot, Vec3.add_x, Vec3.add_y, Vec3.add_z, Vec3.sub_x, Vec3.sub_y, Vec3.sub_z]
    ring
  have d3 : dot (o.center + ⟨a, 0, 0⟩ + ⟨0, 1 / 1000, 0⟩ - o.center) (o.center + ⟨a, 0, 0⟩ + ⟨0, 1 / 1000, 0⟩ - o.center)
      = dot (o.center + ⟨a, 0, 0⟩ - ⟨0, 1 / 1000, 0⟩ - o.center) (o.center + ⟨a, 0, 0⟩ - ⟨0, 1 / 1000, 0⟩ - o.center) := by
    simp only [dot, Vec3.add_x, Vec3.add_y, Vec3.add_z, Vec3.sub_x, Vec3.sub_y, Vec3.sub_z]
    ring
  have d4 : dot (o.center + ⟨a, 0, 0⟩ + ⟨0, 0, 1 / 1000⟩ - o.center) (o.center + ⟨a, 0, 0⟩ + ⟨0, 0, 1 / 1000⟩ - o.center)
      = dot (o.center + ⟨a, 0, 0⟩ - ⟨0, 0, 1 / 1000⟩ - o.center) (o.center + ⟨a, 0, 0⟩ - ⟨0, 0, 1 / 1000⟩ - o.center) := by
    simp only [dot, Vec3.add_x, Vec3.add_y, Vec3.add_z, Vec3.sub_x, Vec3.sub_y, Vec3.sub_z]
    ring
  have d0 : dot (o.center + ⟨a, 0, 0⟩ - o.center) (o.center + ⟨a, 0, 0⟩ - o.center) = a * a := by
    simp only [dot, Vec3.add_x, Vec3.add_y, Vec3.add_z, Vec3.sub_x, Vec3.sub_y, Vec3.sub_z]
    ring
  have hg : MainNew.gradient F multi (o.center + ⟨a, 0, 0⟩) o
      = ⟨|a + 1 / 1000| - |a - 1 / 1000|, 0, 0⟩ := by
    simp only [MainNew.gradient, hm, d1, d2, d3, d4, hsqrt, sub_self, sub_sub_sub_cancel_right]
  have dG : dot (⟨|a + 1 / 1000| - |a - 1 / 1000|, 0, 0⟩ : Vec3 α) ⟨|a + 1 / 1000| - |a - 1 / 1000|, 0, 0⟩
      = (|a + 1 / 1000| - |a - 1 / 1000|) * (|a + 1 / 1000| - |a - 1 / 1000|) := by
    simp only [dot]
    ring
  rw [(calculate_normal_eq F multi _ o).1, hg, normalize, length, length, dG, d0, hsqrt, hsqrt]
  ext <;> simp only [Vec3.smul_x, Vec3.smul_y, Vec3.smul_z, Vec3.add_x, Vec3.add_y, Vec3.add_z,
    Vec3.sub_x, Vec3.sub_y, Vec3.sub_z, add_sub_cancel_left, mul_zero, add_zero, sub_self]
  exact central_sign a ha

/-- The estimated normal of a sphere at a point of the line through its centre parallel
to the `y` axis is the analytic unit normal. -/
theorem sphere_normal_axis_y (F : MathFns α) (hsqrt : ∀ x : α, F.sqrt (x * x) = |x|)
    (multi : α) (o : WorldObject α) (hty : o.type = 1) (a : α) (ha : a ≠ 0) :
    MainNew.calculate_normal F multi (o.center + ⟨0, a, 0⟩) o =
      (1 / length F (o.center + ⟨0, a, 0⟩ - o.center)) • (o.center + ⟨0, a, 0⟩ - o.center) := by
  have hm : ∀ q, MainNew.map_the_object F multi q o
      = F.sqrt (dot (q - o.center) (q - o.center)) - o.size.x := by
    intro q
    simp [MainNew.map_the_object, hty, distance_from_sphere, length]
  have d1 : dot (o.center + ⟨0, a, 0⟩ + ⟨0, 1 / 1000, 0⟩ - o.center) (o.center + ⟨0, a, 0⟩ + ⟨0, 1 / 1000, 0⟩ - o.center)
      = (a + 1 / 1000) * (a + 1 / 1000) := by
    simp only [dot, Vec3.add_x, Vec3.add_y, Vec3.add_z, Vec3.sub_x, Vec3.sub_y, Vec3.sub_z]
    ring
  have d2 : dot (o.center + ⟨0, a, 0⟩ - ⟨0, 1 / 1000, 0⟩ - o.center) (o.center + ⟨0, a, 0⟩ - ⟨0, 1 / 1000, 0⟩ - o.center)
      = (a - 1 / 1000) * (a - 1 / 1000) := by
    simp only [dot, Vec3.add_x, Vec3.add_y, Vec3.add_z, Vec3.sub_x, Vec3.sub_y, Vec3.sub_z]
    ring
  have d3 : dot (o.center + ⟨0, a, 0⟩ + ⟨1 / 1000, 0, 0⟩ - o.center) (o.center + ⟨0, a, 0⟩ + ⟨1 / 1000, 0, 0⟩ - o.center)
      = dot (o.center + ⟨0, a, 0⟩ - ⟨1 / 1000, 0, 0⟩ - o.center) (o.center + ⟨0, a, 0⟩ - ⟨1 / 1000, 0, 0⟩ - o.center) := by
    simp only [dot, Vec3.add_x, Vec3.add_y, Vec3.add_z, Vec3.sub_x, Vec3.sub_y, Vec3.sub_z]
    ring
  have d4 : dot (o.center + ⟨0, a, 0⟩ + ⟨0, 0, 1 / 1000⟩ - o.center) (o.center + ⟨0, a, 0⟩ + ⟨0, 0, 1 / 1000⟩ - o.center)
      = dot (o.center + ⟨0, a, 0⟩ - ⟨0, 0, 1 / 1000⟩ - o.center) (o.center + ⟨0, a, 0⟩ - ⟨0, 0, 1 / 1000⟩ - o.center) := by
    simp only [dot, Vec3.add_x, Vec3.add_y, Vec3.add_z, Vec3.sub_x, Vec3.sub_y, Vec3.sub_z]
    ring
  have d0 : dot (o.center + ⟨0, a, 0⟩ - o.center) (o.center + ⟨0, a, 0⟩ - o.center) = a * a := by
    simp only [dot, Vec3.add_x, Vec3.add_y, Vec3.add_z, Vec3.sub_x, Vec3.sub_y, Vec3.sub_z]
    ring
  have hg : MainNew.gradient F multi (o.center + ⟨0, a, 0⟩) o
      = ⟨0, |a + 1 / 1000| - |a - 1 / 1000|, 0⟩ := by
    simp only [MainNew.gradient, hm, d1, d2, d3, d4, hsqrt, sub_self, sub_sub_sub_cancel_right]
  have dG : dot (⟨0, |a + 1 / 1000| - |a - 1 / 1000|, 0⟩ : Vec3 α) ⟨0, |a + 1 / 1000| - |a - 1 / 1000|, 0⟩
      = (|a + 1 / 1000| - |a - 1 / 1000|) * (|a + 1 / 1000| - |a - 1 / 1000|) := by
    simp only [dot]
    ring
  rw [(calculate_normal_eq F multi _ o).1, hg, normalize, length, length, dG, d0, hsqrt, hsqrt]
  ext <;> simp only [Vec3.smul_x, Vec3.smul_y, Vec3.smul_z, Vec3.add_x, Vec3.add_y, Vec3.add_z,
    Vec3.sub_x, Vec3.sub_y, Vec3.sub_z, add_sub_cancel_left, mul_zero, add_zero, sub_self]
  exact central_sign a ha

/-- The estimated normal of a sphere at a point of the line through its centre parallel
to the `z` axis is the analytic unit normal. -/
theorem sphere_normal_axis_z (F : MathFns α) (hsqrt : ∀ x : α, F.sqrt (x * x) = |x|)
    (multi : α) (o : WorldObject α) (hty : o.type = 1) (a : α) (ha : a ≠ 0) :
    MainNew.calculate_normal F multi (o.center + ⟨0, 0, a⟩) o =
      (1 / length F (o.center + ⟨0, 0, a⟩ - o.center)) • (o.center + ⟨0, 0, a⟩ - o.center) := by
  have hm : ∀ q, MainNew.map_the_object F multi q o
      = F.sqrt (dot (q - o.center) (q - o.center)) - o.size.x := by
    intro q
    simp [MainNew.map_the_object, hty, distance_from_sphere, length]
  have d1 : dot (o.center + ⟨0, 0, a⟩ + ⟨0, 0, 1 / 1000⟩ - o.center) (o.center + ⟨0, 0, a⟩ + ⟨0, 0, 1 / 1000⟩ - o.center)
      = (a + 1 / 1000) * (a + 1 / 1000) := by
    simp only [dot, Vec3.add_x, Vec3.add_y, Vec3.add_z, Vec3.sub_x, Vec3.sub_y, Vec3.sub_z]
    ring
  have d2 : dot (o.center + ⟨0, 0, a⟩ - ⟨0, 0, 1 / 1000⟩ - o.center) (o.center + ⟨0, 0, a⟩ - ⟨0, 0, 1 / 1000⟩ - o.center)
      = (a - 1 / 1000) * (a - 1 / 1000) := by
    simp only [dot, Vec3.add_x, Vec3.add_y, Vec3.add_z, Vec3.sub_x, Vec3.sub_y, Vec3.sub_z]
    ring
  have d3 : dot (o.center + ⟨0, 0, a⟩ + ⟨1 / 1000, 0, 0⟩ - o.center) (o.center + ⟨0, 0, a⟩ + ⟨1 / 1000, 0, 0⟩ - o.center)
      = dot (o.center + ⟨0, 0, a⟩ - ⟨1 / 1000, 0, 0⟩ - o.center) (o.center + ⟨0, 0, a⟩ - ⟨1 / 1000, 0, 0⟩ - o.center) := by
    simp only [dot, Vec3.add_x, Vec3.add_y, Vec3.add_z, Vec3.sub_x, Vec3.sub_y, Vec3.sub_z]
    ring
  have d4 : dot (o.center + ⟨0, 0, a⟩ + ⟨0, 1 / 1000, 0⟩ - o.center) (o.center + ⟨0, 0, a⟩ + ⟨0, 1 / 1000, 0⟩ - o.center)
      = dot (o.center + ⟨0, 0, a⟩ - ⟨0, 1 / 1000, 0⟩ - o.center) (o.center + ⟨0, 0, a⟩ - ⟨0, 1 / 1000, 0⟩ - o.center) := by
    simp only [dot, Vec3.add_x, Vec3.add_y, Vec3.add_z, Vec3.sub_x, Vec3.sub_y, Vec3.sub_z]
    ring
  have d0 : dot (o.center + ⟨0, 0, a⟩ - o.center) (o.center + ⟨0, 0, a⟩ - o.center) = a * a := by
    simp only [dot, Vec3.add_x, Vec3.add_y, Vec3.add_z, Vec3.sub_x, Vec3.sub_y, Vec3.sub_z]
    ring
  have hg : MainNew.gradient F multi (o.center + ⟨0, 0, a⟩) o
      = ⟨0, 0, |a + 1 / 1000| - |a - 1 / 1000|⟩ := by
    simp only [MainNew.gradient, hm, d1, d2, d3, d4, hsqrt, sub_self, sub_sub_sub_cancel_right]
  have dG : dot (⟨0, 0, |a + 1 / 1000| - |a - 1 / 1000|⟩ : Vec3 α) ⟨0, 0, |a + 1 / 1000| - |a - 1 / 1000|⟩
      = (|a + 1 / 1000| - |a - 1 / 1000|) * (|a + 1 / 1000| - |a - 1 / 1000|) := by
    simp only [dot]
    ring
  rw [(calculate_normal_eq F multi _ o).1, hg, normalize, length, length, dG, d0, hsqrt, hsqrt]
  ext <;> simp only [Vec3.smul_x, Vec3.smul_y, Vec3.smul_z, Vec3.add_x, Vec3.add_y, Vec3.add_z,
    Vec3.sub_x, Vec3.sub_y, Vec3.sub_z, add_sub_cancel_left, mul_zero, add_zero, sub_self]
  exact central_sign a ha

/-- C16, as amended: `calculate_normal` is the normalised vector of central differences
of the distance to the single owning object, and for a sphere object (type 1.0) with
centre `c` it is the analytic unit normal `(p - c)/|p - c|` at every point `p ≠ c` of the
three lines through `c` parallel to the coordinate axes, the built-in `sqrt` satisfying
`sqrt(x*x) = |x|`. -/
theorem sphere_normal_exact_on_axes (F : MathFns α) (hsqrt : ∀ x : α, F.sqrt (x * x) = |x|)
    (multi : α) (o : WorldObject α) (hty : o.type = 1) (a : α) (ha : a ≠ 0) :
    (∀ p, MainNew.calculate_normal F multi p o = normalize F (MainNew.gradient F multi p o))
    ∧ MainNew.calculate_normal F multi (o.center + ⟨a, 0, 0⟩) o =
        (1 / length F (o.center + ⟨a, 0, 0⟩ - o.center)) • (o.center + ⟨a, 0, 0⟩ - o.center)
    ∧ MainNew.calculate_normal F multi (o.center + ⟨0, a, 0⟩) o =
        (1 / length F (o.center + ⟨0, a, 0⟩ - o.center)) • (o.center + ⟨0, a, 0⟩ - o.center)
    ∧ MainNew.calculate_normal F multi (o.center + ⟨0, 0, a⟩) o =
        (1 / length F (o.center + ⟨0, 0, a⟩ - o.center)) • (o.center + ⟨0, 0, a⟩ - o.center) :=
  ⟨fun _ => rfl, sphere_normal_axis_x F hsqrt multi o hty a ha,
    sphere_normal_axis_y F hsqrt multi o hty a ha, sphere_normal_axis_z F hsqrt multi o hty a ha⟩

/-- A witness of C16 as amended: the unit sphere at the origin and the point
`(0, 0, -3)`. -/
theorem sphere_normal_exact_on_axes_witness :
    (∀ x : ℝ, Real.sqrt (x * x) = |x|) ∧ (example_sphere (1 : ℝ)).type = 1 ∧ (-3 : ℝ) ≠ 0
    ∧ MainNew.calculate_normal (MathFns.mk Real.sqrt Real.sin Real.cos) 0 ((example_sphere (1 : ℝ)).center + ⟨0, 0, -3⟩)
        (example_sphere (1 : ℝ)) =
      (1 / length (MathFns.mk Real.sqrt Real.sin Real.cos) ((example_sphere (1 : ℝ)).center + ⟨0, 0, -3⟩
          - (example_sphere (1 : ℝ)).center)) •
        ((example_sphere (1 : ℝ)).center + ⟨0, 0, -3⟩ - (example_sphere (1 : ℝ)).center) :=
  ⟨Real.sqrt_mul_self_eq_abs, rfl, by norm_num,
    (sphere_normal_exact_on_axes (MathFns.mk Real.sqrt Real.sin Real.cos) Real.sqrt_mul_self_eq_abs 0 (example_sphere (1 : ℝ)) rfl
      (-3) (by norm_num)).2.2.2⟩

/-- C16 fails as stated: for the unit sphere at the origin and the point
`p = (0.001, 0.002, 0)`, the central differences are
`(sqrt 8 - 2, sqrt 10 - sqrt 2, 0) * 0.001`, which is not parallel to `p - c = p`
(`sqrt 10 - sqrt 2 > 1.7477 > 1.657 > 2*(sqrt 8 - 2)`), so `calculate_normal(p, sphere)`
is not the analytic unit normal `(p - c)/|p - c|`. -/
theorem sphere_normal_exact_counterexample :
    (example_sphere (1 : ℝ)).type = 1 ∧ (⟨1 / 1000, 2 / 1000, 0⟩ : Vec3 ℝ) ≠ (example_sphere (1 : ℝ)).center
    ∧ MainNew.calculate_normal (MathFns.mk Real.sqrt Real.sin Real.cos) 0 (⟨1 / 1000, 2 / 1000, 0⟩ : Vec3 ℝ) (example_sphere (1 : ℝ))
      ≠ (1 / length (MathFns.mk Real.sqrt Real.sin Real.cos) ((⟨1 / 1000, 2 / 1000, 0⟩ : Vec3 ℝ) - (example_sphere (1 : ℝ)).center)) • ((⟨1 / 1000, 2 / 1000, 0⟩ : Vec3 ℝ) - (example_sphere (1 : ℝ)).center) := by
  refine ⟨rfl, ?_, ?_⟩
  · intro h
    have hx := congrArg Vec3.x h
    norm_num [example_sphere] at hx
  intro h
  have b1 : MainNew.map_the_object (MathFns.mk Real.sqrt Real.sin Real.cos) 0 ((⟨1 / 1000, 2 / 1000, 0⟩ : Vec3 ℝ) + ⟨1 / 1000, 0, 0⟩) (example_sphere (1 : ℝ))
      < 28285 / 10000000 - 1 := by
    rw [sphere_object_distance]
    refine sub_lt_sub_right ?_ 1
    dsimp only
    rw [Real.sqrt_lt' (by norm_num)]
    norm_num
  have b2 : 2 / 1000 - 1 ≤ MainNew.map_the_object (MathFns.mk Real.sqrt Real.sin Real.cos) 0 ((⟨1 / 1000, 2 / 1000, 0⟩ : Vec3 ℝ) - ⟨1 / 1000, 0, 0⟩) (example_sphere (1 : ℝ)) := by
    rw [sphere_object_distance]
    refine sub_le_sub_right ?_ 1
    dsimp only
    rw [Real.le_sqrt (by norm_num) (by norm_num)]
    norm_num
  have b3 : 3162 / 1000000 - 1 < MainNew.map_the_object (MathFns.mk Real.sqrt Real.sin Real.cos) 0 ((⟨1 / 1000, 2 / 1000, 0⟩ : Vec3 ℝ) + ⟨0, 1 / 1000, 0⟩) (example_sphere (1 : ℝ)) := by
    rw [sphere_object_distance]
    refine sub_lt_sub_right ?_ 1
    dsimp only
    rw [Real.lt_sqrt (by norm_num)]
    norm_num
  have b4 : MainNew.map_the_object (MathFns.mk Real.sqrt Real.sin Real.cos) 0 ((⟨1 / 1000, 2 / 1000, 0⟩ : Vec3 ℝ) - ⟨0, 1 / 1000, 0⟩) (example_sphere (1 : ℝ))
      < 14143 / 10000000 - 1 := by
    rw [sphere_object_distance]
    refine sub_lt_sub_right ?_ 1
    dsimp only
    rw [Real.sqrt_lt' (by norm_num)]
    norm_num
  have hx := congrArg Vec3.x h
  have hy := congrArg Vec3.y h
  simp only [(calculate_normal_eq _ _ _ _).1, normalize, MainNew.gradient, Vec3.smul_x,
    Vec3.smul_y, Vec3.sub_x, Vec3.sub_y] at hx hy
  have hc : (example_sphere (1 : ℝ)).center = ⟨0, 0, 0⟩ := rfl
  rw [hc] at hx hy
  simp only [sub_zero] at hx hy
  have hprod : 1 / length (MathFns.mk Real.sqrt Real.sin Real.cos) (MainNew.gradient (MathFns.mk Real.sqrt Real.sin Real.cos) 0 (⟨1 / 1000, 2 / 1000, 0⟩ : Vec3 ℝ) (example_sphere (1 : ℝ)))
      * ((MainNew.map_the_object (MathFns.mk Real.sqrt Real.sin Real.cos) 0 ((⟨1 / 1000, 2 / 1000, 0⟩ : Vec3 ℝ) + ⟨0, 1 / 1000, 0⟩) (example_sphere (1 : ℝ))
          - MainNew.map_the_object (MathFns.mk Real.sqrt Real.sin Real.cos) 0 ((⟨1 / 1000, 2 / 1000, 0⟩ : Vec3 ℝ) - ⟨0, 1 / 1000, 0⟩) (example_sphere (1 : ℝ)))
        - 2 * (MainNew.map_the_object (MathFns.mk Real.sqrt Real.sin Real.cos) 0 ((⟨1 / 1000, 2 / 1000, 0⟩ : Vec3 ℝ) + ⟨1 / 1000, 0, 0⟩) (example_sphere (1 : ℝ))
          - MainNew.map_the_object (MathFns.mk Real.sqrt Real.sin Real.cos) 0 ((⟨1 / 1000, 2 / 1000, 0⟩ : Vec3 ℝ) - ⟨1 / 1000, 0, 0⟩) (example_sphere (1 : ℝ)))) = 0 := by
    simp only [MainNew.gradient]
    linear_combination hy - 2 * hx
  rcases mul_eq_zero.mp hprod with hk | hg
  · simp only [MainNew.gradient] at hk
    rw [hk, zero_mul] at hx
    have hj : 1 / length (MathFns.mk Real.sqrt Real.sin Real.cos) ((⟨1 / 1000, 2 / 1000, 0⟩ : Vec3 ℝ) - ⟨0, 0, 0⟩) = 0 := by
      rcases mul_eq_zero.mp hx.symm with h1 | h1
      · exact h1
      · norm_num at h1
    rw [one_div, inv_eq_zero] at hj
    have hpos : 0 < length (MathFns.mk Real.sqrt Real.sin Real.cos) ((⟨1 / 1000, 2 / 1000, 0⟩ : Vec3 ℝ) - ⟨0, 0, 0⟩) := by
      simp only [length, dot, Vec3.sub_x, Vec3.sub_y, Vec3.sub_z]
      rw [Real.sqrt_pos]
      norm_num
    exact absurd hj (ne_of_gt hpos)
  · linarith

end Normals

/-! ## The range of the output -/

section RangeLemmas

variable {α : Type} [LinearOrderedField α]

/-- Cauchy-Schwarz for two vectors of length at most `1`. -/
theorem dot_le_one (a b : Vec3 α) (ha : dot a a ≤ 1) (hb : dot b b ≤ 1) : dot a b ≤ 1 := by
  have key : dot a b * dot a b ≤ dot a a * dot b b := by
    unfold dot
    nlinarith [sq_nonneg (a.x * b.y - a.y * b.x), sq_nonneg (a.x * b.z - a.z * b.x),
      sq_nonneg (a.y * b.z - a.z * b.y)]
  have hprod : dot a a * dot b b ≤ 1 := by
    nlinarith [mul_nonneg (sub_nonneg.mpr ha) (dot_self_nonneg b)]
  by_contra h
  have h1 : 1 < dot a b := not_le.mp h
  nlinarith

/-- The components of a vector of length at most `1` lie in `[-1, 1]`. -/
theorem components_le_one (n : Vec3 α) (h : dot n n ≤ 1) :
    (-1 ≤ n.x ∧ n.x ≤ 1) ∧ (-1 ≤ n.y ∧ n.y ≤ 1) ∧ (-1 ≤ n.z ∧ n.z ≤ 1) := by
  unfold dot at h
  have hx : n.x * n.x ≤ 1 := by nlinarith [mul_self_nonneg n.y, mul_self_nonneg n.z]
  have hy : n.y * n.y ≤ 1 := by nlinarith [mul_self_nonneg n.x, mul_self_nonneg n.z]
  have hz : n.z * n.z ≤ 1 := by nlinarith [mul_self_nonneg n.x, mul_self_nonneg n.y]
  refine ⟨⟨?_, ?_⟩, ⟨?_, ?_⟩, ⟨?_, ?_⟩⟩ <;> nlinarith

theorem inUnitCube_zero : InUnitCube (Vec3.splat (0 : α)) := by
  simp [InUnitCube, Vec3.splat]

/-- Scaling a colour in range by a factor in `[0, 1]` keeps it in range. -/
theorem inUnitCube_muls (v : Vec3 α) (f : α) (hv : InUnitCube v) (h0 : 0 ≤ f) (h1 : f ≤ 1) :
    InUnitCube (v.muls f) := by
  obtain ⟨⟨x0, x1⟩, ⟨y0, y1⟩, ⟨z0, z1⟩⟩ := hv
  refine ⟨⟨?_, ?_⟩, ⟨?_, ?_⟩, ⟨?_, ?_⟩⟩ <;> simp only [Vec3.muls_x, Vec3.muls_y, Vec3.muls_z]
    <;> nlinarith

/-- A blend of two colours in range with a weight in `[0, 1]` is in range. -/
theorem inUnitCube_blend (w : α) (a b : Vec3 α) (ha : InUnitCube a) (hb : InUnitCube b)
    (h0 : 0 ≤ w) (h1 : w ≤ 1) : InUnitCube (bounce_blend w a b) := by
  unfold bounce_blend
  by_cases hw : w > 0
  · rw [if_pos hw]
    obtain ⟨⟨ax0, ax1⟩, ⟨ay0, ay1⟩, ⟨az0, az1⟩⟩ := ha
    obtain ⟨⟨bx0, bx1⟩, ⟨by0, by1⟩, ⟨bz0, bz1⟩⟩ := hb
    refine ⟨⟨?_, ?_⟩, ⟨?_, ?_⟩, ⟨?_, ?_⟩⟩ <;>
      simp only [Vec3.add_x, Vec3.add_y, Vec3.add_z, Vec3.muls_x, Vec3.muls_y, Vec3.muls_z,
        Vec3.smul_x, Vec3.smul_y, Vec3.smul_z] <;> nlinarith
  · rw [if_neg hw]
    exact hb

/-- One component of the diffuse blend `c*(1 - k) + c*d*k` with `c`, `k`, `d` in
`[0, 1]`. -/
theorem diffuse_component (c k d : α) (c0 : 0 ≤ c) (c1 : c ≤ 1) (k0 : 0 ≤ k) (k1 : k ≤ 1)
    (d0 : 0 ≤ d) (d1 : d ≤ 1) :
    0 ≤ c * (1 - k) + c * d * k ∧ c * (1 - k) + c * d * k ≤ 1 := by
  constructor
  · exact add_nonneg (mul_nonneg c0 (sub_nonneg.mpr k1)) (mul_nonneg (mul_nonneg c0 d0) k0)
  · have h1 : c * d ≤ c := mul_le_of_le_one_right c0 d1
    have h2 : c * d * k ≤ c * k := mul_le_mul_of_nonneg_right h1 k0
    calc c * (1 - k) + c * d * k ≤ c * (1 - k) + c * k := by linarith
      _ = c := by ring
      _ ≤ 1 := c1

/-- The travelled distance at a hit is non-negative. -/
theorem march_trace_nonneg (agg : Vec3 α → α × Int) (maxd : α) (ro rd : Vec3 α) :
    ∀ (k : Nat) (t : α) (h : α × Int), march_trace agg maxd ro rd k t = some h → 0 ≤ t →
      0 ≤ h.1 := by
  intro k
  induction k with
  | zero => intro t h e; simp [march_trace] at e
  | succ k ih =>
    intro t h e ht
    rw [march_trace_succ] at e
    by_cases h1 : (agg (ro + t • rd)).1 < MINIMUM_HIT_DISTANCE
    · rw [if_pos h1] at e
      cases e
      exact ht
    · rw [if_neg h1] at e
      by_cases h2 : t > maxd
      · rw [if_pos h2] at e; cases e
      · rw [if_neg h2] at e
        refine ih _ h e (add_nonneg ht (le_trans ?_ (not_lt.mp h1)))
        norm_num [MINIMUM_HIT_DISTANCE]

/-- A result of the aggregator loop below `100000` is owned by an index that counts. -/
theorem scan_index_of_lt (d : Nat → α) (skip : Nat → Prop) [DecidablePred skip] (n : Nat)
    (h : (scan d skip n).1 < 100000) :
    ∃ j, j < n ∧ ¬ skip j ∧ (scan d skip n).2 = (j : Int) := by
  rcases (scan_inv d skip n).owner with ⟨_, h3⟩ | ⟨j, hj, hsj, h2, _⟩
  · rw [h3] at h; exact absurd h (lt_irrefl _)
  · exact ⟨j, hj, hsj, h2⟩

theorem mainNew_hit_material (F : MathFns α) (multi : α) (objects : Nat → WorldObject α) (n : Nat)
    (hm : ∀ i, i < n → MaterialInRange (objects i)) (q : Vec3 α)
    (h : (MainNew.map_the_world F multi objects n q).1 < MINIMUM_HIT_DISTANCE) :
    MaterialInRange (objects (MainNew.map_the_world F multi objects n q).2.toNat) := by
  have hlt : (MainNew.map_the_world F multi objects n q).1 < 100000 :=
    lt_trans h (by norm_num [MINIMUM_HIT_DISTANCE])
  rw [mainNew_map_the_world_eq_scan] at hlt ⊢
  obtain ⟨j, hj, _, h2⟩ := scan_index_of_lt _ _ _ hlt
  rw [h2, Int.toNat_ofNat]
  exact hm j hj

theorem mainNew_hit_material_skip (F : MathFns α) (multi : α) (objects : Nat → WorldObject α) (n : Nat)
    (hm : ∀ i, i < n → MaterialInRange (objects i)) (q : Vec3 α) (k : Int)
    (h : (MainNew.map_the_world_skip F multi objects n q k).1 < MINIMUM_HIT_DISTANCE) :
    MaterialInRange (objects (MainNew.map_the_world_skip F multi objects n q k).2.toNat) := by
  have hlt : (MainNew.map_the_world_skip F multi objects n q k).1 < 100000 :=
    lt_trans h (by norm_num [MINIMUM_HIT_DISTANCE])
  rw [mainNew_map_the_world_skip_eq_scan] at hlt ⊢
  obtain ⟨j, hj, _, h2⟩ := scan_index_of_lt _ _ _ hlt
  rw [h2, Int.toNat_ofNat]
  exact hm j hj

theorem main_hit_material (F : MathFns α) (multi : α) (world : Nat → WorldObject α)
    (hm : ∀ i, i < Main.OBJECT_COUNT → MaterialInRange (world i)) (q : Vec3 α)
    (h : (Main.map_the_world F multi q world).1 < MINIMUM_HIT_DISTANCE) :
    MaterialInRange (world (Main.map_the_world F multi q world).2.toNat) := by
  have hlt : (Main.map_the_world F multi q world).1 < 100000 :=
    lt_trans h (by norm_num [MINIMUM_HIT_DISTANCE])
  rw [main_map_the_world_eq_scan] at hlt ⊢
  obtain ⟨j, hj, _, h2⟩ := scan_index_of_lt _ _ _ hlt
  rw [h2, Int.toNat_ofNat]
  exact hm j hj

theorem main_hit_material_skip (F : MathFns α) (multi : α) (world : Nat → WorldObject α)
    (hm : ∀ i, i < Main.OBJECT_COUNT → MaterialInRange (world i)) (q : Vec3 α) (k : Int)
    (h : (Main.map_the_world_skip F multi q world k).1 < MINIMUM_HIT_DISTANCE) :
    MaterialInRange (world (Main.map_the_world_skip F multi q world k).2.toNat) := by
  have hlt : (Main.map_the_world_skip F multi q world k).1 < 100000 :=
    lt_trans h (by norm_num [MINIMUM_HIT_DISTANCE])
  rw [main_map_the_world_skip_eq_scan] at hlt ⊢
  obtain ⟨j, hj, _, h2⟩ := scan_index_of_lt _ _ _ hlt
  rw [h2, Int.toNat_ofNat]
  exact hm j hj

/-- A routine that returns black on a miss and a colour in range at every hit returns a
colour in range. -/
theorem elim_in_range (tr : Option (α × Int)) (f : α × Int → Vec3 α)
    (hf : ∀ h, tr = some h → InUnitCube (f h)) : InUnitCube (tr.elim (Vec3.splat 0) f) := by
  cases tr with
  | none => exact inUnitCube_zero
  | some h => exact hf h rfl

end RangeLemmas

/-! ## The frame driver -/

section FrameDriver

variable {α : Type} [LinearOrderedField α]

/-- The fragment shader `main` marches the ray from the camera position along
`camera_direction` and sets alpha to `1`. -/
theorem mainNew_main_eq (F : MathFns α) (u_resolution u_mod_val : Vec2 α)
    (u_camera_pos : Vec3 α) (objects : Nat → WorldObject α) (n : Nat) (gl_FragCoord : Vec2 α) :
    MainNew.main F u_resolution u_mod_val u_camera_pos objects n gl_FragCoord =
      ⟨(MainNew.ray_march F u_mod_val.y objects n u_camera_pos
          (camera_direction u_resolution gl_FragCoord)).x,
        (MainNew.ray_march F u_mod_val.y objects n u_camera_pos
          (camera_direction u_resolution gl_FragCoord)).y,
        (MainNew.ray_march F u_mod_val.y objects n u_camera_pos
          (camera_direction u_resolution gl_FragCoord)).z, 1⟩ := rfl

/-- A square root is monotone: `y ≤ sqrt x` when `y*y ≤ x`. -/
theorem IsSqrt.le_sqrt {F : MathFns α} (hF : IsSqrt F) (x y : α)
    (h : y * y ≤ x) : y ≤ F.sqrt x := by
  obtain ⟨h0, h1⟩ := hF x (le_trans (mul_self_nonneg y) h)
  by_contra hlt
  have h2 : F.sqrt x * F.sqrt x < y * y := mul_self_lt_mul_self h0 (not_le.mp hlt)
  rw [h1] at h2
  exact absurd h (not_le.mpr h2)

/-- C20, as amended: end-to-end silhouette in `mainNew.js`.  For the scene containing only
a unit sphere at the origin and the camera at `(0, 0, -3.5)`, for every pixel whose camera
ray (origin the camera position, direction `(u, v, 1)`) stays at distance at least `1.01`
from the centre of the sphere (`MINIMUM_HIT_DISTANCE` away from its surface) at every
`t ≥ 0`, the rendered colour is black, `(0, 0, 0)` with alpha `1`.  The built-in `sqrt` is
the square root. -/
theorem silhouette_black (F : MathFns α) (hF : IsSqrt F) (u_resolution u_mod_val : Vec2 α)
    (objects : Nat → WorldObject α) (gl_FragCoord : Vec2 α)
    (hty : (objects 0).type = 1) (hc : (objects 0).center = ⟨0, 0, 0⟩)
    (hr : (objects 0).size.x = 1)
    (hfar : ∀ t : α, 0 ≤ t →
      (101 / 100) * (101 / 100) ≤
        dot ((⟨0, 0, -7 / 2⟩ : Vec3 α) + t • camera_direction u_resolution gl_FragCoord)
          ((⟨0, 0, -7 / 2⟩ : Vec3 α) + t • camera_direction u_resolution gl_FragCoord)) :
    MainNew.main F u_resolution u_mod_val ⟨0, 0, -7 / 2⟩ objects 1 gl_FragCoord
      = ⟨0, 0, 0, 1⟩ := by
  have hmiss : ∀ t : α, 0 ≤ t → MINIMUM_HIT_DISTANCE ≤
      (MainNew.map_the_world F u_mod_val.y objects 1
        ((⟨0, 0, -7 / 2⟩ : Vec3 α) + t • camera_direction u_resolution gl_FragCoord)).1 := by
    intro t ht
    rw [mainNew_map_the_world_eq_scan]
    refine scan_ge _ _ _ _ (by norm_num [MINIMUM_HIT_DISTANCE]) (fun i hi _ => ?_)
    have hi0 : i = 0 := by omega
    subst hi0
    have hd : dot ((⟨0, 0, -7 / 2⟩ : Vec3 α) + t • camera_direction u_resolution gl_FragCoord
          - ⟨0, 0, 0⟩)
        ((⟨0, 0, -7 / 2⟩ : Vec3 α) + t • camera_direction u_resolution gl_FragCoord - ⟨0, 0, 0⟩)
        = dot ((⟨0, 0, -7 / 2⟩ : Vec3 α) + t • camera_direction u_resolution gl_FragCoord)
          ((⟨0, 0, -7 / 2⟩ : Vec3 α) + t • camera_direction u_resolution gl_FragCoord) := by
      simp only [dot, Vec3.sub_x, Vec3.sub_y, Vec3.sub_z, sub_zero]
    have hs := hF.le_sqrt _ (101 / 100) (hfar t ht)
    simp only [MainNew.map_the_object, if_pos hty, distance_from_sphere, length, hc, hr, hd,
      MINIMUM_HIT_DISTANCE]
    linarith
  rw [mainNew_main_eq, MainNew.ray_march, mainNew_ray_march_loop_eq,
    march_trace_none _ _ _ _ hmiss _ 0 (le_refl 0)]
  rfl

/-- A witness of C20 as amended: at resolution `10 × 5` the pixel with centre `(9.5, 2.5)`
has the camera ray `(0.9, 0, 1)`, which stays further than `2` from the centre. -/
theorem silhouette_black_witness :
    IsSqrt (MathFns.mk Real.sqrt Real.sin Real.cos)
    ∧ ((fun _ => example_diffuse_sphere : Nat → WorldObject ℝ) 0).type = 1 ∧ ((fun _ => example_diffuse_sphere : Nat → WorldObject ℝ) 0).center = ⟨0, 0, 0⟩ ∧ ((fun _ => example_diffuse_sphere : Nat → WorldObject ℝ) 0).size.x = 1
    ∧ (∀ t : ℝ, 0 ≤ t →
        (101 / 100) * (101 / 100) ≤
          dot ((⟨0, 0, -7 / 2⟩ : Vec3 ℝ) + t • camera_direction ⟨10, 5⟩ ⟨19 / 2, 5 / 2⟩)
            ((⟨0, 0, -7 / 2⟩ : Vec3 ℝ) + t • camera_direction ⟨10, 5⟩ ⟨19 / 2, 5 / 2⟩))
    ∧ MainNew.main (MathFns.mk Real.sqrt Real.sin Real.cos) ⟨10, 5⟩ ⟨17, 1⟩ ⟨0, 0, -7 / 2⟩ (fun _ => example_diffuse_sphere : Nat → WorldObject ℝ) 1 ⟨19 / 2, 5 / 2⟩
        = ⟨0, 0, 0, 1⟩ := by
  have hfar : ∀ t : ℝ, 0 ≤ t →
      (101 / 100) * (101 / 100) ≤
        dot ((⟨0, 0, -7 / 2⟩ : Vec3 ℝ) + t • camera_direction ⟨10, 5⟩ ⟨19 / 2, 5 / 2⟩)
          ((⟨0, 0, -7 / 2⟩ : Vec3 ℝ) + t • camera_direction ⟨10, 5⟩ ⟨19 / 2, 5 / 2⟩) := by
    intro t _
    simp only [dot, camera_direction, Vec3.add_x, Vec3.add_y, Vec3.add_z, Vec3.smul_x,
      Vec3.smul_y, Vec3.smul_z]
    nlinarith [sq_nonneg (t * 181 - 350)]
  exact ⟨real_isSqrt, rfl, rfl, rfl, hfar,
    silhouette_black (MathFns.mk Real.sqrt Real.sin Real.cos) real_isSqrt ⟨10, 5⟩ ⟨17, 1⟩ (fun _ => example_diffuse_sphere : Nat → WorldObject ℝ) ⟨19 / 2, 5 / 2⟩ rfl rfl rfl hfar⟩

/-- The local colour of the example diffuse sphere is at least `0.5` in its first
component. -/
theorem local_color_diffuse_sphere (F : MathFns α) (n p : Vec3 α) :
    1 / 2 ≤ (local_color F n p example_diffuse_sphere).x := by
  have hx : ¬ ((example_diffuse_sphere : WorldObject α).color.x = -2) := by
    norm_num [example_diffuse_sphere]
  simp only [local_color, if_neg hx, Vec3.add_x, Vec3.muls_x]
  have d0 : 0 ≤ max 0 (dot n (normalize F (p - light_position))) := le_max_left _ _
  generalize max 0 (dot n (normalize F (p - light_position))) = d at d0
  simp only [example_diffuse_sphere]
  linarith

/-- The scene of the example sphere along the camera ray `(0.3, 0, 1)` from
`(0, 0, -3.5)`: at travelled distance `t` the point is at squared distance
`1.09 t² - 7 t + 12.25` from the centre. -/
theorem grazing_aggregate (t : ℝ) (h : Real.sqrt (109 / 100 * t ^ 2 - 7 * t + 49 / 4) - 1 < 100000) :
    (MainNew.map_the_world (MathFns.mk Real.sqrt Real.sin Real.cos) 0 (fun _ => example_diffuse_sphere : Nat → WorldObject ℝ) 1) ((⟨0, 0, -7 / 2⟩ : Vec3 ℝ) + t • (⟨3 / 10, 0, 1⟩ : Vec3 ℝ)) = (Real.sqrt (109 / 100 * t ^ 2 - 7 * t + 49 / 4) - 1, 0) := by
  have hd : MainNew.map_the_object (MathFns.mk Real.sqrt Real.sin Real.cos) 0 ((⟨0, 0, -7 / 2⟩ : Vec3 ℝ) + t • (⟨3 / 10, 0, 1⟩ : Vec3 ℝ)) example_diffuse_sphere
      = Real.sqrt (109 / 100 * t ^ 2 - 7 * t + 49 / 4) - 1 := by
    have hq : dot ((⟨0, 0, -7 / 2⟩ : Vec3 ℝ) + t • (⟨3 / 10, 0, 1⟩ : Vec3 ℝ) - ⟨0, 0, 0⟩) ((⟨0, 0, -7 / 2⟩ : Vec3 ℝ) + t • (⟨3 / 10, 0, 1⟩ : Vec3 ℝ) - ⟨0, 0, 0⟩) = (109 / 100 * t ^ 2 - 7 * t + 49 / 4) := by
      simp only [dot, Vec3.add_x, Vec3.add_y, Vec3.add_z, Vec3.smul_x, Vec3.smul_y,
        Vec3.smul_z, Vec3.sub_x, Vec3.sub_y, Vec3.sub_z]
      ring
    have hty : (example_diffuse_sphere : WorldObject ℝ).type = 1 := rfl
    have hc : (example_diffuse_sphere : WorldObject ℝ).center = ⟨0, 0, 0⟩ := rfl
    have hr : (example_diffuse_sphere : WorldObject ℝ).size.x = 1 := rfl
    simp only [MainNew.map_the_object, if_pos hty, distance_from_sphere, length, hc, hr, hq]
  rw [mainNew_map_the_world_eq_scan, scan_succ, scan_zero]
  simp only [if_false, hd, if_pos h]
  rfl

/-- The march along the grazing ray hits: from a travelled distance `t` in `[0, 3.3)`, with
enough steps left to cover what remains up to `3.3` at `0.01` a step, the loop takes the
hit branch before `3.3` (no step jumps over the shell of thickness `0.01` around the
sphere, which the ray crosses between `3.13` and `3.3`). -/
theorem grazing_hit : ∀ (k : Nat) (t : ℝ), 0 ≤ t → t < 33 / 10 → 33 / 10 - t < 1 / 100 * k →
    ∃ h, march_trace (MainNew.map_the_world (MathFns.mk Real.sqrt Real.sin Real.cos) 0 (fun _ => example_diffuse_sphere : Nat → WorldObject ℝ) 1) MainNew.MAXIMUM_TRACE_DISTANCE (⟨0, 0, -7 / 2⟩ : Vec3 ℝ) (⟨3 / 10, 0, 1⟩ : Vec3 ℝ) k t = some h
      ∧ t ≤ h.1 ∧ h.1 < 33 / 10 := by
  intro k
  induction k with
  | zero =>
    intro t _ h1 h2
    norm_num at h2
    linarith
  | succ k ih =>
    intro t h0 h1 h2
    have hQ0 : 0 ≤ (109 / 100 * t ^ 2 - 7 * t + 49 / 4) := by nlinarith [sq_nonneg (t * 109 - 350)]
    have hQle : (109 / 100 * t ^ 2 - 7 * t + 49 / 4) ≤ (7 / 2) ^ 2 := by nlinarith
    have hsle : Real.sqrt (109 / 100 * t ^ 2 - 7 * t + 49 / 4) ≤ 7 / 2 := (Real.sqrt_le_left (by norm_num)).mpr hQle
    rw [march_trace_succ, grazing_aggregate t (by linarith)]
    by_cases hhit : Real.sqrt (109 / 100 * t ^ 2 - 7 * t + 49 / 4) - 1 < MINIMUM_HIT_DISTANCE
    · rw [if_pos hhit]
      exact ⟨_, rfl, le_refl t, h1⟩
    · have hmax : ¬ (t > MainNew.MAXIMUM_TRACE_DISTANCE) := by
        rw [MainNew.MAXIMUM_TRACE_DISTANCE]; linarith
      rw [if_neg hhit, if_neg hmax]
      rw [MINIMUM_HIT_DISTANCE] at hhit
      have hs : 101 / 100 ≤ Real.sqrt (109 / 100 * t ^ 2 - 7 * t + 49 / 4) := by linarith
      have hQ1 : (101 / 100 : ℝ) ^ 2 ≤ (109 / 100 * t ^ 2 - 7 * t + 49 / 4) := (Real.le_sqrt' (by norm_num)).mp hs
      have ht : t ≤ 313 / 100 := by
        by_contra hc
        have hc' : 313 / 100 < t := not_le.mp hc
        nlinarith [mul_pos (sub_pos.mpr hc') (sub_pos.mpr h1)]
      have hnext : Real.sqrt (109 / 100 * t ^ 2 - 7 * t + 49 / 4) < 43 / 10 - t := by
        rw [Real.sqrt_lt' (by linarith)]
        nlinarith
      have h2' : 33 / 10 - (t + (Real.sqrt (109 / 100 * t ^ 2 - 7 * t + 49 / 4) - 1)) < 1 / 100 * (k : ℝ) := by
        push_cast at h2
        linarith
      obtain ⟨h, e, hle, hlt⟩ := ih (t + (Real.sqrt (109 / 100 * t ^ 2 - 7 * t + 49 / 4) - 1)) (by linarith) (by linarith) h2'
      exact ⟨h, e, by linarith, hlt⟩

/-- C20 fails as stated: at resolution `10 × 5` the pixel with centre `(6.5, 2.5)` has the
camera ray `(0.3, 0, 1)` from `(0, 0, -3.5)`, which does not intersect the unit sphere at
the origin (it passes at distance `1.0057` from the centre), yet the march takes the hit
branch inside the shell of thickness `MINIMUM_HIT_DISTANCE` around the sphere, and the
rendered colour of the white sphere with diffuse intensity `0.5` has a first component of
at least `0.5`: it is not black. -/
theorem silhouette_counterexample :
    camera_direction (⟨10, 5⟩ : Vec2 ℝ) ⟨13 / 2, 5 / 2⟩ = ⟨3 / 10, 0, 1⟩
    ∧ (∀ t : ℝ, 1 < dot ((⟨0, 0, -7 / 2⟩ : Vec3 ℝ) + t • camera_direction ⟨10, 5⟩ ⟨13 / 2, 5 / 2⟩)
        ((⟨0, 0, -7 / 2⟩ : Vec3 ℝ) + t • camera_direction ⟨10, 5⟩ ⟨13 / 2, 5 / 2⟩))
    ∧ 1 / 2 ≤ (MainNew.main (MathFns.mk Real.sqrt Real.sin Real.cos) ⟨10, 5⟩ ⟨17, 0⟩ ⟨0, 0, -7 / 2⟩ (fun _ => example_diffuse_sphere : Nat → WorldObject ℝ) 1 ⟨13 / 2, 5 / 2⟩).x
    ∧ MainNew.main (MathFns.mk Real.sqrt Real.sin Real.cos) ⟨10, 5⟩ ⟨17, 0⟩ ⟨0, 0, -7 / 2⟩ (fun _ => example_diffuse_sphere : Nat → WorldObject ℝ) 1 ⟨13 / 2, 5 / 2⟩
        ≠ ⟨0, 0, 0, 1⟩ := by
  have hdir : camera_direction (⟨10, 5⟩ : Vec2 ℝ) ⟨13 / 2, 5 / 2⟩ = ⟨3 / 10, 0, 1⟩ := by
    ext <;> norm_num [camera_direction]
  have hmiss : ∀ t : ℝ, 1 < dot ((⟨0, 0, -7 / 2⟩ : Vec3 ℝ) + t • camera_direction ⟨10, 5⟩ ⟨13 / 2, 5 / 2⟩)
      ((⟨0, 0, -7 / 2⟩ : Vec3 ℝ) + t • camera_direction ⟨10, 5⟩ ⟨13 / 2, 5 / 2⟩) := by
    intro t
    rw [hdir]
    simp only [dot, Vec3.add_x, Vec3.add_y, Vec3.add_z, Vec3.smul_x, Vec3.smul_y, Vec3.smul_z]
    nlinarith [sq_nonneg (t * 109 - 350)]
  have hfirst : (MainNew.map_the_world (MathFns.mk Real.sqrt Real.sin Real.cos) 0 (fun _ => example_diffuse_sphere : Nat → WorldObject ℝ) 1) ((⟨0, 0, -7 / 2⟩ : Vec3 ℝ) + (0 : ℝ) • (⟨3 / 10, 0, 1⟩ : Vec3 ℝ)) = (5 / 2, 0) := by
    have hq : Real.sqrt (109 / 100 * (0 : ℝ) ^ 2 - 7 * 0 + 49 / 4) = 7 / 2 := by
      rw [show (109 / 100 * (0 : ℝ) ^ 2 - 7 * 0 + 49 / 4) = (7 / 2) * (7 / 2) by norm_num]
      exact Real.sqrt_mul_self (by norm_num)
    rw [grazing_aggregate 0 (by rw [hq]; norm_num), hq]
    norm_num
  obtain ⟨h, htr, hle, hlt⟩ := grazing_hit 255 (0 + 5 / 2) (by norm_num) (by norm_num)
    (by norm_num)
  have htrace : march_trace (MainNew.map_the_world (MathFns.mk Real.sqrt Real.sin Real.cos) 0 (fun _ => example_diffuse_sphere : Nat → WorldObject ℝ) 1) MainNew.MAXIMUM_TRACE_DISTANCE (⟨0, 0, -7 / 2⟩ : Vec3 ℝ) (⟨3 / 10, 0, 1⟩ : Vec3 ℝ)
      NUMBER_OF_STEPS 0 = some h := by
    rw [show NUMBER_OF_STEPS = 255 + 1 from rfl, march_trace_succ, hfirst,
      if_neg (by norm_num [MINIMUM_HIT_DISTANCE]),
      if_neg (by norm_num [MainNew.MAXIMUM_TRACE_DISTANCE])]
    exact htr
  have hfade : min (1 : ℝ) (20 / h.1) = 1 :=
    (fade_factor 20 h.1 (by norm_num) (by linarith)).1 (by linarith)
  have hx : 1 / 2 ≤ (MainNew.main (MathFns.mk Real.sqrt Real.sin Real.cos) ⟨10, 5⟩ ⟨17, 0⟩ ⟨0, 0, -7 / 2⟩ (fun _ => example_diffuse_sphere : Nat → WorldObject ℝ) 1
      ⟨13 / 2, 5 / 2⟩).x := by
    rw [mainNew_main_eq, hdir]
    simp only
    rw [(mainNew_ray_march_of_trace _ _ _ _ _ _ h htrace).2, hfade, Vec3.muls_one,
      mainNew_hit_color_eq]
    have hτ : (example_diffuse_sphere : WorldObject ℝ).transparency = 0 := rfl
    have hρ : (example_diffuse_sphere : WorldObject ℝ).reflectivity = 0 := rfl
    simp only [bounce_blend, hτ, hρ, gt_iff_lt, lt_irrefl, if_false]
    exact local_color_diffuse_sphere _ _ _
  refine ⟨hdir, hmiss, hx, ?_⟩
  intro heq
  rw [heq] at hx
  norm_num at hx

end FrameDriver

/-! ## Lemmas on the index of a hit and on scenes that agree -/

section IndexLemmas

variable {α : Type} [LinearOrderedField α]

/-- A hit of the aggregator loop is owned by an index below `n` that is not passed over. -/
theorem scan_hit_index (d : Nat → α) (skip : Nat → Prop) [DecidablePred skip] (n : Nat)
    (h : (scan d skip n).1 < MINIMUM_HIT_DISTANCE) :
    ∃ j, j < n ∧ ¬ skip j ∧ (scan d skip n).2 = (j : Int) :=
  scan_index_of_lt d skip n (lt_trans h (by norm_num [MINIMUM_HIT_DISTANCE]))

/-- The aggregator loop depends on the distances of the indices that count only. -/
theorem scan_congr_skip (d₁ d₂ : Nat → α) (skip : Nat → Prop) [DecidablePred skip] (n : Nat)
    (h : ∀ i, i < n → ¬ skip i → d₁ i = d₂ i) : scan d₁ skip n = scan d₂ skip n := by
  induction n with
  | zero => rw [scan_zero, scan_zero]
  | succ n ih =>
    rw [scan_succ, scan_succ, ih (fun i hi => h i (Nat.lt_succ_of_lt hi))]
    by_cases hs : skip n
    · rw [if_pos hs, if_pos hs]
    · rw [if_neg hs, if_neg hs, h n (Nat.lt_succ_self n) hs]

/-- The loop when the index `j` has the least distance that counts and is the first to
have it: the result is that distance and `j`. -/
theorem scan_owner_eq (d : Nat → α) (skip : Nat → Prop) [DecidablePred skip] (n j : Nat)
    (hj : j < n) (hs : ¬ skip j) (hv : d j < 100000)
    (hmin : ∀ i, i < n → ¬ skip i → d j ≤ d i)
    (hfirst : ∀ i, i < j → ¬ skip i → d j < d i) :
    scan d skip n = (d j, (j : Int)) := by
  have hne := scan_lt_of_lt d skip n j hj hs hv
  obtain ⟨i, hi, hsi, h2, h3, _, h5⟩ := scan_owner d skip n hne
  have h1 : (scan d skip n).1 = d j :=
    le_antisymm ((scan_inv d skip n).le_all j hj hs) (h3 ▸ hmin i hi hsi)
  have hij : i = j := by
    rcases Nat.lt_or_ge i j with hlt | hge
    · have := hfirst i hlt hsi
      rw [h3, h1] at this
      exact absurd this (lt_irrefl _)
    · exact le_antisymm (h5 j hj hs h1.symm) hge
  subst hij
  exact Prod.ext h1 h2

theorem mainNew_world_agree (F : MathFns α) (multi : α) (o₁ o₂ : Nat → WorldObject α) (n : Nat)
    (h : ∀ i, i < n → o₁ i = o₂ i) (q : Vec3 α) :
    MainNew.map_the_world F multi o₁ n q = MainNew.map_the_world F multi o₂ n q := by
  rw [mainNew_map_the_world_eq_scan, mainNew_map_the_world_eq_scan]
  exact scan_congr _ _ _ _ (fun i hi => by rw [h i hi])

theorem mainNew_skip_agree (F : MathFns α) (multi : α) (o₁ o₂ : Nat → WorldObject α) (n : Nat)
    (k : Int) (h : ∀ i, i < n → (i : Int) ≠ k → o₁ i = o₂ i) (q : Vec3 α) :
    MainNew.map_the_world_skip F multi o₁ n q k = MainNew.map_the_world_skip F multi o₂ n q k := by
  rw [mainNew_map_the_world_skip_eq_scan, mainNew_map_the_world_skip_eq_scan]
  exact scan_congr_skip _ _ _ _ (fun i hi hs => by rw [h i hi hs])

theorem main_world_agree (F : MathFns α) (multi : α) (w₁ w₂ : Nat → WorldObject α)
    (h : ∀ i, i < Main.OBJECT_COUNT → w₁ i = w₂ i) (q : Vec3 α) :
    Main.map_the_world F multi q w₁ = Main.map_the_world F multi q w₂ := by
  rw [main_map_the_world_eq_scan, main_map_the_world_eq_scan]
  exact scan_congr _ _ _ _ (fun i hi => by rw [h i hi])

theorem main_skip_agree (F : MathFns α) (multi : α) (w₁ w₂ : Nat → WorldObject α)
    (k : Int) (h : ∀ i, i < Main.OBJECT_COUNT → (i : Int) ≠ k → w₁ i = w₂ i) (q : Vec3 α) :
    Main.map_the_world_skip F multi q w₁ k = Main.map_the_world_skip F multi q w₂ k := by
  rw [main_map_the_world_skip_eq_scan, main_map_the_world_skip_eq_scan]
  exact scan_congr_skip _ _ _ _ (fun i hi hs => by rw [h i hi hs])

/-- The object that a hit looks up is the same in two scenes that agree on the indices
that count. -/
theorem mainNew_world_hit_object (F : MathFns α) (multi : α) (o₁ o₂ : Nat → WorldObject α)
    (n : Nat) (h : ∀ i, i < n → o₁ i = o₂ i) (q : Vec3 α)
    (hit : (MainNew.map_the_world F multi o₂ n q).1 < MINIMUM_HIT_DISTANCE) :
    o₁ (MainNew.map_the_world F multi o₂ n q).2.toNat
      = o₂ (MainNew.map_the_world F multi o₂ n q).2.toNat := by
  rw [mainNew_map_the_world_eq_scan] at hit ⊢
  obtain ⟨j, hj, _, h2⟩ := scan_hit_index _ _ _ hit
  rw [h2, Int.toNat_ofNat]
  exact h j hj

theorem mainNew_skip_hit_object (F : MathFns α) (multi : α) (o₁ o₂ : Nat → WorldObject α)
    (n : Nat) (k : Int) (h : ∀ i, i < n → (i : Int) ≠ k → o₁ i = o₂ i) (q : Vec3 α)
    (hit : (MainNew.map_the_world_skip F multi o₂ n q k).1 < MINIMUM_HIT_DISTANCE) :
    o₁ (MainNew.map_the_world_skip F multi o₂ n q k).2.toNat
      = o₂ (MainNew.map_the_world_skip F multi o₂ n q k).2.toNat := by
  rw [mainNew_map_the_world_skip_eq_scan] at hit ⊢
  obtain ⟨j, hj, hs, h2⟩ := scan_hit_index _ _ _ hit
  rw [h2, Int.toNat_ofNat]
  exact h j hj hs

theorem main_world_hit_object (F : MathFns α) (multi : α) (w₁ w₂ : Nat → WorldObject α)
    (h : ∀ i, i < Main.OBJECT_COUNT → w₁ i = w₂ i) (q : Vec3 α)
    (hit : (Main.map_the_world F multi q w₂).1 < MINIMUM_HIT_DISTANCE) :
    w₁ (Main.map_the_world F multi q w₂).2.toNat
      = w₂ (Main.map_the_world F multi q w₂).2.toNat := by
  rw [main_map_the_world_eq_scan] at hit ⊢
  obtain ⟨j, hj, _, h2⟩ := scan_hit_index _ _ _ hit
  rw [h2, Int.toNat_ofNat]
  exact h j hj

theorem main_skip_hit_object (F : MathFns α) (multi : α) (w₁ w₂ : Nat → WorldObject α)
    (k : Int) (h : ∀ i, i < Main.OBJECT_COUNT → (i : Int) ≠ k → w₁ i = w₂ i) (q : Vec3 α)
    (hit : (Main.map_the_world_skip F multi q w₂ k).1 < MINIMUM_HIT_DISTANCE) :
    w₁ (Main.map_the_world_skip F multi q w₂ k).2.toNat
      = w₂ (Main.map_the_world_skip F multi q w₂ k).2.toNat := by
  rw [main_map_the_world_skip_eq_scan] at hit ⊢
  obtain ⟨j, hj, hs, h2⟩ := scan_hit_index _ _ _ hit
  rw [h2, Int.toNat_ofNat]
  exact h j hj hs

/-- The leaf routine of `mainNew.js` returns the same colour in two scenes that agree on
the active indices other than the excluded one. -/
theorem mainNew_ray_march2_agree (F : MathFns α) (multi : α) (o₁ o₂ : Nat → WorldObject α)
    (n : Nat) (k : Int) (h : ∀ i, i < n → (i : Int) ≠ k → o₁ i = o₂ i) (ro rd : Vec3 α) :
    MainNew.ray_march2 F multi o₁ n ro rd k = MainNew.ray_march2 F multi o₂ n ro rd k := by
  have hagg := mainNew_skip_agree F multi o₁ o₂ n k h
  rw [MainNew.ray_march2, MainNew.ray_march2, mainNew_ray_march2_loop_eq,
    mainNew_ray_march2_loop_eq, march_trace_congr _ _ _ ro rd hagg]
  cases htr : march_trace (fun q => MainNew.map_the_world_skip F multi o₂ n q k)
      MainNew.MAXIMUM_TRACE_DISTANCE ro rd NUMBER_OF_STEPS 0 with
  | none => rfl
  | some r =>
    have hhit : (MainNew.map_the_world_skip F multi o₂ n (ro + r.1 • rd) k).1
        < MINIMUM_HIT_DISTANCE := (march_trace_some _ _ ro rd _ _ _ htr).1
    simp only [Option.elim, MainNew.ray_march2_hit, hagg]
    rw [mainNew_skip_hit_object F multi o₁ o₂ n k h _ hhit]

/-- The leaf routine of `main.js` returns the same colour in two worlds that agree on the
active indices other than the excluded one. -/
theorem main_ray_march3_agree (F : MathFns α) (multi : α) (w₁ w₂ : Nat → WorldObject α)
    (k : Int) (h : ∀ i, i < Main.OBJECT_COUNT → (i : Int) ≠ k → w₁ i = w₂ i)
    (ro rd : Vec3 α) :
    Main.ray_march3 F multi ro rd w₁ k = Main.ray_march3 F multi ro rd w₂ k := by
  have hagg := main_skip_agree F multi w₁ w₂ k h
  rw [Main.ray_march3, Main.ray_march3, main_ray_march3_loop_eq, main_ray_march3_loop_eq,
    march_trace_congr _ _ _ ro rd hagg]
  cases htr : march_trace (fun q => Main.map_the_world_skip F multi q w₂ k)
      Main.MAXIMUM_TRACE_DISTANCE ro rd NUMBER_OF_STEPS 0 with
  | none => rfl
  | some r =>
    have hhit : (Main.map_the_world_skip F multi (ro + r.1 • rd) w₂ k).1
        < MINIMUM_HIT_DISTANCE := (march_trace_some _ _ ro rd _ _ _ htr).1
    simp only [Option.elim, Main.ray_march3_hit, hagg]
    rw [main_skip_hit_object F multi w₁ w₂ k h _ hhit]

/-- The primary routine of `mainNew.js` returns the same colour in two scenes that agree
on the active indices. -/
theorem mainNew_ray_march_agree (F : MathFns α) (multi : α) (o₁ o₂ : Nat → WorldObject α)
    (n : Nat) (h : ∀ i, i < n → o₁ i = o₂ i) (ro rd : Vec3 α) :
    MainNew.ray_march F multi o₁ n ro rd = MainNew.ray_march F multi o₂ n ro rd := by
  have hagg := mainNew_world_agree F multi o₁ o₂ n h
  have hleaf : ∀ (p d : Vec3 α) (k : Int),
      MainNew.ray_march2 F multi o₁ n p d k = MainNew.ray_march2 F multi o₂ n p d k :=
    fun p d k => mainNew_ray_march2_agree F multi o₁ o₂ n k (fun i hi _ => h i hi) p d
  rw [MainNew.ray_march, MainNew.ray_march, mainNew_ray_march_loop_eq,
    mainNew_ray_march_loop_eq, march_trace_congr _ _ _ ro rd hagg]
  cases htr : march_trace (MainNew.map_the_world F multi o₂ n)
      MainNew.MAXIMUM_TRACE_DISTANCE ro rd NUMBER_OF_STEPS 0 with
  | none => rfl
  | some r =>
    have hhit : (MainNew.map_the_world F multi o₂ n (ro + r.1 • rd)).1
        < MINIMUM_HIT_DISTANCE := (march_trace_some _ _ ro rd _ _ _ htr).1
    simp only [Option.elim, hagg, mainNew_hit_color_eq, hleaf]
    rw [mainNew_world_hit_object F multi o₁ o₂ n h _ hhit]

/-- The middle routine of `main.js` returns the same colour in two worlds that agree on
the active indices. -/
theorem main_ray_march2_agree (F : MathFns α) (multi : α) (w₁ w₂ : Nat → WorldObject α)
    (h : ∀ i, i < Main.OBJECT_COUNT → w₁ i = w₂ i) (ro rd : Vec3 α) (k : Int) :
    Main.ray_march2 F multi ro rd w₁ k = Main.ray_march2 F multi ro rd w₂ k := by
  have hagg := main_skip_agree F multi w₁ w₂ k (fun i hi _ => h i hi)
  have hleaf : ∀ (p d : Vec3 α) (j : Int),
      Main.ray_march3 F multi p d w₁ j = Main.ray_march3 F multi p d w₂ j :=
    fun p d j => main_ray_march3_agree F multi w₁ w₂ j (fun i hi _ => h i hi) p d
  rw [Main.ray_march2, Main.ray_march2, main_ray_march2_loop_eq, main_ray_march2_loop_eq,
    march_trace_congr _ _ _ ro rd hagg]
  cases htr : march_trace (fun q => Main.map_the_world_skip F multi q w₂ k)
      Main.MAXIMUM_TRACE_DISTANCE ro rd NUMBER_OF_STEPS 0 with
  | none => rfl
  | some r =>
    have hhit : (Main.map_the_world_skip F multi (ro + r.1 • rd) w₂ k).1
        < MINIMUM_HIT_DISTANCE := (march_trace_some _ _ ro rd _ _ _ htr).1
    simp only [Option.elim, hagg, main_hit_color2_eq, hleaf]
    rw [main_skip_hit_object F multi w₁ w₂ k (fun i hi _ => h i hi) _ hhit]

/-- The primary routine of `main.js` returns the same colour in two worlds that agree on
the active indices. -/
theorem main_ray_march_agree (F : MathFns α) (multi : α) (w₁ w₂ : Nat → WorldObject α)
    (h : ∀ i, i < Main.OBJECT_COUNT → w₁ i = w₂ i) (ro rd : Vec3 α) :
    Main.ray_march F multi ro rd w₁ = Main.ray_march F multi ro rd w₂ := by
  have hagg := main_world_agree F multi w₁ w₂ h
  have hmid : ∀ (p d : Vec3 α) (j : Int),
      Main.ray_march2 F multi p d w₁ j = Main.ray_march2 F multi p d w₂ j :=
    fun p d j => main_ray_march2_agree F multi w₁ w₂ h p d j
  rw [Main.ray_march, Main.ray_march, main_ray_march_loop_eq, main_ray_march_loop_eq,
    march_trace_congr _ _ _ ro rd hagg]
  cases htr : march_trace (fun q => Main.map_the_world F multi q w₂)
      Main.MAXIMUM_TRACE_DISTANCE ro rd NUMBER_OF_STEPS 0 with
  | none => rfl
  | some r =>
    have hhit : (Main.map_the_world F multi (ro + r.1 • rd) w₂).1
        < MINIMUM_HIT_DISTANCE := (march_trace_some _ _ ro rd _ _ _ htr).1
    simp only [Option.elim, hagg, main_hit_color_eq, hmid]
    rw [main_world_hit_object F multi w₁ w₂ h _ hhit]

end IndexLemmas


/-! ## Scenes that agree, and the index of a hit -/

section Indices

variable {α : Type} [LinearOrderedField α]

/-- C21: inert entries.  For two scenes that agree on the objects at the indices
`0 .. numObjects-1` (`0 .. OBJECT_COUNT-1` in `main.js`) and differ arbitrarily at the
higher indices, `map_the_world`, `map_the_world_skip` and `ray_march` (and with it the
routines `ray_march2` and `ray_march3` that it casts its bounces through) return identical
results for every point, every ray and every excluded index. -/
theorem inert_entries (F : MathFns α) (multi : α) (o₁ o₂ w₁ w₂ : Nat → WorldObject α)
    (n : Nat) (h : ∀ i, i < n → o₁ i = o₂ i)
    (hw : ∀ i, i < Main.OBJECT_COUNT → w₁ i = w₂ i) :
    (∀ p, MainNew.map_the_world F multi o₁ n p = MainNew.map_the_world F multi o₂ n p)
    ∧ (∀ p k, MainNew.map_the_world_skip F multi o₁ n p k
        = MainNew.map_the_world_skip F multi o₂ n p k)
    ∧ (∀ ro rd, MainNew.ray_march F multi o₁ n ro rd = MainNew.ray_march F multi o₂ n ro rd)
    ∧ (∀ ro rd k, MainNew.ray_march2 F multi o₁ n ro rd k
        = MainNew.ray_march2 F multi o₂ n ro rd k)
    ∧ (∀ p, Main.map_the_world F multi p w₁ = Main.map_the_world F multi p w₂)
    ∧ (∀ p k, Main.map_the_world_skip F multi p w₁ k = Main.map_the_world_skip F multi p w₂ k)
    ∧ (∀ ro rd, Main.ray_march F multi ro rd w₁ = Main.ray_march F multi ro rd w₂)
    ∧ (∀ ro rd k, Main.ray_march2 F multi ro rd w₁ k = Main.ray_march2 F multi ro rd w₂ k)
    ∧ (∀ ro rd k, Main.ray_march3 F multi ro rd w₁ k = Main.ray_march3 F multi ro rd w₂ k) :=
  ⟨mainNew_world_agree F multi o₁ o₂ n h,
    fun p k => mainNew_skip_agree F multi o₁ o₂ n k (fun i hi _ => h i hi) p,
    mainNew_ray_march_agree F multi o₁ o₂ n h,
    fun ro rd k => mainNew_ray_march2_agree F multi o₁ o₂ n k (fun i hi _ => h i hi) ro rd,
    main_world_agree F multi w₁ w₂ hw,
    fun p k => main_skip_agree F multi w₁ w₂ k (fun i hi _ => hw i hi) p,
    main_ray_march_agree F multi w₁ w₂ hw,
    main_ray_march2_agree F multi w₁ w₂ hw,
    fun ro rd k => main_ray_march3_agree F multi w₁ w₂ k (fun i hi _ => hw i hi) ro rd⟩

/-- A witness of C21: a scene of one active sphere followed by objects of an unknown kind
against the scene that holds the sphere at every index, and the same for a world of
eleven floors; the primary ray goes from `(0, 0, -3)` along `(0, 0, 1)`. -/
theorem inert_entries_witness :
    (∀ i, i < 1 → (fun i => if i < 1 then example_sphere 1 else example_unknown :
        Nat → WorldObject ℝ) i = (fun _ => example_sphere 1 : Nat → WorldObject ℝ) i)
    ∧ (∀ i, i < Main.OBJECT_COUNT →
        (fun i => if i < 11 then example_plane 0 else example_unknown :
          Nat → WorldObject ℝ) i = (fun _ => example_plane 0 : Nat → WorldObject ℝ) i)
    ∧ MainNew.ray_march (MathFns.mk Real.sqrt Real.sin Real.cos) 0
        (fun i => if i < 1 then example_sphere 1 else example_unknown) 1
        (⟨0, 0, -3⟩ : Vec3 ℝ) ⟨0, 0, 1⟩
      = MainNew.ray_march (MathFns.mk Real.sqrt Real.sin Real.cos) 0 (fun _ => example_sphere 1) 1 (⟨0, 0, -3⟩ : Vec3 ℝ) ⟨0, 0, 1⟩
    ∧ Main.ray_march (MathFns.mk Real.sqrt Real.sin Real.cos) 0 (⟨0, 0, -3⟩ : Vec3 ℝ) ⟨0, 0, 1⟩
        (fun i => if i < 11 then example_plane 0 else example_unknown)
      = Main.ray_march (MathFns.mk Real.sqrt Real.sin Real.cos) 0 (⟨0, 0, -3⟩ : Vec3 ℝ) ⟨0, 0, 1⟩ (fun _ => example_plane 0) := by
  have h1 : ∀ i, i < 1 → (fun i => if i < 1 then example_sphere 1 else example_unknown :
      Nat → WorldObject ℝ) i = (fun _ => example_sphere 1 : Nat → WorldObject ℝ) i :=
    fun i hi => if_pos hi
  have h2 : ∀ i, i < Main.OBJECT_COUNT →
      (fun i => if i < 11 then example_plane 0 else example_unknown :
        Nat → WorldObject ℝ) i = (fun _ => example_plane 0 : Nat → WorldObject ℝ) i :=
    fun i hi => if_pos hi
  exact ⟨h1, h2,
    (inert_entries (MathFns.mk Real.sqrt Real.sin Real.cos) 0 _ _ _ _ 1 h1 h2).2.2.1 ⟨0, 0, -3⟩ ⟨0, 0, 1⟩,
    (inert_entries (MathFns.mk Real.sqrt Real.sin Real.cos) 0 _ _ _ _ 1 h1 h2).2.2.2.2.2.2.1 ⟨0, 0, -3⟩ ⟨0, 0, 1⟩⟩

/-- C28: the hit index is always valid.  In every march routine the hit branch is taken
when the aggregate distance at the current position is below `MINIMUM_HIT_DISTANCE`; then
the owning index that the aggregator returns is an integer `j` with `0 ≤ j < numObjects`
(`OBJECT_COUNT` in `main.js`), so it is not the no-object value `-1`, it is not the
excluded index, and the lookup `objects[int(index)]` is in bounds whenever the active count
is at most `OBJECT_COUNT_MAX` (as `OBJECT_COUNT = 11` is in `main.js`). -/
theorem hit_index_valid (F : MathFns α) (multi : α) (objects : Nat → WorldObject α) (n : Nat)
    (q : Vec3 α) (k : Int) :
    ((MainNew.map_the_world F multi objects n q).1 < MINIMUM_HIT_DISTANCE →
      ∃ j : Nat, (MainNew.map_the_world F multi objects n q).2 = (j : Int) ∧ j < n
        ∧ (MainNew.map_the_world F multi objects n q).2 ≠ -1
        ∧ (n ≤ MainNew.OBJECT_COUNT_MAX →
          (MainNew.map_the_world F multi objects n q).2.toNat < MainNew.OBJECT_COUNT_MAX))
    ∧ ((MainNew.map_the_world_skip F multi objects n q k).1 < MINIMUM_HIT_DISTANCE →
      ∃ j : Nat, (MainNew.map_the_world_skip F multi objects n q k).2 = (j : Int) ∧ j < n
        ∧ (MainNew.map_the_world_skip F multi objects n q k).2 ≠ -1
        ∧ (MainNew.map_the_world_skip F multi objects n q k).2 ≠ k
        ∧ (n ≤ MainNew.OBJECT_COUNT_MAX →
          (MainNew.map_the_world_skip F multi objects n q k).2.toNat
            < MainNew.OBJECT_COUNT_MAX))
    ∧ ((Main.map_the_world F multi q objects).1 < MINIMUM_HIT_DISTANCE →
      ∃ j : Nat, (Main.map_the_world F multi q objects).2 = (j : Int)
        ∧ j < Main.OBJECT_COUNT
        ∧ (Main.map_the_world F multi q objects).2 ≠ -1
        ∧ (Main.map_the_world F multi q objects).2.toNat < Main.OBJECT_COUNT_MAX)
    ∧ ((Main.map_the_world_skip F multi q objects k).1 < MINIMUM_HIT_DISTANCE →
      ∃ j : Nat, (Main.map_the_world_skip F multi q objects k).2 = (j : Int)
        ∧ j < Main.OBJECT_COUNT
        ∧ (Main.map_the_world_skip F multi q objects k).2 ≠ -1
        ∧ (Main.map_the_world_skip F multi q objects k).2 ≠ k
        ∧ (Main.map_the_world_skip F multi q objects k).2.toNat < Main.OBJECT_COUNT_MAX) := by
  refine ⟨?_, ?_, ?_, ?_⟩
  · intro hit
    rw [mainNew_map_the_world_eq_scan] at hit ⊢
    obtain ⟨j, hj, _, h2⟩ := scan_hit_index _ _ _ hit
    refine ⟨j, h2, hj, ?_, ?_⟩
    · rw [h2]; omega
    · intro hn
      rw [h2, Int.toNat_ofNat]
      exact lt_of_lt_of_le hj hn
  · intro hit
    rw [mainNew_map_the_world_skip_eq_scan] at hit ⊢
    obtain ⟨j, hj, hs, h2⟩ := scan_hit_index _ _ _ hit
    refine ⟨j, h2, hj, ?_, ?_, ?_⟩
    · rw [h2]; omega
    · rw [h2]; exact hs
    · intro hn
      rw [h2, Int.toNat_ofNat]
      exact lt_of_lt_of_le hj hn
  · intro hit
    rw [main_map_the_world_eq_scan] at hit ⊢
    obtain ⟨j, hj, _, h2⟩ := scan_hit_index _ _ _ hit
    refine ⟨j, h2, hj, ?_, ?_⟩
    · rw [h2]; omega
    · rw [h2, Int.toNat_ofNat]
      exact lt_trans hj (by decide)
  · intro hit
    rw [main_map_the_world_skip_eq_scan] at hit ⊢
    obtain ⟨j, hj, hs, h2⟩ := scan_hit_index _ _ _ hit
    refine ⟨j, h2, hj, ?_, ?_, ?_⟩
    · rw [h2]; omega
    · rw [h2]; exact hs
    · rw [h2, Int.toNat_ofNat]
      exact lt_trans hj (by decide)

/-- A witness of C28: the scene of floors `y = 0` at the point `(0, 0, 0)`, where the
aggregate distance is `0`; the hit index is `0`. -/
theorem hit_index_valid_witness :
    (MainNew.map_the_world (MathFns.mk Real.sqrt Real.sin Real.cos) 0 (fun _ => example_floor 0 0 0 ⟨1, 1, 1⟩) 3
      (⟨0, 0, 0⟩ : Vec3 ℝ)).1 < MINIMUM_HIT_DISTANCE
    ∧ ∃ j : Nat, (MainNew.map_the_world (MathFns.mk Real.sqrt Real.sin Real.cos) 0 (fun _ => example_floor 0 0 0 ⟨1, 1, 1⟩) 3
        (⟨0, 0, 0⟩ : Vec3 ℝ)).2 = (j : Int) ∧ j < 3
      ∧ (MainNew.map_the_world (MathFns.mk Real.sqrt Real.sin Real.cos) 0 (fun _ => example_floor 0 0 0 ⟨1, 1, 1⟩) 3
        (⟨0, 0, 0⟩ : Vec3 ℝ)).2 ≠ -1
      ∧ (3 ≤ MainNew.OBJECT_COUNT_MAX →
        (MainNew.map_the_world (MathFns.mk Real.sqrt Real.sin Real.cos) 0 (fun _ => example_floor 0 0 0 ⟨1, 1, 1⟩) 3
          (⟨0, 0, 0⟩ : Vec3 ℝ)).2.toNat < MainNew.OBJECT_COUNT_MAX) := by
  have hit : (MainNew.map_the_world (MathFns.mk Real.sqrt Real.sin Real.cos) 0 (fun _ => example_floor 0 0 0 ⟨1, 1, 1⟩) 3
      (⟨0, 0, 0⟩ : Vec3 ℝ)).1 < MINIMUM_HIT_DISTANCE := by
    rw [mainNew_floor_world (MathFns.mk Real.sqrt Real.sin Real.cos) 0 0 0 0 ⟨1, 1, 1⟩ 3 (by decide) ⟨0, 0, 0⟩ (by norm_num)]
    norm_num [MINIMUM_HIT_DISTANCE]
  exact ⟨hit, (hit_index_valid (MathFns.mk Real.sqrt Real.sin Real.cos) 0 (fun _ => example_floor 0 0 0 ⟨1, 1, 1⟩) 3
    ⟨0, 0, 0⟩ 0).1 hit⟩

end Indices

/-! ## Lemmas on the stack scene -/

section StackLemmas

variable {α : Type} [LinearOrderedField α]

/-- A march that finds distance `1` at its origin and distance `0` one unit further: the
hit branch is taken after travelling `1`, with the owner found there. -/
theorem march_two_steps_owner (agg : Vec3 α → α × Int) (maxd : α) (ro rd : Vec3 α)
    (hmax : 0 ≤ maxd) (i j : Int)
    (h0 : agg (ro + (0 : α) • rd) = (1, i)) (h1 : agg (ro + (1 : α) • rd) = (0, j)) :
    march_trace agg maxd ro rd NUMBER_OF_STEPS 0 = some (1, j) := by
  have c0 : ¬ ((1 : α) < MINIMUM_HIT_DISTANCE) := by norm_num [MINIMUM_HIT_DISTANCE]
  have c1 : (0 : α) < MINIMUM_HIT_DISTANCE := by norm_num [MINIMUM_HIT_DISTANCE]
  have c2 : ¬ ((0 : α) > maxd) := not_lt.mpr hmax
  rw [show NUMBER_OF_STEPS = 254 + 1 + 1 from rfl, march_trace_succ, h0, if_neg c0,
    if_neg c2, march_trace_succ, zero_add, h1, if_pos c1]

/-- The local colour of an object with diffuse intensity `0` and a colour that is not the
sentinel is its colour. -/
theorem local_color_plain (F : MathFns α) (n p : Vec3 α) (o : WorldObject α)
    (hx : o.color.x ≠ -2) (hk : o.diffuse_intensity = 0) : local_color F n p o = o.color := by
  simp only [local_color, hk, if_neg hx]
  ext <;> simp

/-- The distances of a point from the objects of the stack scene: its height above the
pane for index 0, its height above the floor for the others. -/
theorem stack_distance (F : MathFns α) (multi : α) (q c : Vec3 α) (i : Nat) :
    Main.map_the_object F multi q (example_stack c i) = if i = 0 then q.y - 1 else q.y := by
  by_cases h0 : i = 0
  · rw [if_pos h0]
    simp only [example_stack, if_pos h0]
    norm_num [Main.map_the_object, example_pane, distance_from_plane, dot]
  · rw [if_neg h0]
    by_cases h1 : i = 1
    · simp only [example_stack, if_neg h0, if_pos h1]
      exact (floor_distance F multi q _ _ _ _).2
    · simp only [example_stack, if_neg h0, if_neg h1]
      exact (floor_distance F multi q _ _ _ _).2

/-- The stack scene seen with the floor at index 1 excluded: the pane is nearest. -/
theorem stack_skip_floor (F : MathFns α) (multi : α) (q c : Vec3 α) (hq : q.y - 1 < 100000) :
    Main.map_the_world_skip F multi q (example_stack c) 1 = (q.y - 1, 0) := by
  rw [main_map_the_world_skip_eq_scan]
  have e := scan_owner_eq (fun i => Main.map_the_object F multi q (example_stack c i))
    (fun i => (i : Int) = 1) Main.OBJECT_COUNT 0 (by decide) (by decide)
    (by beta_reduce; rw [stack_distance, if_pos rfl]; exact hq)
    (fun i _ _ => by
      beta_reduce
      rw [stack_distance, stack_distance, if_pos rfl]
      by_cases h0 : i = 0
      · rw [if_pos h0]
      · rw [if_neg h0]; linarith)
    (fun i hi _ => absurd hi (Nat.not_lt_zero i))
  beta_reduce at e
  rw [e, stack_distance, if_pos rfl]
  rfl

/-- The stack scene seen with the pane excluded: the floor at index 1 is nearest. -/
theorem stack_skip_pane (F : MathFns α) (multi : α) (q c : Vec3 α) (hq : q.y < 100000) :
    Main.map_the_world_skip F multi q (example_stack c) 0 = (q.y, 1) := by
  rw [main_map_the_world_skip_eq_scan]
  have e := scan_owner_eq (fun i => Main.map_the_object F multi q (example_stack c i))
    (fun i => (i : Int) = 0) Main.OBJECT_COUNT 1 (by decide) (by decide)
    (by beta_reduce; rw [stack_distance, if_neg (by decide)]; exact hq)
    (fun i _ hs => by
      have h0 : i ≠ 0 := fun h => hs (by rw [h]; rfl)
      beta_reduce
      rw [stack_distance, stack_distance, if_neg (by decide), if_neg h0])
    (fun i hi hs => by
      have h0 : i = 0 := by omega
      exact absurd (by rw [h0]; rfl) hs)
  beta_reduce at e
  rw [e, stack_distance, if_neg (by decide)]
  rfl

/-- In the stack scene the ray straight down from `(0, 2, 0)`, cast with the floor at
index 1 excluded, hits the pane (index 0) after travelling `1`. -/
theorem stack_first_trace (F : MathFns α) (multi : α) (c : Vec3 α) :
    march_trace (fun q => Main.map_the_world_skip F multi q (example_stack c) 1)
      Main.MAXIMUM_TRACE_DISTANCE ⟨0, 2, 0⟩ ⟨0, -1, 0⟩ NUMBER_OF_STEPS 0 = some (1, 0) := by
  refine march_two_steps_owner _ _ _ _ (by norm_num [Main.MAXIMUM_TRACE_DISTANCE]) 0 0 ?_ ?_
  · have := stack_skip_floor F multi ((⟨0, 2, 0⟩ : Vec3 α) + (0 : α) • ⟨0, -1, 0⟩) c
      (by norm_num)
    rw [this]
    norm_num
  · have := stack_skip_floor F multi ((⟨0, 2, 0⟩ : Vec3 α) + (1 : α) • ⟨0, -1, 0⟩) c
      (by norm_num)
    rw [this]
    norm_num

/-- In the stack scene the ray that goes on from the pane, cast with the pane excluded,
hits the floor at index 1 after travelling `1`. -/
theorem stack_second_trace (F : MathFns α) (multi : α) (c : Vec3 α) :
    march_trace (fun q => Main.map_the_world_skip F multi q (example_stack c) 0)
      Main.MAXIMUM_TRACE_DISTANCE ((⟨0, 2, 0⟩ : Vec3 α) + (1 : α) • ⟨0, -1, 0⟩) ⟨0, -1, 0⟩
      NUMBER_OF_STEPS 0 = some (1, 1) := by
  refine march_two_steps_owner _ _ _ _ (by norm_num [Main.MAXIMUM_TRACE_DISTANCE]) 1 1 ?_ ?_
  · have := stack_skip_pane F multi
      (((⟨0, 2, 0⟩ : Vec3 α) + (1 : α) • ⟨0, -1, 0⟩) + (0 : α) • ⟨0, -1, 0⟩) c (by norm_num)
    rw [this]
    norm_num
  · have := stack_skip_pane F multi
      (((⟨0, 2, 0⟩ : Vec3 α) + (1 : α) • ⟨0, -1, 0⟩) + (1 : α) • ⟨0, -1, 0⟩) c (by norm_num)
    rw [this]
    norm_num

/-- The colour that the middle routine of `main.js` returns in the stack scene for the ray
straight down from `(0, 2, 0)` with the floor at index 1 excluded: half the colour of that
excluded floor and half the white of the pane. -/
theorem stack_middle_color (F : MathFns α) (multi : α) (c : Vec3 α) (hc : c.x ≠ -2) :
    Main.ray_march2 F multi ⟨0, 2, 0⟩ ⟨0, -1, 0⟩ (example_stack c) 1
      = c.muls (1 / 2) + (1 / 2 : α) • ⟨1, 1, 1⟩ := by
  have h1 := stack_first_trace F multi c
  have h2 := stack_second_trace F multi c
  have hidx := (main_ray_march2_of_trace F multi _ _ _ 1 _ h1).1
  have hidx2 := (main_ray_march3_of_trace F multi _ _ _ 0 _ h2).1
  have hpane : example_stack c (0 : Int).toNat = example_pane := rfl
  have hfloor : example_stack c (1 : Int).toNat = example_floor 0 0 0 c := rfl
  have hτ : (example_pane : WorldObject α).transparency = 1 / 2 := rfl
  have hρ : (example_pane : WorldObject α).reflectivity = 0 := rfl
  have hτ0 : (1 / 2 : α) > 0 := by norm_num
  have hfade : min (1 : α) (5 / 1) = 1 := by norm_num
  rw [(main_ray_march2_of_trace F multi _ _ _ 1 _ h1).2, main_hit_color2_eq, ← hidx]
  simp only [hpane, hτ, hρ, bounce_blend, if_pos hτ0, gt_iff_lt, lt_irrefl, if_false]
  rw [(main_ray_march3_of_trace F multi _ _ _ 0 _ h2).2]
  simp only [hfloor, hfade, Vec3.muls_one]
  rw [local_color_white F _ _ example_pane rfl rfl,
    local_color_plain F _ _ (example_floor 0 0 0 c) hc rfl]
  ext <;> norm_num [example_floor]

end StackLemmas

section LeafBounce

variable {α : Type} [LinearOrderedField α]

/-- C30: a leaf bounce ignores the surface it left.  For the deepest march routine
(`ray_march2` in `mainNew.js`, `ray_march3` in `main.js`), every ray and every excluded
index `k`, two scenes that differ only in the object at index `k` yield the same colour.
The middle routine `ray_march2` of `main.js` excluding `k` passes the index of its own hit
to `ray_march3`, whose hit may again be object `k`: in the stack scene (pane at index 0,
floor of colour `c` at index 1, two scenes of it differing at index 1 only) the ray
straight down from `(0, 2, 0)` with index 1 excluded hits the pane, the ray cast on from
there with index 0 excluded hits the floor at index 1, and the colour returned is
`c*0.5 + 0.5*white`, which depends on the object at index 1. -/
theorem leaf_bounce_ignores_excluded (F : MathFns α) (multi : α)
    (o₁ o₂ : Nat → WorldObject α) (k : Int) (h : ∀ i : Nat, (i : Int) ≠ k → o₁ i = o₂ i) :
    (∀ n ro rd, MainNew.ray_march2 F multi o₁ n ro rd k
        = MainNew.ray_march2 F multi o₂ n ro rd k)
    ∧ (∀ ro rd, Main.ray_march3 F multi ro rd o₁ k = Main.ray_march3 F multi ro rd o₂ k)
    ∧ (∀ (c₁ c₂ : Vec3 α) (i : Nat), i ≠ 1 → example_stack c₁ i = example_stack c₂ i)
    ∧ (∀ c : Vec3 α, c.x ≠ -2 →
        march_trace (fun q => Main.map_the_world_skip F multi q (example_stack c) 1)
          Main.MAXIMUM_TRACE_DISTANCE ⟨0, 2, 0⟩ ⟨0, -1, 0⟩ NUMBER_OF_STEPS 0 = some (1, 0)
        ∧ march_trace (fun q => Main.map_the_world_skip F multi q (example_stack c) 0)
          Main.MAXIMUM_TRACE_DISTANCE ((⟨0, 2, 0⟩ : Vec3 α) + (1 : α) • ⟨0, -1, 0⟩)
          ⟨0, -1, 0⟩ NUMBER_OF_STEPS 0 = some (1, 1)
        ∧ Main.ray_march2 F multi ⟨0, 2, 0⟩ ⟨0, -1, 0⟩ (example_stack c) 1
          = c.muls (1 / 2) + (1 / 2 : α) • ⟨1, 1, 1⟩) := by
  refine ⟨fun n ro rd => mainNew_ray_march2_agree F multi o₁ o₂ n k (fun i _ hi => h i hi) ro rd,
    fun ro rd => main_ray_march3_agree F multi o₁ o₂ k (fun i _ hi => h i hi) ro rd, ?_,
    fun c hc => ⟨stack_first_trace F multi c, stack_second_trace F multi c,
      stack_middle_color F multi c hc⟩⟩
  intro c₁ c₂ i hi
  by_cases h0 : i = 0
  · simp only [example_stack, if_pos h0]
  · simp only [example_stack, if_neg h0, if_neg hi]

/-- A witness of C30: the stack scenes with a white and with a black floor at index 1
differ at index 1 only; the leaf routine of `main.js` excluding index 1 returns the same
colour in both, and the middle routine excluding index 1 does not. -/
theorem leaf_bounce_ignores_excluded_witness :
    (∀ i : Nat, (i : Int) ≠ 1 →
      (example_stack ⟨1, 1, 1⟩ : Nat → WorldObject ℝ) i = example_stack ⟨0, 0, 0⟩ i)
    ∧ Main.ray_march3 (MathFns.mk Real.sqrt Real.sin Real.cos) 0 (⟨0, 2, 0⟩ : Vec3 ℝ) ⟨0, -1, 0⟩ (example_stack ⟨1, 1, 1⟩) 1
      = Main.ray_march3 (MathFns.mk Real.sqrt Real.sin Real.cos) 0 (⟨0, 2, 0⟩ : Vec3 ℝ) ⟨0, -1, 0⟩ (example_stack ⟨0, 0, 0⟩) 1
    ∧ Main.ray_march2 (MathFns.mk Real.sqrt Real.sin Real.cos) 0 (⟨0, 2, 0⟩ : Vec3 ℝ) ⟨0, -1, 0⟩ (example_stack ⟨1, 1, 1⟩) 1
      ≠ Main.ray_march2 (MathFns.mk Real.sqrt Real.sin Real.cos) 0 (⟨0, 2, 0⟩ : Vec3 ℝ) ⟨0, -1, 0⟩ (example_stack ⟨0, 0, 0⟩) 1 := by
  have h : ∀ i : Nat, (i : Int) ≠ 1 →
      (example_stack ⟨1, 1, 1⟩ : Nat → WorldObject ℝ) i = example_stack ⟨0, 0, 0⟩ i := by
    intro i hi
    have h1 : i ≠ 1 := fun e => hi (by rw [e]; rfl)
    by_cases h0 : i = 0
    · simp only [example_stack, if_pos h0]
    · simp only [example_stack, if_neg h0, if_neg h1]
  have hT := leaf_bounce_ignores_excluded (MathFns.mk Real.sqrt Real.sin Real.cos) 0 (example_stack ⟨1, 1, 1⟩)
    (example_stack ⟨0, 0, 0⟩) 1 h
  refine ⟨h, hT.2.1 _ _, ?_⟩
  rw [(hT.2.2.2 ⟨1, 1, 1⟩ (by norm_num)).2.2, (hT.2.2.2 ⟨0, 0, 0⟩ (by norm_num)).2.2]
  intro e
  have := congrArg Vec3.x e
  norm_num at this

end LeafBounce

/-! ## The ray that the frame driver builds -/

section RayLemmas

variable {α : Type} [LinearOrderedField α]

theorem main_main_eq (F : MathFns α) (unassigned : Nat → WorldObject α)
    (u_resolution u_mod_val : Vec2 α) (u_camera_pos : Vec3 α) (gl_FragCoord : Vec2 α) :
    Main.main F unassigned u_resolution u_mod_val u_camera_pos gl_FragCoord =
      ⟨(Main.ray_march F u_mod_val.y u_camera_pos (camera_direction u_resolution gl_FragCoord)
          (Main.create_world unassigned u_mod_val.y)).x,
        (Main.ray_march F u_mod_val.y u_camera_pos (camera_direction u_resolution gl_FragCoord)
          (Main.create_world unassigned u_mod_val.y)).y,
        (Main.ray_march F u_mod_val.y u_camera_pos (camera_direction u_resolution gl_FragCoord)
          (Main.create_world unassigned u_mod_val.y)).z, 1⟩ := rfl

/-- The point at travelled distance `t` along a scaled direction. -/
theorem scaled_ray_point (ro rd : Vec3 α) (s t : α) :
    ro + t • (s • rd) = ro + (t * s) • rd := by
  ext <;> simp only [Vec3.add_x, Vec3.add_y, Vec3.add_z, Vec3.smul_x, Vec3.smul_y, Vec3.smul_z]
    <;> ring

/-- The local colour of an object with the sentinel colour. -/
theorem local_color_sentinel (F : MathFns α) (n p : Vec3 α) (o : WorldObject α)
    (hx : o.color.x = -2) : local_color F n p o = (n.muls (1 / 2)).adds (1 / 2) := by
  simp only [local_color, if_pos hx]

/-- The scene of the example sentinel sphere seen from the point `(0, 0, z)`. -/
theorem sentinel_sphere_aggregate (F : MathFns α) (hsqrt : ∀ x : α, F.sqrt (x * x) = |x|)
    (multi : α) (n : Nat) (hn : 0 < n) (z : α) (hz : |z| - 1 < 100000) :
    MainNew.map_the_world F multi (fun _ => example_sentinel_sphere) n ⟨0, 0, z⟩
      = (|z| - 1, 0) := by
  have hd : MainNew.map_the_object F multi ⟨0, 0, z⟩ example_sentinel_sphere = |z| - 1 := by
    have hq : dot ((⟨0, 0, z⟩ : Vec3 α) - ⟨0, 0, 0⟩) ((⟨0, 0, z⟩ : Vec3 α) - ⟨0, 0, 0⟩)
        = z * z := by
      simp only [dot, Vec3.sub_x, Vec3.sub_y, Vec3.sub_z]
      ring
    have hty : (example_sentinel_sphere : WorldObject α).type = 1 := rfl
    have hc : (example_sentinel_sphere : WorldObject α).center = ⟨0, 0, 0⟩ := rfl
    have hr : (example_sentinel_sphere : WorldObject α).size.x = 1 := rfl
    simp only [MainNew.map_the_object, if_pos hty, distance_from_sphere, length, hc, hr, hq,
      hsqrt]
  rw [mainNew_map_the_world_eq_scan,
    scan_const_of _ _ n (|z| - 1) hn (fun h => h) (fun i _ _ => hd), if_pos hz]

/-- The estimated normal of the example sentinel sphere at the point `(0, 0, a)`. -/
theorem sentinel_sphere_normal (F : MathFns α) (hsqrt : ∀ x : α, F.sqrt (x * x) = |x|)
    (multi : α) (a : α) (ha : a ≠ 0) :
    MainNew.calculate_normal F multi ⟨0, 0, a⟩ example_sentinel_sphere = ⟨0, 0, a / |a|⟩ := by
  have h := sphere_normal_axis_z F hsqrt multi example_sentinel_sphere rfl a ha
  have hc : (example_sentinel_sphere : WorldObject α).center + ⟨0, 0, a⟩ = ⟨0, 0, a⟩ := by
    ext <;> simp [example_sentinel_sphere]
  have hl : length F ((⟨0, 0, a⟩ : Vec3 α) - (example_sentinel_sphere : WorldObject α).center)
      = |a| := by
    rw [length, ← hsqrt]
    congr 1
    simp [dot, example_sentinel_sphere]
  rw [hc] at h
  rw [h, hl]
  ext <;> simp [example_sentinel_sphere]
  rw [inv_mul_eq_div]

/-- The colour that the primary routine of `mainNew.js` returns in the scene of the example
sentinel sphere for a ray from `(0, 0, -2)` that finds distance `1` at its origin and the
surface point `(0, 0, a)`, `a` being `1` or `-1`, one unit further. -/
theorem sentinel_sphere_color (F : MathFns α) (hsqrt : ∀ x : α, F.sqrt (x * x) = |x|)
    (multi : α) (rd : Vec3 α) (a : α) (ha : |a| = 1)
    (h0 : (⟨0, 0, -2⟩ : Vec3 α) + (0 : α) • rd = ⟨0, 0, -2⟩)
    (h1 : (⟨0, 0, -2⟩ : Vec3 α) + (1 : α) • rd = ⟨0, 0, a⟩) :
    MainNew.ray_march F multi (fun _ => example_sentinel_sphere) 1 ⟨0, 0, -2⟩ rd
      = ⟨1 / 2, 1 / 2, a * (1 / 2) + 1 / 2⟩ := by
  have ha0 : a ≠ 0 := by
    intro h
    rw [h, abs_zero] at ha
    exact zero_ne_one ha
  have htr : march_trace (MainNew.map_the_world F multi (fun _ => example_sentinel_sphere) 1)
      MainNew.MAXIMUM_TRACE_DISTANCE ⟨0, 0, -2⟩ rd NUMBER_OF_STEPS 0 = some (1, 0) := by
    refine march_two_steps_owner _ _ _ _ (by norm_num [MainNew.MAXIMUM_TRACE_DISTANCE]) 0 0 ?_ ?_
    · rw [h0, sentinel_sphere_aggregate F hsqrt multi 1 (by decide) (-2)
        (by rw [abs_neg, abs_two]; norm_num), abs_neg, abs_two]
      norm_num
    · rw [h1, sentinel_sphere_aggregate F hsqrt multi 1 (by decide) a
        (by rw [ha]; norm_num), ha, sub_self]
  have hτ : (example_sentinel_sphere : WorldObject α).transparency = 0 := rfl
  have hρ : (example_sentinel_sphere : WorldObject α).reflectivity = 0 := rfl
  have hfade : min (1 : α) (20 / 1) = 1 := by norm_num
  rw [(mainNew_ray_march_of_trace F multi _ 1 _ rd _ htr).2, mainNew_hit_color_eq]
  simp only [hτ, hρ, bounce_blend, gt_iff_lt, lt_irrefl, if_false, hfade, Vec3.muls_one, h1]
  rw [local_color_sentinel F _ _ _ rfl, sentinel_sphere_normal F hsqrt multi a ha0, ha]
  ext <;> simp

end RayLemmas

section Ray

variable {α : Type} [LinearOrderedField α]

/-- C22, as amended: the magnitude of the direction does not affect a miss.  For every
scene, origin `ro`, direction `rd` and scale `s > 0`, when the half-line from `ro` along
`rd` stays at aggregate distance at least `MINIMUM_HIT_DISTANCE` from the scene,
`ray_march(ro, s*rd)` returns the same colour as `ray_march(ro, rd)`, the background
black (in `mainNew.js` and in `main.js`). -/
theorem direction_scale_miss (F : MathFns α) (multi : α) (objects : Nat → WorldObject α)
    (n : Nat) (ro rd : Vec3 α) (s : α) (hs : 0 < s) :
    ((∀ t : α, 0 ≤ t → MINIMUM_HIT_DISTANCE ≤
        (MainNew.map_the_world F multi objects n (ro + t • rd)).1) →
      MainNew.ray_march F multi objects n ro (s • rd) = MainNew.ray_march F multi objects n ro rd
      ∧ MainNew.ray_march F multi objects n ro rd = Vec3.splat 0)
    ∧ ((∀ t : α, 0 ≤ t → MINIMUM_HIT_DISTANCE ≤
        (Main.map_the_world F multi (ro + t • rd) objects).1) →
      Main.ray_march F multi ro (s • rd) objects = Main.ray_march F multi ro rd objects
      ∧ Main.ray_march F multi ro rd objects = Vec3.splat 0) := by
  constructor
  · intro hfar
    have hfar2 : ∀ t : α, 0 ≤ t → MINIMUM_HIT_DISTANCE ≤
        (MainNew.map_the_world F multi objects n (ro + t • (s • rd))).1 := by
      intro t ht
      rw [scaled_ray_point]
      exact hfar _ (mul_nonneg ht (le_of_lt hs))
    have e1 : MainNew.ray_march F multi objects n ro rd = Vec3.splat 0 := by
      rw [MainNew.ray_march, mainNew_ray_march_loop_eq,
        march_trace_none _ _ _ _ hfar _ 0 (le_refl 0)]
      rfl
    have e2 : MainNew.ray_march F multi objects n ro (s • rd) = Vec3.splat 0 := by
      rw [MainNew.ray_march, mainNew_ray_march_loop_eq,
        march_trace_none _ _ _ _ hfar2 _ 0 (le_refl 0)]
      rfl
    exact ⟨e2.trans e1.symm, e1⟩
  · intro hfar
    have hfar2 : ∀ t : α, 0 ≤ t → MINIMUM_HIT_DISTANCE ≤
        (Main.map_the_world F multi (ro + t • (s • rd)) objects).1 := by
      intro t ht
      rw [scaled_ray_point]
      exact hfar _ (mul_nonneg ht (le_of_lt hs))
    have e1 : Main.ray_march F multi ro rd objects = Vec3.splat 0 := by
      rw [Main.ray_march, main_ray_march_loop_eq,
        march_trace_none (fun q => Main.map_the_world F multi q objects) _ _ _ hfar _ 0
          (le_refl 0)]
      rfl
    have e2 : Main.ray_march F multi ro (s • rd) objects = Vec3.splat 0 := by
      rw [Main.ray_march, main_ray_march_loop_eq,
        march_trace_none (fun q => Main.map_the_world F multi q objects) _ _ _ hfar2 _ 0
          (le_refl 0)]
      rfl
    exact ⟨e2.trans e1.symm, e1⟩

/-- A witness of C22 as amended: the scene of the example sentinel sphere and the ray from
`(0, 0, -2)` along `(0, 2, 0)`, which stays at distance at least `1` from the sphere, with
the scale `3`. -/
theorem direction_scale_miss_witness :
    (0 : ℝ) < 3
    ∧ (∀ t : ℝ, 0 ≤ t → MINIMUM_HIT_DISTANCE ≤
        (MainNew.map_the_world (MathFns.mk Real.sqrt Real.sin Real.cos) 0 (fun _ => example_sentinel_sphere : Nat → WorldObject ℝ) 1 ((⟨0, 0, -2⟩ : Vec3 ℝ) + t • ⟨0, 2, 0⟩)).1)
    ∧ MainNew.ray_march (MathFns.mk Real.sqrt Real.sin Real.cos) 0 (fun _ => example_sentinel_sphere : Nat → WorldObject ℝ) 1 ⟨0, 0, -2⟩ ((3 : ℝ) • ⟨0, 2, 0⟩)
      = MainNew.ray_march (MathFns.mk Real.sqrt Real.sin Real.cos) 0 (fun _ => example_sentinel_sphere : Nat → WorldObject ℝ) 1 ⟨0, 0, -2⟩ ⟨0, 2, 0⟩
    ∧ MainNew.ray_march (MathFns.mk Real.sqrt Real.sin Real.cos) 0 (fun _ => example_sentinel_sphere : Nat → WorldObject ℝ) 1 (⟨0, 0, -2⟩ : Vec3 ℝ) ⟨0, 2, 0⟩ = Vec3.splat 0 := by
  have hfar : ∀ t : ℝ, 0 ≤ t → MINIMUM_HIT_DISTANCE ≤
      (MainNew.map_the_world (MathFns.mk Real.sqrt Real.sin Real.cos) 0 (fun _ => example_sentinel_sphere : Nat → WorldObject ℝ) 1 ((⟨0, 0, -2⟩ : Vec3 ℝ) + t • ⟨0, 2, 0⟩)).1 := by
    intro t _
    rw [mainNew_map_the_world_eq_scan]
    refine scan_ge _ _ _ _ (by norm_num [MINIMUM_HIT_DISTANCE]) (fun i _ _ => ?_)
    have hty : (example_sentinel_sphere : WorldObject ℝ).type = 1 := rfl
    have hc : (example_sentinel_sphere : WorldObject ℝ).center = ⟨0, 0, 0⟩ := rfl
    have hr : (example_sentinel_sphere : WorldObject ℝ).size.x = 1 := rfl
    simp only [MainNew.map_the_object, if_pos hty, distance_from_sphere, length, hc, hr, dot,
      Vec3.add_x, Vec3.add_y, Vec3.add_z, Vec3.smul_x, Vec3.smul_y, Vec3.smul_z, Vec3.sub_x,
      Vec3.sub_y, Vec3.sub_z, MINIMUM_HIT_DISTANCE]
    have h2 : (2 : ℝ) ≤ Real.sqrt ((0 + t * 0 - 0) * (0 + t * 0 - 0)
        + (0 + t * 2 - 0) * (0 + t * 2 - 0) + (-2 + t * 0 - 0) * (-2 + t * 0 - 0)) := by
      apply Real.le_sqrt_of_sq_le
      nlinarith [sq_nonneg t]
    linarith
  exact ⟨by norm_num, hfar,
    (direction_scale_miss (MathFns.mk Real.sqrt Real.sin Real.cos) 0 (fun _ => example_sentinel_sphere : Nat → WorldObject ℝ) 1 ⟨0, 0, -2⟩ ⟨0, 2, 0⟩ 3 (by norm_num)).1 hfar⟩

/-- C22 fails as stated: in the scene of the unit sphere at the origin with the sentinel
colour, the ray from `(0, 0, -2)` along `(0, 0, 1)` finds distance `1`, steps to the near
pole `(0, 0, -1)` and returns `normal*0.5 + 0.5 = (0.5, 0.5, 0)`; along the direction
scaled by `3` the same step of `1` lands on the far pole `(0, 0, 1)` and the colour is
`(0.5, 0.5, 1)`. -/
theorem direction_scale_counterexample :
    (0 : ℝ) < 3
    ∧ MainNew.ray_march (MathFns.mk Real.sqrt Real.sin Real.cos) 0 (fun _ => example_sentinel_sphere : Nat → WorldObject ℝ) 1 (⟨0, 0, -2⟩ : Vec3 ℝ) ⟨0, 0, 1⟩ = ⟨1 / 2, 1 / 2, 0⟩
    ∧ MainNew.ray_march (MathFns.mk Real.sqrt Real.sin Real.cos) 0 (fun _ => example_sentinel_sphere : Nat → WorldObject ℝ) 1 (⟨0, 0, -2⟩ : Vec3 ℝ) ((3 : ℝ) • ⟨0, 0, 1⟩)
      = ⟨1 / 2, 1 / 2, 1⟩
    ∧ MainNew.ray_march (MathFns.mk Real.sqrt Real.sin Real.cos) 0 (fun _ => example_sentinel_sphere : Nat → WorldObject ℝ) 1 (⟨0, 0, -2⟩ : Vec3 ℝ) ((3 : ℝ) • ⟨0, 0, 1⟩)
      ≠ MainNew.ray_march (MathFns.mk Real.sqrt Real.sin Real.cos) 0 (fun _ => example_sentinel_sphere : Nat → WorldObject ℝ) 1 (⟨0, 0, -2⟩ : Vec3 ℝ) ⟨0, 0, 1⟩ := by
  have e1 : MainNew.ray_march (MathFns.mk Real.sqrt Real.sin Real.cos) 0 (fun _ => example_sentinel_sphere : Nat → WorldObject ℝ) 1 (⟨0, 0, -2⟩ : Vec3 ℝ) ⟨0, 0, 1⟩
      = ⟨1 / 2, 1 / 2, 0⟩ := by
    rw [sentinel_sphere_color (MathFns.mk Real.sqrt Real.sin Real.cos) Real.sqrt_mul_self_eq_abs 0 ⟨0, 0, 1⟩ (-1)
      (by norm_num) (by ext <;> norm_num) (by ext <;> norm_num)]
    ext <;> norm_num
  have e2 : MainNew.ray_march (MathFns.mk Real.sqrt Real.sin Real.cos) 0 (fun _ => example_sentinel_sphere : Nat → WorldObject ℝ) 1 (⟨0, 0, -2⟩ : Vec3 ℝ) ((3 : ℝ) • ⟨0, 0, 1⟩)
      = ⟨1 / 2, 1 / 2, 1⟩ := by
    rw [sentinel_sphere_color (MathFns.mk Real.sqrt Real.sin Real.cos) Real.sqrt_mul_self_eq_abs 0 ((3 : ℝ) • ⟨0, 0, 1⟩) 1
      (by norm_num) (by ext <;> norm_num) (by ext <;> norm_num)]
    ext <;> norm_num
  refine ⟨by norm_num, e1, e2, ?_⟩
  rw [e1, e2]
  intro e
  have := congrArg Vec3.z e
  norm_num at this

/-- C23: the ray that the frame driver builds.  For every resolution `(w, h)` with
`w, h > 0` and every pixel coordinate `(x, y)` with `0 ≤ x ≤ w` and `0 ≤ y ≤ h`, the
fragment shader `main` of either file returns `vec4(ray_march(ro, rd), 1.0)` where the
origin `ro` is the camera position and the direction is `rd = (u, v, 1)` with
`u = 2x/w - 1` in `[-1, 1]` and `v = (2y/h - 1)*(h/w)` in `[-h/w, h/w]`; the centre pixel
(`x = w/2`, `y = h/2`) gives the direction `(0, 0, 1)`. -/
theorem frame_driver_ray (F : MathFns α) (u_resolution u_mod_val : Vec2 α)
    (u_camera_pos : Vec3 α) (objects : Nat → WorldObject α) (u_numObjects : Nat)
    (gl_FragCoord : Vec2 α) (hw : 0 < u_resolution.x) (hh : 0 < u_resolution.y)
    (hx0 : 0 ≤ gl_FragCoord.x) (hx1 : gl_FragCoord.x ≤ u_resolution.x)
    (hy0 : 0 ≤ gl_FragCoord.y) (hy1 : gl_FragCoord.y ≤ u_resolution.y) :
    MainNew.main F u_resolution u_mod_val u_camera_pos objects u_numObjects gl_FragCoord =
      ⟨(MainNew.ray_march F u_mod_val.y objects u_numObjects u_camera_pos
          (camera_direction u_resolution gl_FragCoord)).x,
        (MainNew.ray_march F u_mod_val.y objects u_numObjects u_camera_pos
          (camera_direction u_resolution gl_FragCoord)).y,
        (MainNew.ray_march F u_mod_val.y objects u_numObjects u_camera_pos
          (camera_direction u_resolution gl_FragCoord)).z, 1⟩
    ∧ Main.main F objects u_resolution u_mod_val u_camera_pos gl_FragCoord =
      ⟨(Main.ray_march F u_mod_val.y u_camera_pos (camera_direction u_resolution gl_FragCoord)
          (Main.create_world objects u_mod_val.y)).x,
        (Main.ray_march F u_mod_val.y u_camera_pos (camera_direction u_resolution gl_FragCoord)
          (Main.create_world objects u_mod_val.y)).y,
        (Main.ray_march F u_mod_val.y u_camera_pos (camera_direction u_resolution gl_FragCoord)
          (Main.create_world objects u_mod_val.y)).z, 1⟩
    ∧ camera_direction u_resolution gl_FragCoord =
      ⟨2 * gl_FragCoord.x / u_resolution.x - 1,
        (2 * gl_FragCoord.y / u_resolution.y - 1) * (u_resolution.y / u_resolution.x), 1⟩
    ∧ (-1 ≤ 2 * gl_FragCoord.x / u_resolution.x - 1
      ∧ 2 * gl_FragCoord.x / u_resolution.x - 1 ≤ 1)
    ∧ (-(u_resolution.y / u_resolution.x) ≤
        (2 * gl_FragCoord.y / u_resolution.y - 1) * (u_resolution.y / u_resolution.x)
      ∧ (2 * gl_FragCoord.y / u_resolution.y - 1) * (u_resolution.y / u_resolution.x)
        ≤ u_resolution.y / u_resolution.x)
    ∧ camera_direction u_resolution ⟨u_resolution.x / 2, u_resolution.y / 2⟩ = ⟨0, 0, 1⟩ := by
  have hdir : camera_direction u_resolution gl_FragCoord =
      ⟨2 * gl_FragCoord.x / u_resolution.x - 1,
        (2 * gl_FragCoord.y / u_resolution.y - 1) * (u_resolution.y / u_resolution.x), 1⟩ := by
    ext <;> simp only [camera_direction] <;> ring
  have hu0 : 0 ≤ gl_FragCoord.x / u_resolution.x := div_nonneg hx0 (le_of_lt hw)
  have hu1 : gl_FragCoord.x / u_resolution.x ≤ 1 := (div_le_one hw).mpr hx1
  have hv0 : 0 ≤ gl_FragCoord.y / u_resolution.y := div_nonneg hy0 (le_of_lt hh)
  have hv1 : gl_FragCoord.y / u_resolution.y ≤ 1 := (div_le_one hh).mpr hy1
  have hr : 0 < u_resolution.y / u_resolution.x := div_pos hh hw
  have ex : 2 * gl_FragCoord.x / u_resolution.x = 2 * (gl_FragCoord.x / u_resolution.x) := by
    ring
  have ey : 2 * gl_FragCoord.y / u_resolution.y = 2 * (gl_FragCoord.y / u_resolution.y) := by
    ring
  refine ⟨mainNew_main_eq F _ _ _ _ _ _, main_main_eq F _ _ _ _ _, hdir, ?_, ?_, ?_⟩
  · rw [ex]
    constructor <;> linarith
  · rw [ey]
    constructor <;> nlinarith
  · have hw0 : u_resolution.x ≠ 0 := ne_of_gt hw
    have hh0 : u_resolution.y ≠ 0 := ne_of_gt hh
    ext <;> simp only [camera_direction]
    · field_simp
      ring
    · field_simp
      ring

/-- A witness of C23: the resolution `10 × 5` and the pixel with centre `(6.5, 2.5)`, whose
ray has the direction `(0.3, 0, 1)`. -/
theorem frame_driver_ray_witness :
    (0 : ℝ) < 10 ∧ (0 : ℝ) < 5 ∧ (0 : ℝ) ≤ 13 / 2 ∧ (13 / 2 : ℝ) ≤ 10 ∧ (0 : ℝ) ≤ 5 / 2
    ∧ (5 / 2 : ℝ) ≤ 5
    ∧ camera_direction (⟨10, 5⟩ : Vec2 ℝ) ⟨13 / 2, 5 / 2⟩ =
      ⟨2 * (13 / 2) / 10 - 1, (2 * (5 / 2) / 5 - 1) * (5 / 10), 1⟩
    ∧ MainNew.main (MathFns.mk Real.sqrt Real.sin Real.cos) ⟨10, 5⟩ ⟨17, 1⟩ ⟨0, 0, -7 / 2⟩ (fun _ => example_sentinel_sphere : Nat → WorldObject ℝ) 1 ⟨13 / 2, 5 / 2⟩ =
      ⟨(MainNew.ray_march (MathFns.mk Real.sqrt Real.sin Real.cos) 1 (fun _ => example_sentinel_sphere : Nat → WorldObject ℝ) 1 ⟨0, 0, -7 / 2⟩
          (camera_direction ⟨10, 5⟩ ⟨13 / 2, 5 / 2⟩)).x,
        (MainNew.ray_march (MathFns.mk Real.sqrt Real.sin Real.cos) 1 (fun _ => example_sentinel_sphere : Nat → WorldObject ℝ) 1 ⟨0, 0, -7 / 2⟩
          (camera_direction ⟨10, 5⟩ ⟨13 / 2, 5 / 2⟩)).y,
        (MainNew.ray_march (MathFns.mk Real.sqrt Real.sin Real.cos) 1 (fun _ => example_sentinel_sphere : Nat → WorldObject ℝ) 1 ⟨0, 0, -7 / 2⟩
          (camera_direction ⟨10, 5⟩ ⟨13 / 2, 5 / 2⟩)).z, 1⟩ :=
  ⟨by norm_num, by norm_num, by norm_num, by norm_num, by norm_num, by norm_num,
    (frame_driver_ray (MathFns.mk Real.sqrt Real.sin Real.cos) ⟨10, 5⟩ ⟨17, 1⟩ ⟨0, 0, -7 / 2⟩ (fun _ => example_sentinel_sphere : Nat → WorldObject ℝ) 1 ⟨13 / 2, 5 / 2⟩
      (by norm_num) (by norm_num) (by norm_num) (by norm_num) (by norm_num)
      (by norm_num)).2.2.1,
    (frame_driver_ray (MathFns.mk Real.sqrt Real.sin Real.cos) ⟨10, 5⟩ ⟨17, 1⟩ ⟨0, 0, -7 / 2⟩ (fun _ => example_sentinel_sphere : Nat → WorldObject ℝ) 1 ⟨13 / 2, 5 / 2⟩
      (by norm_num) (by norm_num) (by norm_num) (by norm_num) (by norm_num)
      (by norm_num)).1⟩

end Ray

/-! ## The JavaScript around the shader: packing, animation phase and camera controls -/

section ScriptLemmas

variable {α : Type} [LinearOrderedField α]

/-- The remainder of a number in `[0, y)` by `y` is the number. -/
theorem rem_of_lt [FloorRing α] (x y : α) (hy : 0 < y) (h0 : 0 ≤ x) (h1 : x < y) :
    JS.rem x y = x := by
  have hq0 : 0 ≤ x / y := div_nonneg h0 (le_of_lt hy)
  have hq1 : x / y < 1 := (div_lt_one hy).mpr h1
  have hf : ⌊x / y⌋ = 0 := Int.floor_eq_zero_iff.mpr ⟨hq0, hq1⟩
  rw [JS.rem, if_pos hq0, hf]
  simp

/-- The remainder of a number in `[y, 2y)` by `y` is the number less `y`. -/
theorem rem_of_wrap [FloorRing α] (x y : α) (hy : 0 < y) (h0 : y ≤ x) (h1 : x < 2 * y) :
    JS.rem x y = x - y := by
  have hq0 : 0 ≤ x / y := div_nonneg (le_trans (le_of_lt hy) h0) (le_of_lt hy)
  have hq1 : (1 : α) ≤ x / y := (one_le_div hy).mpr h0
  have hq2 : x / y < 1 + 1 := by
    rw [div_lt_iff₀ hy]
    linarith
  have hf : ⌊x / y⌋ = 1 := Int.floor_eq_iff.mpr ⟨by simpa using hq1, by simpa using hq2⟩
  rw [JS.rem, if_pos hq0, hf]
  simp

/-- One update of the animation phase from a value in `[-20, 20)`. -/
theorem main_interval_step [FloorRing α] (multi : α) (h0 : -20 ≤ multi) (h1 : multi < 20) :
    (-20 ≤ JS.main_interval multi ∧ JS.main_interval multi < 20)
    ∧ (multi + 1 / 100 < 20 → JS.main_interval multi = multi + 1 / 100)
    ∧ (¬ (multi + 1 / 100 < 20) → JS.main_interval multi = multi + 1 / 100 - 40) := by
  have e1 : multi + 1 / 100 < 20 → JS.main_interval multi = multi + 1 / 100 := by
    intro h
    simp only [JS.main_interval, JS.multiChange]
    rw [rem_of_lt _ _ (by norm_num) (by linarith) (by linarith)]
    ring
  have e2 : ¬ (multi + 1 / 100 < 20) → JS.main_interval multi = multi + 1 / 100 - 40 := by
    intro h
    have h' := not_lt.mp h
    simp only [JS.main_interval, JS.multiChange]
    rw [rem_of_wrap _ _ (by norm_num) (by linarith) (by linarith)]
    ring
  refine ⟨?_, e1, e2⟩
  by_cases h : multi + 1 / 100 < 20
  · rw [e1 h]
    constructor <;> linarith
  · rw [e2 h]
    have h' := not_lt.mp h
    constructor <;> linarith

end ScriptLemmas

section Script

variable {α : Type} [LinearOrderedField α]

/-- C25: the packed layout.  For every `WorldObject` whose `center`, `size` and `color` have
exactly 3 components, `toArray()` returns exactly 20 numbers in the order
`[center.x, center.y, center.z, 0, size.x, size.y, size.z, 0, color.x, color.y, color.z,
type, isNegated, hasShadow, reflectivity, transparency, diffuseIntensity, 0, 0, 0]`, and
reading the fields back at those offsets recovers every argument of the constructor. -/
theorem packed_layout (o : JS.WorldObject α) (hc : o.center.length = 3)
    (hs : o.size.length = 3) (hk : o.color.length = 3) :
    o.toArray.length = 20
    ∧ o.toArray =
      [o.center.getD 0 0, o.center.getD 1 0, o.center.getD 2 0, 0,
        o.size.getD 0 0, o.size.getD 1 0, o.size.getD 2 0, 0,
        o.color.getD 0 0, o.color.getD 1 0, o.color.getD 2 0,
        o.type, o.isNegated, o.hasShadow, o.reflectivity, o.transparency, o.diffuseIntensity,
        0, 0, 0]
    ∧ (⟨o.toArray.getD 11 0, o.toArray.take 3, (o.toArray.drop 4).take 3,
        o.toArray.getD 12 0, o.toArray.getD 13 0, o.toArray.getD 14 0, o.toArray.getD 15 0,
        o.toArray.getD 16 0, (o.toArray.drop 8).take 3⟩ : JS.WorldObject α) = o := by
  obtain ⟨c0, c1, c2, ec⟩ := List.length_eq_three.mp hc
  obtain ⟨s0, s1, s2, es⟩ := List.length_eq_three.mp hs
  obtain ⟨k0, k1, k2, ek⟩ := List.length_eq_three.mp hk
  cases o
  simp only at ec es ek
  subst ec es ek
  simp [JS.WorldObject.toArray]

/-- A witness of C25: the first object of the scene of `mainNew.js`. -/
theorem packed_layout_witness :
    (⟨5, [-10, -10, -10], [0, 1, 0], 0, 0, 4 / 10, 4 / 10, 6 / 10, [1 / 2, 1 / 2, 1]⟩ :
      JS.WorldObject ℚ).center.length = 3
    ∧ (⟨5, [-10, -10, -10], [0, 1, 0], 0, 0, 4 / 10, 4 / 10, 6 / 10, [1 / 2, 1 / 2, 1]⟩ :
      JS.WorldObject ℚ).size.length = 3
    ∧ (⟨5, [-10, -10, -10], [0, 1, 0], 0, 0, 4 / 10, 4 / 10, 6 / 10, [1 / 2, 1 / 2, 1]⟩ :
      JS.WorldObject ℚ).color.length = 3
    ∧ (⟨5, [-10, -10, -10], [0, 1, 0], 0, 0, 4 / 10, 4 / 10, 6 / 10, [1 / 2, 1 / 2, 1]⟩ :
      JS.WorldObject ℚ).toArray =
      [-10, -10, -10, 0, 0, 1, 0, 0, 1 / 2, 1 / 2, 1, 5, 0, 0, 4 / 10, 4 / 10, 6 / 10,
        0, 0, 0]
    ∧ (⟨5, [-10, -10, -10], [0, 1, 0], 0, 0, 4 / 10, 4 / 10, 6 / 10, [1 / 2, 1 / 2, 1]⟩ :
      JS.WorldObject ℚ).toArray.length = 20 :=
  ⟨rfl, rfl, rfl,
    (packed_layout (⟨5, [-10, -10, -10], [0, 1, 0], 0, 0, 4 / 10, 4 / 10, 6 / 10,
      [1 / 2, 1 / 2, 1]⟩ : JS.WorldObject ℚ) rfl rfl rfl).2.1,
    (packed_layout (⟨5, [-10, -10, -10], [0, 1, 0], 0, 0, 4 / 10, 4 / 10, 6 / 10,
      [1 / 2, 1 / 2, 1]⟩ : JS.WorldObject ℚ) rfl rfl rfl).1⟩

/-- C26: the range of the animation phase.  The update
`multi := ((20 + (multi + 0.01)) mod 40) - 20` that every tick applies keeps `multi` in
`[-20, 20)`: from any value in that range, and so at every tick from the initial value `1`;
when `multi + 0.01 < 20` the update is an increase by `0.01`, and otherwise the value wraps
by `-40`.  Numbers are exact here (no rounding). -/
theorem animation_phase_range [FloorRing α] :
    (∀ multi : α, -20 ≤ multi → multi < 20 →
      (-20 ≤ JS.main_interval multi ∧ JS.main_interval multi < 20)
      ∧ (multi + 1 / 100 < 20 → JS.main_interval multi = multi + 1 / 100)
      ∧ (¬ (multi + 1 / 100 < 20) → JS.main_interval multi = multi + 1 / 100 - 40))
    ∧ (∀ n : Nat, -20 ≤ (JS.main_interval^[n]) (1 : α) ∧ (JS.main_interval^[n]) (1 : α) < 20) := by
  refine ⟨main_interval_step, fun n => ?_⟩
  induction n with
  | zero =>
    rw [Function.iterate_zero, id]
    constructor <;> norm_num
  | succ n ih =>
    rw [Function.iterate_succ_apply']
    exact (main_interval_step _ ih.1 ih.2).1

/-- A witness of C26: the first tick takes the phase from `1` to `1.01`, and the tick from
`19.995` wraps to `-19.995`. -/
theorem animation_phase_range_witness :
    (-20 : ℚ) ≤ 1 ∧ (1 : ℚ) < 20 ∧ JS.main_interval (1 : ℚ) = 1 + 1 / 100
    ∧ (-20 : ℚ) ≤ 3999 / 200 ∧ (3999 / 200 : ℚ) < 20 ∧ ¬ ((3999 / 200 : ℚ) + 1 / 100 < 20)
    ∧ JS.main_interval (3999 / 200 : ℚ) = 3999 / 200 + 1 / 100 - 40 :=
  ⟨by norm_num, by norm_num,
    ((animation_phase_range (α := ℚ)).1 1 (by norm_num) (by norm_num)).2.1 (by norm_num),
    by norm_num, by norm_num, by norm_num,
    ((animation_phase_range (α := ℚ)).1 (3999 / 200) (by norm_num) (by norm_num)).2.2
      (by norm_num)⟩

/-- C27: the camera controls.  For every camera position the `keydown` listener changes
exactly one coordinate by exactly `1` and leaves the other two as they are (`ArrowUp` z+1,
`ArrowDown` z-1, `ArrowRight` x+1, `ArrowLeft` x-1, `Shift` y+1, `Control` y-1), any other
key leaves the camera position as it is, and a key followed by its opposite restores the
position. -/
theorem camera_controls (cameraPos : Vec3 α) (key : String) :
    JS.addControls_keydown "ArrowUp" cameraPos
      = ⟨cameraPos.x, cameraPos.y, cameraPos.z + 1⟩
    ∧ JS.addControls_keydown "ArrowDown" cameraPos
      = ⟨cameraPos.x, cameraPos.y, cameraPos.z - 1⟩
    ∧ JS.addControls_keydown "ArrowRight" cameraPos
      = ⟨cameraPos.x + 1, cameraPos.y, cameraPos.z⟩
    ∧ JS.addControls_keydown "ArrowLeft" cameraPos
      = ⟨cameraPos.x - 1, cameraPos.y, cameraPos.z⟩
    ∧ JS.addControls_keydown "Shift" cameraPos
      = ⟨cameraPos.x, cameraPos.y + 1, cameraPos.z⟩
    ∧ JS.addControls_keydown "Control" cameraPos
      = ⟨cameraPos.x, cameraPos.y - 1, cameraPos.z⟩
    ∧ (key ≠ "ArrowUp" → key ≠ "ArrowDown" → key ≠ "ArrowRight" → key ≠ "ArrowLeft" →
        key ≠ "Shift" → key ≠ "Control" → JS.addControls_keydown key cameraPos = cameraPos)
    ∧ JS.addControls_keydown "ArrowDown" (JS.addControls_keydown "ArrowUp" cameraPos)
      = cameraPos
    ∧ JS.addControls_keydown "ArrowUp" (JS.addControls_keydown "ArrowDown" cameraPos)
      = cameraPos
    ∧ JS.addControls_keydown "ArrowLeft" (JS.addControls_keydown "ArrowRight" cameraPos)
      = cameraPos
    ∧ JS.addControls_keydown "ArrowRight" (JS.addControls_keydown "ArrowLeft" cameraPos)
      = cameraPos
    ∧ JS.addControls_keydown "Control" (JS.addControls_keydown "Shift" cameraPos)
      = cameraPos
    ∧ JS.addControls_keydown "Shift" (JS.addControls_keydown "Control" cameraPos)
      = cameraPos := by
  refine ⟨?_, ?_, ?_, ?_, ?_, ?_, ?_, ?_, ?_, ?_, ?_, ?_, ?_⟩
  · simp [JS.addControls_keydown]
  · simp [JS.addControls_keydown]
  · simp [JS.addControls_keydown]
  · simp [JS.addControls_keydown]
  · simp [JS.addControls_keydown]
  · simp [JS.addControls_keydown]
  · intro h1 h2 h3 h4 h5 h6
    simp [JS.addControls_keydown, h1, h2, h3, h4, h5, h6]
  · simp [JS.addControls_keydown]
  · simp [JS.addControls_keydown]
  · simp [JS.addControls_keydown]
  · simp [JS.addControls_keydown]
  · simp [JS.addControls_keydown]
  · simp [JS.addControls_keydown]

/-- A witness of C27: the key `Escape` at the initial camera position of `main.js`. -/
theorem camera_controls_witness :
    "Escape" ≠ "ArrowUp" ∧ "Escape" ≠ "ArrowDown" ∧ "Escape" ≠ "ArrowRight"
    ∧ "Escape" ≠ "ArrowLeft" ∧ "Escape" ≠ "Shift" ∧ "Escape" ≠ "Control"
    ∧ JS.addControls_keydown "Escape" (⟨0, 0, -7 / 2⟩ : Vec3 ℚ) = ⟨0, 0, -7 / 2⟩
    ∧ JS.addControls_keydown "ArrowUp" (⟨0, 0, -7 / 2⟩ : Vec3 ℚ) = ⟨0, 0, -7 / 2 + 1⟩ :=
  ⟨by decide, by decide, by decide, by decide, by decide, by decide,
    (camera_controls (⟨0, 0, -7 / 2⟩ : Vec3 ℚ) "Escape").2.2.2.2.2.2.1 (by decide) (by decide)
      (by decide) (by decide) (by decide) (by decide),
    (camera_controls (⟨0, 0, -7 / 2⟩ : Vec3 ℚ) "Escape").1⟩

end Script

/-! ## Lemmas on the travelled distance -/

section TravelLemmas

variable {α : Type} [LinearOrderedField α]

theorem march_distances_succ (agg : Vec3 α → α × Int) (maxd : α) (ro rd : Vec3 α) (k : Nat)
    (t : α) :
    march_distances agg maxd ro rd (k + 1) t =
      if (agg (ro + t • rd)).1 < MINIMUM_HIT_DISTANCE then [t]
      else if t > maxd then [t]
      else t :: march_distances agg maxd ro rd k (t + (agg (ro + t • rd)).1) := rfl

/-- The first value of the travelled distance is the one the loop starts with. -/
theorem march_distances_head (agg : Vec3 α → α × Int) (maxd : α) (ro rd : Vec3 α) (k : Nat)
    (t : α) : (march_distances agg maxd ro rd k t).head? = some t := by
  cases k with
  | zero => rfl
  | succ k =>
    rw [march_distances_succ]
    split_ifs <;> rfl

/-- A step that is taken is at least `MINIMUM_HIT_DISTANCE`. -/
theorem min_hit_le_of_not_lt (d : α) (h : ¬ d < MINIMUM_HIT_DISTANCE) :
    MINIMUM_HIT_DISTANCE ≤ d ∧ 0 ≤ d := by
  have h1 := not_lt.mp h
  refine ⟨h1, le_trans ?_ h1⟩
  norm_num [MINIMUM_HIT_DISTANCE]

/-- Every step of the travelled distance is at least `MINIMUM_HIT_DISTANCE` and at most
`100000`, the cap of the aggregator. -/
theorem march_distances_chain (agg : Vec3 α → α × Int) (maxd : α) (ro rd : Vec3 α)
    (hcap : ∀ q, (agg q).1 ≤ 100000) :
    ∀ (k : Nat) (t : α), StepsInRange (march_distances agg maxd ro rd k t) := by
  intro k
  induction k with
  | zero => intro t; exact List.chain'_singleton t
  | succ k ih =>
    intro t
    rw [march_distances_succ]
    by_cases h1 : (agg (ro + t • rd)).1 < MINIMUM_HIT_DISTANCE
    · rw [if_pos h1]
      exact List.chain'_singleton t
    · rw [if_neg h1]
      by_cases h2 : t > maxd
      · rw [if_pos h2]
        exact List.chain'_singleton t
      · rw [if_neg h2, StepsInRange, List.chain'_cons']
        refine ⟨?_, ih _⟩
        intro y hy
        rw [march_distances_head] at hy
        cases hy
        exact ⟨by linarith [(min_hit_le_of_not_lt _ h1).1], by linarith [hcap (ro + t • rd)]⟩

/-- After `j` steps the travelled distance has grown by at least
`MINIMUM_HIT_DISTANCE * j`. -/
theorem march_distances_linear (agg : Vec3 α → α × Int) (maxd : α) (ro rd : Vec3 α) :
    ∀ (k : Nat) (t : α) (j : Nat) (x : α),
      (march_distances agg maxd ro rd k t)[j]? = some x →
      t + MINIMUM_HIT_DISTANCE * j ≤ x := by
  have single : ∀ (t : α) (j : Nat) (x : α), ([t] : List α)[j]? = some x →
      t + MINIMUM_HIT_DISTANCE * j ≤ x := by
    intro t j x h
    cases j with
    | zero =>
      simp only [List.getElem?_cons_zero, Option.some.injEq] at h
      simp [h]
    | succ j => simp at h
  intro k
  induction k with
  | zero => intro t j x h; exact single t j x h
  | succ k ih =>
    intro t j x h
    rw [march_distances_succ] at h
    by_cases h1 : (agg (ro + t • rd)).1 < MINIMUM_HIT_DISTANCE
    · rw [if_pos h1] at h
      exact single t j x h
    · rw [if_neg h1] at h
      by_cases h2 : t > maxd
      · rw [if_pos h2] at h
        exact single t j x h
      · rw [if_neg h2] at h
        cases j with
        | zero =>
          simp only [List.getElem?_cons_zero, Option.some.injEq] at h
          simp [h]
        | succ j =>
          rw [List.getElem?_cons_succ] at h
          have := ih _ j x h
          have hd := (min_hit_le_of_not_lt _ h1).1
          push_cast
          linarith

/-- The travelled distance never falls below the value the loop starts with. -/
theorem march_distances_ge (agg : Vec3 α → α × Int) (maxd : α) (ro rd : Vec3 α) :
    ∀ (k : Nat) (t x : α), x ∈ march_distances agg maxd ro rd k t → t ≤ x := by
  intro k t x hx
  obtain ⟨j, hj⟩ := List.getElem?_of_mem hx
  have h := march_distances_linear agg maxd ro rd k t j x hj
  have h0 : (0 : α) ≤ MINIMUM_HIT_DISTANCE * j :=
    mul_nonneg (by norm_num [MINIMUM_HIT_DISTANCE]) (Nat.cast_nonneg j)
  linarith

/-- The travelled distance that a hit reports is one of the values taken. -/
theorem march_trace_mem_distances (agg : Vec3 α → α × Int) (maxd : α) (ro rd : Vec3 α) :
    ∀ (k : Nat) (t : α) (h : α × Int), march_trace agg maxd ro rd k t = some h →
      h.1 ∈ march_distances agg maxd ro rd k t := by
  intro k
  induction k with
  | zero => intro t h e; simp [march_trace] at e
  | succ k ih =>
    intro t h e
    rw [march_trace_succ] at e
    rw [march_distances_succ]
    by_cases h1 : (agg (ro + t • rd)).1 < MINIMUM_HIT_DISTANCE
    · rw [if_pos h1] at e ⊢
      cases e
      exact List.mem_singleton_self t
    · rw [if_neg h1] at e ⊢
      by_cases h2 : t > maxd
      · rw [if_pos h2] at e; cases e
      · rw [if_neg h2] at e ⊢
        exact List.mem_cons_of_mem _ (ih _ h e)

/-- The values of the travelled distance of a march routine whose aggregator is capped at
`100000`. -/
theorem travel_monotone (agg : Vec3 α → α × Int) (maxd : α) (ro rd : Vec3 α)
    (hcap : ∀ q, (agg q).1 ≤ 100000) (k : Nat) :
    TravelMonotone (march_distances agg maxd ro rd k 0) := by
  refine ⟨march_distances_head agg maxd ro rd k 0, march_distances_chain agg maxd ro rd hcap k 0,
    fun x hx => march_distances_ge agg maxd ro rd k 0 x hx, fun j x hx => ?_⟩
  have := march_distances_linear agg maxd ro rd k 0 j x hx
  linarith

/-- The aggregators never return more than `100000`. -/
theorem aggregators_capped (F : MathFns α) (multi : α) (objects : Nat → WorldObject α)
    (n : Nat) (k : Int) (q : Vec3 α) :
    (MainNew.map_the_world F multi objects n q).1 ≤ 100000
    ∧ (MainNew.map_the_world_skip F multi objects n q k).1 ≤ 100000
    ∧ (Main.map_the_world F multi q objects).1 ≤ 100000
    ∧ (Main.map_the_world_skip F multi q objects k).1 ≤ 100000 := by
  rw [mainNew_map_the_world_eq_scan, mainNew_map_the_world_skip_eq_scan,
    main_map_the_world_eq_scan, main_map_the_world_skip_eq_scan]
  exact ⟨(scan_inv _ _ _).le_init, (scan_inv _ _ _).le_init, (scan_inv _ _ _).le_init,
    (scan_inv _ _ _).le_init⟩

/-- The positions that the loop samples stay where the field is non-negative, provided a
step of at most the field value along the direction never makes the field negative. -/
theorem march_distances_field_nonneg (agg : Vec3 α → α × Int) (maxd : α) (ro rd : Vec3 α)
    (hstep : ∀ (p : Vec3 α) (d : α), 0 ≤ d → d ≤ (agg p).1 → 0 ≤ (agg (p + d • rd)).1) :
    ∀ (k : Nat) (t : α), 0 ≤ (agg (ro + t • rd)).1 →
      ∀ x, x ∈ march_distances agg maxd ro rd k t → 0 ≤ (agg (ro + x • rd)).1 := by
  intro k
  induction k with
  | zero =>
    intro t h x hx
    rw [show march_distances agg maxd ro rd 0 t = [t] from rfl, List.mem_singleton] at hx
    rw [hx]; exact h
  | succ k ih =>
    intro t h x hx
    rw [march_distances_succ] at hx
    by_cases h1 : (agg (ro + t • rd)).1 < MINIMUM_HIT_DISTANCE
    · rw [if_pos h1, List.mem_singleton] at hx
      rw [hx]; exact h
    · rw [if_neg h1] at hx
      by_cases h2 : t > maxd
      · rw [if_pos h2, List.mem_singleton] at hx
        rw [hx]; exact h
      · rw [if_neg h2, List.mem_cons] at hx
        rcases hx with hx | hx
        · rw [hx]; exact h
        · refine ih _ ?_ x hx
          have e : ro + (t + (agg (ro + t • rd)).1) • rd
              = (ro + t • rd) + (agg (ro + t • rd)).1 • rd := by
            ext <;> simp only [Vec3.add_x, Vec3.add_y, Vec3.add_z, Vec3.smul_x, Vec3.smul_y,
              Vec3.smul_z] <;> ring
          rw [e]
          exact hstep _ _ (min_hit_le_of_not_lt _ h1).2 (le_refl _)

end TravelLemmas

/-! ## Lemmas on exact distance functions -/

section DistanceLemmas

variable {α : Type} [LinearOrderedField α]

theorem dot_mul_self_le (a b : Vec3 α) : dot a b * dot a b ≤ dot a a * dot b b := by
  unfold dot
  nlinarith [sq_nonneg (a.x * b.y - a.y * b.x), sq_nonneg (a.x * b.z - a.z * b.x),
    sq_nonneg (a.y * b.z - a.z * b.y)]

/-- A number whose square is at most the square of a non-negative number is at most that
number. -/
theorem le_of_mul_self_le (x y : α) (hy : 0 ≤ y) (h : x * x ≤ y * y) : x ≤ y := by
  by_contra hlt
  have h1 : y < x := not_le.mp hlt
  have := mul_self_lt_mul_self hy h1
  linarith

theorem dot_le_length_mul (F : MathFns α) (hF : IsSqrt F) (a b : Vec3 α) :
    dot a b ≤ length F a * length F b := by
  obtain ⟨ha0, ha⟩ := hF (dot a a) (dot_self_nonneg a)
  obtain ⟨hb0, hb⟩ := hF (dot b b) (dot_self_nonneg b)
  refine le_of_mul_self_le _ _ (mul_nonneg ha0 hb0) ?_
  have e : length F a * length F b * (length F a * length F b) = dot a a * dot b b := by
    unfold length
    have e' : F.sqrt (dot a a) * F.sqrt (dot b b) * (F.sqrt (dot a a) * F.sqrt (dot b b))
        = F.sqrt (dot a a) * F.sqrt (dot a a) * (F.sqrt (dot b b) * F.sqrt (dot b b)) := by
      ring
    rw [e', ha, hb]
  rw [e]
  exact dot_mul_self_le a b

/-- The triangle inequality for `length`. -/
theorem length_add_le (F : MathFns α) (hF : IsSqrt F) (a b : Vec3 α) :
    length F (a + b) ≤ length F a + length F b := by
  obtain ⟨ha0, ha⟩ := hF (dot a a) (dot_self_nonneg a)
  obtain ⟨hb0, hb⟩ := hF (dot b b) (dot_self_nonneg b)
  obtain ⟨_, hc⟩ := hF (dot (a + b) (a + b)) (dot_self_nonneg (a + b))
  have hab := dot_le_length_mul F hF a b
  refine le_of_mul_self_le _ _ (add_nonneg ha0 hb0) ?_
  have e : dot (a + b) (a + b) = dot a a + 2 * dot a b + dot b b := by
    simp only [dot, Vec3.add_x, Vec3.add_y, Vec3.add_z]
    ring
  unfold length at hab ⊢
  rw [hc, e]
  nlinarith

/-- The length of a step of `d ≥ 0` along a unit direction, taken backwards. -/
theorem length_back_step (F : MathFns α) (hF : IsSqrt F) (rd : Vec3 α) (d : α)
    (hrd : dot rd rd = 1) (hd : 0 ≤ d) : length F ((-d) • rd) = d := by
  have e : dot ((-d) • rd) ((-d) • rd) = d * d := by
    have : dot ((-d) • rd) ((-d) • rd) = d * d * dot rd rd := by
      simp only [dot, Vec3.smul_x, Vec3.smul_y, Vec3.smul_z]
      ring
    rw [this, hrd, mul_one]
  rw [length, e, hF.sqrt_mul_self, abs_of_nonneg hd]

/-- The distance to a sphere falls by at most `d` over a step of `d` along a unit
direction. -/
theorem sphere_step (F : MathFns α) (hF : IsSqrt F) (p c rd : Vec3 α) (r d : α)
    (hrd : dot rd rd = 1) (hd : 0 ≤ d) :
    distance_from_sphere F p c r - d ≤ distance_from_sphere F (p + d • rd) c r := by
  have e : p - c = (p + d • rd - c) + (-d) • rd := by
    ext <;> simp only [Vec3.add_x, Vec3.add_y, Vec3.add_z, Vec3.sub_x, Vec3.sub_y, Vec3.sub_z,
      Vec3.smul_x, Vec3.smul_y, Vec3.smul_z] <;> ring
  have h := length_add_le F hF (p + d • rd - c) ((-d) • rd)
  rw [← e, length_back_step F hF rd d hrd hd] at h
  unfold distance_from_sphere
  linarith

/-- The distance to a plane with a unit normal falls by at most `d` over a step of `d`
along a unit direction. -/
theorem plane_step (p o n rd : Vec3 α) (d : α) (hn : dot n n = 1) (hrd : dot rd rd = 1)
    (hd : 0 ≤ d) :
    distance_from_plane p o n - d ≤ distance_from_plane (p + d • rd) o n := by
  have hcs := dot_mul_self_le rd n
  rw [hn, hrd, mul_one] at hcs
  have h1 : -1 ≤ dot rd n := by
    by_contra h
    have h2 : dot rd n < -1 := not_le.mp h
    nlinarith
  have e : dot (p + d • rd) n = dot p n + d * dot rd n := by
    simp only [dot, Vec3.add_x, Vec3.add_y, Vec3.add_z, Vec3.smul_x, Vec3.smul_y, Vec3.smul_z]
    ring
  unfold distance_from_plane
  rw [e]
  nlinarith

/-- The outer term of the box distance: componentwise bounds `u ≤ v + e` between
non-negative vectors give `|u| ≤ |v| + dd` when `|e| ≤ dd`. -/
theorem box_outer_step (u1 u2 u3 v1 v2 v3 e1 e2 e3 U V dd : α)
    (hu1 : 0 ≤ u1) (hu2 : 0 ≤ u2) (hu3 : 0 ≤ u3)
    (h1 : u1 ≤ v1 + e1) (h2 : u2 ≤ v2 + e2) (h3 : u3 ≤ v3 + e3)
    (hU : U * U = u1 * u1 + u2 * u2 + u3 * u3)
    (hV0 : 0 ≤ V) (hV : V * V = v1 * v1 + v2 * v2 + v3 * v3)
    (hd : 0 ≤ dd) (hE : e1 * e1 + e2 * e2 + e3 * e3 ≤ dd * dd) : U ≤ V + dd := by
  have cs : (v1 * e1 + v2 * e2 + v3 * e3) * (v1 * e1 + v2 * e2 + v3 * e3)
      ≤ (v1 * v1 + v2 * v2 + v3 * v3) * (e1 * e1 + e2 * e2 + e3 * e3) := by
    nlinarith [sq_nonneg (v1 * e2 - v2 * e1), sq_nonneg (v1 * e3 - v3 * e1),
      sq_nonneg (v2 * e3 - v3 * e2)]
  have cs2 : (v1 * e1 + v2 * e2 + v3 * e3) * (v1 * e1 + v2 * e2 + v3 * e3)
      ≤ V * dd * (V * dd) := by
    have := mul_le_mul_of_nonneg_left hE (mul_self_nonneg V)
    rw [hV] at this
    calc (v1 * e1 + v2 * e2 + v3 * e3) * (v1 * e1 + v2 * e2 + v3 * e3)
        ≤ (v1 * v1 + v2 * v2 + v3 * v3) * (e1 * e1 + e2 * e2 + e3 * e3) := cs
      _ ≤ (v1 * v1 + v2 * v2 + v3 * v3) * (dd * dd) := this
      _ = V * dd * (V * dd) := by rw [← hV]; ring
  have hve := le_of_mul_self_le _ _ (mul_nonneg hV0 hd) cs2
  have q1 := mul_self_le_mul_self hu1 h1
  have q2 := mul_self_le_mul_self hu2 h2
  have q3 := mul_self_le_mul_self hu3 h3
  refine le_of_mul_self_le _ _ (add_nonneg hV0 hd) ?_
  rw [hU]
  linarith

/-- The inner term of the box distance: when every positive component of `u` is exceeded
by `m` in `e`, and one component is positive, `|u| + m ≤ dd` for `|e| ≤ dd`. -/
theorem box_inner_step (u1 u2 u3 e1 e2 e3 U m dd : α)
    (hu1 : 0 ≤ u1) (hu2 : 0 ≤ u2) (hu3 : 0 ≤ u3) (hm : 0 ≤ m)
    (h1 : 0 < u1 → u1 + m ≤ e1) (h2 : 0 < u2 → u2 + m ≤ e2) (h3 : 0 < u3 → u3 + m ≤ e3)
    (hpos : 0 < u1 ∨ 0 < u2 ∨ 0 < u3)
    (hU : U * U = u1 * u1 + u2 * u2 + u3 * u3)
    (hd : 0 ≤ dd) (hE : e1 * e1 + e2 * e2 + e3 * e3 ≤ dd * dd) : U + m ≤ dd := by
  have q : ∀ u e : α, 0 ≤ u → (0 < u → u + m ≤ e) →
      u * u + 2 * m * u ≤ e * e ∧ (0 < u → u * u + 2 * m * u + m * m ≤ e * e) := by
    intro u e hu h
    have hpos : 0 < u → u * u + 2 * m * u + m * m ≤ e * e := by
      intro hu0
      have := mul_self_le_mul_self (add_nonneg hu hm) (h hu0)
      linarith
    refine ⟨?_, hpos⟩
    rcases eq_or_lt_of_le hu with h0 | h0
    · rw [← h0]
      simp only [mul_zero, add_zero]
      exact mul_self_nonneg e
    · have := hpos h0
      linarith [mul_self_nonneg m]
  obtain ⟨a1, b1⟩ := q u1 e1 hu1 h1
  obtain ⟨a2, b2⟩ := q u2 e2 hu2 h2
  obtain ⟨a3, b3⟩ := q u3 e3 hu3 h3
  have hsum : U ≤ u1 + u2 + u3 := by
    refine le_of_mul_self_le _ _ (add_nonneg (add_nonneg hu1 hu2) hu3) ?_
    rw [hU]
    nlinarith [mul_nonneg hu1 hu2, mul_nonneg hu1 hu3, mul_nonneg hu2 hu3]
  have hmU := mul_nonneg hm (sub_nonneg.mpr hsum)
  refine le_of_mul_self_le _ _ hd ?_
  rcases hpos with h | h | h
  · linarith [b1 h]
  · linarith [b2 h]
  · linarith [b3 h]

/-- The box formula on two vectors of per-axis distances `A` and `B` with
`A ≤ B + e` componentwise and `|e| ≤ dd`: it falls by at most `dd`. -/
theorem box_field_step (F : MathFns α) (hF : IsSqrt F) (A B : Vec3 α) (e1 e2 e3 dd : α)
    (he1 : 0 ≤ e1) (he2 : 0 ≤ e2) (he3 : 0 ≤ e3) (hd : 0 ≤ dd)
    (hE : e1 * e1 + e2 * e2 + e3 * e3 ≤ dd * dd)
    (h1 : A.x ≤ B.x + e1) (h2 : A.y ≤ B.y + e2) (h3 : A.z ≤ B.z + e3) :
    length F (vmax A (Vec3.splat 0)) + min (max A.x (max A.y A.z)) 0 - dd
      ≤ length F (vmax B (Vec3.splat 0)) + min (max B.x (max B.y B.z)) 0 := by
  obtain ⟨hU0, hU⟩ := hF (dot (vmax A (Vec3.splat 0)) (vmax A (Vec3.splat 0)))
    (dot_self_nonneg _)
  obtain ⟨hV0, hV⟩ := hF (dot (vmax B (Vec3.splat 0)) (vmax B (Vec3.splat 0)))
    (dot_self_nonneg _)
  have hUe : dot (vmax A (Vec3.splat 0)) (vmax A (Vec3.splat 0))
      = max A.x 0 * max A.x 0 + max A.y 0 * max A.y 0 + max A.z 0 * max A.z 0 := rfl
  have hVe : dot (vmax B (Vec3.splat 0)) (vmax B (Vec3.splat 0))
      = max B.x 0 * max B.x 0 + max B.y 0 * max B.y 0 + max B.z 0 * max B.z 0 := rfl
  have hU' := hU.trans hUe
  have hV' := hV.trans hVe
  unfold length
  generalize F.sqrt (dot (vmax A (Vec3.splat 0)) (vmax A (Vec3.splat 0))) = U at hU0 hU'
  generalize F.sqrt (dot (vmax B (Vec3.splat 0)) (vmax B (Vec3.splat 0))) = V at hV0 hV'
  by_cases hmb : 0 ≤ max B.x (max B.y B.z)
  · rw [min_eq_right hmb]
    have hle : U ≤ V + dd :=
      box_outer_step (max A.x 0) (max A.y 0) (max A.z 0) (max B.x 0) (max B.y 0)
        (max B.z 0) e1 e2 e3 U V dd (le_max_right _ _) (le_max_right _ _) (le_max_right _ _)
        (max_le (by linarith [le_max_left B.x 0]) (by linarith [le_max_right B.x 0]))
        (max_le (by linarith [le_max_left B.y 0]) (by linarith [le_max_right B.y 0]))
        (max_le (by linarith [le_max_left B.z 0]) (by linarith [le_max_right B.z 0]))
        hU' hV0 hV' hd hE
    have := min_le_right (max A.x (max A.y A.z)) 0
    linarith
  · have hmb' : max B.x (max B.y B.z) < 0 := not_le.mp hmb
    rw [min_eq_left (le_of_lt hmb')]
    have bx : B.x ≤ max B.x (max B.y B.z) := le_max_left _ _
    have by' : B.y ≤ max B.x (max B.y B.z) := le_trans (le_max_left _ _) (le_max_right _ _)
    have bz : B.z ≤ max B.x (max B.y B.z) := le_trans (le_max_right _ _) (le_max_right _ _)
    generalize max B.x (max B.y B.z) = mb at hmb' bx by' bz
    by_cases hma : max A.x (max A.y A.z) ≤ 0
    · rw [min_eq_left hma]
      have ax : A.x ≤ 0 := le_trans (le_max_left _ _) hma
      have ay : A.y ≤ 0 := le_trans (le_trans (le_max_left _ _) (le_max_right _ _)) hma
      have az : A.z ≤ 0 := le_trans (le_trans (le_max_right _ _) (le_max_right _ _)) hma
      rw [max_eq_right ax, max_eq_right ay, max_eq_right az] at hU'
      have hU2 : U = 0 := by
        apply mul_self_eq_zero.mp
        rw [hU']; ring
      have d1 : e1 ≤ dd := le_of_mul_self_le _ _ hd
        (by linarith [mul_self_nonneg e2, mul_self_nonneg e3])
      have d2 : e2 ≤ dd := le_of_mul_self_le _ _ hd
        (by linarith [mul_self_nonneg e1, mul_self_nonneg e3])
      have d3 : e3 ≤ dd := le_of_mul_self_le _ _ hd
        (by linarith [mul_self_nonneg e1, mul_self_nonneg e2])
      have hmax : max A.x (max A.y A.z) ≤ mb + dd :=
        max_le (by linarith) (max_le (by linarith) (by linarith))
      rw [hU2]
      linarith
    · have hma' : 0 < max A.x (max A.y A.z) := not_le.mp hma
      rw [min_eq_right (le_of_lt hma')]
      have hpos : 0 < max A.x 0 ∨ 0 < max A.y 0 ∨ 0 < max A.z 0 := by
        rcases lt_max_iff.mp hma' with h | h
        · exact Or.inl (lt_max_of_lt_left h)
        · rcases lt_max_iff.mp h with h | h
          · exact Or.inr (Or.inl (lt_max_of_lt_left h))
          · exact Or.inr (Or.inr (lt_max_of_lt_left h))
      have key : ∀ a b e : α, a ≤ b + e → b ≤ mb → 0 < max a 0 → max a 0 + -mb ≤ e := by
        intro a b e hab hb hpos
        have ha : 0 < a := by
          rcases lt_max_iff.mp hpos with h | h
          · exact h
          · exact absurd h (lt_irrefl 0)
        rw [max_eq_left (le_of_lt ha)]
        linarith
      have hle : U + -mb ≤ dd :=
        box_inner_step (max A.x 0) (max A.y 0) (max A.z 0) e1 e2 e3 U (-mb) dd
          (le_max_right _ _) (le_max_right _ _) (le_max_right _ _) (by linarith)
          (key _ _ _ h1 bx) (key _ _ _ h2 by') (key _ _ _ h3 bz) hpos hU' hd hE
      linarith

/-- The distance to a box falls by at most `d` over a step of `d` along a unit
direction. -/
theorem box_step (F : MathFns α) (hF : IsSqrt F) (p c s rd : Vec3 α) (d : α)
    (hrd : dot rd rd = 1) (hd : 0 ≤ d) :
    distance_from_box F p c s - d ≤ distance_from_box F (p + d • rd) c s := by
  have hE : |d * rd.x| * |d * rd.x| + |d * rd.y| * |d * rd.y| + |d * rd.z| * |d * rd.z|
      ≤ d * d := by
    rw [abs_mul_abs_self, abs_mul_abs_self, abs_mul_abs_self]
    have : d * rd.x * (d * rd.x) + d * rd.y * (d * rd.y) + d * rd.z * (d * rd.z)
        = d * d * dot rd rd := by
      simp only [dot]
      ring
    rw [this, hrd, mul_one]
  have tri : ∀ a b e : α, |a - b| ≤ |a + e - b| + |e| := by
    intro a b e
    have := abs_sub (a + e - b) e
    rw [show a + e - b - e = a - b by ring] at this
    exact this
  have h := box_field_step F hF (vabs (p - c) - s) (vabs (p + d • rd - c) - s)
    |d * rd.x| |d * rd.y| |d * rd.z| d (abs_nonneg _) (abs_nonneg _) (abs_nonneg _) hd hE
    (by
      simp only [vabs, Vec3.sub_x, Vec3.add_x, Vec3.smul_x]
      linarith [tri p.x c.x (d * rd.x)])
    (by
      simp only [vabs, Vec3.sub_y, Vec3.add_y, Vec3.smul_y]
      linarith [tri p.y c.y (d * rd.y)])
    (by
      simp only [vabs, Vec3.sub_z, Vec3.add_z, Vec3.smul_z]
      linarith [tri p.z c.z (d * rd.z)])
  exact h

/-- The distance to an object of an exact kind falls by at most `d` over a step of `d`
along a unit direction. -/
theorem exact_kind_step (F : MathFns α) (hF : IsSqrt F) (multi : α) (o : WorldObject α)
    (hk : IsExactKind o) (p rd : Vec3 α) (d : α) (hrd : dot rd rd = 1) (hd : 0 ≤ d) :
    MainNew.map_the_object F multi p o - d ≤ MainNew.map_the_object F multi (p + d • rd) o := by
  rcases hk with h1 | ⟨h3, hn⟩ | ⟨h4, _⟩
  · simp only [MainNew.map_the_object, if_pos h1]
    exact sphere_step F hF p _ rd _ d hrd hd
  · have n1 : ¬ o.type = 1 := by rw [h3]; norm_num
    have n2 : ¬ o.type = 2 := by rw [h3]; norm_num
    simp only [MainNew.map_the_object, if_neg n1, if_neg n2, if_pos h3]
    exact plane_step p _ _ rd d hn hrd hd
  · have n1 : ¬ o.type = 1 := by rw [h4]; norm_num
    have n2 : ¬ o.type = 2 := by rw [h4]; norm_num
    have n3 : ¬ o.type = 3 := by rw [h4]; norm_num
    simp only [MainNew.map_the_object, if_neg n1, if_neg n2, if_neg n3, if_pos h4]
    exact box_step F hF p _ _ rd d hrd hd

/-- A step of at most the aggregate distance along a unit direction ends where the
aggregate distance is non-negative, in a scene of objects of exact kinds. -/
theorem mainNew_world_step (F : MathFns α) (hF : IsSqrt F) (multi : α)
    (objects : Nat → WorldObject α) (n : Nat) (hk : ∀ i, i < n → IsExactKind (objects i))
    (rd : Vec3 α) (hrd : dot rd rd = 1) (p : Vec3 α) (d : α) (hd : 0 ≤ d)
    (hle : d ≤ (MainNew.map_the_world F multi objects n p).1) :
    0 ≤ (MainNew.map_the_world F multi objects n (p + d • rd)).1 := by
  rw [mainNew_map_the_world_eq_scan] at hle ⊢
  refine scan_ge _ _ _ 0 (by norm_num) (fun i hi hs => ?_)
  have h1 : (scan (fun i => MainNew.map_the_object F multi p (objects i)) (fun _ => False) n).1
      ≤ MainNew.map_the_object F multi p (objects i) := (scan_inv _ _ n).le_all i hi hs
  have h2 := exact_kind_step F hF multi (objects i) (hk i hi) p rd d hrd hd
  show 0 ≤ MainNew.map_the_object F multi (p + d • rd) (objects i)
  linarith

end DistanceLemmas

section Travel

variable {α : Type} [LinearOrderedField α]

/-- C24: sphere tracing never overshoots.  For every scene whose active objects are
spheres, planes with a unit-length normal and boxes with non-negative half-extents, every
unit-length direction and every origin whose aggregate scene distance is at least `0`,
every position that the march loop of `ray_march` samples (`ro + total_distance_traveled *
rd` for each value that `total_distance_traveled` takes) has aggregate scene distance at
least `0`; the distance that a hit reports is one of those values.  The built-in `sqrt` is
the square root, numbers are exact. -/
theorem never_overshoots (F : MathFns α) (hF : IsSqrt F) (multi : α)
    (objects : Nat → WorldObject α) (n : Nat) (hk : ∀ i, i < n → IsExactKind (objects i))
    (ro rd : Vec3 α) (hrd : dot rd rd = 1)
    (h0 : 0 ≤ (MainNew.map_the_world F multi objects n ro).1) :
    (∀ t, t ∈ march_distances (MainNew.map_the_world F multi objects n)
        MainNew.MAXIMUM_TRACE_DISTANCE ro rd NUMBER_OF_STEPS 0 →
      0 ≤ (MainNew.map_the_world F multi objects n (ro + t • rd)).1)
    ∧ (∀ h, march_trace (MainNew.map_the_world F multi objects n)
        MainNew.MAXIMUM_TRACE_DISTANCE ro rd NUMBER_OF_STEPS 0 = some h →
      h.1 ∈ march_distances (MainNew.map_the_world F multi objects n)
        MainNew.MAXIMUM_TRACE_DISTANCE ro rd NUMBER_OF_STEPS 0) := by
  refine ⟨?_, march_trace_mem_distances _ _ ro rd _ 0⟩
  have e : ro + (0 : α) • rd = ro := by
    ext <;> simp
  refine march_distances_field_nonneg _ _ ro rd
    (mainNew_world_step F hF multi objects n hk rd hrd) _ 0 ?_
  rw [e]
  exact h0

/-- A witness of C24: the scene of one floor `y = 0` (a plane with the unit normal
`(0, 1, 0)`) and the ray straight down from `(0, 1, 0)`. -/
theorem never_overshoots_witness :
    IsSqrt (MathFns.mk Real.sqrt Real.sin Real.cos)
    ∧ (∀ i, i < 1 → IsExactKind ((fun _ => example_floor 0 0 0 ⟨1, 1, 1⟩ : Nat → WorldObject ℝ) i))
    ∧ dot (⟨0, -1, 0⟩ : Vec3 ℝ) ⟨0, -1, 0⟩ = 1
    ∧ 0 ≤ (MainNew.map_the_world (MathFns.mk Real.sqrt Real.sin Real.cos) 0 (fun _ => example_floor 0 0 0 ⟨1, 1, 1⟩ : Nat → WorldObject ℝ) 1 ⟨0, 1, 0⟩).1
    ∧ ∀ t, t ∈ march_distances (MainNew.map_the_world (MathFns.mk Real.sqrt Real.sin Real.cos) 0 (fun _ => example_floor 0 0 0 ⟨1, 1, 1⟩ : Nat → WorldObject ℝ) 1)
        MainNew.MAXIMUM_TRACE_DISTANCE ⟨0, 1, 0⟩ ⟨0, -1, 0⟩ NUMBER_OF_STEPS 0 →
      0 ≤ (MainNew.map_the_world (MathFns.mk Real.sqrt Real.sin Real.cos) 0 (fun _ => example_floor 0 0 0 ⟨1, 1, 1⟩ : Nat → WorldObject ℝ) 1
        ((⟨0, 1, 0⟩ : Vec3 ℝ) + t • ⟨0, -1, 0⟩)).1 := by
  have hk : ∀ i, i < 1 → IsExactKind ((fun _ => example_floor 0 0 0 ⟨1, 1, 1⟩ : Nat → WorldObject ℝ) i) := by
    intro i _
    refine Or.inr (Or.inl ⟨rfl, ?_⟩)
    norm_num [example_floor, dot]
  have hrd : dot (⟨0, -1, 0⟩ : Vec3 ℝ) ⟨0, -1, 0⟩ = 1 := by norm_num [dot]
  have h0 : 0 ≤ (MainNew.map_the_world (MathFns.mk Real.sqrt Real.sin Real.cos) 0 (fun _ => example_floor 0 0 0 ⟨1, 1, 1⟩ : Nat → WorldObject ℝ) 1 ⟨0, 1, 0⟩).1 := by
    rw [mainNew_floor_world (MathFns.mk Real.sqrt Real.sin Real.cos) 0 0 0 0 ⟨1, 1, 1⟩ 1 (by decide) ⟨0, 1, 0⟩ (by norm_num)]
    norm_num
  exact ⟨real_isSqrt, hk, hrd, h0,
    (never_overshoots (MathFns.mk Real.sqrt Real.sin Real.cos) real_isSqrt 0 (fun _ => example_floor 0 0 0 ⟨1, 1, 1⟩ : Nat → WorldObject ℝ) 1 hk ⟨0, 1, 0⟩ ⟨0, -1, 0⟩ hrd h0).1⟩

/-- C29: the travelled distance is monotone.  In every march routine
`total_distance_traveled` starts at `0`, every iteration that neither hits nor breaks adds
at least `MINIMUM_HIT_DISTANCE` and at most `100000` to it, it is never negative, after `j`
such iterations it is at least `0.01*j`, the distance that a hit reports is one of its
values, and the fade factor `min(1, c/t)` applied at a hit with `t > 0` lies in `(0, 1]`
(for `c > 0`; `c` is `20` or `5`). -/
theorem travelled_distance_monotone (F : MathFns α) (multi : α)
    (objects : Nat → WorldObject α) (n : Nat) (ro rd : Vec3 α) (k : Int) :
    TravelMonotone (march_distances (MainNew.map_the_world F multi objects n)
      MainNew.MAXIMUM_TRACE_DISTANCE ro rd NUMBER_OF_STEPS 0)
    ∧ TravelMonotone (march_distances
      (fun q => MainNew.map_the_world_skip F multi objects n q k)
      MainNew.MAXIMUM_TRACE_DISTANCE ro rd NUMBER_OF_STEPS 0)
    ∧ TravelMonotone (march_distances (fun q => Main.map_the_world F multi q objects)
      Main.MAXIMUM_TRACE_DISTANCE ro rd NUMBER_OF_STEPS 0)
    ∧ TravelMonotone (march_distances (fun q => Main.map_the_world_skip F multi q objects k)
      Main.MAXIMUM_TRACE_DISTANCE ro rd NUMBER_OF_STEPS 0)
    ∧ (∀ (agg : Vec3 α → α × Int) (maxd : α) (h : α × Int),
        march_trace agg maxd ro rd NUMBER_OF_STEPS 0 = some h →
        h.1 ∈ march_distances agg maxd ro rd NUMBER_OF_STEPS 0)
    ∧ (∀ c t : α, 0 < c → 0 < t → 0 < min 1 (c / t) ∧ min 1 (c / t) ≤ 1) := by
  refine ⟨travel_monotone _ _ ro rd (fun q => (aggregators_capped F multi objects n k q).1) _,
    travel_monotone _ _ ro rd (fun q => (aggregators_capped F multi objects n k q).2.1) _,
    travel_monotone _ _ ro rd (fun q => (aggregators_capped F multi objects n k q).2.2.1) _,
    travel_monotone _ _ ro rd (fun q => (aggregators_capped F multi objects n k q).2.2.2) _,
    fun agg maxd h e => march_trace_mem_distances agg maxd ro rd _ 0 h e, ?_⟩
  intro c t hc ht
  exact ⟨lt_min one_pos (div_pos hc ht), min_le_left _ _⟩

/-- A witness of C29: the fade factor of the primary routine at the travelled distance
`30`, and the march straight down from `(0, 1, 0)` onto the floor, whose hit distance is
one of the values of the travelled distance. -/
theorem travelled_distance_monotone_witness :
    (0 : ℝ) < 20 ∧ (0 : ℝ) < 30 ∧ (0 < min (1 : ℝ) (20 / 30) ∧ min (1 : ℝ) (20 / 30) ≤ 1)
    ∧ march_trace (MainNew.map_the_world (MathFns.mk Real.sqrt Real.sin Real.cos) 0 (fun _ => example_floor 0 0 0 ⟨1, 1, 1⟩ : Nat → WorldObject ℝ) 1) MainNew.MAXIMUM_TRACE_DISTANCE
        ⟨0, 1, 0⟩ ⟨0, -1, 0⟩ NUMBER_OF_STEPS 0 = some (1, 0)
    ∧ (1 : ℝ) ∈ march_distances (MainNew.map_the_world (MathFns.mk Real.sqrt Real.sin Real.cos) 0 (fun _ => example_floor 0 0 0 ⟨1, 1, 1⟩ : Nat → WorldObject ℝ) 1)
        MainNew.MAXIMUM_TRACE_DISTANCE ⟨0, 1, 0⟩ ⟨0, -1, 0⟩ NUMBER_OF_STEPS 0 := by
  have htr := mainNew_drop_trace (MathFns.mk Real.sqrt Real.sin Real.cos) (0 : ℝ) 0 0 0 ⟨1, 1, 1⟩ 1 (by decide)
  exact ⟨by norm_num, by norm_num,
    (travelled_distance_monotone (MathFns.mk Real.sqrt Real.sin Real.cos) 0 (fun _ => example_floor 0 0 0 ⟨1, 1, 1⟩ : Nat → WorldObject ℝ) 1 ⟨0, 1, 0⟩ ⟨0, -1, 0⟩ 0).2.2.2.2.2 20 30
      (by norm_num) (by norm_num),
    htr,
    (travelled_distance_monotone (MathFns.mk Real.sqrt Real.sin Real.cos) 0 (fun _ => example_floor 0 0 0 ⟨1, 1, 1⟩ : Nat → WorldObject ℝ) 1 ⟨0, 1, 0⟩ ⟨0, -1, 0⟩ 0).2.2.2.2.1 _ _ _ htr⟩

end Travel

/-! ## The light, and the scene buffer -/

section LightLemmas

variable {α : Type} [LinearOrderedField α]

/-- The cosine that the diffuse term clamps, in terms of the vector from the hit position
to the light. -/
theorem dot_direction_to_light (F : MathFns α) (n p : Vec3 α) :
    dot n (normalize F (p - light_position))
      = -((1 / length F (p - light_position)) * dot n (light_position - p)) := by
  simp only [normalize, dot, Vec3.smul_x, Vec3.smul_y, Vec3.smul_z, Vec3.sub_x, Vec3.sub_y,
    Vec3.sub_z]
  ring

/-- The diffuse term is `0` where the normal makes an angle of at most a right angle with
the vector from the hit position to the light. -/
theorem diffuse_zero_of_facing (F : MathFns α) (hF : IsSqrt F) (n p : Vec3 α)
    (h : 0 ≤ dot n (light_position - p)) :
    max 0 (dot n (normalize F (p - light_position))) = 0 := by
  have hl : 0 ≤ 1 / length F (p - light_position) :=
    one_div_nonneg.mpr (hF _ (dot_self_nonneg _)).1
  rw [dot_direction_to_light]
  exact max_eq_left (neg_nonpos.mpr (mul_nonneg hl h))

/-- The local colour of an object that is not the sentinel, where the diffuse term is
`0`. -/
theorem local_color_of_diffuse_zero (F : MathFns α) (n p : Vec3 α) (o : WorldObject α)
    (hx : o.color.x ≠ -2) (h : max 0 (dot n (normalize F (p - light_position))) = 0) :
    local_color F n p o = o.color.muls (1 - o.diffuse_intensity) := by
  simp only [local_color, if_neg hx, h]
  ext <;> simp

end LightLemmas

section Light

variable {α : Type} [LinearOrderedField α]

/-- C31: the light direction points away from the light.  For every hit position `p` and
normal `n` with `dot(n, light_position - p) ≥ 0` (the surface faces the light at
`(15, 15, -5)`), the diffuse term `max(0, dot(n, normalize(p - light_position)))` is `0`,
so the local colour of an object that is not the sentinel is `color*(1 - diffuse_intensity)`
(and that times the fade is what the leaf routines `ray_march2` of `mainNew.js` and
`ray_march3` of `main.js` return at such a hit); the diffuse term is positive only where
`dot(n, light_position - p) < 0`, on surfaces that face away from the light.  The built-in
`sqrt` is the square root. -/
theorem light_direction_away (F : MathFns α) (hF : IsSqrt F) (n p : Vec3 α)
    (o : WorldObject α) :
    (0 ≤ dot n (light_position - p) →
      max 0 (dot n (normalize F (p - light_position))) = 0
      ∧ (o.color.x ≠ -2 → local_color F n p o = o.color.muls (1 - o.diffuse_intensity)))
    ∧ (0 < max 0 (dot n (normalize F (p - light_position))) →
      dot n (light_position - p) < 0)
    ∧ (∀ (multi : α) (objects : Nat → WorldObject α) (m : Nat) (ro rd : Vec3 α) (k : Int)
        (t : α) (idx : Int),
        march_trace (fun q => MainNew.map_the_world_skip F multi objects m q k)
          MainNew.MAXIMUM_TRACE_DISTANCE ro rd NUMBER_OF_STEPS 0 = some (t, idx) →
        0 ≤ dot (MainNew.calculate_normal F multi (ro + t • rd) (objects idx.toNat))
          (light_position - (ro + t • rd)) →
        (objects idx.toNat).color.x ≠ -2 →
        MainNew.ray_march2 F multi objects m ro rd k =
          ((objects idx.toNat).color.muls (1 - (objects idx.toNat).diffuse_intensity)).muls
            (min 1 (5 / t)))
    ∧ (∀ (multi : α) (world : Nat → WorldObject α) (ro rd : Vec3 α) (k : Int)
        (t : α) (idx : Int),
        march_trace (fun q => Main.map_the_world_skip F multi q world k)
          Main.MAXIMUM_TRACE_DISTANCE ro rd NUMBER_OF_STEPS 0 = some (t, idx) →
        0 ≤ dot (Main.calculate_normal F multi (ro + t • rd) (world idx.toNat))
          (light_position - (ro + t • rd)) →
        (world idx.toNat).color.x ≠ -2 →
        Main.ray_march3 F multi ro rd world k =
          ((world idx.toNat).color.muls (1 - (world idx.toNat).diffuse_intensity)).muls
            (min 1 (5 / t))) := by
  refine ⟨fun h => ⟨diffuse_zero_of_facing F hF n p h,
      fun hx => local_color_of_diffuse_zero F n p o hx (diffuse_zero_of_facing F hF n p h)⟩,
    ?_, ?_, ?_⟩
  · intro hpos
    by_contra hge
    rw [diffuse_zero_of_facing F hF n p (not_lt.mp hge)] at hpos
    exact lt_irrefl _ hpos
  · intro multi objects m ro rd k t idx htr hface hx
    rw [(mainNew_ray_march2_of_trace F multi objects m ro rd k _ htr).2]
    exact congrArg (fun c => Vec3.muls c (min 1 (5 / t)))
      (local_color_of_diffuse_zero F _ _ _ hx (diffuse_zero_of_facing F hF _ _ hface))
  · intro multi world ro rd k t idx htr hface hx
    rw [(main_ray_march3_of_trace F multi world ro rd k _ htr).2]
    exact congrArg (fun c => Vec3.muls c (min 1 (5 / t)))
      (local_color_of_diffuse_zero F _ _ _ hx (diffuse_zero_of_facing F hF _ _ hface))

/-- A witness of C31: the origin with the normal `(0, 1, 0)`, which faces the light
(`dot(n, light_position - p) = 15`), on the example diffuse sphere: the local colour is
`(0.5, 0.5, 0.5)`. -/
theorem light_direction_away_witness :
    IsSqrt (MathFns.mk Real.sqrt Real.sin Real.cos)
    ∧ (0 : ℝ) ≤ dot (⟨0, 1, 0⟩ : Vec3 ℝ) (light_position - ⟨0, 0, 0⟩)
    ∧ (example_diffuse_sphere : WorldObject ℝ).color.x ≠ -2
    ∧ max 0 (dot (⟨0, 1, 0⟩ : Vec3 ℝ)
        (normalize (MathFns.mk Real.sqrt Real.sin Real.cos) (⟨0, 0, 0⟩ - light_position))) = 0
    ∧ local_color (MathFns.mk Real.sqrt Real.sin Real.cos) (⟨0, 1, 0⟩ : Vec3 ℝ) ⟨0, 0, 0⟩
        example_diffuse_sphere
      = (example_diffuse_sphere : WorldObject ℝ).color.muls
        (1 - (example_diffuse_sphere : WorldObject ℝ).diffuse_intensity) := by
  have h : (0 : ℝ) ≤ dot (⟨0, 1, 0⟩ : Vec3 ℝ) (light_position - ⟨0, 0, 0⟩) := by
    norm_num [dot, light_position]
  have hx : (example_diffuse_sphere : WorldObject ℝ).color.x ≠ -2 := by
    norm_num [example_diffuse_sphere]
  exact ⟨real_isSqrt, h, hx,
    ((light_direction_away (MathFns.mk Real.sqrt Real.sin Real.cos) real_isSqrt ⟨0, 1, 0⟩
      ⟨0, 0, 0⟩ example_diffuse_sphere).1 h).1,
    ((light_direction_away (MathFns.mk Real.sqrt Real.sin Real.cos) real_isSqrt ⟨0, 1, 0⟩
      ⟨0, 0, 0⟩ example_diffuse_sphere).1 h).2 hx⟩

end Light

section ArrayLemmas

variable {α : Type}

/-- The inner loop of `configureGL`: `n` assignments `data[base + j] = cur[j]` inside the
array replace the entries `base .. base + n - 1` and leave the others and the length as
they are. -/
theorem inner_fill (cur : List α) (base : Nat) :
    ∀ (n : Nat) (data : List (Option α)), base + n ≤ data.length →
      ((List.range n).foldl (fun d j => JS.assign d (base + j) cur[j]?) data).length
        = data.length
      ∧ ∀ k, ((List.range n).foldl (fun d j => JS.assign d (base + j) cur[j]?) data)[k]?
          = if base ≤ k ∧ k < base + n then some cur[k - base]? else data[k]? := by
  intro n
  induction n with
  | zero =>
    intro data _
    refine ⟨rfl, fun k => ?_⟩
    rw [if_neg (by omega)]
    rfl
  | succ n ih =>
    intro data hlen
    obtain ⟨hl, hg⟩ := ih data (by omega)
    rw [List.range_succ, List.foldl_append]
    simp only [List.foldl_cons, List.foldl_nil]
    have hin : base + n
        < ((List.range n).foldl (fun d j => JS.assign d (base + j) cur[j]?) data).length := by
      rw [hl]; omega
    rw [JS.assign, if_pos hin]
    refine ⟨by rw [List.length_set, hl], fun k => ?_⟩
    rw [List.getElem?_set]
    by_cases hk : base + n = k
    · rw [if_pos hk, if_pos hin, if_pos (by omega)]
      have e : k - base = n := by omega
      rw [e]
    · rw [if_neg hk, hg k]
      by_cases hr : base ≤ k ∧ k < base + n
      · rw [if_pos hr, if_pos (by omega)]
      · rw [if_neg hr, if_neg (by omega)]

end ArrayLemmas

section BufferLemmas

variable {α : Type} [LinearOrderedField α]

/-- The array that `toArray` returns for arrays of three components has 20 entries. -/
theorem toArray_length (o : JS.WorldObject α) (hc : o.center.length = 3)
    (hs : o.size.length = 3) (hk : o.color.length = 3) : o.toArray.length = 20 := by
  simp [JS.WorldObject.toArray, hc, hs, hk]

/-- The outer loop of `configureGL` with `objectLength = 20`, on an array of 640 entries:
after `m` objects the slots of those objects hold their arrays and the entries from
`20*m` on are as they were. -/
theorem outer_fill (ws : List (JS.WorldObject α)) (init : List (Option α))
    (hinit : init.length = 640) (hlen : ws.length ≤ 32) :
    ∀ m, m ≤ ws.length →
      ((List.range m).foldl
        (fun data i =>
          match ws[i]? with
          | none => data
          | some o =>
            (List.range 20).foldl (fun data j => JS.assign data (i * 20 + j) o.toArray[j]?)
              data) init).length = 640
      ∧ (∀ i j o, i < m → ws[i]? = some o → j < 20 →
        ((List.range m).foldl
          (fun data i =>
            match ws[i]? with
            | none => data
            | some o =>
              (List.range 20).foldl (fun data j => JS.assign data (i * 20 + j) o.toArray[j]?)
                data) init)[i * 20 + j]? = some o.toArray[j]?)
      ∧ (∀ k, m * 20 ≤ k →
        ((List.range m).foldl
          (fun data i =>
            match ws[i]? with
            | none => data
            | some o =>
              (List.range 20).foldl (fun data j => JS.assign data (i * 20 + j) o.toArray[j]?)
                data) init)[k]? = init[k]?) := by
  intro m
  induction m with
  | zero =>
    intro _
    exact ⟨hinit, fun i j o hi => absurd hi (Nat.not_lt_zero i), fun k _ => rfl⟩
  | succ m ih =>
    intro hm
    obtain ⟨hl, hset, hrest⟩ := ih (by omega)
    have hlt : m < ws.length := by omega
    have hwm : ws[m]? = some ws[m] := List.getElem?_eq_getElem hlt
    rw [List.range_succ m, List.foldl_append]
    simp only [List.foldl_cons, List.foldl_nil, hwm]
    obtain ⟨il, ig⟩ := inner_fill (ws[m]).toArray (m * 20) 20 _
      (by rw [hl]; omega : m * 20 + 20 ≤ _)
    refine ⟨il.trans hl, ?_, ?_⟩
    · intro i j o hi hwi hj
      rw [ig]
      by_cases him : i = m
      · subst him
        rw [hwm] at hwi
        cases hwi
        rw [if_pos (by omega), Nat.add_sub_cancel_left]
      · rw [if_neg (by omega)]
        exact hset i j o (by omega) hwi hj
    · intro k hk
      rw [ig, if_neg (by omega)]
      exact hrest k (by omega)

end BufferLemmas

section Buffer

variable {α : Type} [LinearOrderedField α]

/-- C32: the packing of the scene buffer.  For every non-empty list of at most 32
`WorldObject`s whose `center`, `size` and `color` have three components, `configureGL`
builds its flat array `data` (it does not throw), the array has exactly 640 entries,
entry `20*i + j` is `WorldObjects[i].toArray()[j]`, a number, for every `i < numObjects`
and `j < 20`, and every entry at a position from `20*numObjects` on is `0.0`; so the slot
of the `type` of every unused object holds `0`, an unknown kind. -/
theorem scene_buffer_packing (ws : List (JS.WorldObject α)) (hne : ws ≠ [])
    (hlen : ws.length ≤ 32)
    (h3 : ∀ o, o ∈ ws → o.center.length = 3 ∧ o.size.length = 3 ∧ o.color.length = 3) :
    ∃ data, JS.configureGL_data ws = some data
      ∧ data.length = 640
      ∧ (∀ i j o, ws[i]? = some o → j < 20 →
        ∃ v, o.toArray[j]? = some v ∧ data[20 * i + j]? = some (some v))
      ∧ (∀ k, 20 * ws.length ≤ k → k < 640 → data[k]? = some (some 0))
      ∧ (∀ i, ws.length ≤ i → i < 32 → data[20 * i + 11]? = some (some 0)) := by
  cases ws with
  | nil => exact absurd rfl hne
  | cons first rest =>
    have h20 : first.toArray.length = 20 :=
      toArray_length first (h3 first (List.mem_cons_self _ _)).1
        (h3 first (List.mem_cons_self _ _)).2.1 (h3 first (List.mem_cons_self _ _)).2.2
    have hinit : (List.replicate (20 * 32) (some (0 : α))).length = 640 := by
      rw [List.length_replicate]
    obtain ⟨hl, hset, hrest⟩ := outer_fill (first :: rest)
      (List.replicate (20 * 32) (some (0 : α))) hinit hlen (first :: rest).length (le_refl _)
    have hzero : ∀ k, 20 * (first :: rest).length ≤ k → k < 640 →
        ((List.range (first :: rest).length).foldl
          (fun data i =>
            match (first :: rest)[i]? with
            | none => data
            | some o =>
              (List.range 20).foldl (fun data j => JS.assign data (i * 20 + j) o.toArray[j]?)
                data) (List.replicate (20 * 32) (some (0 : α))))[k]? = some (some 0) := by
      intro k hk hk2
      rw [hrest k (by omega), List.getElem?_replicate, if_pos (by omega)]
    refine ⟨_, ?_, hl, ?_, hzero, ?_⟩
    · simp only [JS.configureGL_data, List.getElem?_cons_zero, h20]
    · intro i j o hwi hj
      have hi : i < (first :: rest).length := by
        obtain ⟨h, _⟩ := List.getElem?_eq_some.mp hwi
        exact h
      have ho : o ∈ first :: rest := by
        obtain ⟨h, e⟩ := List.getElem?_eq_some.mp hwi
        exact e ▸ List.getElem_mem h
      have hlen20 : o.toArray.length = 20 :=
        toArray_length o (h3 o ho).1 (h3 o ho).2.1 (h3 o ho).2.2
      have hjl : j < o.toArray.length := by omega
      refine ⟨o.toArray[j], List.getElem?_eq_getElem hjl, ?_⟩
      have := hset i j o hi hwi hj
      rw [show 20 * i + j = i * 20 + j by omega, this, List.getElem?_eq_getElem hjl]
    · intro i hi hi2
      exact hzero _ (by omega) (by omega)

/-- A witness of C32: the eleven objects of the scene of `mainNew.js`. -/
theorem scene_buffer_packing_witness :
    (JS.WorldObjects : List (JS.WorldObject ℚ)) ≠ []
    ∧ (JS.WorldObjects : List (JS.WorldObject ℚ)).length ≤ 32
    ∧ (∀ o, o ∈ (JS.WorldObjects : List (JS.WorldObject ℚ)) →
      o.center.length = 3 ∧ o.size.length = 3 ∧ o.color.length = 3)
    ∧ ∃ data, JS.configureGL_data (JS.WorldObjects : List (JS.WorldObject ℚ)) = some data
      ∧ data.length = 640
      ∧ (∀ i j o, (JS.WorldObjects : List (JS.WorldObject ℚ))[i]? = some o → j < 20 →
        ∃ v, o.toArray[j]? = some v ∧ data[20 * i + j]? = some (some v))
      ∧ (∀ k, 20 * (JS.WorldObjects : List (JS.WorldObject ℚ)).length ≤ k → k < 640 →
        data[k]? = some (some 0))
      ∧ (∀ i, (JS.WorldObjects : List (JS.WorldObject ℚ)).length ≤ i → i < 32 →
        data[20 * i + 11]? = some (some 0)) := by
  have hne : (JS.WorldObjects : List (JS.WorldObject ℚ)) ≠ [] := by
    simp [JS.WorldObjects]
  have hlen : (JS.WorldObjects : List (JS.WorldObject ℚ)).length ≤ 32 := by
    simp [JS.WorldObjects]
  have h3 : ∀ o, o ∈ (JS.WorldObjects : List (JS.WorldObject ℚ)) →
      o.center.length = 3 ∧ o.size.length = 3 ∧ o.color.length = 3 := by
    intro o ho
    simp only [JS.WorldObjects, List.mem_cons, List.mem_singleton, List.not_mem_nil,
      or_false] at ho
    rcases ho with h | h | h | h | h | h | h | h | h | h | h <;> subst h <;>
      exact ⟨rfl, rfl, rfl⟩
  exact ⟨hne, hlen, h3, scene_buffer_packing JS.WorldObjects hne hlen h3⟩

end Buffer

/-! ## Unknown kinds in `main.js` -/

section UnknownKindLemmas

variable {α : Type} [LinearOrderedField α]

/-- The eleven objects that `create_world` builds are of the kinds 2.0 to 5.0. -/
theorem create_world_known (unassigned : Nat → WorldObject α) (multi : α) (i : Nat)
    (hi : i < Main.OBJECT_COUNT) : IsKnownKind (Main.create_world unassigned multi i) := by
  have hi' : i < 11 := hi
  interval_cases i
  · exact Or.inr (Or.inr (Or.inr (Or.inr rfl)))
  · exact Or.inr (Or.inr (Or.inr (Or.inl rfl)))
  · exact Or.inr (Or.inr (Or.inr (Or.inl rfl)))
  · exact Or.inr (Or.inr (Or.inr (Or.inl rfl)))
  · exact Or.inr (Or.inr (Or.inr (Or.inl rfl)))
  · exact Or.inr (Or.inr (Or.inr (Or.inl rfl)))
  · exact Or.inr (Or.inr (Or.inr (Or.inl rfl)))
  · exact Or.inr (Or.inr (Or.inr (Or.inl rfl)))
  · exact Or.inr (Or.inr (Or.inr (Or.inl rfl)))
  · exact Or.inr (Or.inr (Or.inl rfl))
  · exact Or.inr (Or.inl rfl)

/-- The eleven objects that `create_world` builds do not depend on what the entries 11 to
15 hold. -/
theorem create_world_agree (u₁ u₂ : Nat → WorldObject α) (multi : α) (i : Nat)
    (hi : i < Main.OBJECT_COUNT) :
    Main.create_world u₁ multi i = Main.create_world u₂ multi i := by
  have hi' : i < 11 := hi
  interval_cases i <;> rfl

/-- The object at the index that an aggregator loop returns, looked up as the march
routines do, has the property that every index that counts has; at the no-object value
`-1` the lookup reads index `0`. -/
theorem scan_lookup (d : Nat → α) (skip : Nat → Prop) [DecidablePred skip] (n : Nat)
    (P : Nat → Prop) (h0 : P 0) (h : ∀ i, i < n → P i) : P (scan d skip n).2.toNat := by
  rcases (scan_inv d skip n).owner with ⟨h2, _⟩ | ⟨j, hj, _, h2, _⟩
  · rw [h2]; exact h0
  · rw [h2, Int.toNat_ofNat]; exact h j hj

end UnknownKindLemmas

section UnknownKind

variable {α : Type} [LinearOrderedField α]

/-- C7, as amended: unknown kinds in `main.js`.  For every object whose type is none of
1.0, 2.0, 3.0, 4.0, 5.0 and every point, `map_the_object` returns `0.0`, not a large
distance.  The branch is not reached by the shader: the eleven objects that `create_world`
builds are of the kinds 2.0 to 5.0 and the loops of the aggregators stop at `OBJECT_COUNT`,
so in the world that `main` passes to `ray_march` the object that `map_the_world` or
`map_the_world_skip` returns is never of an unknown kind, the object of a hit never is, and
the colour that `main` returns does not depend on what the entries 11 to 15, which
`create_world` leaves unassigned, hold. -/
theorem main_unknown_kind_unreached (F : MathFns α) (multi : α) :
    (∀ (p : Vec3 α) (o : WorldObject α), o.type ≠ 1 → o.type ≠ 2 → o.type ≠ 3 →
        o.type ≠ 4 → o.type ≠ 5 → Main.map_the_object F multi p o = 0)
    ∧ (∀ (unassigned : Nat → WorldObject α) (i : Nat), i < Main.OBJECT_COUNT →
        IsKnownKind (Main.create_world unassigned multi i))
    ∧ (∀ (unassigned : Nat → WorldObject α) (q : Vec3 α) (k : Int),
        IsKnownKind (Main.create_world unassigned multi
          (Main.map_the_world F multi q (Main.create_world unassigned multi)).2.toNat)
        ∧ IsKnownKind (Main.create_world unassigned multi
          (Main.map_the_world_skip F multi q (Main.create_world unassigned multi) k).2.toNat))
    ∧ (∀ (unassigned : Nat → WorldObject α) (ro rd : Vec3 α) (h : α × Int),
        march_trace (fun q => Main.map_the_world F multi q (Main.create_world unassigned multi))
          Main.MAXIMUM_TRACE_DISTANCE ro rd NUMBER_OF_STEPS 0 = some h →
        (∃ j : Nat, h.2 = (j : Int) ∧ j < Main.OBJECT_COUNT)
        ∧ IsKnownKind (Main.create_world unassigned multi h.2.toNat))
    ∧ (∀ (u₁ u₂ : Nat → WorldObject α) (u_resolution u_mod_val : Vec2 α)
        (u_camera_pos : Vec3 α) (gl_FragCoord : Vec2 α),
        Main.main F u₁ u_resolution u_mod_val u_camera_pos gl_FragCoord
          = Main.main F u₂ u_resolution u_mod_val u_camera_pos gl_FragCoord) := by
  refine ⟨?_, fun u i hi => create_world_known u multi i hi, ?_, ?_, ?_⟩
  · intro p o h1 h2 h3 h4 h5
    simp only [Main.map_the_object, if_neg h1, if_neg h2, if_neg h3, if_neg h4, if_neg h5]
  · intro u q k
    constructor
    · rw [main_map_the_world_eq_scan]
      exact scan_lookup _ _ _ (fun i => IsKnownKind (Main.create_world u multi i))
        (create_world_known u multi 0 (by decide)) (fun i hi => create_world_known u multi i hi)
    · rw [main_map_the_world_skip_eq_scan]
      exact scan_lookup _ _ _ (fun i => IsKnownKind (Main.create_world u multi i))
        (create_world_known u multi 0 (by decide)) (fun i hi => create_world_known u multi i hi)
  · intro u ro rd h htr
    have hs := march_trace_some _ _ ro rd _ _ _ htr
    have hit : (Main.map_the_world F multi (ro + h.1 • rd) (Main.create_world u multi)).1
        < MINIMUM_HIT_DISTANCE := hs.1
    have hidx : h.2 = (Main.map_the_world F multi (ro + h.1 • rd)
        (Main.create_world u multi)).2 := hs.2
    rw [main_map_the_world_eq_scan] at hit hidx
    obtain ⟨j, hj, _, h2⟩ := scan_hit_index _ _ _ hit
    rw [hidx, h2, Int.toNat_ofNat]
    exact ⟨⟨j, rfl, hj⟩, create_world_known u multi j hj⟩
  · intro u₁ u₂ res mod cam frag
    rw [main_main_eq, main_main_eq,
      main_ray_march_agree F mod.y (Main.create_world u₁ mod.y) (Main.create_world u₂ mod.y)
        (fun i hi => create_world_agree u₁ u₂ mod.y i hi)]

/-- A witness of C7 as amended: the object of type 0.0 at the origin. -/
theorem main_unknown_kind_unreached_witness :
    (example_unknown : WorldObject ℝ).type ≠ 1 ∧ (example_unknown : WorldObject ℝ).type ≠ 2
    ∧ (example_unknown : WorldObject ℝ).type ≠ 3 ∧ (example_unknown : WorldObject ℝ).type ≠ 4
    ∧ (example_unknown : WorldObject ℝ).type ≠ 5
    ∧ Main.map_the_object (MathFns.mk Real.sqrt Real.sin Real.cos) 0 ⟨0, 0, 0⟩ (example_unknown : WorldObject ℝ) = 0 := by
  have h1 : (example_unknown : WorldObject ℝ).type ≠ 1 := by norm_num [example_unknown]
  have h2 : (example_unknown : WorldObject ℝ).type ≠ 2 := by norm_num [example_unknown]
  have h3 : (example_unknown : WorldObject ℝ).type ≠ 3 := by norm_num [example_unknown]
  have h4 : (example_unknown : WorldObject ℝ).type ≠ 4 := by norm_num [example_unknown]
  have h5 : (example_unknown : WorldObject ℝ).type ≠ 5 := by norm_num [example_unknown]
  exact ⟨h1, h2, h3, h4, h5,
    (main_unknown_kind_unreached (MathFns.mk Real.sqrt Real.sin Real.cos) 0).1 ⟨0, 0, 0⟩ example_unknown h1 h2 h3 h4 h5⟩

/-- C7 fails as stated: the object of type 0.0 is of none of the five kinds, and
`map_the_object` of `main.js` returns `0.0` for it at the origin, which is below the
initial minimum `100000` of the aggregator; in a world whose object 3 is of that kind and
whose other objects are the plane `y = -10`, `map_the_world` at the origin selects index 3
and the loop of `ray_march` from the origin along `+z` takes the hit branch on it. -/
theorem main_unknown_kind_counterexample :
    ¬ IsKnownKind (example_unknown : WorldObject ℝ)
    ∧ Main.map_the_object (MathFns.mk Real.sqrt Real.sin Real.cos) 0 ⟨0, 0, 0⟩ (example_unknown : WorldObject ℝ) = 0
    ∧ ¬ ((100000 : ℝ) ≤ Main.map_the_object (MathFns.mk Real.sqrt Real.sin Real.cos) 0 ⟨0, 0, 0⟩ (example_unknown : WorldObject ℝ))
    ∧ Main.map_the_world (MathFns.mk Real.sqrt Real.sin Real.cos) 0 ⟨0, 0, 0⟩ (fun i => if i = 3 then example_unknown else example_plane (-10) : Nat → WorldObject ℝ) = (0, 3)
    ∧ march_trace (fun q => Main.map_the_world (MathFns.mk Real.sqrt Real.sin Real.cos) 0 q (fun i => if i = 3 then example_unknown else example_plane (-10) : Nat → WorldObject ℝ)) Main.MAXIMUM_TRACE_DISTANCE
        ⟨0, 0, 0⟩ ⟨0, 0, 1⟩ NUMBER_OF_STEPS 0 = some (0, 3) := by
  have h := main_unknown_kind_is_hit (MathFns.mk Real.sqrt Real.sin Real.cos) (0 : ℝ) ⟨0, 0, 0⟩
  refine ⟨?_, h.1, ?_, h.2.1, h.2.2⟩
  · norm_num [IsKnownKind, example_unknown]
  · rw [h.1]
    norm_num

end UnknownKind

/-! ## The range of the output -/

section RegularLemmas

variable {α : Type} [LinearOrderedField α]

/-- The fade factor lies in `[0, 1]` for a positive travelled distance. -/
theorem fade_regular (c t : α) (hc : 0 < c) (ht : 0 < t) :
    0 ≤ min 1 (c / t) ∧ min 1 (c / t) ≤ 1 :=
  ⟨le_min zero_le_one (le_of_lt (div_pos hc ht)), min_le_left _ _⟩

/-- A blend with a weight in `[0, 1]` is in range when its base is and its bounce, where
the weight is positive, is. -/
theorem inUnitCube_blend_cast (w : α) (a b : Vec3 α) (ha : w > 0 → InUnitCube a)
    (hb : InUnitCube b) (h0 : 0 ≤ w) (h1 : w ≤ 1) : InUnitCube (bounce_blend w a b) := by
  by_cases hw : w > 0
  · exact inUnitCube_blend w a b (ha hw) hb h0 h1
  · rw [bounce_blend, if_neg hw]
    exact hb

/-- The difference of two distinct points is not the zero vector. -/
theorem sub_ne_zero_vec (p q : Vec3 α) (h : p ≠ q) : p - q ≠ ⟨0, 0, 0⟩ := by
  intro e
  apply h
  have ex := congrArg Vec3.x e
  have ey := congrArg Vec3.y e
  have ez := congrArg Vec3.z e
  simp only [Vec3.sub_x, Vec3.sub_y, Vec3.sub_z] at ex ey ez
  ext
  · exact sub_eq_zero.mp ex
  · exact sub_eq_zero.mp ey
  · exact sub_eq_zero.mp ez

/-- The local colour at a hit that divides by no zero, on an object whose material is in
range, for a unit normal, is in range. -/
theorem local_color_regular (F : MathFns α) (hF : IsSqrt F) (n p : Vec3 α) (o : WorldObject α)
    (hn : dot n n = 1) (hm : MaterialInRange o) (hp : o.color.x ≠ -2 → p ≠ light_position) :
    InUnitCube (local_color F n p o) := by
  obtain ⟨_, _, ⟨k0, k1⟩, hcol⟩ := hm
  by_cases hs : o.color.x = -2
  · simp only [local_color, if_pos hs]
    obtain ⟨⟨x0, x1⟩, ⟨y0, y1⟩, ⟨z0, z1⟩⟩ := components_le_one n (le_of_eq hn)
    refine ⟨⟨?_, ?_⟩, ⟨?_, ?_⟩, ⟨?_, ?_⟩⟩ <;>
      simp only [Vec3.adds_x, Vec3.adds_y, Vec3.adds_z, Vec3.muls_x, Vec3.muls_y,
        Vec3.muls_z] <;> linarith
  · obtain ⟨⟨x0, x1⟩, ⟨y0, y1⟩, ⟨z0, z1⟩⟩ := hcol.resolve_left hs
    simp only [local_color, if_neg hs]
    have hl : dot (normalize F (p - light_position)) (normalize F (p - light_position)) = 1 :=
      dot_normalize F hF _ (sub_ne_zero_vec p light_position (hp hs))
    have d0 : 0 ≤ max 0 (dot n (normalize F (p - light_position))) := le_max_left _ _
    have d1 : max 0 (dot n (normalize F (p - light_position))) ≤ 1 :=
      max_le zero_le_one (dot_le_one _ _ (le_of_eq hn) (le_of_eq hl))
    generalize max 0 (dot n (normalize F (p - light_position))) = d at d0 d1
    exact ⟨diffuse_component _ _ d x0 x1 k0 k1 d0 d1, diffuse_component _ _ d y0 y1 k0 k1 d0 d1,
      diffuse_component _ _ d z0 z1 k0 k1 d0 d1⟩

/-- The estimated normal has length `1` where the central differences are not all zero. -/
theorem calculate_normal_regular (F : MathFns α) (hF : IsSqrt F) (multi : α) (p : Vec3 α)
    (o : WorldObject α) :
    (MainNew.gradient F multi p o ≠ ⟨0, 0, 0⟩ →
      dot (MainNew.calculate_normal F multi p o) (MainNew.calculate_normal F multi p o) = 1)
    ∧ (Main.gradient F multi p o ≠ ⟨0, 0, 0⟩ →
      dot (Main.calculate_normal F multi p o) (Main.calculate_normal F multi p o) = 1) := by
  rw [(calculate_normal_eq F multi p o).1, (calculate_normal_eq F multi p o).2]
  exact ⟨dot_normalize F hF _, dot_normalize F hF _⟩

theorem mainNew_leaf_in_range (F : MathFns α) (hF : IsSqrt F) (multi : α)
    (objects : Nat → WorldObject α) (n : Nat)
    (hm : ∀ i, i < n → MaterialInRange (objects i)) (ro rd : Vec3 α) (k : Int)
    (hreg : MainNew.RegularLeaf F multi objects n ro rd k) :
    InUnitCube (MainNew.ray_march2 F multi objects n ro rd k) := by
  rw [MainNew.ray_march2, mainNew_ray_march2_loop_eq]
  refine elim_in_range _ _ (fun h htr => ?_)
  have hs := march_trace_some _ _ ro rd _ _ _ htr
  have hlt : (MainNew.map_the_world_skip F multi objects n (ro + h.1 • rd) k).1
      < MINIMUM_HIT_DISTANCE := hs.1
  have hidx : h.2 = (MainNew.map_the_world_skip F multi objects n (ro + h.1 • rd) k).2 := hs.2
  obtain ⟨ht, hg, hp⟩ := hreg h htr
  have hmat := mainNew_hit_material_skip F multi objects n hm _ k hlt
  simp only [MainNew.ray_march2_hit]
  rw [← hidx] at hmat ⊢
  exact inUnitCube_muls _ _
    (local_color_regular F hF _ _ _ ((calculate_normal_regular F hF multi _ _).1 hg) hmat hp)
    (fade_regular 5 h.1 (by norm_num) ht).1 (fade_regular 5 h.1 (by norm_num) ht).2

theorem mainNew_ray_in_range (F : MathFns α) (hF : IsSqrt F) (multi : α)
    (objects : Nat → WorldObject α) (n : Nat)
    (hm : ∀ i, i < n → MaterialInRange (objects i)) (ro rd : Vec3 α)
    (hreg : MainNew.RegularRay F multi objects n ro rd) :
    InUnitCube (MainNew.ray_march F multi objects n ro rd) := by
  rw [MainNew.ray_march, mainNew_ray_march_loop_eq]
  refine elim_in_range _ _ (fun h htr => ?_)
  have hs := march_trace_some _ _ ro rd _ _ _ htr
  have hlt : (MainNew.map_the_world F multi objects n (ro + h.1 • rd)).1
      < MINIMUM_HIT_DISTANCE := hs.1
  have hidx : h.2 = (MainNew.map_the_world F multi objects n (ro + h.1 • rd)).2 := hs.2
  obtain ⟨⟨ht, hg, hp⟩, hrefl, htrans⟩ := hreg h htr
  have hmat := mainNew_hit_material F multi objects n hm _ hlt
  simp only [mainNew_hit_color_eq]
  rw [← hidx] at hmat ⊢
  refine inUnitCube_muls _ _ ?_
    (fade_regular 20 h.1 (by norm_num) ht).1 (fade_regular 20 h.1 (by norm_num) ht).2
  exact inUnitCube_blend_cast _ _ _
    (fun hw => mainNew_leaf_in_range F hF multi objects n hm _ _ _ (htrans hw))
    (inUnitCube_blend_cast _ _ _
      (fun hw => mainNew_leaf_in_range F hF multi objects n hm _ _ _ (hrefl hw))
      (local_color_regular F hF _ _ _ ((calculate_normal_regular F hF multi _ _).1 hg) hmat hp)
      hmat.1.1 hmat.1.2)
    hmat.2.1.1 hmat.2.1.2

theorem main_leaf_in_range (F : MathFns α) (hF : IsSqrt F) (multi : α)
    (world : Nat → WorldObject α)
    (hm : ∀ i, i < Main.OBJECT_COUNT → MaterialInRange (world i)) (ro rd : Vec3 α) (k : Int)
    (hreg : Main.RegularLeaf F multi world ro rd k) :
    InUnitCube (Main.ray_march3 F multi ro rd world k) := by
  rw [Main.ray_march3, main_ray_march3_loop_eq]
  refine elim_in_range _ _ (fun h htr => ?_)
  have hs := march_trace_some _ _ ro rd _ _ _ htr
  have hlt : (Main.map_the_world_skip F multi (ro + h.1 • rd) world k).1
      < MINIMUM_HIT_DISTANCE := hs.1
  have hidx : h.2 = (Main.map_the_world_skip F multi (ro + h.1 • rd) world k).2 := hs.2
  obtain ⟨ht, hg, hp⟩ := hreg h htr
  have hmat := main_hit_material_skip F multi world hm _ k hlt
  simp only [Main.ray_march3_hit]
  rw [← hidx] at hmat ⊢
  exact inUnitCube_muls _ _
    (local_color_regular F hF _ _ _ ((calculate_normal_regular F hF multi _ _).2 hg) hmat hp)
    (fade_regular 5 h.1 (by norm_num) ht).1 (fade_regular 5 h.1 (by norm_num) ht).2

theorem main_middle_in_range (F : MathFns α) (hF : IsSqrt F) (multi : α)
    (world : Nat → WorldObject α)
    (hm : ∀ i, i < Main.OBJECT_COUNT → MaterialInRange (world i)) (ro rd : Vec3 α) (k : Int)
    (hreg : Main.RegularMiddle F multi world ro rd k) :
    InUnitCube (Main.ray_march2 F multi ro rd world k) := by
  rw [Main.ray_march2, main_ray_march2_loop_eq]
  refine elim_in_range _ _ (fun h htr => ?_)
  have hs := march_trace_some _ _ ro rd _ _ _ htr
  have hlt : (Main.map_the_world_skip F multi (ro + h.1 • rd) world k).1
      < MINIMUM_HIT_DISTANCE := hs.1
  have hidx : h.2 = (Main.map_the_world_skip F multi (ro + h.1 • rd) world k).2 := hs.2
  obtain ⟨⟨ht, hg, hp⟩, hrefl, htrans⟩ := hreg h htr
  have hmat := main_hit_material_skip F multi world hm _ k hlt
  simp only [main_hit_color2_eq]
  rw [← hidx] at hmat ⊢
  refine inUnitCube_muls _ _ ?_
    (fade_regular 5 h.1 (by norm_num) ht).1 (fade_regular 5 h.1 (by norm_num) ht).2
  exact inUnitCube_blend_cast _ _ _
    (fun hw => main_leaf_in_range F hF multi world hm _ _ _ (htrans hw))
    (inUnitCube_blend_cast _ _ _
      (fun hw => main_leaf_in_range F hF multi world hm _ _ _ (hrefl hw))
      (local_color_regular F hF _ _ _ ((calculate_normal_regular F hF multi _ _).2 hg) hmat hp)
      hmat.1.1 hmat.1.2)
    hmat.2.1.1 hmat.2.1.2

theorem main_ray_in_range (F : MathFns α) (hF : IsSqrt F) (multi : α)
    (world : Nat → WorldObject α)
    (hm : ∀ i, i < Main.OBJECT_COUNT → MaterialInRange (world i)) (ro rd : Vec3 α)
    (hreg : Main.RegularRay F multi world ro rd) :
    InUnitCube (Main.ray_march F multi ro rd world) := by
  rw [Main.ray_march, main_ray_march_loop_eq]
  refine elim_in_range _ _ (fun h htr => ?_)
  have hs := march_trace_some _ _ ro rd _ _ _ htr
  have hlt : (Main.map_the_world F multi (ro + h.1 • rd) world).1
      < MINIMUM_HIT_DISTANCE := hs.1
  have hidx : h.2 = (Main.map_the_world F multi (ro + h.1 • rd) world).2 := hs.2
  obtain ⟨⟨ht, hg, hp⟩, hrefl, htrans⟩ := hreg h htr
  have hmat := main_hit_material F multi world hm _ hlt
  simp only [main_hit_color_eq]
  rw [← hidx] at hmat ⊢
  refine inUnitCube_muls _ _ ?_
    (fade_regular 20 h.1 (by norm_num) ht).1 (fade_regular 20 h.1 (by norm_num) ht).2
  exact inUnitCube_blend_cast _ _ _
    (fun hw => main_middle_in_range F hF multi world hm _ _ _ (htrans hw))
    (inUnitCube_blend_cast _ _ _
      (fun hw => main_middle_in_range F hF multi world hm _ _ _ (hrefl hw))
      (local_color_regular F hF _ _ _ ((calculate_normal_regular F hF multi _ _).2 hg) hmat hp)
      hmat.1.1 hmat.1.2)
    hmat.2.1.1 hmat.2.1.2

/-- The vector of central differences of the example floor. -/
theorem floor_gradient (F : MathFns α) (multi : α) (p : Vec3 α) (rho tau k : α) (c : Vec3 α) :
    MainNew.gradient F multi p (example_floor rho tau k c) = ⟨0, 1 / 500, 0⟩
    ∧ Main.gradient F multi p (example_floor rho tau k c) = ⟨0, 1 / 500, 0⟩ := by
  constructor
  · simp only [MainNew.gradient, fun q => (floor_distance F multi q rho tau k c).1]
    ext <;> simp
    ring
  · simp only [Main.gradient, fun q => (floor_distance F multi q rho tau k c).2]
    ext <;> simp
    ring

/-- A scene of one object seen with that object excluded is empty: no ray hits. -/
theorem mainNew_single_skip_trace (F : MathFns α) (multi : α) (objects : Nat → WorldObject α)
    (ro rd : Vec3 α) :
    march_trace (fun q => MainNew.map_the_world_skip F multi objects 1 q 0)
      MainNew.MAXIMUM_TRACE_DISTANCE ro rd NUMBER_OF_STEPS 0 = none := by
  refine march_trace_none _ _ _ _ (fun t _ => ?_) _ 0 (le_refl 0)
  have e : MainNew.map_the_world_skip F multi objects 1 (ro + t • rd) 0 = (100000, -1) := by
    rw [mainNew_map_the_world_skip_eq_scan, scan_succ, scan_zero]
    exact if_pos rfl
  rw [e]
  norm_num [MINIMUM_HIT_DISTANCE]

end RegularLemmas

section Range

variable {α : Type} [LinearOrderedField α]

/-- C19, as amended: output range.  For every scene whose active objects have
reflectivity, transparency and diffuse intensity in `[0, 1]` and a colour that is in
`[0, 1]^3` or the sentinel (`color.x == -2.0`), and every ray whose hit, and the hits of
the bounce rays cast from it, divide by no zero (the travelled distance is positive, the
central differences that `calculate_normal` normalises are not all zero, and the hit
position on an object without the sentinel colour is not the light position), every
component of the colour returned by `ray_march` lies in `[0, 1]`, the built-in `sqrt`
being the square root.  Both for `mainNew.js` (active objects: the indices below
`u_numObjects`) and for `main.js` (the indices below `OBJECT_COUNT`). -/
theorem output_range (F : MathFns α) (hF : IsSqrt F) (multi : α) :
    (∀ (objects : Nat → WorldObject α) (n : Nat),
        (∀ i, i < n → MaterialInRange (objects i)) →
        ∀ ro rd : Vec3 α, MainNew.RegularRay F multi objects n ro rd →
          InUnitCube (MainNew.ray_march F multi objects n ro rd))
    ∧ (∀ (world : Nat → WorldObject α),
        (∀ i, i < Main.OBJECT_COUNT → MaterialInRange (world i)) →
        ∀ ro rd : Vec3 α, Main.RegularRay F multi world ro rd →
          InUnitCube (Main.ray_march F multi ro rd world)) :=
  ⟨fun objects n hm ro rd hreg => mainNew_ray_in_range F hF multi objects n hm ro rd hreg,
    fun world hm ro rd hreg => main_ray_in_range F hF multi world hm ro rd hreg⟩

/-- A witness of C19 as amended: the ray straight down from `(0, 1, 0)` onto a floor of
colour `(1, 0.9, 0.9)` and diffuse intensity `0.6`: with reflectivity `0.5` and
transparency `0.25` as the one object of a `mainNew.js` scene (the bounce rays find the
scene empty), and with neither as every object of a `main.js` world.  The hit is at the
travelled distance `1`, at the origin, where the central differences are
`(0, 0.002, 0)`. -/
theorem output_range_witness :
    IsSqrt (MathFns.mk Real.sqrt Real.sin Real.cos)
    ∧ (∀ i, i < 1 → MaterialInRange ((fun _ => example_floor (1 / 2) (1 / 4) (6 / 10) ⟨1, 9 / 10, 9 / 10⟩ : Nat → WorldObject ℝ) i))
    ∧ MainNew.RegularRay (MathFns.mk Real.sqrt Real.sin Real.cos) 0 (fun _ => example_floor (1 / 2) (1 / 4) (6 / 10) ⟨1, 9 / 10, 9 / 10⟩ : Nat → WorldObject ℝ) 1 ⟨0, 1, 0⟩ ⟨0, -1, 0⟩
    ∧ InUnitCube (MainNew.ray_march (MathFns.mk Real.sqrt Real.sin Real.cos) 0 (fun _ => example_floor (1 / 2) (1 / 4) (6 / 10) ⟨1, 9 / 10, 9 / 10⟩ : Nat → WorldObject ℝ) 1 ⟨0, 1, 0⟩ ⟨0, -1, 0⟩)
    ∧ (∀ i, i < Main.OBJECT_COUNT → MaterialInRange ((fun _ => example_floor 0 0 (6 / 10) ⟨1, 9 / 10, 9 / 10⟩ : Nat → WorldObject ℝ) i))
    ∧ Main.RegularRay (MathFns.mk Real.sqrt Real.sin Real.cos) 0 (fun _ => example_floor 0 0 (6 / 10) ⟨1, 9 / 10, 9 / 10⟩ : Nat → WorldObject ℝ) ⟨0, 1, 0⟩ ⟨0, -1, 0⟩
    ∧ InUnitCube (Main.ray_march (MathFns.mk Real.sqrt Real.sin Real.cos) 0 ⟨0, 1, 0⟩ ⟨0, -1, 0⟩ (fun _ => example_floor 0 0 (6 / 10) ⟨1, 9 / 10, 9 / 10⟩ : Nat → WorldObject ℝ)) := by
  have hmN : ∀ i : Nat, MaterialInRange ((fun _ => example_floor (1 / 2) (1 / 4) (6 / 10) ⟨1, 9 / 10, 9 / 10⟩ : Nat → WorldObject ℝ) i) := by
    intro i
    refine ⟨⟨?_, ?_⟩, ⟨?_, ?_⟩, ⟨?_, ?_⟩, Or.inr ⟨⟨?_, ?_⟩, ⟨?_, ?_⟩, ⟨?_, ?_⟩⟩⟩ <;>
      norm_num [example_floor]
  have hmM : ∀ i : Nat, MaterialInRange ((fun _ => example_floor 0 0 (6 / 10) ⟨1, 9 / 10, 9 / 10⟩ : Nat → WorldObject ℝ) i) := by
    intro i
    refine ⟨⟨?_, ?_⟩, ⟨?_, ?_⟩, ⟨?_, ?_⟩, Or.inr ⟨⟨?_, ?_⟩, ⟨?_, ?_⟩, ⟨?_, ?_⟩⟩⟩ <;>
      norm_num [example_floor]
  have hne : ∀ t : ℝ, (⟨0, 1, 0⟩ : Vec3 ℝ) + t • ⟨0, -1, 0⟩ ≠ light_position := by
    intro t e
    have := congrArg Vec3.x e
    norm_num [light_position] at this
  have hg0 : (⟨0, 1 / 500, 0⟩ : Vec3 ℝ) ≠ ⟨0, 0, 0⟩ := by
    intro e
    have := congrArg Vec3.y e
    norm_num at this
  have hregN : MainNew.RegularRay (MathFns.mk Real.sqrt Real.sin Real.cos) 0 (fun _ => example_floor (1 / 2) (1 / 4) (6 / 10) ⟨1, 9 / 10, 9 / 10⟩ : Nat → WorldObject ℝ) 1 ⟨0, 1, 0⟩ ⟨0, -1, 0⟩ := by
    intro h htr
    rw [mainNew_drop_trace (MathFns.mk Real.sqrt Real.sin Real.cos) (0 : ℝ) _ _ _ _ 1 (by decide)] at htr
    cases htr
    refine ⟨⟨by norm_num, ?_, fun _ => hne _⟩, fun _ => ?_, fun _ => ?_⟩
    · rw [(floor_gradient (MathFns.mk Real.sqrt Real.sin Real.cos) (0 : ℝ) _ _ _ _ _).1]
      exact hg0
    · intro h2 htr2
      rw [mainNew_single_skip_trace] at htr2
      cases htr2
    · intro h2 htr2
      rw [mainNew_single_skip_trace] at htr2
      cases htr2
  have hregM : Main.RegularRay (MathFns.mk Real.sqrt Real.sin Real.cos) 0 (fun _ => example_floor 0 0 (6 / 10) ⟨1, 9 / 10, 9 / 10⟩ : Nat → WorldObject ℝ) ⟨0, 1, 0⟩ ⟨0, -1, 0⟩ := by
    intro h htr
    rw [main_drop_trace (MathFns.mk Real.sqrt Real.sin Real.cos) (0 : ℝ) _ _ _ _] at htr
    cases htr
    refine ⟨⟨by norm_num, ?_, fun _ => hne _⟩, fun hw => ?_, fun hw => ?_⟩
    · rw [(floor_gradient (MathFns.mk Real.sqrt Real.sin Real.cos) (0 : ℝ) _ _ _ _ _).2]
      exact hg0
    · exact absurd hw (by norm_num [example_floor])
    · exact absurd hw (by norm_num [example_floor])
  exact ⟨real_isSqrt, fun i _ => hmN i, hregN,
    (output_range (MathFns.mk Real.sqrt Real.sin Real.cos) real_isSqrt 0).1 _ 1 (fun i _ => hmN i) _ _ hregN,
    fun i _ => hmM i, hregM,
    (output_range (MathFns.mk Real.sqrt Real.sin Real.cos) real_isSqrt 0).2 _ (fun i _ => hmM i) _ _ hregM⟩

/-- C19 fails as stated: the unit sphere at the origin with the sentinel colour has a
material in range, and for the ray from its centre along `+z` the primary routine of
`mainNew.js` takes the hit branch at its first step, at the travelled distance `0` and at
the centre, where the six samples of the distance are equal and the central differences
are `(0, 0, 0)`.  The colour returned is `(normalize(vec3(0))*0.5 + 0.5) * min(1, 20/0)`:
it is made of the normalised zero vector, which GLSL leaves undefined (`0/0`), so it is no
colour in `[0, 1]^3`. -/
theorem output_range_counterexample :
    (∀ i, i < 1 → MaterialInRange ((fun _ => example_sentinel_sphere : Nat → WorldObject ℝ) i))
    ∧ march_trace (MainNew.map_the_world (MathFns.mk Real.sqrt Real.sin Real.cos) 0 (fun _ => example_sentinel_sphere : Nat → WorldObject ℝ) 1) MainNew.MAXIMUM_TRACE_DISTANCE
        ⟨0, 0, 0⟩ ⟨0, 0, 1⟩ NUMBER_OF_STEPS 0 = some (0, 0)
    ∧ MainNew.gradient (MathFns.mk Real.sqrt Real.sin Real.cos) 0 ((⟨0, 0, 0⟩ : Vec3 ℝ) + (0 : ℝ) • ⟨0, 0, 1⟩)
        ((fun _ => example_sentinel_sphere : Nat → WorldObject ℝ) (0 : Int).toNat) = ⟨0, 0, 0⟩
    ∧ MainNew.ray_march (MathFns.mk Real.sqrt Real.sin Real.cos) 0 (fun _ => example_sentinel_sphere : Nat → WorldObject ℝ) 1 ⟨0, 0, 0⟩ ⟨0, 0, 1⟩
      = (((normalize (MathFns.mk Real.sqrt Real.sin Real.cos) (⟨0, 0, 0⟩ : Vec3 ℝ)).muls (1 / 2)).adds (1 / 2)).muls
        (min 1 (20 / 0))
    ∧ ¬ MainNew.RegularRay (MathFns.mk Real.sqrt Real.sin Real.cos) 0 (fun _ => example_sentinel_sphere : Nat → WorldObject ℝ) 1 ⟨0, 0, 0⟩ ⟨0, 0, 1⟩ := by
  have hm : ∀ i, i < 1 → MaterialInRange ((fun _ => example_sentinel_sphere : Nat → WorldObject ℝ) i) := by
    intro i _
    refine ⟨⟨?_, ?_⟩, ⟨?_, ?_⟩, ⟨?_, ?_⟩, Or.inl ?_⟩ <;> norm_num [example_sentinel_sphere]
  have p0 : (⟨0, 0, 0⟩ : Vec3 ℝ) + (0 : ℝ) • ⟨0, 0, 1⟩ = ⟨0, 0, 0⟩ := by
    ext <;> norm_num
  have hagg : MainNew.map_the_world (MathFns.mk Real.sqrt Real.sin Real.cos) 0 (fun _ => example_sentinel_sphere : Nat → WorldObject ℝ) 1 ⟨0, 0, 0⟩ = (-1, 0) := by
    rw [sentinel_sphere_aggregate (MathFns.mk Real.sqrt Real.sin Real.cos) Real.sqrt_mul_self_eq_abs 0 1 (by decide) 0
      (by norm_num)]
    norm_num
  have htr : march_trace (MainNew.map_the_world (MathFns.mk Real.sqrt Real.sin Real.cos) 0 (fun _ => example_sentinel_sphere : Nat → WorldObject ℝ) 1) MainNew.MAXIMUM_TRACE_DISTANCE
      ⟨0, 0, 0⟩ ⟨0, 0, 1⟩ NUMBER_OF_STEPS 0 = some (0, 0) := by
    rw [show NUMBER_OF_STEPS = 255 + 1 from rfl, march_trace_succ, p0, hagg,
      if_pos (by norm_num [MINIMUM_HIT_DISTANCE])]
  have hg : MainNew.gradient (MathFns.mk Real.sqrt Real.sin Real.cos) 0 ((⟨0, 0, 0⟩ : Vec3 ℝ) + (0 : ℝ) • ⟨0, 0, 1⟩)
      ((fun _ => example_sentinel_sphere : Nat → WorldObject ℝ) (0 : Int).toNat) = ⟨0, 0, 0⟩ := by
    rw [p0]
    have hd : ∀ q : Vec3 ℝ, MainNew.map_the_object (MathFns.mk Real.sqrt Real.sin Real.cos) 0 q example_sentinel_sphere
        = Real.sqrt (q.x * q.x + q.y * q.y + q.z * q.z) - 1 := by
      intro q
      simp [MainNew.map_the_object, example_sentinel_sphere, distance_from_sphere, length, dot]
    ext <;> norm_num [MainNew.gradient, hd]
  have hτ : (example_sentinel_sphere : WorldObject ℝ).transparency = 0 := rfl
  have hρ : (example_sentinel_sphere : WorldObject ℝ).reflectivity = 0 := rfl
  refine ⟨hm, htr, hg, ?_, ?_⟩
  · rw [(mainNew_ray_march_of_trace (MathFns.mk Real.sqrt Real.sin Real.cos) 0 _ 1 _ _ _ htr).2, mainNew_hit_color_eq]
    simp only [hτ, hρ, bounce_blend, gt_iff_lt, lt_irrefl, if_false]
    rw [local_color_sentinel (MathFns.mk Real.sqrt Real.sin Real.cos) _ _ _ rfl, (calculate_normal_eq (MathFns.mk Real.sqrt Real.sin Real.cos) 0 _ _).1]
    simp only [p0, hagg]
    rw [p0] at hg
    have hg0 : MainNew.gradient (MathFns.mk Real.sqrt Real.sin Real.cos) 0 (⟨0, 0, 0⟩ : Vec3 ℝ)
        example_sentinel_sphere = ⟨0, 0, 0⟩ := hg
    rw [hg0]
  · intro hreg
    exact lt_irrefl (0 : ℝ) (hreg _ htr).1.1

end Range

end PoolOfEchos
